import Mathlib

/-!
# Task-Manager: monitoring / termination / efficiency engine

A shallow embedding of `src/src/systeminfo.cpp` (class `SystemInfo`) and of
`src/src/processcategorizer.cpp` (class `ProcessCategorizer`).

* The object's fields are the record `SystemInfo`; every method takes the record and
  returns the new one.
* Every Win32 call the code makes goes through `sys`, which asks an operating-system
  model `os` for the answer and appends the call together with its answer to a trace.
  Theorems quantified over `os` hold whatever the operating system answers.
* `qint64` values are `Int`, `DWORD` values are `Nat`, and the casts between them are
  explicit (`toDWORD`, `toInt32`).  A `double` is modelled by the rational it denotes.
* `killProcessTree` is recursive in the source; its embedding takes a recursion budget
  and returns `none` when the budget is exhausted.
* The 64-bit counters read from the operating system are `Nat`; the conversions to
  `qint64` and the `qint64` operations on them wrap (`toInt64`).
* A member of `ProcessInfo` that has no initialiser holds, in a freshly declared record,
  a value chosen by the environment (`Call.UninitializedProcessInfo`).
-/

namespace TaskManager

/-! ## Machine types -/

/-- A non-null `HANDLE`; a call that may return `NULL` returns an `Option Handle`. -/
abbrev Handle := Nat

/-- A `double`, modelled by the rational number it denotes (comparisons are exact). -/
abbrev Double := ℚ

/-- The cast `static_cast<DWORD>(x)` of a `qint64` or an `int`. -/
def toDWORD (x : Int) : Nat := (x % 4294967296).toNat

/-- The conversion of a `DWORD` to `int` (two's complement, 32 bits). -/
def toInt32 (d : Nat) : Int :=
  if d % 4294967296 < 2147483648 then ((d % 4294967296 : Nat) : Int)
  else ((d % 4294967296 : Nat) : Int) - 4294967296

/-! ## Windows SDK constants used by the source (values of `winnt.h` / `winbase.h`) -/

def PROCESS_TERMINATE : Nat := 0x0001
def PROCESS_CREATE_THREAD : Nat := 0x0002
def PROCESS_VM_OPERATION : Nat := 0x0008
def PROCESS_VM_READ : Nat := 0x0010
def PROCESS_VM_WRITE : Nat := 0x0020
def PROCESS_SET_QUOTA : Nat := 0x0100
def PROCESS_SET_INFORMATION : Nat := 0x0200
def PROCESS_QUERY_INFORMATION : Nat := 0x0400
def PROCESS_SUSPEND_RESUME : Nat := 0x0800
def SYNCHRONIZE : Nat := 0x00100000
def THREAD_TERMINATE : Nat := 0x0001
def THREAD_SUSPEND_RESUME : Nat := 0x0002
def THREAD_GET_CONTEXT : Nat := 0x0008
def THREAD_SET_CONTEXT : Nat := 0x0010
def STILL_ACTIVE : Nat := 259
def WAIT_OBJECT_0 : Nat := 0
def ERROR_SUCCESS : Nat := 0
def NORMAL_PRIORITY_CLASS : Nat := 0x00000020
def IDLE_PRIORITY_CLASS : Nat := 0x00000040
def HIGH_PRIORITY_CLASS : Nat := 0x00000080
def REALTIME_PRIORITY_CLASS : Nat := 0x00000100
def BELOW_NORMAL_PRIORITY_CLASS : Nat := 0x00004000
def ABOVE_NORMAL_PRIORITY_CLASS : Nat := 0x00008000

/-- The access mask of the first `OpenProcess` of `terminateProcess` and of
`forceTerminateProcess` (systeminfo.cpp 365-371, 508-514). -/
def FULL_TERMINATE_ACCESS : Nat :=
  PROCESS_TERMINATE ||| PROCESS_QUERY_INFORMATION ||| PROCESS_VM_READ |||
  PROCESS_VM_WRITE ||| PROCESS_VM_OPERATION ||| PROCESS_CREATE_THREAD |||
  PROCESS_SUSPEND_RESUME ||| SYNCHRONIZE

/-- The access mask of the `OpenProcess` of `killProcessTree` (systeminfo.cpp 619). -/
def TREE_KILL_ACCESS : Nat :=
  PROCESS_TERMINATE ||| PROCESS_QUERY_INFORMATION ||| SYNCHRONIZE

/-! ## The operating system as seen by the engine -/

/-- One entry of a thread snapshot (`THREADENTRY32`). -/
structure THREADENTRY32 where
  th32ThreadID : Nat
  th32OwnerProcessID : Nat
deriving DecidableEq, Repr

/-- One entry of a process snapshot (`PROCESSENTRY32W`). -/
structure PROCESSENTRY32W where
  th32ProcessID : Nat
  th32ParentProcessID : Nat
  szExeFile : String
deriving DecidableEq, Repr

/-- The enumeration `ProcessType` (processcategorizer.h 9-14). -/
inductive ProcessType where
  | System
  | Background
  | Application
  | Unknown
deriving DecidableEq, Repr

/-- The content of the members of a `ProcessInfo` that have no initialiser
(systeminfo.h 24-31: `cpuUsage`, `memoryUsage`, `diskUsage`, `networkUsage`,
`startTime`, `type`) at the declaration `ProcessInfo proc;`: indeterminate values. -/
structure Indeterminate where
  cpuUsage : Double
  memoryUsage : Int
  diskUsage : Double
  networkUsage : Double
  startTime : Int
  type : ProcessType
deriving DecidableEq, Repr

/-- The Win32 calls made by the embedded code, with their arguments.  A toolhelp
snapshot together with its `First`/`Next` walk and the closing of the snapshot handle
is one call returning the list of entries.  `CurrentMSecsSinceEpoch` is
`QDateTime::currentMSecsSinceEpoch`, and `UninitializedProcessInfo` is the reading of
the members of a freshly declared `ProcessInfo` that have no initialiser: what they
hold is decided by the environment. -/
inductive Call where
  | OpenProcessToken
  | LookupPrivilegeValue
  | AdjustTokenPrivileges (hToken : Handle)
  | GetLastError
  | OpenProcess (access : Nat) (pid : Nat)
  | CloseHandle (h : Handle)
  | GetProcessId (h : Handle)
  | SnapshotThreads
  | SnapshotProcesses
  | OpenThread (access : Nat) (tid : Nat)
  | SuspendThread (h : Handle)
  | TerminateThread (h : Handle) (code : Nat)
  | TerminateProcess (h : Handle) (exitCode : Nat)
  | WaitForSingleObject (h : Handle) (ms : Nat)
  | VirtualAllocEx (h : Handle) (size : Nat)
  | WriteProcessMemory (h : Handle) (addr : Nat) (bytes : List Nat)
  | CreateRemoteThread (h : Handle) (start : Nat)
  | VirtualFreeEx (h : Handle) (addr : Nat)
  | GetExitCodeProcess (h : Handle)
  | GetThreadContext (h : Handle)
  | SetThreadContext (h : Handle) (rsp : Nat)
  | GetPriorityClass (h : Handle)
  | SetPriorityClass (h : Handle) (priority : Nat)
  | SetProcessWorkingSetSize (h : Handle) (minWS : Nat) (maxWS : Nat)
  | GetSystemInfo
  | GetSystemTimes
  | GetProcessTimes (h : Handle)
  | GetModuleFileNameEx (h : Handle)
  | GetProcessMemoryInfo (h : Handle)
  | GetProcessIoCounters (h : Handle)
  | CurrentMSecsSinceEpoch
  | OpenSCManager
  | EnumServicesStatusEx (scm : Handle) (bufSize : Nat)
  | CloseServiceHandle (scm : Handle)
  | PdhOpenQuery
  | PdhAddCounter (query : Handle) (path : String)
  | PdhCloseQuery (query : Handle)
  | PdhCollectQueryData (query : Handle)
  | PdhGetFormattedCounterValue (counter : Handle)
  | GlobalMemoryStatusEx
  | GetDiskFreeSpaceEx (root : String)
  | UninitializedProcessInfo
deriving DecidableEq, Repr

/-- The type of the answer to each call: `none` is `NULL` / `INVALID_HANDLE_VALUE` /
a failed query, `false` is a zero `BOOL`.  `GetSystemInfo` answers
`dwNumberOfProcessors`; `GetSystemTimes` the idle, kernel and user times and
`GetProcessTimes` the creation, exit, kernel and user times, each a 64-bit `FILETIME`
value; `GetProcessMemoryInfo` answers `WorkingSetSize`; `GetProcessIoCounters` the
read and write transfer counts; `EnumServicesStatusEx` its `BOOL` result,
`bytesNeeded` and the process ids of the services returned; the PDH calls that return
a status answer `none` or a non-zero status on failure; `PdhGetFormattedCounterValue`
answers the status and `doubleValue`; `GlobalMemoryStatusEx` answers `dwMemoryLoad`;
`GetDiskFreeSpaceEx` the free bytes available, the total bytes and the total free
bytes. -/
@[reducible] def Call.Ret : Call → Type
  | .OpenProcessToken => Option Handle
  | .LookupPrivilegeValue => Bool
  | .AdjustTokenPrivileges _ => Bool
  | .GetLastError => Nat
  | .OpenProcess _ _ => Option Handle
  | .CloseHandle _ => Unit
  | .GetProcessId _ => Nat
  | .SnapshotThreads => Option (List THREADENTRY32)
  | .SnapshotProcesses => Option (List PROCESSENTRY32W)
  | .OpenThread _ _ => Option Handle
  | .SuspendThread _ => Unit
  | .TerminateThread _ _ => Unit
  | .TerminateProcess _ _ => Bool
  | .WaitForSingleObject _ _ => Nat
  | .VirtualAllocEx _ _ => Option Nat
  | .WriteProcessMemory _ _ _ => Bool
  | .CreateRemoteThread _ _ => Option Handle
  | .VirtualFreeEx _ _ => Unit
  | .GetExitCodeProcess _ => Option Nat
  | .GetThreadContext _ => Bool
  | .SetThreadContext _ _ => Unit
  | .GetPriorityClass _ => Nat
  | .SetPriorityClass _ _ => Bool
  | .SetProcessWorkingSetSize _ _ _ => Bool
  | .GetSystemInfo => Nat
  | .GetSystemTimes => Option (Nat × Nat × Nat)
  | .GetProcessTimes _ => Option (Nat × Nat × Nat × Nat)
  | .GetModuleFileNameEx _ => Option String
  | .GetProcessMemoryInfo _ => Option Nat
  | .GetProcessIoCounters _ => Option (Nat × Nat)
  | .CurrentMSecsSinceEpoch => Int
  | .OpenSCManager => Option Handle
  | .EnumServicesStatusEx _ _ => Bool × Nat × List Nat
  | .CloseServiceHandle _ => Unit
  | .PdhOpenQuery => Option Handle
  | .PdhAddCounter _ _ => Option Handle
  | .PdhCloseQuery _ => Unit
  | .PdhCollectQueryData _ => Nat
  | .PdhGetFormattedCounterValue _ => Nat × Double
  | .GlobalMemoryStatusEx => Nat
  | .GetDiskFreeSpaceEx _ => Option (Nat × Nat × Nat)
  | .UninitializedProcessInfo => Indeterminate

/-- Answers can be compared. -/
instance Call.Ret.instDecidableEq (c : Call) : DecidableEq c.Ret := by
  cases c <;> (unfold Call.Ret; infer_instance)

/-- A call together with the answer the operating system gave. -/
abbrev Event := (c : Call) × c.Ret

/-- An operating system: a state and, for every call, an answer and a next state. -/
abbrev OS (σ : Type) := (c : Call) → σ → c.Ret × σ

/-- The operating-system state together with the calls made so far, oldest first. -/
structure World (σ : Type) where
  os : σ
  trace : List Event

/-- Make one call: ask the operating system and record call and answer. -/
def sys {σ : Type} (os : OS σ) (c : Call) (w : World σ) : c.Ret × World σ :=
  ((os c w.os).1, { os := (os c w.os).2, trace := w.trace ++ [⟨c, (os c w.os).1⟩] })

/-! ## Data model (systeminfo.h, processcategorizer.h) -/

structure ProcessCpuTimes where
  lastSystemTime : Int := 0
  lastKernelTime : Int := 0
  lastUserTime : Int := 0
deriving DecidableEq, Repr

structure ProcessDiskIo where
  lastReadBytes : Nat := 0
  lastWriteBytes : Nat := 0
  lastUpdateTime : Int := 0
deriving DecidableEq, Repr

structure ProcessInfo where
  name : String
  pid : Int
  cpuUsage : Double
  memoryUsage : Int
  diskUsage : Double
  networkUsage : Double
  status : String
  path : String
  startTime : Int
  type : ProcessType
  typeDescription : String
  style : String
  cpuUsageHistory : List Double
  diskUsageHistory : List Double
  networkUsageHistory : List Double
  cpuUsageAvg : Double
  diskUsageAvg : Double
  networkUsageAvg : Double
deriving DecidableEq, Repr

/-- A `QMap<qint64, V>`: the entries in ascending key order, one per key. -/
abbrev QMap (V : Type) := List (Int × V)

/-- The member `QMap::contains`. -/
def QMap.contains {V : Type} (m : QMap V) (k : Int) : Bool :=
  m.any (fun e => e.1 == k)

/-- The assignment `m[k] = v`: replaces the value of `k` or inserts it in key order. -/
def QMap.insert {V : Type} : QMap V → Int → V → QMap V
  | [], k, v => [(k, v)]
  | e :: rest, k, v =>
    if k < e.1 then (k, v) :: e :: rest
    else if k = e.1 then (k, v) :: rest
    else e :: QMap.insert rest k v

/-- The member `QMap::remove`. -/
def QMap.remove {V : Type} (m : QMap V) (k : Int) : QMap V :=
  m.filter (fun e => e.1 != k)

/-- The member `QMap::value` as an option. -/
def QMap.value {V : Type} (m : QMap V) (k : Int) : Option V :=
  (m.find? (fun e => e.1 == k)).map Prod.snd

/-- The Qt signals of `SystemInfo`. -/
inductive Signal where
  | dataUpdated
  | efficiencyModeChanged (enabled : Bool)
deriving DecidableEq, Repr

/-- The fields of `SystemInfo` (systeminfo.h 88-114) that the embedded methods read or
write, the signals emitted so far (oldest first) and the number of queued
`updateSystemInfo` invocations. -/
structure SystemInfo where
  processList : List ProcessInfo := []
  processCpuTimesMap : QMap ProcessCpuTimes := []
  diskIoMap : QMap ProcessDiskIo := []
  numProcessors : Int := 1
  lastSystemTime : Int := 0
  cpuUsage : Double := 0
  memoryUsage : Double := 0
  diskUsage : Double := 0
  networkUsage : Double := 0
  /-- The static `g_hQuery` (systeminfo.cpp 11); `none` is `NULL`. -/
  g_hQuery : Option Handle := none
  /-- The static `g_hCounter` (systeminfo.cpp 12). -/
  g_hCounter : Option Handle := none
  networkQuery : Option Handle := none
  bytesReceivedCounter : Option Handle := none
  bytesSentCounter : Option Handle := none
  lastBytesReceived : Double := 0
  lastBytesSent : Double := 0
  lastNetworkUpdateTime : Int := 0
  efficiencyModeEnabled : Bool := false
  throttledProcesses : List Int := []
  originalPriorities : QMap Int := []
  emitted : List Signal := []
  queuedUpdates : Nat := 0
deriving DecidableEq, Repr

/-! ## Termination engine (systeminfo.cpp 244-634, 805-822) -/

section Engine

variable {σ : Type}

/-- `SystemInfo::enableDebugPrivilege` (systeminfo.cpp 244-267).  `GetLastError` is
only called when `AdjustTokenPrivileges` succeeded (short-circuit `&&`). -/
def enableDebugPrivilege (os : OS σ) (w : World σ) : Bool × World σ :=
  match sys os .OpenProcessToken w with
  | (none, w) => (false, w)
  | (some hToken, w) =>
    match sys os .LookupPrivilegeValue w with
    | (false, w) => (false, (sys os (.CloseHandle hToken) w).2)
    | (true, w) =>
      match (sys os (.AdjustTokenPrivileges hToken) w : Bool × World σ) with
      | (result, w) =>
        let w := (sys os (.CloseHandle hToken) w).2
        if result then
          match (sys os .GetLastError w : Nat × World σ) with
          | (err, w) => (err == ERROR_SUCCESS, w)
        else (false, w)

/-- `SystemInfo::getChildProcesses` (systeminfo.cpp 314-333): the pids of the snapshot
entries whose parent pid is `static_cast<DWORD>(parentPid)`, in snapshot order. -/
def getChildProcesses (os : OS σ) (parentPid : Int) (w : World σ) : List Int × World σ :=
  match sys os .SnapshotProcesses w with
  | (none, w) => ([], w)
  | (some entries, w) =>
    (entries.foldl
      (fun childPids pe32 =>
        if pe32.th32ParentProcessID = toDWORD parentPid
        then childPids ++ [(pe32.th32ProcessID : Int)] else childPids) [], w)

/-- The recurring pattern `if (TerminateProcess(h, code)) if (WaitForSingleObject(h, 1000)
== WAIT_OBJECT_0) terminated = true` (systeminfo.cpp 409-413, 446-449, 468-471, 534-537,
625-629): the value is whether the wait was reached and signalled. -/
def terminateAndWait (os : OS σ) (hProcess : Handle) (exitCode : Nat) (w : World σ) :
    Bool × World σ :=
  match sys os (.TerminateProcess hProcess exitCode) w with
  | (false, w) => (false, w)
  | (true, w) =>
    match (sys os (.WaitForSingleObject hProcess 1000) w : Nat × World σ) with
    | (r, w) => (r == WAIT_OBJECT_0, w)

/-- The thread walk of "Method 1" of `terminateProcess` (systeminfo.cpp 392-403): every
thread owned by `processId` that can be opened is suspended and terminated. -/
def suspendAndTerminateThreads (os : OS σ) (processId : Nat) :
    List THREADENTRY32 → World σ → World σ
  | [], w => w
  | te32 :: rest, w =>
    if te32.th32OwnerProcessID = processId then
      match sys os (.OpenThread (THREAD_SUSPEND_RESUME ||| THREAD_TERMINATE) te32.th32ThreadID) w with
      | (some hThread, w) =>
        let w := (sys os (.SuspendThread hThread) w).2
        let w := (sys os (.TerminateThread hThread 0) w).2
        let w := (sys os (.CloseHandle hThread) w).2
        suspendAndTerminateThreads os processId rest w
      | (none, w) => suspendAndTerminateThreads os processId rest w
    else suspendAndTerminateThreads os processId rest w

/-- "Method 1: Try to suspend all threads first" of `terminateProcess`
(systeminfo.cpp 385-405). -/
def suspendThreadsFirst (os : OS σ) (hProcess : Handle) (w : World σ) : World σ :=
  match (sys os (.GetProcessId hProcess) w : Nat × World σ) with
  | (processId, w) =>
    match sys os .SnapshotThreads w with
    | (none, w) => w
    | (some entries, w) => suspendAndTerminateThreads os processId entries w

/-- The exit codes tried by "Method 2" (systeminfo.cpp 408): `{1, 0, -1, 0xDEAD, 0xBEEF}`. -/
def exitCodes : List Int := [1, 0, -1, 0xDEAD, 0xBEEF]

/-- "Method 2: Try to terminate the process with different exit codes"
(systeminfo.cpp 407-415): the loop with its `break`; the value is `terminated`. -/
def terminateWithExitCodes (os : OS σ) (hProcess : Handle) :
    List Int → World σ → Bool × World σ
  | [], w => (false, w)
  | exitCode :: rest, w =>
    match terminateAndWait os hProcess (toDWORD exitCode) w with
    | (true, w) => (true, w)
    | (false, w) => terminateWithExitCodes os hProcess rest w

/-- The fault injection of "Method 3" of `terminateProcess` and "Method 2" of
`forceTerminateProcess` (systeminfo.cpp 419-434, 545-557), run when `terminated` is
still false: allocate, write `int 3`, start a remote thread on it.  The value is the
new `terminated`: true as soon as the remote thread was created. -/
def injectCrash (os : OS σ) (hProcess : Handle) (w : World σ) : Bool × World σ :=
  match sys os (.VirtualAllocEx hProcess 1024) w with
  | (none, w) => (false, w)
  | (some remoteMem, w) =>
    match sys os (.WriteProcessMemory hProcess remoteMem [0xCC]) w with
    | (false, w) => (false, (sys os (.VirtualFreeEx hProcess remoteMem) w).2)
    | (true, w) =>
      match sys os (.CreateRemoteThread hProcess remoteMem) w with
      | (none, w) => (false, (sys os (.VirtualFreeEx hProcess remoteMem) w).2)
      | (some hThread, w) =>
        let w := (sys os (.WaitForSingleObject hThread 1000) w).2
        let w := (sys os (.CloseHandle hThread) w).2
        (true, (sys os (.VirtualFreeEx hProcess remoteMem) w).2)

/-- The module base addresses of the memory-corruption fallback (systeminfo.cpp 457-463,
523-529). -/
def baseAddresses : List Nat := [0x400000, 0x1000000, 0x2000000, 0x140000000, 0x180000000]

/-- The bytes of the string `"CRASH"` written by the memory-corruption fallback. -/
def crashBytes : List Nat := [67, 82, 65, 83, 72]

/-- The memory-corruption loop of "Method 5" of `terminateProcess` and "Method 1" of
`forceTerminateProcess` (systeminfo.cpp 465-475, 531-541), with its `break`. -/
def corruptMemory (os : OS σ) (hProcess : Handle) : List Nat → World σ → Bool × World σ
  | [], w => (false, w)
  | baseAddr :: rest, w =>
    match sys os (.WriteProcessMemory hProcess baseAddr crashBytes) w with
    | (false, w) => corruptMemory os hProcess rest w
    | (true, w) =>
      match terminateAndWait os hProcess 1 w with
      | (true, w) => (true, w)
      | (false, w) => corruptMemory os hProcess rest w

/-- `SystemInfo::killProcessTree` (systeminfo.cpp 608-634).  The source function calls
itself on every child; `fuel` bounds the depth of that recursion and `none` means the
bound was reached.  The results of the calls on the children are discarded. -/
def killProcessTree (os : OS σ) : Nat → Int → World σ → Option (Bool × World σ)
  | 0, _, _ => none
  | fuel + 1, pid, w =>
    match getChildProcesses os pid w with
    | (childPids, w) =>
      match childPids.foldlM
          (fun (w : World σ) (childPid : Int) =>
            (killProcessTree os fuel childPid w).map Prod.snd) w with
      | none => none
      | some w =>
        match sys os (.OpenProcess TREE_KILL_ACCESS (toDWORD pid)) w with
        | (none, w) => some (false, w)
        | (some hProcess, w) =>
          match terminateAndWait os hProcess 1 w with
          | (terminated, w) => some (terminated, (sys os (.CloseHandle hProcess) w).2)

/-- "Method 4: If still not terminated, try to kill the process tree" of
`terminateProcess` (systeminfo.cpp 437-453), run when `terminated` is false.  The value
is the new `terminated` and the new content of the variable `hProcess`: the handle
closed at line 439 is kept in the variable when `killProcessTree` succeeds and is
replaced by the result of the fresh `OpenProcess` otherwise. -/
def killTreeOrRetry (os : OS σ) (fuel : Nat) (pid : Int) (hProcess : Handle)
    (w : World σ) : Option (Bool × Option Handle × World σ) :=
  match killProcessTree os fuel pid (sys os (.CloseHandle hProcess) w).2 with
  | none => none
  | some (true, w) => some (true, some hProcess, w)
  | some (false, w) =>
    match sys os (.OpenProcess PROCESS_TERMINATE (toDWORD pid)) w with
    | (none, w) => some (false, none, w)
    | (some hFresh, w) =>
      match terminateAndWait os hFresh 1 w with
      | (terminated, w) => some (terminated, some hFresh, w)

/-- The "Final verification" of `terminateProcess` and of `forceTerminateProcess`
(systeminfo.cpp 485-498, 591-602), run when `terminated` is true: the pid is re-opened
for query; the value is true when the open fails or the exit code is read and is not
`STILL_ACTIVE`. -/
def finalVerification (os : OS σ) (pid : Int) (w : World σ) : Bool × World σ :=
  match sys os (.OpenProcess PROCESS_QUERY_INFORMATION (toDWORD pid)) w with
  | (none, w) => (true, w)
  | (some verifyHandle, w) =>
    match sys os (.GetExitCodeProcess verifyHandle) w with
    | (some exitCode, w) =>
      if exitCode ≠ STILL_ACTIVE then (true, (sys os (.CloseHandle verifyHandle) w).2)
      else (false, (sys os (.CloseHandle verifyHandle) w).2)
    | (none, w) => (false, (sys os (.CloseHandle verifyHandle) w).2)

/-- The loop of `removeProcessFromList` over `processList` (systeminfo.cpp 808-813): the
first record with the pid is removed. -/
def removeFirstWithPid : List ProcessInfo → Int → List ProcessInfo
  | [], _ => []
  | p :: rest, pid => if p.pid = pid then rest else p :: removeFirstWithPid rest pid

/-- `SystemInfo::removeProcessFromList` (systeminfo.cpp 805-822). -/
def removeProcessFromList (s : SystemInfo) (pid : Int) : SystemInfo :=
  { s with
    processList := removeFirstWithPid s.processList pid
    processCpuTimesMap := s.processCpuTimesMap.remove pid
    originalPriorities := s.originalPriorities.remove pid
    throttledProcesses := s.throttledProcesses.filter (fun p => p != pid)
    queuedUpdates := s.queuedUpdates + 1 }

/-- The thread walk of "Method 3" of `forceTerminateProcess` (systeminfo.cpp 568-582):
the stack pointer of every thread of the process whose context can be read is set
to 0.  `GetProcessId` is called once per snapshot entry. -/
def corruptThreadStacks (os : OS σ) (hProcess : Handle) :
    List THREADENTRY32 → World σ → World σ
  | [], w => w
  | te32 :: rest, w =>
    match (sys os (.GetProcessId hProcess) w : Nat × World σ) with
    | (processId, w) =>
      if te32.th32OwnerProcessID = processId then
        match sys os (.OpenThread (THREAD_GET_CONTEXT ||| THREAD_SET_CONTEXT) te32.th32ThreadID) w with
        | (some hThread, w) =>
          match sys os (.GetThreadContext hThread) w with
          | (true, w) =>
            let w := (sys os (.SetThreadContext hThread 0) w).2
            corruptThreadStacks os hProcess rest (sys os (.CloseHandle hThread) w).2
          | (false, w) =>
            corruptThreadStacks os hProcess rest (sys os (.CloseHandle hThread) w).2
        | (none, w) => corruptThreadStacks os hProcess rest w
      else corruptThreadStacks os hProcess rest w

/-- "Method 3" of `forceTerminateProcess` (systeminfo.cpp 561-585). -/
def corruptStack (os : OS σ) (hProcess : Handle) (w : World σ) : World σ :=
  match sys os .SnapshotThreads w with
  | (none, w) => w
  | (some entries, w) => corruptThreadStacks os hProcess entries w

/-- The three methods of `forceTerminateProcess` on an open handle
(systeminfo.cpp 520-585); the value is `terminated`. -/
def forceMethods (os : OS σ) (hProcess : Handle) (w : World σ) : Bool × World σ :=
  match corruptMemory os hProcess baseAddresses w with
  | (true, w) => (true, w)
  | (false, w) =>
    match injectCrash os hProcess w with
    | (true, w) => (true, w)
    | (false, w) => (false, corruptStack os hProcess w)

/-- `SystemInfo::forceTerminateProcess` (systeminfo.cpp 505-606). -/
def forceTerminateProcess (os : OS σ) (pid : Int) (s : SystemInfo) (w : World σ) :
    Bool × SystemInfo × World σ :=
  match sys os (.OpenProcess FULL_TERMINATE_ACCESS (toDWORD pid)) w with
  | (none, w) => (false, s, w)
  | (some hProcess, w) =>
    match forceMethods os hProcess w with
    | (terminated, w) =>
      let w := (sys os (.CloseHandle hProcess) w).2
      if terminated then
        match finalVerification os pid w with
        | (true, w) => (true, removeProcessFromList s pid, w)
        | (false, w) => (false, s, w)
      else (false, s, w)

/-- The two `OpenProcess` attempts at the start of `terminateProcess`
(systeminfo.cpp 365-380). -/
def openForTermination (os : OS σ) (pid : Int) (w : World σ) : Option Handle × World σ :=
  match sys os (.OpenProcess FULL_TERMINATE_ACCESS (toDWORD pid)) w with
  | (some hProcess, w) => (some hProcess, w)
  | (none, w) => sys os (.OpenProcess PROCESS_TERMINATE (toDWORD pid)) w

/-- Methods 1 to 5 of `terminateProcess` on the opened handle, up to and including the
closing of the handle (systeminfo.cpp 382-480); the value is `terminated`. -/
def escalate (os : OS σ) (fuel : Nat) (pid : Int) (hProcess : Handle) (w : World σ) :
    Option (Bool × World σ) :=
  match terminateWithExitCodes os hProcess exitCodes (suspendThreadsFirst os hProcess w) with
  | (true, w) => some (true, (sys os (.CloseHandle hProcess) w).2)
  | (false, w) =>
    match injectCrash os hProcess w with
    | (true, w) => some (true, (sys os (.CloseHandle hProcess) w).2)
    | (false, w) =>
      match killTreeOrRetry os fuel pid hProcess w with
      | none => none
      | some (true, some h, w) => some (true, (sys os (.CloseHandle h) w).2)
      | some (true, none, w) => some (true, w)
      | some (false, none, w) => some (false, w)
      | some (false, some h, w) =>
        match corruptMemory os h baseAddresses w with
        | (terminated, w) => some (terminated, (sys os (.CloseHandle h) w).2)

/-- `SystemInfo::terminateProcess` (systeminfo.cpp 356-503).  The value is `none` when
the recursion of `killProcessTree` exceeds `fuel`.  The `GetLastError` of the failure
branch is the one printed by the warning at line 377. -/
def terminateProcess (os : OS σ) (fuel : Nat) (pid : Int) (s : SystemInfo) (w : World σ) :
    Option (Bool × SystemInfo × World σ) :=
  match openForTermination os pid (enableDebugPrivilege os w).2 with
  | (none, w) => some (false, s, (sys os .GetLastError w).2)
  | (some hProcess, w) =>
    match escalate os fuel pid hProcess w with
    | none => none
    | some (false, w) => some (forceTerminateProcess os pid s w)
    | some (true, w) =>
      match finalVerification os pid w with
      | (true, w) => some (true, removeProcessFromList s pid, w)
      | (false, w) => some (forceTerminateProcess os pid s w)

end Engine

/-! ## Efficiency controller (systeminfo.cpp 657-803) -/

section Efficiency

variable {σ : Type}

/-- `SystemInfo::getHighResourceProcesses` (systeminfo.cpp 727-736): the loop appending
to `highResourceProcesses`. -/
def getHighResourceProcesses (s : SystemInfo) : List ProcessInfo :=
  s.processList.foldl
    (fun highResourceProcesses proc =>
      if proc.cpuUsage > 10 ∨ proc.memoryUsage > 200 * 1024
      then highResourceProcesses ++ [proc] else highResourceProcesses) []

/-- The list `essentialProcesses` of `isProcessEssential` (systeminfo.cpp 783-787). -/
def essentialProcesses : List String :=
  ["System", "Registry", "smss.exe", "csrss.exe", "wininit.exe",
   "services.exe", "lsass.exe", "svchost.exe", "explorer.exe",
   "Taskmgr.exe", "ProcManager.exe"]

/-- The comparison of two strings under `Qt::CaseInsensitive`, modelled by comparing
the lower-cased characters. -/
def equalsCaseInsensitive (a b : String) : Bool :=
  a.data.map Char.toLower == b.data.map Char.toLower

/-- `SystemInfo::isProcessEssential` (systeminfo.cpp 780-791). -/
def isProcessEssential (process : ProcessInfo) : Bool :=
  process.type == ProcessType.System ||
    essentialProcesses.any (fun e => equalsCaseInsensitive e process.name)

/-- `SystemInfo::getProcessPriorityClass` (systeminfo.cpp 793-803); the `DWORD` answer
is converted to the `int` return type. -/
def getProcessPriorityClass (os : OS σ) (pid : Int) (w : World σ) : Int × World σ :=
  match sys os (.OpenProcess PROCESS_QUERY_INFORMATION (toDWORD pid)) w with
  | (none, w) => (toInt32 NORMAL_PRIORITY_CLASS, w)
  | (some hProcess, w) =>
    match (sys os (.GetPriorityClass hProcess) w : Nat × World σ) with
    | (priority, w) =>
      (if priority ≠ 0 then toInt32 priority else toInt32 NORMAL_PRIORITY_CLASS,
        (sys os (.CloseHandle hProcess) w).2)

/-- `SystemInfo::setProcessPriority` (systeminfo.cpp 657-667). -/
def setProcessPriority (os : OS σ) (pid : Int) (priority : Int) (w : World σ) :
    Bool × World σ :=
  match sys os (.OpenProcess PROCESS_SET_INFORMATION (toDWORD pid)) w with
  | (none, w) => (false, w)
  | (some hProcess, w) =>
    match (sys os (.SetPriorityClass hProcess (toDWORD priority)) w : Bool × World σ) with
    | (success, w) => (success, (sys os (.CloseHandle hProcess) w).2)

/-- The statement `if (!originalPriorities.contains(pid)) originalPriorities[pid] =
getProcessPriorityClass(pid);` (systeminfo.cpp 675-677, 713-715, 748-750). -/
def storeOriginalPriority (os : OS σ) (pid : Int) (s : SystemInfo) (w : World σ) :
    SystemInfo × World σ :=
  if s.originalPriorities.contains pid then (s, w)
  else
    match getProcessPriorityClass os pid w with
    | (priority, w) =>
      ({ s with originalPriorities := s.originalPriorities.insert pid priority }, w)

/-- The loop of `optimizeBackgroundProcesses` (systeminfo.cpp 672-683) over the records
still to visit; `success` is the local variable of that name. -/
def optimizeBackgroundLoop (os : OS σ) :
    List ProcessInfo → Bool → SystemInfo → World σ → Bool × SystemInfo × World σ
  | [], success, s, w => (success, s, w)
  | proc :: rest, success, s, w =>
    if proc.type = ProcessType.Background ∧ isProcessEssential proc = false then
      match storeOriginalPriority os proc.pid s w with
      | (s, w) =>
        match setProcessPriority os proc.pid (BELOW_NORMAL_PRIORITY_CLASS : Nat) w with
        | (true, w) => optimizeBackgroundLoop os rest success s w
        | (false, w) => optimizeBackgroundLoop os rest false s w
    else optimizeBackgroundLoop os rest success s w

/-- `SystemInfo::optimizeBackgroundProcesses` (systeminfo.cpp 669-685). -/
def optimizeBackgroundProcesses (os : OS σ) (s : SystemInfo) (w : World σ) :
    Bool × SystemInfo × World σ :=
  optimizeBackgroundLoop os s.processList true s w

/-- The loop of `optimizeMemoryUsage` (systeminfo.cpp 690-703). -/
def optimizeMemoryLoop (os : OS σ) : List ProcessInfo → Bool → World σ → Bool × World σ
  | [], success, w => (success, w)
  | proc :: rest, success, w =>
    if isProcessEssential proc = false ∧ proc.memoryUsage > 100 * 1024 then
      match sys os (.OpenProcess (PROCESS_SET_QUOTA ||| PROCESS_TERMINATE) (toDWORD proc.pid)) w with
      | (none, w) => optimizeMemoryLoop os rest success w
      | (some hProcess, w) =>
        match (sys os (.SetProcessWorkingSetSize hProcess (1024 * 1024) (50 * 1024 * 1024)) w :
            Bool × World σ) with
        | (true, w) => optimizeMemoryLoop os rest success (sys os (.CloseHandle hProcess) w).2
        | (false, w) => optimizeMemoryLoop os rest false (sys os (.CloseHandle hProcess) w).2
    else optimizeMemoryLoop os rest success w

/-- `SystemInfo::optimizeMemoryUsage` (systeminfo.cpp 687-705). -/
def optimizeMemoryUsage (os : OS σ) (s : SystemInfo) (w : World σ) : Bool × World σ :=
  optimizeMemoryLoop os s.processList true w

/-- The loop of `throttleNonEssentialProcesses` (systeminfo.cpp 710-723). -/
def throttleLoop (os : OS σ) :
    List ProcessInfo → Bool → SystemInfo → World σ → Bool × SystemInfo × World σ
  | [], success, s, w => (success, s, w)
  | proc :: rest, success, s, w =>
    if isProcessEssential proc = false ∧ proc.cpuUsage > 5 then
      match storeOriginalPriority os proc.pid s w with
      | (s, w) =>
        match setProcessPriority os proc.pid (BELOW_NORMAL_PRIORITY_CLASS : Nat) w with
        | (false, w) => throttleLoop os rest false s w
        | (true, w) =>
          throttleLoop os rest success
            { s with throttledProcesses := s.throttledProcesses ++ [proc.pid] } w
    else throttleLoop os rest success s w

/-- `SystemInfo::throttleNonEssentialProcesses` (systeminfo.cpp 707-725). -/
def throttleNonEssentialProcesses (os : OS σ) (s : SystemInfo) (w : World σ) :
    Bool × SystemInfo × World σ :=
  throttleLoop os s.processList true s w

/-- `SystemInfo::applyEfficiencyModeSettings` (systeminfo.cpp 759-764). -/
def applyEfficiencyModeSettings (os : OS σ) (s : SystemInfo) (w : World σ) :
    SystemInfo × World σ :=
  match optimizeBackgroundProcesses os s w with
  | (_, s, w) =>
    match optimizeMemoryUsage os s w with
    | (_, w) => (throttleNonEssentialProcesses os s w).2

/-- The loop of `restoreOriginalPriorities` over the entries of `originalPriorities`
(systeminfo.cpp 774-776), in key order. -/
def restoreLoop (os : OS σ) : List (Int × Int) → World σ → World σ
  | [], w => w
  | it :: rest, w => restoreLoop os rest (setProcessPriority os it.1 it.2 w).2

/-- `SystemInfo::restoreOriginalPriorities` (systeminfo.cpp 772-778). -/
def restoreOriginalPriorities (os : OS σ) (s : SystemInfo) (w : World σ) :
    SystemInfo × World σ :=
  ({ s with originalPriorities := [] }, restoreLoop os s.originalPriorities w)

/-- `SystemInfo::removeEfficiencyModeSettings` (systeminfo.cpp 766-770). -/
def removeEfficiencyModeSettings (os : OS σ) (s : SystemInfo) (w : World σ) :
    SystemInfo × World σ :=
  match restoreOriginalPriorities os s w with
  | (s, w) => ({ s with throttledProcesses := [] }, w)

/-- The loop of `setEfficiencyMode` storing the original priorities
(systeminfo.cpp 747-751). -/
def storeOriginalPriorities (os : OS σ) : List ProcessInfo → SystemInfo → World σ →
    SystemInfo × World σ
  | [], s, w => (s, w)
  | proc :: rest, s, w =>
    match storeOriginalPriority os proc.pid s w with
    | (s, w) => storeOriginalPriorities os rest s w

/-- `SystemInfo::setEfficiencyMode` (systeminfo.cpp 738-757). -/
def setEfficiencyMode (os : OS σ) (enabled : Bool) (s : SystemInfo) (w : World σ) :
    SystemInfo × World σ :=
  if s.efficiencyModeEnabled = enabled then (s, w)
  else
    match (if enabled then
        (match storeOriginalPriorities os s.processList
            { s with efficiencyModeEnabled := enabled } w with
          | (s, w) => applyEfficiencyModeSettings os s w)
      else removeEfficiencyModeSettings os { s with efficiencyModeEnabled := enabled } w) with
    | (s, w) => ({ s with emitted := s.emitted ++ [Signal.efficiencyModeChanged enabled] }, w)

/-- `SystemInfo::isEfficiencyModeEnabled` (systeminfo.h 77). -/
def isEfficiencyModeEnabled (s : SystemInfo) : Bool := s.efficiencyModeEnabled

/-- `SystemInfo::getProcessList` (systeminfo.cpp 68-70). -/
def getProcessList (s : SystemInfo) : List ProcessInfo := s.processList

end Efficiency

/-! ## Process categorizer (processcategorizer.cpp) -/

section Categorizer

variable {σ : Type}

/-- The struct `ProcessCategory` (processcategorizer.h 16-20). -/
structure ProcessCategory where
  type : ProcessType
  description : String
  style : String
deriving DecidableEq, Repr

/-- The map `typeDescriptions` as filled by the constructor
(processcategorizer.cpp 17-20). -/
def typeDescriptions : ProcessType → String
  | .System => "System Process"
  | .Background => "Background Service"
  | .Application => "Application"
  | .Unknown => "Unknown Process"

/-- The map `typeStyles` as filled by the constructor (processcategorizer.cpp 23-45). -/
def typeStyles : ProcessType → String
  | .System =>
    "\n        background-color: #2d2d2d;\n        border-left: 4px solid #d32f2f;\n        color: #ff6b6b;\n    "
  | .Background =>
    "\n        background-color: #2d2d2d;\n        border-left: 4px solid #1976d2;\n        color: #64b5f6;\n    "
  | .Application =>
    "\n        background-color: #2d2d2d;\n        border-left: 4px solid #388e3c;\n        color: #81c784;\n    "
  | .Unknown =>
    "\n        background-color: #2d2d2d;\n        border-left: 4px solid #757575;\n        color: #bdbdbd;\n    "

/-- The map `knownProcesses` as filled by `initializeSystemProcesses`
(processcategorizer.cpp 50-72). -/
def knownProcesses : List (String × ProcessType) :=
  [("System", .System), ("System Idle Process", .System), ("smss.exe", .System),
   ("csrss.exe", .System), ("wininit.exe", .System), ("services.exe", .System),
   ("lsass.exe", .System), ("winlogon.exe", .System), ("explorer.exe", .System),
   ("svchost.exe", .System), ("spoolsv.exe", .System), ("taskmgr.exe", .System),
   ("dwm.exe", .System), ("fontdrvhost.exe", .System), ("RuntimeBroker.exe", .System),
   ("SearchHost.exe", .System), ("ShellExperienceHost.exe", .System),
   ("StartMenuExperienceHost.exe", .System), ("TextInputHost.exe", .System),
   ("WmiPrvSE.exe", .System)]

/-- The member `QString::contains` (case sensitive), on the characters. -/
def containsString (s sub : String) : Bool :=
  s.data.tails.any (fun t => sub.data.isPrefixOf t)

/-- The member `QString::toLower`, modelled on the ASCII letters. -/
def toLower (s : String) : String := ⟨s.data.map Char.toLower⟩

/-- `ProcessCategorizer::isSystemProcess` (processcategorizer.cpp 74-100). -/
def isSystemProcess (os : OS σ) (name : String) (pid : Nat) (w : World σ) : Bool × World σ :=
  if knownProcesses.any (fun e => e.1 == name && e.2 == ProcessType.System) then (true, w)
  else
    match sys os (.OpenProcess (PROCESS_QUERY_INFORMATION ||| PROCESS_VM_READ) pid) w with
    | (none, w) => (false, w)
    | (some hProcess, w) =>
      match sys os (.GetModuleFileNameEx hProcess) w with
      | (some path, w) =>
        if containsString (toLower path) "\\windows\\system32\\" ||
            containsString (toLower path) "\\windows\\syswow64\\" ||
            containsString (toLower path) "\\program files\\" ||
            containsString (toLower path) "\\program files (x86)\\"
        then (true, (sys os (.CloseHandle hProcess) w).2)
        else (false, (sys os (.CloseHandle hProcess) w).2)
      | (none, w) => (false, (sys os (.CloseHandle hProcess) w).2)

/-- `ProcessCategorizer::isBackgroundService` (processcategorizer.cpp 102-139).  The
first `EnumServicesStatusExW` call has no buffer and is made for `bytesNeeded`; the
second one fills a buffer of that size. -/
def isBackgroundService (os : OS σ) (pid : Nat) (w : World σ) : Bool × World σ :=
  match sys os (.OpenProcess PROCESS_QUERY_INFORMATION pid) w with
  | (none, w) => (false, w)
  | (some hProcess, w) =>
    match sys os .OpenSCManager w with
    | (none, w) => (false, (sys os (.CloseHandle hProcess) w).2)
    | (some scm, w) =>
      match (sys os (.EnumServicesStatusEx scm 0) w : (Bool × Nat × List Nat) × World σ) with
      | ((_, bytesNeeded, _), w) =>
        if bytesNeeded > 0 then
          match (sys os (.EnumServicesStatusEx scm bytesNeeded) w :
              (Bool × Nat × List Nat) × World σ) with
          | ((true, _, services), w) =>
            if services.any (fun dwProcessId => dwProcessId == pid) then
              (true, (sys os (.CloseHandle hProcess) (sys os (.CloseServiceHandle scm) w).2).2)
            else (false, (sys os (.CloseHandle hProcess) (sys os (.CloseServiceHandle scm) w).2).2)
          | ((false, _, _), w) =>
            (false, (sys os (.CloseHandle hProcess) (sys os (.CloseServiceHandle scm) w).2).2)
        else (false, (sys os (.CloseHandle hProcess) (sys os (.CloseServiceHandle scm) w).2).2)

/-- `ProcessCategorizer::categorizeProcess` (processcategorizer.cpp 141-157). -/
def categorizeProcess (os : OS σ) (name : String) (pid : Nat) (w : World σ) :
    ProcessCategory × World σ :=
  match isSystemProcess os name pid w with
  | (true, w) =>
    ({ type := .System, description := typeDescriptions .System, style := typeStyles .System }, w)
  | (false, w) =>
    match isBackgroundService os pid w with
    | (true, w) =>
      ({ type := .Background, description := typeDescriptions .Background,
         style := typeStyles .Background }, w)
    | (false, w) =>
      ({ type := .Application, description := typeDescriptions .Application,
         style := typeStyles .Application }, w)

/-- `ProcessCategorizer::getProcessStyle` (processcategorizer.cpp 159-162): every type
has an entry in `typeStyles`, so the default of `value` is never used. -/
def getProcessStyle (type : ProcessType) : String := typeStyles type

/-- `ProcessCategorizer::getProcessDescription` (processcategorizer.cpp 164-167). -/
def getProcessDescription (type : ProcessType) : String := typeDescriptions type

end Categorizer

/-! ## Metrics calculator and process enumerator (systeminfo.cpp 14-242, 643-655, 824-969) -/

section Metrics

variable {σ : Type}

/-- The conversion of a 64-bit unsigned value to `qint64`, and the value of a `qint64`
operation whose mathematical result is `x` (two's complement: overflow wraps). -/
def toInt64 (x : Int) : Int :=
  (x + 9223372036854775808) % 18446744073709551616 - 9223372036854775808

/-- The conversion to `ULONGLONG`. -/
def toUInt64 (x : Int) : Nat := (x % 18446744073709551616).toNat

/-- The statements `history.append(v); if (history.size() > 5) history.removeFirst();`
(systeminfo.cpp 135-136, 182-183, 899-900). -/
def appendTrimmed (history : List Double) (v : Double) : List Double :=
  if (history ++ [v]).length > 5 then (history ++ [v]).tail else history ++ [v]

/-- The statements `if (history.size() > 5) history.removeFirst(); history.append(v);`
(systeminfo.cpp 921-922): here the size is tested before the append. -/
def trimmedAppend (history : List Double) (v : Double) : List Double :=
  (if history.length > 5 then history.tail else history) ++ [v]

/-- The loop `for (double v : history) sum += v;` followed by `sum / history.size()`
(systeminfo.cpp 137-139, 184-186, 901-903, 923-925). -/
def average (history : List Double) : Double :=
  history.foldl (fun sum v => sum + v) 0 / (history.length : ℚ)

/-- The declaration `ProcessInfo proc;` followed by the assignment of `pid` and `name`
(systeminfo.cpp 840-842): the members without an initialiser hold what the environment
left there, the strings and vectors are empty and the averages are 0. -/
def declareProcessInfo (junk : Indeterminate) (pe32 : PROCESSENTRY32W) : ProcessInfo :=
  { name := pe32.szExeFile, pid := pe32.th32ProcessID, cpuUsage := junk.cpuUsage,
    memoryUsage := junk.memoryUsage, diskUsage := junk.diskUsage,
    networkUsage := junk.networkUsage, status := "", path := "",
    startTime := junk.startTime, type := junk.type, typeDescription := "", style := "",
    cpuUsageHistory := [], diskUsageHistory := [], networkUsageHistory := [],
    cpuUsageAvg := 0, diskUsageAvg := 0, networkUsageAvg := 0 }

/-- "Get process path" of `updateProcessList` (systeminfo.cpp 847-851). -/
def queryPath (os : OS σ) (hProcess : Handle) (proc : ProcessInfo) (w : World σ) :
    ProcessInfo × World σ :=
  match sys os (.GetModuleFileNameEx hProcess) w with
  | (some path, w) => ({ proc with path := path }, w)
  | (none, w) => (proc, w)

/-- "Get process memory usage" of `updateProcessList` (systeminfo.cpp 853-857). -/
def queryMemoryUsage (os : OS σ) (hProcess : Handle) (proc : ProcessInfo) (w : World σ) :
    ProcessInfo × World σ :=
  match sys os (.GetProcessMemoryInfo hProcess) w with
  | (some workingSetSize, w) =>
    ({ proc with memoryUsage := toInt64 ((workingSetSize / 1024 : Nat) : Int) }, w)
  | (none, w) => (proc, w)

/-- "Get process start time" of `updateProcessList` (systeminfo.cpp 859-866). -/
def queryStartTime (os : OS σ) (hProcess : Handle) (proc : ProcessInfo) (w : World σ) :
    ProcessInfo × World σ :=
  match sys os (.GetProcessTimes hProcess) w with
  | (some (createTime, _, _, _), w) => ({ proc with startTime := toInt64 createTime }, w)
  | (none, w) => (proc, w)

/-- "Determine process status" of `updateProcessList` (systeminfo.cpp 868-872). -/
def queryStatus (os : OS σ) (hProcess : Handle) (proc : ProcessInfo) (w : World σ) :
    ProcessInfo × World σ :=
  match sys os (.GetExitCodeProcess hProcess) w with
  | (some exitCode, w) =>
    ({ proc with status := if exitCode = STILL_ACTIVE then "Running" else "Not Responding" }, w)
  | (none, w) => (proc, w)

/-- The disk sample of `updateProcessList` (systeminfo.cpp 884-890) in MB/s, from the
bookkeeping entry `diskIo` of the pid, the time and the transfer counts just read.
The subtractions of the `ULONGLONG` members are unsigned and their sum is converted
to `qint64`. -/
def diskSample (diskIo : ProcessDiskIo) (currentTime readBytes writeBytes : Int) : Double :=
  if diskIo.lastUpdateTime > 0 then
    if toInt64 (currentTime - diskIo.lastUpdateTime) > 0 then
      ((toInt64 ((readBytes - diskIo.lastReadBytes) + (writeBytes - diskIo.lastWriteBytes)) : ℚ)
        / 1048576) / ((toInt64 (currentTime - diskIo.lastUpdateTime) : ℚ) / 1000)
    else 0
  else 0

/-- "Rolling average for Disk usage" (systeminfo.cpp 898-904, and 182-187 in
`updateDiskUsage`): the current `diskUsage` is appended to the history and replaced by
the average of the history. -/
def rollDiskUsage (proc : ProcessInfo) : ProcessInfo :=
  { proc with
    diskUsageHistory := appendTrimmed proc.diskUsageHistory proc.diskUsage,
    diskUsageAvg := average (appendTrimmed proc.diskUsageHistory proc.diskUsage),
    diskUsage := average (appendTrimmed proc.diskUsageHistory proc.diskUsage) }

/-- "Get disk I/O information" and the rolling average of `updateProcessList`
(systeminfo.cpp 874-904).  `diskIoMap[proc.pid]` inserts a zero entry for a pid that
has none. -/
def queryDiskUsage (os : OS σ) (hProcess : Handle) (proc : ProcessInfo) (s : SystemInfo)
    (w : World σ) : ProcessInfo × SystemInfo × World σ :=
  match (sys os .CurrentMSecsSinceEpoch w : Int × World σ) with
  | (currentTime, w) =>
    match sys os (.GetProcessIoCounters hProcess) w with
    | (some (readTransferCount, writeTransferCount), w) =>
      (rollDiskUsage
          { proc with diskUsage :=
              (diskSample ((s.diskIoMap.value proc.pid).getD {}) currentTime
                (toInt64 readTransferCount) (toInt64 writeTransferCount)) },
        { s with diskIoMap := (s.diskIoMap.insert proc.pid
            { lastReadBytes := toUInt64 (toInt64 readTransferCount),
              lastWriteBytes := toUInt64 (toInt64 writeTransferCount),
              lastUpdateTime := currentTime }) },
        w)
    | (none, w) => (rollDiskUsage { proc with diskUsage := 0 }, s, w)

/-- "Get network I/O information" and the rolling average of `updateProcessList`
(systeminfo.cpp 906-925): the sample is the placeholder `0.0` whether or not the
counters could be read. -/
def queryNetworkUsage (os : OS σ) (hProcess : Handle) (proc : ProcessInfo) (w : World σ) :
    ProcessInfo × World σ :=
  match (sys os .CurrentMSecsSinceEpoch w : Int × World σ) with
  | (_, w) =>
    match sys os (.GetProcessIoCounters hProcess) w with
    | (_, w) =>
      ({ proc with
         networkUsageHistory := trimmedAppend proc.networkUsageHistory 0,
         networkUsage := average (trimmedAppend proc.networkUsageHistory 0) }, w)

/-- "Categorize process type" of `updateProcessList` (systeminfo.cpp 927-931). -/
def queryCategory (os : OS σ) (proc : ProcessInfo) (w : World σ) : ProcessInfo × World σ :=
  match categorizeProcess os proc.name (toDWORD proc.pid) w with
  | (category, w) =>
    ({ proc with type := category.type,
                 typeDescription := getProcessDescription category.type,
                 style := getProcessStyle category.type }, w)

/-- The body of the loop of `updateProcessList` for one snapshot entry
(systeminfo.cpp 840-934): the record that is appended to the process list. -/
def readProcess (os : OS σ) (pe32 : PROCESSENTRY32W) (s : SystemInfo) (w : World σ) :
    ProcessInfo × SystemInfo × World σ :=
  match (sys os .UninitializedProcessInfo w : Indeterminate × World σ) with
  | (junk, w) =>
    match sys os (.OpenProcess (PROCESS_QUERY_INFORMATION ||| PROCESS_VM_READ)
        pe32.th32ProcessID) w with
    | (none, w) => (declareProcessInfo junk pe32, s, w)
    | (some hProcess, w) =>
      match queryPath os hProcess (declareProcessInfo junk pe32) w with
      | (proc, w) =>
        match queryMemoryUsage os hProcess proc w with
        | (proc, w) =>
          match queryStartTime os hProcess proc w with
          | (proc, w) =>
            match queryStatus os hProcess proc w with
            | (proc, w) =>
              match queryDiskUsage os hProcess proc s w with
              | (proc, s, w) =>
                match queryNetworkUsage os hProcess proc w with
                | (proc, w) =>
                  match queryCategory os proc w with
                  | (proc, w) => (proc, s, (sys os (.CloseHandle hProcess) w).2)

/-- The loop of `updateProcessList` over the snapshot entries (systeminfo.cpp 838-940). -/
def updateProcessLoop (os : OS σ) :
    List PROCESSENTRY32W → SystemInfo → World σ → SystemInfo × World σ
  | [], s, w => (s, w)
  | pe32 :: rest, s, w =>
    match readProcess os pe32 s w with
    | (proc, s, w) =>
      updateProcessLoop os rest { s with processList := s.processList ++ [proc] } w

/-- `SystemInfo::updateProcessList` (systeminfo.cpp 824-943): when the snapshot cannot
be created the process list is left as it is. -/
def updateProcessList (os : OS σ) (s : SystemInfo) (w : World σ) : SystemInfo × World σ :=
  match sys os .SnapshotProcesses w with
  | (none, w) => (s, w)
  | (some entries, w) => updateProcessLoop os entries { s with processList := [] } w

/-- The raw CPU sample of `updateProcessCpuUsage` (systeminfo.cpp 126-132) in percent,
from the bookkeeping entry `prev` of the pid and the process total just read. -/
def cpuSample (prev : ProcessCpuTimes) (processTotal systemTimeDelta numProcessors : Int) :
    Double :=
  if prev.lastKernelTime = 0 ∧ prev.lastUserTime = 0 then 0
  else
    if (toInt64 (processTotal - toInt64 (prev.lastKernelTime + prev.lastUserTime)) : ℚ)
        / (systemTimeDelta : ℚ) / (numProcessors : ℚ) * 100 < 0 then 0
    else (toInt64 (processTotal - toInt64 (prev.lastKernelTime + prev.lastUserTime)) : ℚ)
        / (systemTimeDelta : ℚ) / (numProcessors : ℚ) * 100

/-- "Rolling average for CPU usage" (systeminfo.cpp 134-140) applied to the raw sample. -/
def rollCpuUsage (proc : ProcessInfo) (sample : Double) : ProcessInfo :=
  { proc with
    cpuUsageHistory := appendTrimmed proc.cpuUsageHistory sample,
    cpuUsageAvg := average (appendTrimmed proc.cpuUsageHistory sample),
    cpuUsage := average (appendTrimmed proc.cpuUsageHistory sample) }

/-- The body of the loop of `updateProcessCpuUsage` for one record
(systeminfo.cpp 109-148).  `processCpuTimesMap[proc.pid]` inserts a zero entry for a
pid that has none. -/
def sampleCpuUsage (os : OS σ) (currentSystemTime systemTimeDelta numProcessors : Int)
    (proc : ProcessInfo) (m : QMap ProcessCpuTimes) (w : World σ) :
    ProcessInfo × QMap ProcessCpuTimes × World σ :=
  match sys os (.OpenProcess (PROCESS_QUERY_INFORMATION ||| PROCESS_VM_READ)
      (toDWORD proc.pid)) w with
  | (none, w) => ({ proc with cpuUsage := 0 }, m, w)
  | (some hProcess, w) =>
    match sys os (.GetProcessTimes hProcess) w with
    | (some (_, _, kernelTime, userTime), w) =>
      (rollCpuUsage proc
          (cpuSample ((m.value proc.pid).getD {})
            (toInt64 (toInt64 kernelTime + toInt64 userTime)) systemTimeDelta numProcessors),
        m.insert proc.pid
          { lastSystemTime := currentSystemTime, lastKernelTime := toInt64 kernelTime,
            lastUserTime := toInt64 userTime },
        (sys os (.CloseHandle hProcess) w).2)
    | (none, w) => ({ proc with cpuUsage := 0 }, m, (sys os (.CloseHandle hProcess) w).2)

/-- The loop of `updateProcessCpuUsage` over the records (systeminfo.cpp 108-149): the
records as rewritten in place, and the bookkeeping map. -/
def sampleCpuLoop (os : OS σ) (currentSystemTime systemTimeDelta numProcessors : Int) :
    List ProcessInfo → QMap ProcessCpuTimes → World σ →
      List ProcessInfo × QMap ProcessCpuTimes × World σ
  | [], m, w => ([], m, w)
  | proc :: rest, m, w =>
    match sampleCpuUsage os currentSystemTime systemTimeDelta numProcessors proc m w with
    | (proc, m, w) =>
      match sampleCpuLoop os currentSystemTime systemTimeDelta numProcessors rest m w with
      | (rest, m, w) => (proc :: rest, m, w)

/-- The value of `systemTimeDelta` (systeminfo.cpp 105-106). -/
def systemTimeDelta (currentSystemTime lastSystemTime : Int) : Int :=
  if toInt64 (currentSystemTime - lastSystemTime) ≤ 0 then 1
  else toInt64 (currentSystemTime - lastSystemTime)

/-- `SystemInfo::updateProcessCpuUsage` (systeminfo.cpp 96-151). -/
def updateProcessCpuUsage (os : OS σ) (s : SystemInfo) (w : World σ) : SystemInfo × World σ :=
  match sys os .GetSystemTimes w with
  | (none, w) => (s, w)
  | (some (_, kernelTime, userTime), w) =>
    match sampleCpuLoop os (toInt64 ((kernelTime : Int) + userTime))
        (systemTimeDelta (toInt64 ((kernelTime : Int) + userTime)) s.lastSystemTime)
        s.numProcessors s.processList s.processCpuTimesMap w with
    | (processList, m, w) =>
      ({ s with processList := processList, processCpuTimesMap := m,
                lastSystemTime := toInt64 ((kernelTime : Int) + userTime) }, w)

/-- `SystemInfo::updateCpuUsage` (systeminfo.cpp 153-163); the statuses of the two PDH
calls are not looked at. -/
def updateCpuUsage (os : OS σ) (s : SystemInfo) (w : World σ) : SystemInfo × World σ :=
  match s.g_hQuery, s.g_hCounter with
  | some hQuery, some hCounter =>
    match (sys os (.PdhGetFormattedCounterValue hCounter)
        (sys os (.PdhCollectQueryData hQuery) w).2 : (Nat × Double) × World σ) with
    | (counterVal, w) => ({ s with cpuUsage := counterVal.2 }, w)
  | _, _ => ({ s with cpuUsage := 0 }, w)

/-- `SystemInfo::updateMemoryUsage` (systeminfo.cpp 165-170). -/
def updateMemoryUsage (os : OS σ) (s : SystemInfo) (w : World σ) : SystemInfo × World σ :=
  match (sys os .GlobalMemoryStatusEx w : Nat × World σ) with
  | (dwMemoryLoad, w) => ({ s with memoryUsage := (dwMemoryLoad : ℚ) }, w)

/-- `SystemInfo::updateDiskUsage` (systeminfo.cpp 172-189). -/
def updateDiskUsage (os : OS σ) (s : SystemInfo) (w : World σ) : SystemInfo × World σ :=
  match sys os (.GetDiskFreeSpaceEx "C:\\") w with
  | (some (_, totalBytes, totalFreeBytes), w) =>
    ({ s with diskUsage := (((totalBytes : ℚ) - (totalFreeBytes : ℚ)) / (totalBytes : ℚ)) * 100,
              processList := s.processList.map rollDiskUsage }, w)
  | (none, w) => ({ s with processList := s.processList.map rollDiskUsage }, w)

/-- The PDH part of `updateNetworkUsage` (systeminfo.cpp 193-234). -/
def collectNetworkCounters (os : OS σ) (s : SystemInfo) (w : World σ) :
    SystemInfo × World σ :=
  match s.networkQuery, s.bytesReceivedCounter, s.bytesSentCounter with
  | some query, some received, some sent =>
    match (sys os (.PdhCollectQueryData query) w : Nat × World σ) with
    | (status, w) =>
      if status = ERROR_SUCCESS then
        match (sys os .CurrentMSecsSinceEpoch w : Int × World σ) with
        | (currentTime, w) =>
          if toInt64 (currentTime - s.lastNetworkUpdateTime) > 0 then
            match (sys os (.PdhGetFormattedCounterValue received) w : (Nat × Double) × World σ) with
            | (receivedVal, w) =>
              if receivedVal.1 = ERROR_SUCCESS then
                match (sys os (.PdhGetFormattedCounterValue sent) w : (Nat × Double) × World σ) with
                | (sentVal, w) =>
                  if sentVal.1 = ERROR_SUCCESS then
                    ({ s with
                       lastBytesReceived := receivedVal.2,
                       lastBytesSent := sentVal.2,
                       networkUsage :=
                        (((receivedVal.2 - s.lastBytesReceived) + (sentVal.2 - s.lastBytesSent))
                          / ((toInt64 (currentTime - s.lastNetworkUpdateTime) : ℚ) / 1000) / 1024),
                       lastNetworkUpdateTime := currentTime }, w)
                  else ({ s with lastNetworkUpdateTime := currentTime }, w)
              else ({ s with lastNetworkUpdateTime := currentTime }, w)
          else (s, w)
      else (s, w)
  | _, _, _ => ({ s with networkUsage := 0 }, w)

/-- `SystemInfo::updateNetworkUsage` (systeminfo.cpp 191-242): whatever the counters
gave, the total is overwritten by the sum of the per-process values. -/
def updateNetworkUsage (os : OS σ) (s : SystemInfo) (w : World σ) : SystemInfo × World σ :=
  match collectNetworkCounters os s w with
  | (s, w) =>
    ({ s with networkUsage :=
        (s.processList.foldl (fun totalProcessNetwork proc =>
          totalProcessNetwork + proc.networkUsage) 0) }, w)

/-- `SystemInfo::updateSystemInfo` (systeminfo.cpp 86-94): one tick. -/
def updateSystemInfo (os : OS σ) (s : SystemInfo) (w : World σ) : SystemInfo × World σ :=
  match updateProcessList os s w with
  | (s, w) =>
    match updateProcessCpuUsage os s w with
    | (s, w) =>
      match updateCpuUsage os s w with
      | (s, w) =>
        match updateMemoryUsage os s w with
        | (s, w) =>
          match updateDiskUsage os s w with
          | (s, w) =>
            match updateNetworkUsage os s w with
            | (s, w) => ({ s with emitted := s.emitted ++ [Signal.dataUpdated] }, w)

/-- `SystemInfo::initCpuCounter` (systeminfo.cpp 643-655). -/
def initCpuCounter (os : OS σ) (s : SystemInfo) (w : World σ) : SystemInfo × World σ :=
  match s.g_hQuery with
  | some _ => (s, w)
  | none =>
    match sys os .PdhOpenQuery w with
    | (none, w) => (s, w)
    | (some hQuery, w) =>
      match sys os (.PdhAddCounter hQuery "\\Processor(_Total)\\% Processor Time") w with
      | (some hCounter, w) => ({ s with g_hQuery := some hQuery, g_hCounter := some hCounter }, w)
      | (none, w) =>
        ({ s with g_hQuery := none, g_hCounter := none }, (sys os (.PdhCloseQuery hQuery) w).2)

/-- `SystemInfo::initNetworkCounter` (systeminfo.cpp 945-969). -/
def initNetworkCounter (os : OS σ) (s : SystemInfo) (w : World σ) : SystemInfo × World σ :=
  match sys os .PdhOpenQuery w with
  | (none, w) => (s, w)
  | (some query, w) =>
    match sys os (.PdhAddCounter query "\\Network Interface(*)\\Bytes Received/sec") w with
    | (none, w) => ({ s with networkQuery := some query }, w)
    | (some received, w) =>
      match sys os (.PdhAddCounter query "\\Network Interface(*)\\Bytes Sent/sec") w with
      | (none, w) =>
        ({ s with networkQuery := some query, bytesReceivedCounter := some received }, w)
      | (some sent, w) =>
        match (sys os .CurrentMSecsSinceEpoch (sys os (.PdhCollectQueryData query) w).2 :
            Int × World σ) with
        | (currentTime, w) =>
          ({ s with networkQuery := some query, bytesReceivedCounter := some received,
                    bytesSentCounter := some sent, lastNetworkUpdateTime := currentTime }, w)

/-- The members after the initialiser list of the constructor and the assignments of
`numProcessors` and `lastSystemTime` (systeminfo.cpp 14-49), from the answers of
`GetSystemInfo` and `GetSystemTimes`; when the latter failed `lastSystemTime` stays 0. -/
def initialMembers (dwNumberOfProcessors : Nat) (times : Option (Nat × Nat × Nat)) :
    SystemInfo :=
  { numProcessors := toInt32 dwNumberOfProcessors,
    lastSystemTime :=
      (match times with
      | some (_, kernelTime, userTime) => toInt64 ((kernelTime : Int) + userTime)
      | none => 0) }

/-- The constructor `SystemInfo::SystemInfo` (systeminfo.cpp 14-54): the member
initialisers, the processor count, the first system times, the two counters and the
first tick.  The timer it starts fires `updateSystemInfo` later. -/
def constructSystemInfo (os : OS σ) (w : World σ) : SystemInfo × World σ :=
  match (sys os .GetSystemInfo w : Nat × World σ) with
  | (dwNumberOfProcessors, w) =>
    match sys os .GetSystemTimes w with
    | (times, w) =>
      match initCpuCounter os (initialMembers dwNumberOfProcessors times) w with
      | (s, w) =>
        match initNetworkCounter os s w with
        | (s, w) => updateSystemInfo os s w

end Metrics

/-! ## A small operating system, used to run the engine on concrete inputs

The state is the list of live processes.  The handle of a process is its pid and the
handle of a thread is its thread id. -/

/-- A live process of the simulated operating system. -/
structure SimProc where
  pid : Nat
  parent : Nat
  name : String := ""
  threads : List Nat := []
  /-- Whether `TerminateProcess` on the process succeeds (the process then exits). -/
  killable : Bool := true
  /-- Whether remote allocation, memory writes and remote threads are accepted; they
  do not make the process exit. -/
  writable : Bool := true
  priority : Nat := 0x20
  path : String := ""
  workingSet : Nat := 0
  createTime : Nat := 0
  kernelTime : Nat := 0
  userTime : Nat := 0
  readBytes : Nat := 0
  writeBytes : Nat := 0
  /-- Whether the process hosts a service known to the service control manager. -/
  service : Bool := false
deriving DecidableEq, Repr

abbrev SimState := List SimProc

/-- Whether a pid is live. -/
def SimState.live (st : SimState) (pid : Nat) : Bool := st.any (fun p => p.pid == pid)

/-- The live process with the pid. -/
def SimState.proc (st : SimState) (pid : Nat) : Option SimProc :=
  st.find? (fun p => p.pid == pid)

/-- The priority class of a live pid, 0 otherwise. -/
def SimState.priority (st : SimState) (pid : Nat) : Nat :=
  match st.proc pid with
  | some p => p.priority
  | none => 0

/-- The state after the priority class of the pid was set. -/
def SimState.setPriority (st : SimState) (pid : Nat) (priority : Nat) : SimState :=
  st.map (fun p => if p.pid = pid then { p with priority := priority } else p)

/-- The simulated operating system. -/
def simOS : OS SimState
  | .OpenProcessToken, st => (some 1, st)
  | .LookupPrivilegeValue, st => (true, st)
  | .AdjustTokenPrivileges _, st => (true, st)
  | .GetLastError, st => (0, st)
  | .OpenProcess _ pid, st => (if st.live pid then some pid else none, st)
  | .CloseHandle _, st => ((), st)
  | .GetProcessId h, st => (h, st)
  | .SnapshotThreads, st =>
    (some (st.flatMap (fun p => p.threads.map (fun t => ⟨t, p.pid⟩))), st)
  | .SnapshotProcesses, st => (some (st.map (fun p => ⟨p.pid, p.parent, p.name⟩)), st)
  | .OpenThread _ tid, st => (if st.any (fun p => p.threads.contains tid) then some tid else none, st)
  | .SuspendThread _, st => ((), st)
  | .TerminateThread h _, st =>
    ((), st.map (fun p => { p with threads := p.threads.filter (fun t => t != h) }))
  | .TerminateProcess h _, st =>
    match st.proc h with
    | some p => if p.killable then (true, st.filter (fun q => q.pid != h)) else (false, st)
    | none => (false, st)
  | .WaitForSingleObject h _, st => (if st.live h then 258 else 0, st)
  | .VirtualAllocEx h _, st =>
    match st.proc h with
    | some p => (if p.writable then some 0x10000 else none, st)
    | none => (none, st)
  | .WriteProcessMemory h _ _, st =>
    match st.proc h with
    | some p => (p.writable, st)
    | none => (false, st)
  | .CreateRemoteThread h _, st =>
    match st.proc h with
    | some p => (if p.writable then some 0 else none, st)
    | none => (none, st)
  | .VirtualFreeEx _ _, st => ((), st)
  | .GetExitCodeProcess h, st => (if st.live h then some STILL_ACTIVE else some 1, st)
  | .GetThreadContext _, st => (true, st)
  | .SetThreadContext _ _, st => ((), st)
  | .GetPriorityClass h, st => (st.priority h, st)
  | .SetPriorityClass h priority, st =>
    if st.live h then (true, st.setPriority h priority) else (false, st)
  | .SetProcessWorkingSetSize h _ _, st => (st.live h, st)
  | .GetSystemInfo, st => (1, st)
  | .GetSystemTimes, st =>
    (some (0, (st.map (fun p => p.kernelTime)).sum, (st.map (fun p => p.userTime)).sum), st)
  | .GetProcessTimes h, st =>
    ((st.proc h).map (fun p => (p.createTime, 0, p.kernelTime, p.userTime)), st)
  | .GetModuleFileNameEx h, st => ((st.proc h).map (fun p => p.path), st)
  | .GetProcessMemoryInfo h, st => ((st.proc h).map (fun p => p.workingSet), st)
  | .GetProcessIoCounters h, st => ((st.proc h).map (fun p => (p.readBytes, p.writeBytes)), st)
  | .CurrentMSecsSinceEpoch, st => (1000, st)
  | .OpenSCManager, st => (some 1, st)
  | .EnumServicesStatusEx _ bufSize, st =>
    ((decide (0 < bufSize), 44 * (st.filter (fun p => p.service)).length,
      if 0 < bufSize then (st.filter (fun p => p.service)).map (fun p => p.pid) else []), st)
  | .CloseServiceHandle _, st => ((), st)
  | .PdhOpenQuery, st => (some 1, st)
  | .PdhAddCounter _ _, st => (some 2, st)
  | .PdhCloseQuery _, st => ((), st)
  | .PdhCollectQueryData _, st => (0, st)
  | .PdhGetFormattedCounterValue _, st => ((0, 0), st)
  | .GlobalMemoryStatusEx, st => (50, st)
  | .GetDiskFreeSpaceEx _, st => (some (1, 4, 1), st)
  | .UninitializedProcessInfo, st =>
    (⟨0, 0, 0, 0, 0, ProcessType.System⟩, st)

/-- The world at the start of a run on the simulated operating system. -/
def simWorld (st : SimState) : World SimState := { os := st, trace := [] }

/-- A registry record with the given identity, usage and type; the other fields are
empty. -/
def mkProcess (pid : Int) (name : String) (type : ProcessType) (cpuUsage : Double)
    (memoryUsage : Int) : ProcessInfo :=
  { name := name, pid := pid, cpuUsage := cpuUsage, memoryUsage := memoryUsage,
    diskUsage := 0, networkUsage := 0, status := "Running", path := "", startTime := 0,
    type := type, typeDescription := "", style := "", cpuUsageHistory := [],
    diskUsageHistory := [], networkUsageHistory := [], cpuUsageAvg := 0,
    diskUsageAvg := 0, networkUsageAvg := 0 }

/-- The readings of the operating system during one tick: the live processes with
their counters, the system kernel and user times, and the clock in milliseconds. -/
structure Reading where
  procs : SimState
  systemKernel : Nat
  systemUser : Nat
  clock : Int

/-- An operating system that follows a script of readings.  Its state is the number of
process snapshots taken so far; taking a snapshot moves to the next reading.  Every
call is answered as the simulated operating system answers it on the processes of the
current reading, with the system times and the clock of that reading. -/
def scriptOS (script : Nat → Reading) : OS Nat
  | .SnapshotProcesses, n => ((simOS .SnapshotProcesses (script (n + 1)).procs).1, n + 1)
  | .GetSystemTimes, n => (some (0, (script n).systemKernel, (script n).systemUser), n)
  | .CurrentMSecsSinceEpoch, n => ((script n).clock, n)
  | c, n => ((simOS c (script n).procs).1, n)

/-- The object after `n` ticks (calls of `updateSystemInfo`) from the state `s`. -/
def ticks {σ : Type} (os : OS σ) : Nat → SystemInfo → World σ → SystemInfo × World σ
  | 0, s, w => (s, w)
  | n + 1, s, w =>
    match updateSystemInfo os s w with
    | (s, w) => ticks os n s w

/-! ## Vocabulary of the properties -/

/-- The calls that act on a target process or on its threads in order to end it:
thread suspension and termination, terminate requests, remote allocation, remote
memory writes, remote threads and thread-context writes. -/
def Call.isTerminationAction : Call → Bool
  | .SuspendThread _ => true
  | .TerminateThread _ _ => true
  | .TerminateProcess _ _ => true
  | .VirtualAllocEx _ _ => true
  | .WriteProcessMemory _ _ _ => true
  | .CreateRemoteThread _ _ => true
  | .SetThreadContext _ _ => true
  | _ => false

/-- The trace ends with a successful final verification of `pid`: the re-open for
status query failed, or it succeeded and an exit code other than `STILL_ACTIVE` was
read before the handle was closed. -/
def VerifiedGone (pid : Int) (trace : List Event) : Prop :=
  (∃ t, trace = t ++
      [⟨Call.OpenProcess PROCESS_QUERY_INFORMATION (toDWORD pid), (none : Option Handle)⟩]) ∨
  (∃ t verifyHandle exitCode, exitCode ≠ STILL_ACTIVE ∧
    trace = t ++
      [⟨Call.OpenProcess PROCESS_QUERY_INFORMATION (toDWORD pid), some verifyHandle⟩,
       ⟨Call.GetExitCodeProcess verifyHandle, some exitCode⟩,
       ⟨Call.CloseHandle verifyHandle, ()⟩])

/-- The world `w1` is `w` with further calls made, all satisfying `Q`. -/
def Extends {σ : Type} (Q : Event → Bool) (w w1 : World σ) : Prop :=
  ∃ t, w1.trace = w.trace ++ t ∧ ∀ e ∈ t, Q e = true

/-- The calls of "Method 1" of `terminateProcess`. -/
def Call.isThreadStep : Call → Bool
  | .GetProcessId _ => true
  | .SnapshotThreads => true
  | .OpenThread _ _ => true
  | .SuspendThread _ => true
  | .TerminateThread _ _ => true
  | .CloseHandle _ => true
  | _ => false

/-- A terminate request on the handle `h` or a wait on it. -/
def Call.isTerminateRequest (h : Handle) : Call → Bool
  | .TerminateProcess h1 _ => h1 == h
  | .WaitForSingleObject h1 _ => h1 == h
  | _ => false

/-- The calls of the fault injection. -/
def Call.isFaultInjection : Call → Bool
  | .VirtualAllocEx _ _ => true
  | .WriteProcessMemory _ _ _ => true
  | .CreateRemoteThread _ _ => true
  | .WaitForSingleObject _ _ => true
  | .CloseHandle _ => true
  | .VirtualFreeEx _ _ => true
  | _ => false

/-- The calls of the process-tree kill and of its retry. -/
def Call.isTreeKill : Call → Bool
  | .CloseHandle _ => true
  | .SnapshotProcesses => true
  | .OpenProcess _ _ => true
  | .TerminateProcess _ _ => true
  | .WaitForSingleObject _ _ => true
  | _ => false

/-- The calls of the memory-corruption fallback. -/
def Call.isMemoryCorruption : Call → Bool
  | .WriteProcessMemory _ _ _ => true
  | .TerminateProcess _ _ => true
  | .WaitForSingleObject _ _ => true
  | _ => false

/-- A wait that returned `WAIT_OBJECT_0`. -/
def Event.isSignalledWait : Event → Bool
  | ⟨.WaitForSingleObject _ _, r⟩ => r == WAIT_OBJECT_0
  | _ => false

/-- A remote-thread creation that returned a thread handle. -/
def Event.isCreatedRemoteThread : Event → Bool
  | ⟨.CreateRemoteThread _ _, some _⟩ => true
  | _ => false

/-- A terminate request that was refused, or a wait that did not return
`WAIT_OBJECT_0`. -/
def Event.isFailedTerminate : Event → Bool
  | ⟨.TerminateProcess _ _, b⟩ => !b
  | ⟨.WaitForSingleObject _ _, r⟩ => r != WAIT_OBJECT_0
  | _ => false

/-- Enabling efficiency mode and then disabling it. -/
def efficiencyCycle {σ : Type} (os : OS σ) (s : SystemInfo) (w : World σ) :
    SystemInfo × World σ :=
  setEfficiencyMode os false (setEfficiencyMode os true s w).1 (setEfficiencyMode os true s w).2

/-- Every live process has a priority class that a query reports: non-zero and a
`DWORD`. -/
def WellPrioritised (st : SimState) : Prop :=
  ∀ q ∈ st, q.priority ≠ 0 ∧ q.priority < 4294967296

/-- Every entry of the backup whose pid is live holds the priority class the pid has
in `st`. -/
def Recorded (st : SimState) (m : QMap Int) : Prop :=
  ∀ e ∈ m, st.live (toDWORD e.1) = true → toDWORD e.2 = st.priority (toDWORD e.1)

/-- The state `st1` has the live pids of `st` and the priority classes of `st` except
possibly for the pids of the records `l`. -/
def Untouched (l : List ProcessInfo) (st st1 : SimState) : Prop :=
  (∀ d, st1.live d = st.live d) ∧
  ∀ d, (∀ p ∈ l, toDWORD p.pid ≠ d) → st1.priority d = st.priority d

/-- The calls `t` contain the setting of the priority class of `pid` to `priority`: the
pid is opened for setting information, the open succeeds, and the next call sets the
priority class of the returned handle to `priority`. -/
def PrioritySetIssued (pid priority : Int) (t : List Event) : Prop :=
  ∃ h ok,
    [(⟨Call.OpenProcess PROCESS_SET_INFORMATION (toDWORD pid), some h⟩ : Event),
     (⟨Call.SetPriorityClass h (toDWORD priority), ok⟩ : Event)] <:+: t

/-- The calls `t` contain the restoration of `priority` for `pid`: the priority set is
issued, or the open of the pid for setting information was refused. -/
def RestoreIssued (pid priority : Int) (t : List Event) : Prop :=
  PrioritySetIssued pid priority t ∨
  [(⟨Call.OpenProcess PROCESS_SET_INFORMATION (toDWORD pid), (none : Option Handle)⟩ : Event)]
    <:+: t

/-- The record without the two fields written by the efficiency controller's helpers. -/
def SystemInfo.core (s : SystemInfo) : SystemInfo :=
  { s with originalPriorities := [], throttledProcesses := [] }

/-- The calls of `getProcessPriorityClass`: the open for querying, the query and the
close. -/
def Call.isPriorityQuery : Call → Bool
  | .OpenProcess access _ => access == PROCESS_QUERY_INFORMATION
  | .GetPriorityClass _ => true
  | .CloseHandle _ => true
  | _ => false

/-- The calls of `setProcessPriority` for the `DWORD` pid `d` and the class `v`: the
open of `d` for setting information, the setting of class `v` and the close. -/
def Call.isPrioritySet (d v : Nat) : Call → Bool
  | .OpenProcess access pid => access == PROCESS_SET_INFORMATION && pid == d
  | .SetPriorityClass _ priority => priority == v
  | .CloseHandle _ => true
  | _ => false

/-- The calls of the working-set clamp of `optimizeMemoryUsage` for the `DWORD` pid
`d`: the open of `d`, the setting of the bounds 1 MB and 50 MB and the close. -/
def Call.isWorkingSetClamp (d : Nat) : Call → Bool
  | .OpenProcess access pid => access == (PROCESS_SET_QUOTA ||| PROCESS_TERMINATE) && pid == d
  | .SetProcessWorkingSetSize _ minWS maxWS => minWS == 1024 * 1024 && maxWS == 50 * 1024 * 1024
  | .CloseHandle _ => true
  | _ => false

/-- Whether a call, if it sets a priority class, sets the class `v`. -/
def Call.setsOnlyClass (v : Nat) : Call → Bool
  | .SetPriorityClass _ priority => priority == v
  | _ => true

/-- The calls `t` contain a priority-set call for the `DWORD` pid `d`, or the attempt
of one: `d` is opened for setting information.  (The code sets a priority class only
on the handle that such an open has just returned.) -/
def PriorityTouched (d : Nat) (t : List Event) : Prop :=
  ∃ e ∈ t, e.1 = Call.OpenProcess PROCESS_SET_INFORMATION d

/-- The calls `t` contain a working-set-size call for the `DWORD` pid `d`, or the
attempt of one: `d` is opened with the access rights of the clamp.  (The code sets
working-set bounds only on the handle that such an open has just returned.) -/
def WorkingSetTouched (d : Nat) (t : List Event) : Prop :=
  ∃ e ∈ t, e.1 = Call.OpenProcess (PROCESS_SET_QUOTA ||| PROCESS_TERMINATE) d

/-- The calls `t` contain the attempt to clamp the working set of `pid`: the pid is
opened with the access rights of the clamp and either the open is refused or the next
call sets the bounds 1 MB and 50 MB on the returned handle. -/
def ClampAttempted (pid : Int) (t : List Event) : Prop :=
  (∃ h ok,
    [(⟨Call.OpenProcess (PROCESS_SET_QUOTA ||| PROCESS_TERMINATE) (toDWORD pid), some h⟩ : Event),
     (⟨Call.SetProcessWorkingSetSize h (1024 * 1024) (50 * 1024 * 1024), ok⟩ : Event)] <:+: t) ∨
  [(⟨Call.OpenProcess (PROCESS_SET_QUOTA ||| PROCESS_TERMINATE) (toDWORD pid),
      (none : Option Handle)⟩ : Event)] <:+: t

/-- The class immediately below a priority class in the order `IDLE < BELOW_NORMAL <
NORMAL < ABOVE_NORMAL < HIGH < REALTIME` of the specification; `IDLE` has none. -/
def classBelow (priority : Nat) : Option Nat :=
  if priority = REALTIME_PRIORITY_CLASS then some HIGH_PRIORITY_CLASS
  else if priority = HIGH_PRIORITY_CLASS then some ABOVE_NORMAL_PRIORITY_CLASS
  else if priority = ABOVE_NORMAL_PRIORITY_CLASS then some NORMAL_PRIORITY_CLASS
  else if priority = NORMAL_PRIORITY_CLASS then some BELOW_NORMAL_PRIORITY_CLASS
  else if priority = BELOW_NORMAL_PRIORITY_CLASS then some IDLE_PRIORITY_CLASS
  else none

/-- The three members of the efficiency controller: the mode flag, the throttled set
and PriorityBackup. -/
def SystemInfo.efficiencySettings (s : SystemInfo) : Bool × List Int × QMap Int :=
  (s.efficiencyModeEnabled, s.throttledProcesses, s.originalPriorities)

/-- Each of the three rolling history buffers of the record has length at most 5. -/
def HistoriesBounded (p : ProcessInfo) : Prop :=
  p.cpuUsageHistory.length ≤ 5 ∧ p.diskUsageHistory.length ≤ 5 ∧
    p.networkUsageHistory.length ≤ 5

/-- The states of the object and of the world that are reachable from `s0`, `w0` by
ticks, `setEfficiencyMode` calls and `terminateProcess` calls that return; between two
of them the operating system may move to any state. -/
inductive Reachable {σ : Type} (os : OS σ) (s0 : SystemInfo) (w0 : World σ) :
    SystemInfo → World σ → Prop
  | start : Reachable os s0 w0 s0 w0
  | tick {s : SystemInfo} {w : World σ} :
    Reachable os s0 w0 s w →
      Reachable os s0 w0 (updateSystemInfo os s w).1 (updateSystemInfo os s w).2
  | efficiency {s : SystemInfo} {w : World σ} (enabled : Bool) :
    Reachable os s0 w0 s w →
      Reachable os s0 w0 (setEfficiencyMode os enabled s w).1 (setEfficiencyMode os enabled s w).2
  | terminate {s : SystemInfo} {w : World σ} (fuel : Nat) (pid : Int)
      (r : Bool × SystemInfo × World σ) :
    Reachable os s0 w0 s w → terminateProcess os fuel pid s w = some r →
      Reachable os s0 w0 r.2.1 r.2.2
  | environment {s : SystemInfo} {w : World σ} (st : σ) :
    Reachable os s0 w0 s w → Reachable os s0 w0 s { w with os := st }

/-- The test that `isSystemProcess` makes on a resolved executable path
(processcategorizer.cpp 88-91): the path in lower case contains one of the four
directory fragments. -/
def underSystemDirectory (path : String) : Bool :=
  containsString (toLower path) "\\windows\\system32\\" ||
    containsString (toLower path) "\\windows\\syswow64\\" ||
    containsString (toLower path) "\\program files\\" ||
    containsString (toLower path) "\\program files (x86)\\"

/-- The calls of the path lookup of `isSystemProcess`. -/
def Call.isPathLookup : Call → Bool
  | .OpenProcess access _ => access == (PROCESS_QUERY_INFORMATION ||| PROCESS_VM_READ)
  | .GetModuleFileNameEx _ => true
  | .CloseHandle _ => true
  | _ => false

/-- The calls of the service lookup of `isBackgroundService`. -/
def Call.isServiceLookup : Call → Bool
  | .OpenProcess access _ => access == PROCESS_QUERY_INFORMATION
  | .OpenSCManager => true
  | .EnumServicesStatusEx _ _ => true
  | .CloseServiceHandle _ => true
  | .CloseHandle _ => true
  | _ => false

/-- The calls `t` resolve the executable path of the pid to a path under a system
directory: the pid is opened for query and read, and `GetModuleFileNameEx` on the
returned handle answers such a path. -/
def ResolvedUnderSystemDirectory (pid : Nat) (t : List Event) : Prop :=
  ∃ h path,
    (⟨Call.OpenProcess (PROCESS_QUERY_INFORMATION ||| PROCESS_VM_READ) pid, some h⟩ : Event) ∈ t ∧
    (⟨Call.GetModuleFileNameEx h, some path⟩ : Event) ∈ t ∧
    underSystemDirectory path = true

/-- The calls `t` find the pid listed as the host process of a registered service: the
pid is opened for query, the service control manager is opened, and an enumeration of
the services into a buffer succeeds and lists the pid. -/
def ListedAsServiceHost (pid : Nat) (t : List Event) : Prop :=
  ∃ h scm bufSize bytesNeeded services,
    (⟨Call.OpenProcess PROCESS_QUERY_INFORMATION pid, some h⟩ : Event) ∈ t ∧
    (⟨Call.OpenSCManager, some scm⟩ : Event) ∈ t ∧
    0 < bufSize ∧
    (⟨Call.EnumServicesStatusEx scm bufSize, (true, bytesNeeded, services)⟩ : Event) ∈ t ∧
    pid ∈ services

/-- The opens for setting information: the first call of every `setProcessPriority`. -/
def Call.isSetOpen : Call → Bool
  | .OpenProcess access _ => access == PROCESS_SET_INFORMATION
  | _ => false

/-- The calls `q` are one run of `getProcessPriorityClass` for `pid` with the result
`v`: the open for query is refused and `v` is `NORMAL_PRIORITY_CLASS`, or the open
succeeds, the class is queried on the returned handle, the handle is closed, and `v`
is the class answered (`NORMAL_PRIORITY_CLASS` when the answer is 0). -/
def PriorityRead (pid v : Int) (q : List Event) : Prop :=
  (q = [(⟨Call.OpenProcess PROCESS_QUERY_INFORMATION (toDWORD pid),
      (none : Option Handle)⟩ : Event)] ∧ v = toInt32 NORMAL_PRIORITY_CLASS) ∨
  ∃ (h : Handle) (priority : Nat),
    q = [(⟨Call.OpenProcess PROCESS_QUERY_INFORMATION (toDWORD pid), some h⟩ : Event),
         (⟨Call.GetPriorityClass h, priority⟩ : Event),
         (⟨Call.CloseHandle h, ()⟩ : Event)] ∧
    v = if priority ≠ 0 then toInt32 priority else toInt32 NORMAL_PRIORITY_CLASS

/-- The backup `m` was captured before the changes, with respect to the calls `t` made
since the backup was last empty: the value of every entry is the result of a run of
`getProcessPriorityClass` for its pid in `t`; and every open for setting information
of a `DWORD` pid `d` in `t` comes after such a run for an entry of `m` whose pid is `d`,
before which `t` holds no open of `d` for setting information. -/
def BackupCaptured (m : QMap Int) (t : List Event) : Prop :=
  (∀ e ∈ m, ∃ a q b, t = a ++ q ++ b ∧ PriorityRead e.1 e.2 q) ∧
  (∀ t1 e t2 d, t = t1 ++ e :: t2 → e.1 = Call.OpenProcess PROCESS_SET_INFORMATION d →
    ∃ k v, (k, v) ∈ m ∧ toDWORD k = d ∧
      ∃ a q b, t1 = a ++ q ++ b ∧ PriorityRead k v q ∧ ¬ PriorityTouched d a)

/-- The calls of one terminate request on the handle `h` with `exitCode`: the request
and, when it is accepted, a wait of up to one second on `h`.  `done` tells whether the
wait was signalled. -/
def TerminateRequested (h : Handle) (exitCode : Nat) (t : List Event) (done : Bool) : Prop :=
  (t = [(⟨Call.TerminateProcess h exitCode, false⟩ : Event)] ∧ done = false) ∨
  ∃ r : Nat,
    t = [(⟨Call.TerminateProcess h exitCode, true⟩ : Event),
         (⟨Call.WaitForSingleObject h 1000, r⟩ : Event)] ∧
    done = (r == WAIT_OBJECT_0)

/-- The calls of the walk over the thread snapshot `entries` for the process
`processId`: every thread of the process is opened for suspension and termination, in
snapshot order, and each one that can be opened is suspended, terminated with exit code
0 and closed.  The threads of other processes cause no call. -/
inductive ThreadsWalked (processId : Nat) : List THREADENTRY32 → List Event → Prop
  | nil : ThreadsWalked processId [] []
  | other (te32 : THREADENTRY32) (rest : List THREADENTRY32) (t : List Event) :
      te32.th32OwnerProcessID ≠ processId → ThreadsWalked processId rest t →
      ThreadsWalked processId (te32 :: rest) t
  | refused (te32 : THREADENTRY32) (rest : List THREADENTRY32) (t : List Event) :
      te32.th32OwnerProcessID = processId → ThreadsWalked processId rest t →
      ThreadsWalked processId (te32 :: rest)
        ((⟨Call.OpenThread (THREAD_SUSPEND_RESUME ||| THREAD_TERMINATE) te32.th32ThreadID,
            (none : Option Handle)⟩ : Event) :: t)
  | ended (te32 : THREADENTRY32) (rest : List THREADENTRY32) (t : List Event)
      (hThread : Handle) :
      te32.th32OwnerProcessID = processId → ThreadsWalked processId rest t →
      ThreadsWalked processId (te32 :: rest)
        ((⟨Call.OpenThread (THREAD_SUSPEND_RESUME ||| THREAD_TERMINATE) te32.th32ThreadID,
            some hThread⟩ : Event) ::
          (⟨Call.SuspendThread hThread, ()⟩ : Event) ::
          (⟨Call.TerminateThread hThread 0, ()⟩ : Event) ::
          (⟨Call.CloseHandle hThread, ()⟩ : Event) :: t)

/-- Step 1 of the escalation on the handle `h`: the process id of the handle is read,
the thread snapshot is taken and, when it was obtained, walked. -/
def ThreadsSuspended (h : Handle) (t : List Event) : Prop :=
  ∃ processId : Nat,
    t = [(⟨Call.GetProcessId h, processId⟩ : Event),
         (⟨Call.SnapshotThreads, (none : Option (List THREADENTRY32))⟩ : Event)] ∨
    ∃ entries walk,
      t = (⟨Call.GetProcessId h, processId⟩ : Event) ::
          (⟨Call.SnapshotThreads, some entries⟩ : Event) :: walk ∧
      ThreadsWalked processId entries walk

/-- Step 2 of the escalation: terminate requests on `h` with the exit codes of the list
in turn, up to and including the first one whose wait is signalled.  `done` tells
whether there was one. -/
inductive TerminateRequests (h : Handle) : List Nat → List Event → Bool → Prop
  | exhausted : TerminateRequests h [] [] false
  | succeeded (exitCode : Nat) (rest : List Nat) (t : List Event) :
      TerminateRequested h exitCode t true → TerminateRequests h (exitCode :: rest) t true
  | failed (exitCode : Nat) (rest : List Nat) (t t1 : List Event) (done : Bool) :
      TerminateRequested h exitCode t false → TerminateRequests h rest t1 done →
      TerminateRequests h (exitCode :: rest) (t ++ t1) done

/-- Step 3 of the escalation: fault injection into the process of `h`.  Memory is
allocated; if that worked the byte `0xCC` is written to it; if that worked a remote
thread is started on it, waited for and closed; the memory is freed whenever it was
allocated.  `done` tells whether the remote thread was created. -/
def FaultInjected (h : Handle) (t : List Event) (done : Bool) : Prop :=
  (t = [(⟨Call.VirtualAllocEx h 1024, (none : Option Nat)⟩ : Event)] ∧ done = false) ∨
  ∃ remoteMem : Nat,
    (t = [(⟨Call.VirtualAllocEx h 1024, some remoteMem⟩ : Event),
          (⟨Call.WriteProcessMemory h remoteMem [0xCC], false⟩ : Event),
          (⟨Call.VirtualFreeEx h remoteMem, ()⟩ : Event)] ∧ done = false) ∨
    (t = [(⟨Call.VirtualAllocEx h 1024, some remoteMem⟩ : Event),
          (⟨Call.WriteProcessMemory h remoteMem [0xCC], true⟩ : Event),
          (⟨Call.CreateRemoteThread h remoteMem, (none : Option Handle)⟩ : Event),
          (⟨Call.VirtualFreeEx h remoteMem, ()⟩ : Event)] ∧ done = false) ∨
    ∃ (hThread : Handle) (r : Nat),
      t = [(⟨Call.VirtualAllocEx h 1024, some remoteMem⟩ : Event),
           (⟨Call.WriteProcessMemory h remoteMem [0xCC], true⟩ : Event),
           (⟨Call.CreateRemoteThread h remoteMem, some hThread⟩ : Event),
           (⟨Call.WaitForSingleObject hThread 1000, r⟩ : Event),
           (⟨Call.CloseHandle hThread, ()⟩ : Event),
           (⟨Call.VirtualFreeEx h remoteMem, ()⟩ : Event)] ∧ done = true

/-- The children of `pid` according to the answer to a process snapshot: the pids of
the entries whose parent is `pid`, in snapshot order; none when there is no snapshot. -/
def childrenListed (pid : Int) : Option (List PROCESSENTRY32W) → List Int
  | none => []
  | some entries =>
    (entries.filter (fun pe32 => decide (pe32.th32ParentProcessID = toDWORD pid))).map
      (fun pe32 => (pe32.th32ProcessID : Int))

/-- The calls that end the root of a process tree: the pid is opened with the access
rights of the tree kill and, when the open succeeds, one terminate request with exit
code 1 is made and the handle is closed.  `done` tells whether the wait was
signalled. -/
def RootKilled (pid : Int) (t : List Event) (done : Bool) : Prop :=
  (t = [(⟨Call.OpenProcess TREE_KILL_ACCESS (toDWORD pid), (none : Option Handle)⟩ : Event)] ∧
    done = false) ∨
  ∃ (hProcess : Handle) (request : List Event),
    t = (⟨Call.OpenProcess TREE_KILL_ACCESS (toDWORD pid), some hProcess⟩ : Event) ::
        request ++ [(⟨Call.CloseHandle hProcess, ()⟩ : Event)] ∧
    TerminateRequested hProcess 1 request done

/-- The calls of the process-tree kill of the pids of a list, one after the other: for
each pid the process snapshot is taken, the trees of its children are killed first, and
then the pid itself.  The list of flags tells for each pid whether its own terminate
request was followed by a signalled wait. -/
inductive ForestKilled : List Int → List Event → List Bool → Prop
  | nil : ForestKilled [] [] []
  | cons (pid : Int) (rest : List Int) (snapshot : Option (List PROCESSENTRY32W))
      (children own siblings : List Event) (childrenDone : List Bool) (done : Bool)
      (siblingsDone : List Bool) :
      ForestKilled (childrenListed pid snapshot) children childrenDone →
      RootKilled pid own done →
      ForestKilled rest siblings siblingsDone →
      ForestKilled (pid :: rest)
        ((⟨Call.SnapshotProcesses, snapshot⟩ : Event) :: children ++ own ++ siblings)
        (done :: siblingsDone)

/-- Step 4 of the escalation: the handle `h` is closed and the process tree of `pid` is
killed; when that did not end the pid, the pid is opened once more for termination and,
if the open succeeds, one terminate request with exit code 1 is made on the fresh
handle.  `done` tells whether the pid was ended, `held` is the handle the caller holds
afterwards (the closed `h` when the tree kill succeeded). -/
def TreeKilledOrRetried (pid : Int) (h : Handle) (t : List Event) (done : Bool)
    (held : Option Handle) : Prop :=
  ∃ (tree : List Event) (treeDone : Bool),
    ForestKilled [pid] tree [treeDone] ∧
    ((treeDone = true ∧ t = (⟨Call.CloseHandle h, ()⟩ : Event) :: tree ∧
        done = true ∧ held = some h) ∨
     (treeDone = false ∧
        t = (⟨Call.CloseHandle h, ()⟩ : Event) :: tree ++
          [(⟨Call.OpenProcess PROCESS_TERMINATE (toDWORD pid), (none : Option Handle)⟩ : Event)] ∧
        done = false ∧ held = none) ∨
     (treeDone = false ∧ ∃ (hFresh : Handle) (request : List Event),
        t = (⟨Call.CloseHandle h, ()⟩ : Event) :: tree ++
          (⟨Call.OpenProcess PROCESS_TERMINATE (toDWORD pid), some hFresh⟩ : Event) :: request ∧
        TerminateRequested hFresh 1 request done ∧ held = some hFresh))

/-- Step 5 of the escalation: the string "CRASH" is written at the base addresses of
the list in turn; each write that is accepted is followed by a terminate request with
exit code 1, and the step stops at the first signalled wait.  `done` tells whether
there was one. -/
inductive MemoryCorrupted (h : Handle) : List Nat → List Event → Bool → Prop
  | exhausted : MemoryCorrupted h [] [] false
  | unwritable (baseAddr : Nat) (rest : List Nat) (t : List Event) (done : Bool) :
      MemoryCorrupted h rest t done →
      MemoryCorrupted h (baseAddr :: rest)
        ((⟨Call.WriteProcessMemory h baseAddr [67, 82, 65, 83, 72], false⟩ : Event) :: t) done
  | succeeded (baseAddr : Nat) (rest : List Nat) (request : List Event) :
      TerminateRequested h 1 request true →
      MemoryCorrupted h (baseAddr :: rest)
        ((⟨Call.WriteProcessMemory h baseAddr [67, 82, 65, 83, 72], true⟩ : Event) :: request)
        true
  | failed (baseAddr : Nat) (rest : List Nat) (request t : List Event) (done : Bool) :
      TerminateRequested h 1 request false → MemoryCorrupted h rest t done →
      MemoryCorrupted h (baseAddr :: rest)
        ((⟨Call.WriteProcessMemory h baseAddr [67, 82, 65, 83, 72], true⟩ : Event) ::
          request ++ t) done

/-- The calls `t` that `terminateProcess` makes on the opened handle `h` of `pid`, in
the order of the source, and the value of the `terminated` flag at the end.  Step 1
(thread suspension and termination) and step 2 (terminate requests with the exit codes
1, 0, -1, 0xDEAD, 0xBEEF as `UINT`) always run, in this order.  Step 3 (fault
injection) runs only if step 2 did not set the flag, step 4 (process-tree kill and
retry) only if step 3 did not either, and step 5 (memory corruption, on the handle of
the retry) only if step 4 did not and its retry obtained a handle.  The last call
closes the handle that is held. -/
def Escalated (pid : Int) (h : Handle) (t : List Event) (terminated : Bool) : Prop :=
  ∃ (t1 t2 : List Event) (done2 : Bool),
    ThreadsSuspended h t1 ∧
    TerminateRequests h [1, 0, 4294967295, 0xDEAD, 0xBEEF] t2 done2 ∧
    ((done2 = true ∧ terminated = true ∧
        t = t1 ++ t2 ++ [(⟨Call.CloseHandle h, ()⟩ : Event)]) ∨
     (done2 = false ∧ ∃ (t3 : List Event) (done3 : Bool),
        FaultInjected h t3 done3 ∧
        ((done3 = true ∧ terminated = true ∧
            t = t1 ++ t2 ++ t3 ++ [(⟨Call.CloseHandle h, ()⟩ : Event)]) ∨
         (done3 = false ∧ ∃ (t4 : List Event) (done4 : Bool) (held : Option Handle),
            TreeKilledOrRetried pid h t4 done4 held ∧
            ((done4 = true ∧ terminated = true ∧ ∃ hHeld, held = some hHeld ∧
                t = t1 ++ t2 ++ t3 ++ t4 ++ [(⟨Call.CloseHandle hHeld, ()⟩ : Event)]) ∨
             (done4 = false ∧ held = none ∧ terminated = false ∧
                t = t1 ++ t2 ++ t3 ++ t4) ∨
             (done4 = false ∧ ∃ (hHeld : Handle) (t5 : List Event),
                held = some hHeld ∧
                MemoryCorrupted hHeld [0x400000, 0x1000000, 0x2000000, 0x140000000,
                  0x180000000] t5 terminated ∧
                t = t1 ++ t2 ++ t3 ++ t4 ++ t5 ++
                  [(⟨Call.CloseHandle hHeld, ()⟩ : Event)]))))))

/-- The calls of the final verification of `pid`: the pid is re-opened for query; when
the open succeeds the exit code is read and the handle is closed.  `gone` tells whether
the open was refused or an exit code other than `STILL_ACTIVE` was read. -/
def Verified (pid : Int) (t : List Event) (gone : Bool) : Prop :=
  (t = [(⟨Call.OpenProcess PROCESS_QUERY_INFORMATION (toDWORD pid),
      (none : Option Handle)⟩ : Event)] ∧ gone = true) ∨
  ∃ verifyHandle : Handle,
    (t = [(⟨Call.OpenProcess PROCESS_QUERY_INFORMATION (toDWORD pid), some verifyHandle⟩ : Event),
          (⟨Call.GetExitCodeProcess verifyHandle, (none : Option Nat)⟩ : Event),
          (⟨Call.CloseHandle verifyHandle, ()⟩ : Event)] ∧ gone = false) ∨
    ∃ exitCode : Nat,
      t = [(⟨Call.OpenProcess PROCESS_QUERY_INFORMATION (toDWORD pid), some verifyHandle⟩ : Event),
           (⟨Call.GetExitCodeProcess verifyHandle, some exitCode⟩ : Event),
           (⟨Call.CloseHandle verifyHandle, ()⟩ : Event)] ∧
      gone = decide (exitCode ≠ STILL_ACTIVE)

/-- What follows the escalation in `terminateProcess`: when the `terminated` flag is
set, the final verification, after which the call returns true if it found the pid
gone; in every other case `forceTerminateProcess`, which starts by opening the pid
with the full access mask.  `result` is the value returned when it is decided here. -/
def Concluded (pid : Int) (terminated : Bool) (t : List Event) (result : Bool) : Prop :=
  (terminated = true ∧ ∃ (verification : List Event) (gone : Bool),
    Verified pid verification gone ∧
    ((gone = true ∧ t = verification ∧ result = true) ∨
     (gone = false ∧ ∃ a rest,
        t = verification ++
          (⟨Call.OpenProcess FULL_TERMINATE_ACCESS (toDWORD pid), a⟩ : Event) :: rest))) ∨
  (terminated = false ∧ ∃ a rest,
    t = (⟨Call.OpenProcess FULL_TERMINATE_ACCESS (toDWORD pid), a⟩ : Event) :: rest)


/-- The calls of `enableDebugPrivilege`: the process token is opened; when that
succeeds the privilege value is looked up; when that succeeds the token privileges are
adjusted; the token is closed whenever it was opened; and the error code is read when
the adjustment was accepted. -/
def PrivilegeEnabled (t : List Event) : Prop :=
  t = [(⟨Call.OpenProcessToken, (none : Option Handle)⟩ : Event)] ∨
  ∃ hToken : Handle,
    t = [(⟨Call.OpenProcessToken, some hToken⟩ : Event),
         (⟨Call.LookupPrivilegeValue, false⟩ : Event),
         (⟨Call.CloseHandle hToken, ()⟩ : Event)] ∨
    t = [(⟨Call.OpenProcessToken, some hToken⟩ : Event),
         (⟨Call.LookupPrivilegeValue, true⟩ : Event),
         (⟨Call.AdjustTokenPrivileges hToken, false⟩ : Event),
         (⟨Call.CloseHandle hToken, ()⟩ : Event)] ∨
    ∃ err : Nat,
      t = [(⟨Call.OpenProcessToken, some hToken⟩ : Event),
           (⟨Call.LookupPrivilegeValue, true⟩ : Event),
           (⟨Call.AdjustTokenPrivileges hToken, true⟩ : Event),
           (⟨Call.CloseHandle hToken, ()⟩ : Event),
           (⟨Call.GetLastError, err⟩ : Event)]

/-- The two opens at the start of `terminateProcess` were both refused: the open with
the full access mask, the open with `PROCESS_TERMINATE`, and the reading of the error
code for the warning. -/
def OpensRefused (pid : Int) (t : List Event) : Prop :=
  ∃ err : Nat,
    t = [(⟨Call.OpenProcess FULL_TERMINATE_ACCESS (toDWORD pid), (none : Option Handle)⟩ : Event),
         (⟨Call.OpenProcess PROCESS_TERMINATE (toDWORD pid), (none : Option Handle)⟩ : Event),
         (⟨Call.GetLastError, err⟩ : Event)]

/-- The opens at the start of `terminateProcess` gave the handle `h`: the open with the
full access mask succeeded, or it was refused and the open with `PROCESS_TERMINATE`
succeeded. -/
def Opened (pid : Int) (h : Handle) (t : List Event) : Prop :=
  t = [(⟨Call.OpenProcess FULL_TERMINATE_ACCESS (toDWORD pid), some h⟩ : Event)] ∨
  t = [(⟨Call.OpenProcess FULL_TERMINATE_ACCESS (toDWORD pid), (none : Option Handle)⟩ : Event),
       (⟨Call.OpenProcess PROCESS_TERMINATE (toDWORD pid), some h⟩ : Event)]

/-! ## Concrete inputs -/

/-- A protected process 7 (it can be opened, but refuses terminate requests and remote
writes) with one child 8. -/
def guardedTree : SimState :=
  [{ pid := 7, parent := 1, name := "guarded.exe", killable := false, writable := false },
   { pid := 8, parent := 7, name := "child.exe" }]

/-- An ordinary process 7 with two threads and one child 8. -/
def plainTree : SimState :=
  [{ pid := 7, parent := 1, name := "app.exe", threads := [70, 71] },
   { pid := 8, parent := 7, name := "child.exe" }]

/-- A registry holding the pids 7 and 8, with bookkeeping for pid 7. -/
def registry78 : SystemInfo :=
  { processList := [mkProcess 7 "app.exe" .Application 0 1000,
                    mkProcess 8 "child.exe" .Application 0 1000],
    processCpuTimesMap := [(7, {}), (8, {})],
    originalPriorities := [(7, 32)],
    throttledProcesses := [7] }

/-- A registry holding pid 8 only. -/
def registry8 : SystemInfo :=
  { processList := [mkProcess 8 "child.exe" .Application 0 1000] }

/-- The simulated operating system after the pid `gone` has exited for good: it can
no longer be opened, in any state. -/
def simOSWithout (gone : Nat) : OS SimState
  | .OpenProcess access pid, st => if pid = gone then (none, st) else simOS (.OpenProcess access pid) st
  | c, st => simOS c st

/-- The simulated operating system granting every `OpenProcess`, also for a pid that
is not live. -/
def simOSGranting : OS SimState
  | .OpenProcess _ pid, st => (some pid, st)
  | c, st => simOS c st

/-- A process 7 that accepts remote writes and remote threads but survives them and
refuses terminate requests. -/
def stubbornProcess : SimState :=
  [{ pid := 7, parent := 1, name := "stubborn.exe", killable := false, writable := true }]

/-- A protected process 7 whose snapshot entry names itself as its parent. -/
def selfParent : SimState :=
  [{ pid := 7, parent := 7, name := "loop.exe", killable := false, writable := false }]

/-- A parent cycle produced by pid reuse: the protected process 100 was started by
process 200, whose own (exited) parent had pid 100. -/
def pidReuseCycle : SimState :=
  [{ pid := 100, parent := 200, name := "guarded.exe", killable := false, writable := false },
   { pid := 200, parent := 100, name := "launcher.exe" }]

/-- The registry of the scenario of the specification: pid 10 (System, "core.sys"),
pid 20 (Background, 1 % CPU, 50 MB) and pid 30 (Application, 15 % CPU, 300 MB).  The
scenario gives no usage for pid 10; it is a parameter. -/
def scenarioRegistry (cpu10 : Double) (mem10 : Int) : SystemInfo :=
  { processList := [mkProcess 10 "core.sys" .System cpu10 mem10,
                    mkProcess 20 "service.exe" .Background 1 (50 * 1024),
                    mkProcess 30 "app.exe" .Application 15 (300 * 1024)] }

/-- A registry with a record exactly at both thresholds of `getHighResourceProcesses`
followed by a record just above the memory threshold. -/
def thresholdRegistry : SystemInfo :=
  { processList := [mkProcess 40 "edge.exe" .Application 10 204800,
                    mkProcess 41 "big.exe" .Application 0 204801] }

/-- A registry with a Background process, a busy application and a system process,
efficiency mode disabled. -/
def efficiencyRegistry : SystemInfo :=
  { processList := [mkProcess 20 "service.exe" .Background 1 (50 * 1024),
                    mkProcess 30 "app.exe" .Application 15 (300 * 1024),
                    mkProcess 10 "core.sys" .System 50 (900 * 1024)] }

/-- The processes of `efficiencyRegistry` with their priority classes. -/
def efficiencyProcs : SimState :=
  [{ pid := 10, parent := 0, name := "core.sys", priority := 0x80 },
   { pid := 20, parent := 10, name := "service.exe", priority := 0x20 },
   { pid := 30, parent := 10, name := "app.exe", priority := 0x8000 }]

/-- A registry with two Background services, efficiency mode disabled. -/
def servicesRegistry : SystemInfo :=
  { processList := [mkProcess 21 "updater.exe" .Background 0 (10 * 1024),
                    mkProcess 22 "indexer.exe" .Background 0 (10 * 1024)] }

/-- The processes of `servicesRegistry`: pid 21 runs at `IDLE_PRIORITY_CLASS` and pid 22
at `HIGH_PRIORITY_CLASS`. -/
def servicesProcs : SimState :=
  [{ pid := 21, parent := 1, name := "updater.exe", priority := 0x40 },
   { pid := 22, parent := 1, name := "indexer.exe", priority := 0x80 }]

/-- A registry with a record exactly at both thresholds of the efficiency controller
(5 % CPU, 102400 KB) followed by a record just above both. -/
def boundaryRegistry : SystemInfo :=
  { processList := [mkProcess 50 "edge.exe" .Application 5 102400,
                    mkProcess 51 "busy.exe" .Application 6 102401] }

/-- The processes of `boundaryRegistry`. -/
def boundaryProcs : SimState :=
  [{ pid := 50, parent := 1, name := "edge.exe" },
   { pid := 51, parent := 1, name := "busy.exe" }]

/-- A script with one process, pid 7.  Between two ticks one second passes and the
system times advance by 2000 units; the process uses 1000 units between the first and
the second tick and 200 units between the second and the third, and reads 1 MiB and
then 2 MiB. -/
def steadyLoad : Nat → Reading
  | 0 => ⟨[], 0, 0, 1000⟩
  | 1 => ⟨[{ pid := 7, parent := 1, name := "app.exe", kernelTime := 10, userTime := 10 }],
      1000, 1000, 2000⟩
  | 2 => ⟨[{ pid := 7, parent := 1, name := "app.exe", kernelTime := 510, userTime := 510,
             readBytes := 1048576 }], 2000, 2000, 3000⟩
  | _ => ⟨[{ pid := 7, parent := 1, name := "app.exe", kernelTime := 610, userTime := 610,
             readBytes := 3145728 }], 3000, 3000, 4000⟩

/-- A script with one process, pid 7, in which the system times do not advance between
the first and the second tick while the process accumulates 10 units of CPU time. -/
def stalledSystemTimes : Nat → Reading
  | 0 => ⟨[], 0, 0, 1000⟩
  | 1 => ⟨[{ pid := 7, parent := 1, name := "app.exe", kernelTime := 5, userTime := 5 }],
      1000, 1000, 2000⟩
  | _ => ⟨[{ pid := 7, parent := 1, name := "app.exe", kernelTime := 10, userTime := 10 }],
      1000, 1000, 3000⟩

/-- A process, pid 7, that has been running for a while when the registry first sees
it: its cumulative CPU and I/O counters are large. -/
def longRunningProcess : SimState :=
  [{ pid := 7, parent := 1, name := "app.exe", workingSet := 104857600,
     kernelTime := 123456789, userTime := 987654321, readBytes := 5000000000,
     writeBytes := 7000000000 }]

/-- The world in which a script starts: no snapshot taken, no call made. -/
def scriptWorld : World Nat := { os := 0, trace := [] }

/-- The object constructed on the simulated operating system with the processes 10, 20
and 30, after efficiency mode was enabled and one more tick has passed. -/
def enabledAndTicked : SystemInfo × World SimState :=
  updateSystemInfo simOS
    (setEfficiencyMode simOS true (constructSystemInfo simOS (simWorld efficiencyProcs)).1
      (constructSystemInfo simOS (simWorld efficiencyProcs)).2).1
    (setEfficiencyMode simOS true (constructSystemInfo simOS (simWorld efficiencyProcs)).1
      (constructSystemInfo simOS (simWorld efficiencyProcs)).2).2

/-- The object constructed on the script `stalledSystemTimes` (the constructor runs the
first tick) after the process enumeration of the second tick. -/
def stalledSecondTick : SystemInfo × World Nat :=
  updateProcessList (scriptOS stalledSystemTimes)
    (constructSystemInfo (scriptOS stalledSystemTimes) scriptWorld).1
    (constructSystemInfo (scriptOS stalledSystemTimes) scriptWorld).2

/-- The object constructed on the script `steadyLoad` (the constructor runs the first
tick) after the second tick. -/
def steadySecondTick : SystemInfo × World Nat :=
  updateSystemInfo (scriptOS steadyLoad)
    (constructSystemInfo (scriptOS steadyLoad) scriptWorld).1
    (constructSystemInfo (scriptOS steadyLoad) scriptWorld).2

/-- The simulated operating system on which the members without initialiser of a
freshly declared `ProcessInfo` hold `residue` and the pid `gone` cannot be opened. -/
def simOSResidue (residue : Indeterminate) (gone : Nat) : OS SimState
  | .UninitializedProcessInfo, st => (residue, st)
  | c, st => simOSWithout gone c st

/-- What the stack slot of `ProcessInfo proc;` holds in the run `protectedFirst`. -/
def staleSlot : Indeterminate :=
  { cpuUsage := 1, memoryUsage := 4096, diskUsage := 5 / 2, networkUsage := 3,
    startTime := 5, type := ProcessType.Background }

/-- A protected process 4 followed by an ordinary process 7. -/
def protectedFirst : SimState :=
  [{ pid := 4, parent := 0, name := "vault.exe" },
   { pid := 7, parent := 1, name := "app.exe", workingSet := 2048 }]

/-- A registry that read pid 7 at system time 2000 with 10 kernel and 10 user units,
and its disk counters (1 MiB read, nothing written) at clock 500. -/
def warmRegistry : SystemInfo :=
  { processList := [mkProcess 7 "app.exe" .Application 0 0],
    processCpuTimesMap := [(7, { lastSystemTime := 2000, lastKernelTime := 10,
                                 lastUserTime := 10 })],
    diskIoMap := [(7, { lastReadBytes := 1048576, lastWriteBytes := 0,
                        lastUpdateTime := 500 })],
    lastSystemTime := 2000 }

/-- The process 7 of `warmRegistry` later on: 510 kernel and 510 user units, 3 MiB read
and 1 MiB written. -/
def warmProcess : SimState :=
  [{ pid := 7, parent := 1, name := "app.exe", kernelTime := 510, userTime := 510,
     readBytes := 3145728, writeBytes := 1048576 }]

/-- A script in which pid 7 is enumerated by the first tick (10 kernel and 10 user
units, nothing read), is absent from the snapshot of the second tick, and is enumerated
again by the third tick with 510 + 510 units and 1 MiB read.  Pid 8 is present
throughout; the system times advance by 2000 units and the clock by one second per
tick. -/
def reappearingPid : Nat → Reading
  | 0 => ⟨[], 0, 0, 1000⟩
  | 1 => ⟨[{ pid := 7, parent := 1, name := "app.exe", kernelTime := 10, userTime := 10 },
           { pid := 8, parent := 1, name := "other.exe" }], 1000, 1000, 2000⟩
  | 2 => ⟨[{ pid := 8, parent := 1, name := "other.exe" }], 2000, 2000, 3000⟩
  | _ => ⟨[{ pid := 7, parent := 1, name := "app.exe", kernelTime := 510, userTime := 510,
             readBytes := 1048576 },
           { pid := 8, parent := 1, name := "other.exe" }], 3000, 3000, 4000⟩

/-- The object constructed on the script `reappearingPid` (the constructor runs the
first tick) after the second tick, whose snapshot does not list pid 7. -/
def reappearingSecondTick : SystemInfo × World Nat :=
  updateSystemInfo (scriptOS reappearingPid)
    (constructSystemInfo (scriptOS reappearingPid) scriptWorld).1
    (constructSystemInfo (scriptOS reappearingPid) scriptWorld).2

/-- The object of `reappearingSecondTick` after the third tick, whose snapshot lists
pid 7 again. -/
def reappearingThirdTick : SystemInfo × World Nat :=
  updateSystemInfo (scriptOS reappearingPid) reappearingSecondTick.1 reappearingSecondTick.2

/-- A process 9 that hosts a registered service and runs from outside the system
directories, and a process 11 that runs from `System32`. -/
def serviceHost : SimState :=
  [{ pid := 9, parent := 1, name := "dbserver.exe", path := "D:\\db\\dbserver.exe",
     service := true },
   { pid := 11, parent := 1, name := "notepad.exe",
     path := "C:\\Windows\\System32\\notepad.exe" }]

/-- A process 9 with a name that is not in the table of known processes. -/
def hiddenProcess : SimState :=
  [{ pid := 9, parent := 1, name := "ghost.exe", path := "D:\\tmp\\ghost.exe" }]

/-- The object and the world after `setEfficiencyMode(true)` on `efficiencyRegistry` and
`efficiencyProcs`. -/
def efficiencyEnabled : SystemInfo × World SimState :=
  setEfficiencyMode simOS true efficiencyRegistry (simWorld efficiencyProcs)

/-- The simulated operating system in which the pid `guarded` can be opened for query
only: every `OpenProcess` on it with another access mask is refused. -/
def simOSQueryOnly (guarded : Nat) : OS SimState
  | .OpenProcess access pid, st =>
    if pid = guarded ∧ access ≠ PROCESS_QUERY_INFORMATION then (none, st)
    else simOS (.OpenProcess access pid) st
  | c, st => simOS c st

section Lemmas

variable {σ : Type}

theorem sys_eq_iff (os : OS σ) (c : Call) (w w1 : World σ) (r : c.Ret) :
    sys os c w = (r, w1) ↔
      (os c w.os).1 = r ∧ w1 = { os := (os c w.os).2, trace := w.trace ++ [⟨c, r⟩] } := by
  unfold sys
  constructor
  · intro h
    have h1 := congrArg Prod.fst h
    have h2 := congrArg Prod.snd h
    simp only at h1 h2
    subst h1
    exact ⟨rfl, h2.symm⟩
  · rintro ⟨rfl, rfl⟩
    rfl

theorem finalVerification_true (os : OS σ) (pid : Int) (w : World σ)
    (h : (finalVerification os pid w).1 = true) :
    VerifiedGone pid (finalVerification os pid w).2.trace := by
  unfold finalVerification at h ⊢
  split at h
  · rename_i w1 ho
    rw [sys_eq_iff] at ho
    obtain ⟨-, rfl⟩ := ho
    exact Or.inl ⟨w.trace, rfl⟩
  · rename_i verifyHandle w1 ho
    rw [sys_eq_iff] at ho
    obtain ⟨-, rfl⟩ := ho
    split at h
    · rename_i exitCode w2 hx
      rw [sys_eq_iff] at hx
      obtain ⟨-, rfl⟩ := hx
      split at h
      · rename_i hne
        refine Or.inr ⟨w.trace, verifyHandle, exitCode, hne, ?_⟩
        simp [sys, hne]
      · simp at h
    · simp at h

theorem forceTerminateProcess_false_frame (os : OS σ) (pid : Int) (s : SystemInfo)
    (w : World σ) (h : (forceTerminateProcess os pid s w).1 = false) :
    (forceTerminateProcess os pid s w).2.1 = s := by
  unfold forceTerminateProcess at h ⊢
  split at h
  · simp_all
  · simp only at h ⊢
    split at h
    · split at h
      · simp at h
      · simp_all
    · simp_all

theorem forceTerminateProcess_true (os : OS σ) (pid : Int) (s : SystemInfo) (w : World σ)
    (h : (forceTerminateProcess os pid s w).1 = true) :
    (forceTerminateProcess os pid s w).2.1 = removeProcessFromList s pid ∧
      VerifiedGone pid (forceTerminateProcess os pid s w).2.2.trace := by
  unfold forceTerminateProcess at h ⊢
  split at h
  · simp at h
  · simp only at h ⊢
    split at h
    · rename_i ht
      split at h
      · rename_i w3 hv
        simp only [ht, if_true, hv]
        have := finalVerification_true os pid _ (by rw [hv])
        rw [hv] at this
        exact ⟨trivial, this⟩
      · simp at h
    · simp at h

theorem terminateProcess_true (os : OS σ) (fuel : Nat) (pid : Int) (s : SystemInfo)
    (w : World σ) (r : Bool × SystemInfo × World σ)
    (h : terminateProcess os fuel pid s w = some r) (ht : r.1 = true) :
    r.2.1 = removeProcessFromList s pid ∧ VerifiedGone pid r.2.2.trace := by
  unfold terminateProcess at h
  split at h
  · simp at h; subst h; simp at ht
  · split at h
    · simp at h
    · simp at h; subst h
      exact forceTerminateProcess_true os pid s _ ht
    · split at h
      · rename_i w3 w4 hv
        simp at h; subst h
        have := finalVerification_true os pid _ (by rw [hv])
        rw [hv] at this
        exact ⟨rfl, this⟩
      · simp at h; subst h
        exact forceTerminateProcess_true os pid s _ ht

theorem removeFirstWithPid_eq_filter (l : List ProcessInfo) (pid : Int)
    (hd : (l.map (fun p => p.pid)).Nodup) :
    removeFirstWithPid l pid = l.filter (fun p => decide (p.pid ≠ pid)) := by
  induction l with
  | nil => rfl
  | cons p rest ih =>
    simp only [List.map_cons, List.nodup_cons] at hd
    unfold removeFirstWithPid
    by_cases hp : p.pid = pid
    · subst hp
      simp only [if_true, List.filter_cons, ne_eq, not_true_eq_false, decide_False,
        Bool.false_eq_true, if_false]
      symm
      rw [List.filter_eq_self]
      intro q hq
      have : q.pid ≠ p.pid := by
        intro he
        exact hd.1 (he ▸ List.mem_map_of_mem (fun p => p.pid) hq)
      simpa using this
    · simp [hp, ih hd.2]

theorem Extends.same (Q : Event → Bool) (w : World σ) : Extends Q w w :=
  ⟨[], by simp, by simp⟩

theorem Extends.append {Q : Event → Bool} {w w1 w2 : World σ}
    (h1 : Extends Q w w1) (h2 : Extends Q w1 w2) : Extends Q w w2 := by
  obtain ⟨t1, e1, q1⟩ := h1
  obtain ⟨t2, e2, q2⟩ := h2
  refine ⟨t1 ++ t2, by rw [e2, e1, List.append_assoc], ?_⟩
  intro e he
  rcases List.mem_append.1 he with h | h
  · exact q1 e h
  · exact q2 e h

theorem Extends.sys {Q : Event → Bool} {w w1 : World σ} (os : OS σ) (c : Call)
    (h : Extends Q w w1) (hc : Q ⟨c, (os c w1.os).1⟩ = true) :
    Extends Q w (sys os c w1).2 := by
  refine h.append ⟨[⟨c, (os c w1.os).1⟩], rfl, ?_⟩
  intro e he
  rw [List.mem_singleton] at he
  subst he
  exact hc

theorem Extends.mono {Q R : Event → Bool} {w w1 : World σ} (h : Extends Q w w1)
    (hQR : ∀ e, Q e = true → R e = true) : Extends R w w1 := by
  obtain ⟨t, e, q⟩ := h
  exact ⟨t, e, fun x hx => hQR _ (q x hx)⟩

theorem snd_of_eq {α β : Type} {x : α × β} {a : α} {b : β} (h : x = (a, b)) : b = x.2 := by
  subst h; rfl

theorem enableDebugPrivilege_extends (os : OS σ) (Q : Event → Bool) {w0 w : World σ}
    (hQ : ∀ e : Event, e.1.isTerminationAction = false → Q e = true)
    (h : Extends Q w0 w) : Extends Q w0 (enableDebugPrivilege os w).2 := by
  unfold enableDebugPrivilege
  split
  · rename_i h1; rw [snd_of_eq h1]; exact h.sys os _ (hQ _ (by rfl))
  · rename_i h1; rw [snd_of_eq h1]
    split
    · rename_i h2; rw [snd_of_eq h2]
      exact ((h.sys os _ (hQ _ (by rfl))).sys os _ (hQ _ (by rfl))).sys os _ (hQ _ (by rfl))
    · rename_i h2; rw [snd_of_eq h2]
      simp only
      split
      · exact ((((h.sys os _ (hQ _ (by rfl))).sys os _ (hQ _ (by rfl))).sys os _
          (hQ _ (by rfl))).sys os _ (hQ _ (by rfl))).sys os _ (hQ _ (by rfl))
      · exact (((h.sys os _ (hQ _ (by rfl))).sys os _ (hQ _ (by rfl))).sys os _
          (hQ _ (by rfl))).sys os _ (hQ _ (by rfl))

theorem openForTermination_extends (os : OS σ) (Q : Event → Bool) (pid : Int) {w0 w : World σ}
    (hQ : ∀ e : Event, e.1.isTerminationAction = false → Q e = true)
    (h : Extends Q w0 w) : Extends Q w0 (openForTermination os pid w).2 := by
  unfold openForTermination
  split
  · rename_i h1; rw [snd_of_eq h1]; exact h.sys os _ (hQ _ (by rfl))
  · rename_i h1; rw [snd_of_eq h1]; exact (h.sys os _ (hQ _ (by rfl))).sys os _ (hQ _ (by rfl))

theorem terminateAndWait_extends (os : OS σ) (Q : Event → Bool) (hP : Handle) (code : Nat)
    {w0 w : World σ} (hQ : ∀ e : Event, e.1.isTerminateRequest hP = true → Q e = true)
    (h : Extends Q w0 w) : Extends Q w0 (terminateAndWait os hP code w).2 := by
  unfold terminateAndWait
  split
  · rename_i h1; rw [snd_of_eq h1]
    exact h.sys os _ (hQ _ (by simp [Call.isTerminateRequest]))
  · rename_i h1; rw [snd_of_eq h1]
    exact (h.sys os _ (hQ _ (by simp [Call.isTerminateRequest]))).sys os _
      (hQ _ (by simp [Call.isTerminateRequest]))

theorem terminateWithExitCodes_extends (os : OS σ) (Q : Event → Bool) (hP : Handle)
    (codes : List Int) {w0 w : World σ}
    (hQ : ∀ e : Event, e.1.isTerminateRequest hP = true → Q e = true)
    (h : Extends Q w0 w) : Extends Q w0 (terminateWithExitCodes os hP codes w).2 := by
  induction codes generalizing w with
  | nil => exact h
  | cons code rest ih =>
    unfold terminateWithExitCodes
    have h1 := terminateAndWait_extends os Q hP (toDWORD code) hQ h
    split
    · rename_i he; rw [snd_of_eq he]; exact h1
    · rename_i he; rw [snd_of_eq he]; exact ih h1

theorem suspendAndTerminateThreads_extends (os : OS σ) (processId : Nat)
    (entries : List THREADENTRY32) {w0 w : World σ}
    (h : Extends (fun e => e.1.isThreadStep) w0 w) :
    Extends (fun e => e.1.isThreadStep) w0 (suspendAndTerminateThreads os processId entries w) := by
  induction entries generalizing w with
  | nil => exact h
  | cons te32 rest ih =>
    unfold suspendAndTerminateThreads
    split
    · split
      · rename_i he; rw [snd_of_eq he]
        exact ih ((((h.sys os _ (by rfl)).sys os _ (by rfl)).sys os _ (by rfl)).sys os _ (by rfl))
      · rename_i he; rw [snd_of_eq he]
        exact ih (h.sys os _ (by rfl))
    · exact ih h

theorem suspendThreadsFirst_extends (os : OS σ) (hP : Handle) {w0 w : World σ}
    (h : Extends (fun e => e.1.isThreadStep) w0 w) :
    Extends (fun e => e.1.isThreadStep) w0 (suspendThreadsFirst os hP w) := by
  unfold suspendThreadsFirst
  simp only
  split
  · rename_i he; rw [snd_of_eq he]; exact (h.sys os _ (by rfl)).sys os _ (by rfl)
  · rename_i he; rw [snd_of_eq he]
    exact suspendAndTerminateThreads_extends os _ _ ((h.sys os _ (by rfl)).sys os _ (by rfl))

theorem injectCrash_extends (os : OS σ) (Q : Event → Bool) (hP : Handle) {w0 w : World σ}
    (hQ : ∀ e : Event, e.1.isFaultInjection = true → Q e = true)
    (h : Extends Q w0 w) : Extends Q w0 (injectCrash os hP w).2 := by
  unfold injectCrash
  split
  · rename_i h1; rw [snd_of_eq h1]; exact h.sys os _ (hQ _ (by rfl))
  · rename_i h1; rw [snd_of_eq h1]
    split
    · rename_i h2; rw [snd_of_eq h2]
      exact ((h.sys os _ (hQ _ (by rfl))).sys os _ (hQ _ (by rfl))).sys os _ (hQ _ (by rfl))
    · rename_i h2; rw [snd_of_eq h2]
      split
      · rename_i h3; rw [snd_of_eq h3]
        exact (((h.sys os _ (hQ _ (by rfl))).sys os _ (hQ _ (by rfl))).sys os _
          (hQ _ (by rfl))).sys os _ (hQ _ (by rfl))
      · rename_i h3; rw [snd_of_eq h3]
        exact (((((h.sys os _ (hQ _ (by rfl))).sys os _ (hQ _ (by rfl))).sys os _
          (hQ _ (by rfl))).sys os _ (hQ _ (by rfl))).sys os _ (hQ _ (by rfl))).sys os _
          (hQ _ (by rfl))

theorem corruptMemory_extends (os : OS σ) (Q : Event → Bool) (hP : Handle)
    (addrs : List Nat) {w0 w : World σ}
    (hQ : ∀ e : Event, e.1.isMemoryCorruption = true → Q e = true)
    (h : Extends Q w0 w) : Extends Q w0 (corruptMemory os hP addrs w).2 := by
  have hT : ∀ e : Event, e.1.isTerminateRequest hP = true → Q e = true := by
    intro e hc
    apply hQ
    rcases e with ⟨c, r⟩
    cases c <;> first | rfl | (simp [Call.isTerminateRequest] at hc)
  induction addrs generalizing w with
  | nil => exact h
  | cons a rest ih =>
    unfold corruptMemory
    split
    · rename_i h1; rw [snd_of_eq h1]; exact ih (h.sys os _ (hQ _ (by rfl)))
    · rename_i h1; rw [snd_of_eq h1]
      have h2 := terminateAndWait_extends os Q hP 1 hT
        (h.sys os (.WriteProcessMemory hP a crashBytes) (hQ _ (by rfl)))
      split
      · rename_i h3; rw [snd_of_eq h3]; exact h2
      · rename_i h3; rw [snd_of_eq h3]; exact ih h2

theorem getChildProcesses_extends (os : OS σ) (Q : Event → Bool) (pid : Int) {w0 w : World σ}
    (hQ : ∀ e : Event, e.1.isTreeKill = true → Q e = true)
    (h : Extends Q w0 w) : Extends Q w0 (getChildProcesses os pid w).2 := by
  unfold getChildProcesses
  split
  · rename_i h1; rw [snd_of_eq h1]; exact h.sys os _ (hQ _ (by rfl))
  · rename_i h1; rw [snd_of_eq h1]; exact h.sys os _ (hQ _ (by rfl))

theorem killProcessTree_extends (os : OS σ) (Q : Event → Bool)
    (hQ : ∀ e : Event, e.1.isTreeKill = true → Q e = true) (fuel : Nat) :
    ∀ (pid : Int) (w0 w : World σ) (r : Bool × World σ),
      killProcessTree os fuel pid w = some r → Extends Q w0 w → Extends Q w0 r.2 := by
  induction fuel with
  | zero => intro pid w0 w r hr; simp [killProcessTree] at hr
  | succ fuel ih =>
    intro pid w0 w r hr h
    have hfold : ∀ (children : List Int) (wa wb : World σ),
        children.foldlM (fun (w : World σ) (childPid : Int) =>
          (killProcessTree os fuel childPid w).map Prod.snd) wa = some wb →
        Extends Q w0 wa → Extends Q w0 wb := by
      intro children
      induction children with
      | nil => intro wa wb hf ha; simp at hf; subst hf; exact ha
      | cons c rest ihc =>
        intro wa wb hf ha
        rw [List.foldlM_cons] at hf
        cases hk : killProcessTree os fuel c wa with
        | none => simp [hk] at hf
        | some rc =>
          simp [hk] at hf
          exact ihc _ _ hf (ih c w0 wa rc hk ha)
    have hT : ∀ hP, ∀ e : Event, e.1.isTerminateRequest hP = true → Q e = true := by
      intro hP e hc
      apply hQ
      rcases e with ⟨c, r⟩
      cases c <;> first | rfl | (simp [Call.isTerminateRequest] at hc)
    unfold killProcessTree at hr
    simp only at hr
    split at hr
    · simp at hr
    · rename_i w2 hf
      have h2 := hfold _ _ _ hf (getChildProcesses_extends os Q pid hQ h)
      split at hr
      · rename_i h1
        simp at hr; subst hr
        rw [snd_of_eq h1]; exact h2.sys os _ (hQ _ (by rfl))
      · rename_i hP w3 h1
        simp at hr; subst hr
        rw [snd_of_eq h1]
        exact (terminateAndWait_extends os Q hP 1 (hT hP) (h2.sys os _ (hQ _ (by rfl)))).sys os _
          (hQ _ (by rfl))

theorem forceTerminateProcess_registry_blind (os : OS σ) (pid : Int) (s s2 : SystemInfo)
    (w : World σ) :
    (forceTerminateProcess os pid s w).1 = (forceTerminateProcess os pid s2 w).1 ∧
    (forceTerminateProcess os pid s w).2.2 = (forceTerminateProcess os pid s2 w).2.2 := by
  unfold forceTerminateProcess
  rcases sys os (.OpenProcess FULL_TERMINATE_ACCESS (toDWORD pid)) w with ⟨_ | hP, w1⟩
  · simp
  · simp only
    rcases forceMethods os hP w1 with ⟨t, w2⟩
    rcases finalVerification os pid (sys os (.CloseHandle hP) w2).2 with ⟨b, w3⟩
    cases t <;> cases b <;> simp

theorem terminateProcess_registry_blind (os : OS σ) (fuel : Nat) (pid : Int)
    (s s2 : SystemInfo) (w : World σ) :
    (terminateProcess os fuel pid s w).map (fun r => (r.1, r.2.2)) =
      (terminateProcess os fuel pid s2 w).map (fun r => (r.1, r.2.2)) := by
  have hf := fun w1 => forceTerminateProcess_registry_blind os pid s s2 w1
  unfold terminateProcess
  rcases openForTermination os pid (enableDebugPrivilege os w).2 with ⟨_ | hP, w1⟩
  · simp
  · simp only
    rcases escalate os fuel pid hP w1 with _ | ⟨t, w2⟩
    · simp
    · cases t
      · simp [(hf _).1, (hf _).2]
      · simp only
        rcases finalVerification os pid w2 with ⟨b, w3⟩
        cases b <;> simp [(hf _).1, (hf _).2]

theorem terminateProcess_unopenable (os : OS σ) (fuel : Nat) (pid : Int) (s : SystemInfo)
    (w : World σ)
    (hgone : ∀ access st, (os (.OpenProcess access (toDWORD pid)) st).1 = none) :
    ∃ w1, terminateProcess os fuel pid s w = some (false, s, w1) ∧
      Extends (fun e => !e.1.isTerminationAction) w w1 := by
  have hx := openForTermination_extends os (fun e => !e.1.isTerminationAction) pid
    (by intro e he; simp [he])
    (enableDebugPrivilege_extends os (fun e => !e.1.isTerminationAction)
      (by intro e he; simp [he]) (Extends.same _ w))
  have hnone : (openForTermination os pid (enableDebugPrivilege os w).2).1 = none := by
    unfold openForTermination
    split
    · rename_i hP w1 ho
      have := congrArg Prod.fst ho
      simp [sys, hgone] at this
    · simp [sys, hgone]
  unfold terminateProcess
  split
  · rename_i w1 ho
    rw [snd_of_eq ho]
    exact ⟨_, rfl, hx.sys os _ (by rfl)⟩
  · rename_i hP w1 ho
    rw [ho] at hnone
    simp at hnone

theorem Extends.true_intro {w w1 : World σ} {Q : Event → Bool} (h : Extends Q w w1) :
    Extends (fun _ => true) w w1 := h.mono (fun _ _ => rfl)

theorem terminateAndWait_false_extends (os : OS σ) (hP : Handle) (code : Nat)
    {w0 w : World σ} (hf : (terminateAndWait os hP code w).1 = false)
    (h : Extends (fun e => e.1.isTerminateRequest hP && !e.isSignalledWait) w0 w) :
    Extends (fun e => e.1.isTerminateRequest hP && !e.isSignalledWait) w0
      (terminateAndWait os hP code w).2 := by
  unfold terminateAndWait at hf ⊢
  split
  · rename_i h1; rw [snd_of_eq h1]
    exact h.sys os _ (by simp [Call.isTerminateRequest, Event.isSignalledWait])
  · rename_i h1; rw [h1] at hf
    simp only at hf
    have hne : ((os (.WaitForSingleObject hP 1000)
        (sys os (.TerminateProcess hP code) w).2.os).1 == WAIT_OBJECT_0) = false := by
      rw [← snd_of_eq h1]; simpa [sys] using hf
    rw [snd_of_eq h1]
    exact (h.sys os _ (by simp [Call.isTerminateRequest, Event.isSignalledWait])).sys os _
      (by simp [Call.isTerminateRequest, Event.isSignalledWait, hne])

theorem terminateWithExitCodes_false_extends (os : OS σ) (hP : Handle) (codes : List Int)
    {w0 w : World σ} (hf : (terminateWithExitCodes os hP codes w).1 = false)
    (h : Extends (fun e => e.1.isTerminateRequest hP && !e.isSignalledWait) w0 w) :
    Extends (fun e => e.1.isTerminateRequest hP && !e.isSignalledWait) w0
      (terminateWithExitCodes os hP codes w).2 := by
  induction codes generalizing w with
  | nil => exact h
  | cons code rest ih =>
    unfold terminateWithExitCodes at hf ⊢
    rcases hx : terminateAndWait os hP (toDWORD code) w with ⟨b, w2⟩
    rw [hx] at hf
    cases b
    · simp only at hf ⊢
      have := terminateAndWait_false_extends os hP (toDWORD code) (by rw [hx]) h
      rw [hx] at this
      exact ih hf this
    · simp at hf

theorem terminateAndWait_head (os : OS σ) (hP : Handle) (code : Nat) (w : World σ) :
    ∃ b t, (terminateAndWait os hP code w).2.trace =
      w.trace ++ (⟨.TerminateProcess hP code, b⟩ : Event) :: t := by
  unfold terminateAndWait
  split
  · rename_i h1; rw [snd_of_eq h1]; exact ⟨_, [], rfl⟩
  · rename_i h1; rw [snd_of_eq h1]
    exact ⟨(os (.TerminateProcess hP code) w.os).1,
      [⟨.WaitForSingleObject hP 1000,
        (os (.WaitForSingleObject hP 1000) (os (.TerminateProcess hP code) w.os).2).1⟩],
      by simp [sys]⟩

theorem terminateWithExitCodes_head (os : OS σ) (hP : Handle) (code : Int) (rest : List Int)
    (w : World σ) :
    ∃ b t, (terminateWithExitCodes os hP (code :: rest) w).2.trace =
      w.trace ++ (⟨.TerminateProcess hP (toDWORD code), b⟩ : Event) :: t := by
  obtain ⟨b, t, ht⟩ := terminateAndWait_head os hP (toDWORD code) w
  unfold terminateWithExitCodes
  rcases hx : terminateAndWait os hP (toDWORD code) w with ⟨f, w2⟩
  rw [hx] at ht
  cases f
  · simp only
    obtain ⟨t2, e2, -⟩ := terminateWithExitCodes_extends os (fun _ => true) hP rest
      (fun _ _ => rfl) (Extends.same _ w2)
    refine ⟨b, t ++ t2, ?_⟩
    rw [e2]; simp only at ht; rw [ht]; simp
  · exact ⟨b, t, ht⟩

theorem fst_of_eq {α β : Type} {x : α × β} {a : α} {b : β} (h : x = (a, b)) : x.1 = a := by
  subst h; rfl

theorem terminateAndWait_false_last (os : OS σ) (hP : Handle) (code : Nat) (w : World σ)
    (hf : (terminateAndWait os hP code w).1 = false) :
    ∃ t e, (terminateAndWait os hP code w).2.trace = w.trace ++ (t ++ [e]) ∧
      e.isFailedTerminate = true := by
  unfold terminateAndWait at hf ⊢
  split
  · rename_i h1
    have ha : (os (.TerminateProcess hP code) w.os).1 = false :=
      (fst_of_eq h1 : (sys os (.TerminateProcess hP code) w).1 = false)
    rw [snd_of_eq h1]
    exact ⟨[], ⟨.TerminateProcess hP code, (os (.TerminateProcess hP code) w.os).1⟩, rfl,
      by simp [Event.isFailedTerminate, ha]⟩
  · rename_i h1; rw [h1] at hf
    simp only at hf
    rw [snd_of_eq h1] at hf
    rw [snd_of_eq h1]
    refine ⟨[⟨.TerminateProcess hP code, (os (.TerminateProcess hP code) w.os).1⟩],
      ⟨.WaitForSingleObject hP 1000,
        (os (.WaitForSingleObject hP 1000) (os (.TerminateProcess hP code) w.os).2).1⟩,
      by simp [sys], ?_⟩
    simp only [Event.isFailedTerminate]
    simpa [sys] using hf

theorem injectCrash_false_extends (os : OS σ) (hP : Handle) {w0 w : World σ}
    (hf : (injectCrash os hP w).1 = false)
    (h : Extends (fun e => e.1.isFaultInjection && !e.isCreatedRemoteThread) w0 w) :
    Extends (fun e => e.1.isFaultInjection && !e.isCreatedRemoteThread) w0
      (injectCrash os hP w).2 := by
  unfold injectCrash at hf ⊢
  split
  · rename_i h1; rw [snd_of_eq h1]
    exact h.sys os _ (by simp [Call.isFaultInjection, Event.isCreatedRemoteThread])
  · rename_i remoteMem _ h1; rw [snd_of_eq h1]
    have ha := h.sys os (.VirtualAllocEx hP 1024)
      (by simp [Call.isFaultInjection, Event.isCreatedRemoteThread])
    split
    · rename_i h2; rw [snd_of_eq h2]
      exact (ha.sys os _ (by simp [Call.isFaultInjection, Event.isCreatedRemoteThread])).sys os _
        (by simp [Call.isFaultInjection, Event.isCreatedRemoteThread])
    · rename_i h2; rw [snd_of_eq h2]
      have hb := ha.sys os (.WriteProcessMemory hP remoteMem [0xCC])
        (by simp [Call.isFaultInjection, Event.isCreatedRemoteThread])
      split
      · rename_i h3
        have h3a := fst_of_eq h3
        rw [snd_of_eq h3]
        simp only [sys] at h3a
        exact (hb.sys os (.CreateRemoteThread hP remoteMem)
          (by simp [sys, Call.isFaultInjection, Event.isCreatedRemoteThread, h3a])).sys os _
          (by simp [Call.isFaultInjection, Event.isCreatedRemoteThread])
      · rename_i h3
        rw [h1] at hf; simp only at hf; rw [snd_of_eq h1] at hf
        rw [h2] at hf; simp only at hf; rw [snd_of_eq h2] at hf
        rw [h3] at hf; simp at hf

theorem terminateAndWait_order (os : OS σ) (hP : Handle) (code : Nat) (w : World σ) :
    ∃ t, (terminateAndWait os hP code w).2.trace = w.trace ++ t ∧
      (∀ e ∈ t, e.1.isTerminateRequest hP = true) ∧
      ((terminateAndWait os hP code w).1 = false →
        ∃ e, t.getLast? = some e ∧ e.isFailedTerminate = true) := by
  obtain ⟨t, ht, hq⟩ := terminateAndWait_extends os (fun e => e.1.isTerminateRequest hP) hP code
    (fun _ he => he) (Extends.same _ w)
  refine ⟨t, ht, hq, fun hf => ?_⟩
  obtain ⟨t2, e, h2, he⟩ := terminateAndWait_false_last os hP code w hf
  rw [ht] at h2
  have := List.append_cancel_left h2
  subst this
  exact ⟨e, by simp, he⟩

theorem head_of_extends {Q : Event → Bool} (os : OS σ) (c : Call) {w wx : World σ}
    (h : Extends Q (sys os c w).2 wx) :
    ∃ a t, wx.trace = w.trace ++ (⟨c, a⟩ : Event) :: t := by
  obtain ⟨t, ht, -⟩ := h
  exact ⟨(os c w.os).1, t, by rw [ht]; simp [sys]⟩

theorem finalVerification_head (os : OS σ) (pid : Int) (w : World σ) :
    ∃ a t, (finalVerification os pid w).2.trace =
      w.trace ++ (⟨.OpenProcess PROCESS_QUERY_INFORMATION (toDWORD pid), a⟩ : Event) :: t := by
  have h := Extends.same (fun _ => true)
    (sys os (.OpenProcess PROCESS_QUERY_INFORMATION (toDWORD pid)) w).2
  refine head_of_extends os _ (?_ : Extends (fun _ => true) _ _)
  unfold finalVerification
  split
  · rename_i h1; rw [snd_of_eq h1]; exact h
  · rename_i h1; rw [snd_of_eq h1]
    split
    · rename_i h2; rw [snd_of_eq h2]
      split <;> exact (h.sys os _ rfl).sys os _ rfl
    · rename_i h2; rw [snd_of_eq h2]
      exact (h.sys os _ rfl).sys os _ rfl

theorem corruptThreadStacks_extends (os : OS σ) (hP : Handle) (entries : List THREADENTRY32)
    {w0 w : World σ} (h : Extends (fun _ => true) w0 w) :
    Extends (fun _ => true) w0 (corruptThreadStacks os hP entries w) := by
  induction entries generalizing w with
  | nil => exact h
  | cons te32 rest ih =>
    unfold corruptThreadStacks
    simp only
    split
    · split
      · rename_i h1; rw [snd_of_eq h1]
        split
        · rename_i h2; rw [snd_of_eq h2]
          exact ih (((((h.sys os _ rfl).sys os _ rfl).sys os _ rfl).sys os _ rfl).sys os _ rfl)
        · rename_i h2; rw [snd_of_eq h2]
          exact ih ((((h.sys os _ rfl).sys os _ rfl).sys os _ rfl).sys os _ rfl)
      · rename_i h1; rw [snd_of_eq h1]
        exact ih ((h.sys os _ rfl).sys os _ rfl)
    · exact ih (h.sys os _ rfl)

theorem forceTerminateProcess_head (os : OS σ) (pid : Int) (s : SystemInfo) (w : World σ) :
    ∃ a t, (forceTerminateProcess os pid s w).2.2.trace =
      w.trace ++ (⟨.OpenProcess FULL_TERMINATE_ACCESS (toDWORD pid), a⟩ : Event) :: t := by
  unfold forceTerminateProcess
  split
  · rename_i h1; rw [snd_of_eq h1]; exact ⟨_, [], rfl⟩
  · rename_i hP w1 h1
    have hm : Extends (fun _ => true) (sys os (.OpenProcess FULL_TERMINATE_ACCESS (toDWORD pid)) w).2
        (forceMethods os hP (sys os (.OpenProcess FULL_TERMINATE_ACCESS (toDWORD pid)) w).2).2 := by
      unfold forceMethods
      have hc := corruptMemory_extends os (fun _ => true) hP baseAddresses (fun _ _ => rfl)
        (Extends.same _ (sys os (.OpenProcess FULL_TERMINATE_ACCESS (toDWORD pid)) w).2)
      split
      · rename_i h2; rw [snd_of_eq h2]; exact hc
      · rename_i h2; rw [snd_of_eq h2]
        have hi := injectCrash_extends os (fun _ => true) hP (fun _ _ => rfl) hc
        split
        · rename_i h3; rw [snd_of_eq h3]; exact hi
        · rename_i h3; rw [snd_of_eq h3]
          unfold corruptStack
          split
          · rename_i h4; rw [snd_of_eq h4]; exact hi.sys os _ rfl
          · rename_i h4; rw [snd_of_eq h4]
            exact corruptThreadStacks_extends os hP _ (hi.sys os _ rfl)
    rw [snd_of_eq h1]
    have hcl := hm.sys os (.CloseHandle hP) rfl
    have key : ∀ wx : World σ,
        Extends (fun _ => true) (sys os (.OpenProcess FULL_TERMINATE_ACCESS (toDWORD pid)) w).2 wx →
        ∃ a t, wx.trace =
          w.trace ++ (⟨.OpenProcess FULL_TERMINATE_ACCESS (toDWORD pid), a⟩ : Event) :: t :=
      fun wx hx => head_of_extends os _ hx
    simp only
    split
    · obtain ⟨a, t, ht⟩ := finalVerification_head os pid
        (sys os (.CloseHandle hP) (forceMethods os hP
          (sys os (.OpenProcess FULL_TERMINATE_ACCESS (toDWORD pid)) w).2).2).2
      have hv : Extends (fun _ => true)
          (sys os (.OpenProcess FULL_TERMINATE_ACCESS (toDWORD pid)) w).2
          (finalVerification os pid (sys os (.CloseHandle hP) (forceMethods os hP
            (sys os (.OpenProcess FULL_TERMINATE_ACCESS (toDWORD pid)) w).2).2).2).2 :=
        hcl.append ⟨_, ht, fun _ _ => rfl⟩
      split
      · rename_i h5; rw [snd_of_eq h5]; exact key _ hv
      · rename_i h5; rw [snd_of_eq h5]; exact key _ hv
    · exact key _ hcl

theorem sys_close_trace (os : OS σ) (hc : Handle) (w : World σ) :
    (sys os (.CloseHandle hc) w).2.trace = w.trace ++ [(⟨Call.CloseHandle hc, ()⟩ : Event)] :=
  rfl

theorem killProcessTree_selfParent (fuel : Nat) :
    ∀ w : World SimState, w.os = selfParent → killProcessTree simOS fuel 7 w = none := by
  induction fuel with
  | zero => intro w _; rfl
  | succ fuel ih =>
    intro w hw
    obtain ⟨st, tr⟩ := w
    simp only at hw
    subst hw
    unfold killProcessTree
    have hc : getChildProcesses simOS 7 { os := selfParent, trace := tr } =
        ([7], (sys simOS .SnapshotProcesses { os := selfParent, trace := tr }).2) := rfl
    rw [hc]
    simp only [List.foldlM_cons]
    rw [ih _ rfl]
    rfl

theorem killProcessTree_pidReuseCycle (fuel : Nat) :
    ∀ w : World SimState, w.os = pidReuseCycle →
      killProcessTree simOS fuel 100 w = none ∧ killProcessTree simOS fuel 200 w = none := by
  induction fuel with
  | zero => intro w _; exact ⟨rfl, rfl⟩
  | succ fuel ih =>
    intro w hw
    obtain ⟨st, tr⟩ := w
    simp only at hw
    subst hw
    constructor
    · unfold killProcessTree
      have hc : getChildProcesses simOS 100 { os := pidReuseCycle, trace := tr } =
          ([200], (sys simOS .SnapshotProcesses { os := pidReuseCycle, trace := tr }).2) := rfl
      rw [hc]
      simp only [List.foldlM_cons]
      rw [(ih _ rfl).2]
      rfl
    · unfold killProcessTree
      have hc : getChildProcesses simOS 200 { os := pidReuseCycle, trace := tr } =
          ([100], (sys simOS .SnapshotProcesses { os := pidReuseCycle, trace := tr }).2) := rfl
      rw [hc]
      simp only [List.foldlM_cons]
      rw [(ih _ rfl).1]
      rfl

theorem terminateProcess_none_of_tree (os : OS σ) (fuel : Nat) (pid : Int) (s : SystemInfo)
    (w : World σ) (h : Handle)
    (ho : (openForTermination os pid (enableDebugPrivilege os w).2).1 = some h)
    (h2 : (terminateWithExitCodes os h exitCodes (suspendThreadsFirst os h
      (openForTermination os pid (enableDebugPrivilege os w).2).2)).1 = false)
    (h3 : (injectCrash os h (terminateWithExitCodes os h exitCodes (suspendThreadsFirst os h
      (openForTermination os pid (enableDebugPrivilege os w).2).2)).2).1 = false)
    (h4 : killProcessTree os fuel pid (sys os (.CloseHandle h)
      (injectCrash os h (terminateWithExitCodes os h exitCodes (suspendThreadsFirst os h
      (openForTermination os pid (enableDebugPrivilege os w).2).2)).2).2).2 = none) :
    terminateProcess os fuel pid s w = none := by
  unfold terminateProcess
  rcases hx : openForTermination os pid (enableDebugPrivilege os w).2 with ⟨o, w1⟩
  rw [hx] at ho h2 h3 h4
  simp only at ho h2 h3 h4
  subst ho
  simp only
  unfold escalate
  rcases hy : terminateWithExitCodes os h exitCodes (suspendThreadsFirst os h w1) with ⟨f2, w2⟩
  rw [hy] at h2 h3 h4
  simp only at h2 h3 h4
  subst h2
  simp only
  rcases hz : injectCrash os h w2 with ⟨f3, w3⟩
  rw [hz] at h3 h4
  simp only at h3 h4
  subst h3
  simp only
  unfold killTreeOrRetry
  rw [h4]

theorem foldl_append_filter {α : Type} (p : α → Prop) [DecidablePred p] (l : List α)
    (init : List α) :
    l.foldl (fun acc x => if p x then acc ++ [x] else acc) init =
      init ++ l.filter (fun x => decide (p x)) := by
  induction l generalizing init with
  | nil => simp
  | cons x rest ih =>
    simp only [List.foldl_cons, List.filter_cons]
    by_cases hx : p x
    · simp [hx, ih]
    · simp [hx, ih]

theorem storeOriginalPriority_core (os : OS σ) (pid : Int) (s : SystemInfo) (w : World σ) :
    (storeOriginalPriority os pid s w).1.core = s.core ∧
    (storeOriginalPriority os pid s w).1.throttledProcesses = s.throttledProcesses := by
  unfold storeOriginalPriority
  split
  · exact ⟨rfl, rfl⟩
  · exact ⟨rfl, rfl⟩

theorem storeOriginalPriorities_core (os : OS σ) (l : List ProcessInfo) (s : SystemInfo)
    (w : World σ) :
    (storeOriginalPriorities os l s w).1.core = s.core ∧
    (storeOriginalPriorities os l s w).1.throttledProcesses = s.throttledProcesses := by
  induction l generalizing s w with
  | nil => exact ⟨rfl, rfl⟩
  | cons p rest ih =>
    unfold storeOriginalPriorities
    have h1 := storeOriginalPriority_core os p.pid s w
    rcases hx : storeOriginalPriority os p.pid s w with ⟨s1, w1⟩
    rw [hx] at h1
    simp only at h1 ⊢
    have h2 := ih s1 w1
    exact ⟨h2.1.trans h1.1, h2.2.trans h1.2⟩

theorem optimizeBackgroundLoop_core (os : OS σ) (l : List ProcessInfo) (success : Bool)
    (s : SystemInfo) (w : World σ) :
    (optimizeBackgroundLoop os l success s w).2.1.core = s.core ∧
    (optimizeBackgroundLoop os l success s w).2.1.throttledProcesses = s.throttledProcesses := by
  induction l generalizing success s w with
  | nil => exact ⟨rfl, rfl⟩
  | cons p rest ih =>
    unfold optimizeBackgroundLoop
    split
    · have h1 := storeOriginalPriority_core os p.pid s w
      rcases hx : storeOriginalPriority os p.pid s w with ⟨s1, w1⟩
      rw [hx] at h1
      simp only at h1 ⊢
      rcases setProcessPriority os p.pid (BELOW_NORMAL_PRIORITY_CLASS : Nat) w1 with ⟨b, w2⟩
      cases b
      · simp only
        exact ⟨(ih false s1 w2).1.trans h1.1, (ih false s1 w2).2.trans h1.2⟩
      · simp only
        exact ⟨(ih success s1 w2).1.trans h1.1, (ih success s1 w2).2.trans h1.2⟩
    · exact ih success s w

theorem throttleLoop_core (os : OS σ) (l : List ProcessInfo) (success : Bool)
    (s : SystemInfo) (w : World σ) :
    (throttleLoop os l success s w).2.1.core = s.core := by
  induction l generalizing success s w with
  | nil => rfl
  | cons p rest ih =>
    unfold throttleLoop
    split
    · have h1 := storeOriginalPriority_core os p.pid s w
      rcases hx : storeOriginalPriority os p.pid s w with ⟨s1, w1⟩
      rw [hx] at h1
      simp only at h1 ⊢
      rcases setProcessPriority os p.pid (BELOW_NORMAL_PRIORITY_CLASS : Nat) w1 with ⟨b, w2⟩
      cases b
      · simp only
        exact (ih false s1 w2).trans h1.1
      · simp only
        exact (ih success _ w2).trans h1.1
    · exact ih success s w

theorem applyEfficiencyModeSettings_core (os : OS σ) (s : SystemInfo) (w : World σ) :
    (applyEfficiencyModeSettings os s w).1.core = s.core := by
  unfold applyEfficiencyModeSettings optimizeBackgroundProcesses optimizeMemoryUsage
    throttleNonEssentialProcesses
  have h1 := optimizeBackgroundLoop_core os s.processList true s w
  rcases hx : optimizeBackgroundLoop os s.processList true s w with ⟨b, s1, w1⟩
  rw [hx] at h1
  simp only at h1 ⊢
  exact (throttleLoop_core os s1.processList true s1 _).trans h1.1

theorem setEfficiencyMode_core (os : OS σ) (enabled : Bool) (s : SystemInfo) (w : World σ)
    (hne : s.efficiencyModeEnabled ≠ enabled) :
    (setEfficiencyMode os enabled s w).1.core =
      { s.core with efficiencyModeEnabled := enabled,
                    emitted := s.emitted ++ [Signal.efficiencyModeChanged enabled] } := by
  unfold setEfficiencyMode
  rw [if_neg hne]
  cases enabled
  · simp only [Bool.false_eq_true, if_false]
    rfl
  · simp only [if_true]
    have h1 := storeOriginalPriorities_core os s.processList
      { s with efficiencyModeEnabled := true } w
    rcases hx : storeOriginalPriorities os s.processList
      { s with efficiencyModeEnabled := true } w with ⟨s1, w1⟩
    rw [hx] at h1
    simp only at h1 ⊢
    have h2 := applyEfficiencyModeSettings_core os s1 w1
    rcases hy : applyEfficiencyModeSettings os s1 w1 with ⟨s2, w2⟩
    rw [hy] at h2
    simp only at h2 ⊢
    have h3 : s2.core = ({ s with efficiencyModeEnabled := true } : SystemInfo).core :=
      h2.trans h1.1
    have e1 := congrArg SystemInfo.emitted h3
    simp only [SystemInfo.core] at e1 h3 ⊢
    rw [e1]
    rcases s2 with ⟨a1, a2, a3, a4, a5, a6, a7, a8, a9, a10, a11, a12, a13, a14, a15, a16,
      a17, a18, a19, a20, a21, a22⟩
    simp only [SystemInfo.mk.injEq] at h3 ⊢
    simp_all

theorem toDWORD_toInt32 (d : Nat) (h : d < 4294967296) : toDWORD (toInt32 d) = d := by
  unfold toDWORD toInt32
  rw [Nat.mod_eq_of_lt h]
  split
  · omega
  · omega

theorem SimState.live_setPriority (st : SimState) (h v d : Nat) :
    (st.setPriority h v).live d = st.live d := by
  unfold SimState.setPriority SimState.live
  induction st with
  | nil => rfl
  | cons p rest ih =>
    simp only [List.map_cons, List.any_cons, ih]
    by_cases hp : p.pid = h <;> simp [hp]

theorem SimState.priority_of_not_live (st : SimState) (d : Nat) (h : st.live d = false) :
    st.priority d = 0 := by
  unfold SimState.priority SimState.proc
  unfold SimState.live at h
  induction st with
  | nil => rfl
  | cons p rest ih =>
    simp only [List.any_cons, Bool.or_eq_false_iff] at h
    simp only [List.find?_cons, h.1]
    exact ih h.2

theorem SimState.priority_setPriority (st : SimState) (h v d : Nat) :
    (st.setPriority h v).priority d =
      if d = h ∧ st.live h = true then v else st.priority d := by
  unfold SimState.setPriority SimState.priority SimState.proc SimState.live
  induction st with
  | nil => simp
  | cons p rest ih =>
    rw [List.map_cons, List.find?_cons, List.find?_cons, List.any_cons]
    by_cases hd : p.pid = d
    · subst hd
      by_cases hp : p.pid = h
      · simp [hp]
      · simp [hp]
    · have h1 : ((if p.pid = h then { p with priority := v } else p).pid == d) = false := by
        by_cases hp : p.pid = h <;> simp [hp, hd]
        intro e; exact hd (hp.trans e)
      have h2 : (p.pid == d) = false := by simpa using hd
      rw [h1, h2]
      simp only
      rw [ih]
      by_cases hdh : d = h
      · subst hdh
        simp [hd]
      · simp [hdh]

theorem QMap.mem_insert {V : Type} (m : QMap V) (k : Int) (v : V) (e : Int × V)
    (h : e ∈ QMap.insert m k v) : e = (k, v) ∨ e ∈ m := by
  induction m with
  | nil => simpa [QMap.insert] using h
  | cons x rest ih =>
    unfold QMap.insert at h
    split at h
    · rcases List.mem_cons.1 h with h1 | h1
      · exact Or.inl h1
      · exact Or.inr h1
    · split at h
      · rcases List.mem_cons.1 h with h1 | h1
        · exact Or.inl h1
        · exact Or.inr (List.mem_cons_of_mem _ h1)
      · rcases List.mem_cons.1 h with h1 | h1
        · exact Or.inr (h1 ▸ List.mem_cons_self _ _)
        · rcases ih h1 with h2 | h2
          · exact Or.inl h2
          · exact Or.inr (List.mem_cons_of_mem _ h2)

theorem QMap.contains_insert {V : Type} (m : QMap V) (k : Int) (v : V) (k1 : Int) :
    (QMap.insert m k v).contains k1 = true ↔ k1 = k ∨ m.contains k1 = true := by
  induction m with
  | nil =>
    simp only [QMap.insert, QMap.contains, List.any_cons, List.any_nil, Bool.or_false,
      beq_iff_eq, Bool.false_eq_true, or_false]
    exact eq_comm
  | cons x rest ih =>
    unfold QMap.insert
    unfold QMap.contains at ih ⊢
    split
    · simp only [List.any_cons, Bool.or_eq_true, beq_iff_eq]
      constructor
      · rintro (h | h)
        · exact Or.inl h.symm
        · exact Or.inr h
      · rintro (h | h)
        · exact Or.inl h.symm
        · exact Or.inr h
    · split
      · rename_i hk
        simp only [List.any_cons, Bool.or_eq_true, beq_iff_eq]
        constructor
        · rintro (h | h)
          · exact Or.inl h.symm
          · exact Or.inr (Or.inr h)
        · rintro (h | h | h)
          · exact Or.inl h.symm
          · exact Or.inl (hk.trans h)
          · exact Or.inr h
      · simp only [List.any_cons, Bool.or_eq_true, beq_iff_eq, ih]
        constructor
        · rintro (h | h | h)
          · exact Or.inr (Or.inl h)
          · exact Or.inl h
          · exact Or.inr (Or.inr h)
        · rintro (h | h | h)
          · exact Or.inr (Or.inl h)
          · exact Or.inl h
          · exact Or.inr (Or.inr h)

theorem QMap.contains_iff_mem {V : Type} (m : QMap V) (k : Int) :
    m.contains k = true ↔ ∃ e ∈ m, e.1 = k := by
  unfold QMap.contains
  simp

theorem getProcessPriorityClass_sim (pid : Int) (w : World SimState) :
    (getProcessPriorityClass simOS pid w).2.os = w.os ∧
    (w.os.live (toDWORD pid) = true → w.os.priority (toDWORD pid) ≠ 0 →
      (getProcessPriorityClass simOS pid w).1 = toInt32 (w.os.priority (toDWORD pid))) := by
  unfold getProcessPriorityClass
  by_cases hl : w.os.live (toDWORD pid) = true
  · have h1 : sys simOS (.OpenProcess PROCESS_QUERY_INFORMATION (toDWORD pid)) w
        = (some (toDWORD pid), (sys simOS (.OpenProcess PROCESS_QUERY_INFORMATION (toDWORD pid)) w).2) := by
      apply Prod.ext
      · simp [sys, simOS, hl]
      · rfl
    rw [h1]
    simp only
    refine ⟨rfl, fun _ hne => ?_⟩
    simp [sys, simOS, hne]
  · have h1 : sys simOS (.OpenProcess PROCESS_QUERY_INFORMATION (toDWORD pid)) w
        = (none, (sys simOS (.OpenProcess PROCESS_QUERY_INFORMATION (toDWORD pid)) w).2) := by
      apply Prod.ext
      · simp [sys, simOS, hl]
      · rfl
    rw [h1]
    exact ⟨rfl, fun h => absurd h hl⟩

theorem setProcessPriority_sim (pid : Int) (v : Int) (w : World SimState) :
    (setProcessPriority simOS pid v w).2.os =
      if w.os.live (toDWORD pid) = true then w.os.setPriority (toDWORD pid) (toDWORD v)
      else w.os := by
  unfold setProcessPriority
  by_cases hl : w.os.live (toDWORD pid) = true
  · have h1 : sys simOS (.OpenProcess PROCESS_SET_INFORMATION (toDWORD pid)) w
        = (some (toDWORD pid), (sys simOS (.OpenProcess PROCESS_SET_INFORMATION (toDWORD pid)) w).2) := by
      apply Prod.ext
      · simp [sys, simOS, hl]
      · rfl
    rw [h1]
    simp [sys, simOS, hl]
  · have h1 : sys simOS (.OpenProcess PROCESS_SET_INFORMATION (toDWORD pid)) w
        = (none, (sys simOS (.OpenProcess PROCESS_SET_INFORMATION (toDWORD pid)) w).2) := by
      apply Prod.ext
      · simp [sys, simOS, hl]
      · rfl
    rw [h1]
    simp [sys, simOS, hl]

theorem WellPrioritised.priority {st : SimState} (h : WellPrioritised st) (d : Nat)
    (hl : st.live d = true) : st.priority d ≠ 0 ∧ st.priority d < 4294967296 := by
  unfold SimState.priority SimState.proc
  unfold SimState.live at hl
  cases hf : st.find? (fun p => p.pid == d) with
  | none =>
    rw [List.find?_eq_none] at hf
    rw [List.any_eq_true] at hl
    obtain ⟨p, hp, hpd⟩ := hl
    exact absurd hpd (hf p hp)
  | some p => exact h p (List.mem_of_find?_eq_some hf)

theorem storeOriginalPriority_sim (pid : Int) (s : SystemInfo) (w : World SimState) :
    (storeOriginalPriority simOS pid s w).2.os = w.os ∧
    (s.originalPriorities.contains pid = true → (storeOriginalPriority simOS pid s w).1 = s) ∧
    (WellPrioritised w.os → Recorded w.os s.originalPriorities →
      Recorded w.os (storeOriginalPriority simOS pid s w).1.originalPriorities) ∧
    (storeOriginalPriority simOS pid s w).1.originalPriorities.contains pid = true ∧
    (∀ k, s.originalPriorities.contains k = true →
      (storeOriginalPriority simOS pid s w).1.originalPriorities.contains k = true) := by
  unfold storeOriginalPriority
  by_cases hc : s.originalPriorities.contains pid = true
  · rw [if_pos hc]
    exact ⟨rfl, fun _ => rfl, fun _ h => h, hc, fun _ h => h⟩
  · rw [if_neg hc]
    have hg := getProcessPriorityClass_sim pid w
    rcases hx : getProcessPriorityClass simOS pid w with ⟨v, w1⟩
    rw [hx] at hg
    simp only at hg ⊢
    refine ⟨hg.1, fun h => absurd h hc, ?_, ?_, ?_⟩
    · intro hw hr e he hl
      rcases QMap.mem_insert _ _ _ _ he with h1 | h1
      · subst h1
        simp only at hl ⊢
        have hp := hw.priority _ hl
        rw [hg.2 hl hp.1]
        exact toDWORD_toInt32 _ hp.2
      · exact hr e h1 hl
    · exact (QMap.contains_insert _ _ _ _).2 (Or.inl rfl)
    · intro k hk
      exact (QMap.contains_insert _ _ _ _).2 (Or.inr hk)

theorem storeOriginalPriorities_sim (l : List ProcessInfo) (s : SystemInfo)
    (w : World SimState) (hw : WellPrioritised w.os) (hr : Recorded w.os s.originalPriorities) :
    (storeOriginalPriorities simOS l s w).2.os = w.os ∧
    Recorded w.os (storeOriginalPriorities simOS l s w).1.originalPriorities ∧
    (∀ p ∈ l, (storeOriginalPriorities simOS l s w).1.originalPriorities.contains p.pid = true) ∧
    (∀ k, s.originalPriorities.contains k = true →
      (storeOriginalPriorities simOS l s w).1.originalPriorities.contains k = true) := by
  induction l generalizing s w with
  | nil => exact ⟨rfl, hr, fun p hp => by simp at hp, fun _ h => h⟩
  | cons p rest ih =>
    unfold storeOriginalPriorities
    have h1 := storeOriginalPriority_sim p.pid s w
    rcases hx : storeOriginalPriority simOS p.pid s w with ⟨s1, w1⟩
    rw [hx] at h1
    simp only at h1 ⊢
    obtain ⟨ho, -, hrec, hcon, hmono⟩ := h1
    have h2 := ih s1 w1 (ho ▸ hw) (ho ▸ hrec hw hr)
    rw [ho] at h2
    refine ⟨h2.1, h2.2.1, ?_, fun k hk => h2.2.2.2 k (hmono k hk)⟩
    intro q hq
    rcases List.mem_cons.1 hq with h | h
    · subst h; exact h2.2.2.2 _ hcon
    · exact h2.2.2.1 q h

theorem Untouched.unchanged (l : List ProcessInfo) (st : SimState) : Untouched l st st :=
  ⟨fun _ => rfl, fun _ _ => rfl⟩

theorem Untouched.setProcessPriority {l : List ProcessInfo} {st : SimState}
    {w : World SimState} (h : Untouched l st w.os) (p : ProcessInfo) (hp : p ∈ l) (v : Int) :
    Untouched l st (setProcessPriority simOS p.pid v w).2.os := by
  rw [setProcessPriority_sim]
  split
  · refine ⟨fun d => ?_, fun d hd => ?_⟩
    · rw [SimState.live_setPriority]; exact h.1 d
    · rw [SimState.priority_setPriority]
      have : ¬ (d = toDWORD p.pid ∧ w.os.live (toDWORD p.pid) = true) :=
        fun hc => hd p hp hc.1.symm
      rw [if_neg this]
      exact h.2 d hd
  · exact h

theorem optimizeBackgroundLoop_sim (full : List ProcessInfo) (st : SimState)
    (l : List ProcessInfo) (success : Bool) (s : SystemInfo) (w : World SimState)
    (hsub : ∀ p ∈ l, p ∈ full)
    (hcont : ∀ p ∈ full, s.originalPriorities.contains p.pid = true)
    (hu : Untouched full st w.os) :
    (optimizeBackgroundLoop simOS l success s w).2.1.originalPriorities = s.originalPriorities ∧
    Untouched full st (optimizeBackgroundLoop simOS l success s w).2.2.os := by
  induction l generalizing success s w with
  | nil => exact ⟨rfl, hu⟩
  | cons p rest ih =>
    have hp : p ∈ full := hsub p (List.mem_cons_self _ _)
    have hrest : ∀ q ∈ rest, q ∈ full := fun q hq => hsub q (List.mem_cons_of_mem _ hq)
    unfold optimizeBackgroundLoop
    split
    · have h1 := storeOriginalPriority_sim p.pid s w
      rcases hx : storeOriginalPriority simOS p.pid s w with ⟨s1, w1⟩
      rw [hx] at h1
      simp only at h1 ⊢
      have hs : s1 = s := h1.2.1 (hcont p hp)
      subst hs
      have hu1 : Untouched full st w1.os := by rw [h1.1]; exact hu
      have h2 := hu1.setProcessPriority p hp (BELOW_NORMAL_PRIORITY_CLASS : Nat)
      rcases hy : setProcessPriority simOS p.pid (BELOW_NORMAL_PRIORITY_CLASS : Nat) w1
        with ⟨b, w2⟩
      rw [hy] at h2
      simp only at h2
      cases b
      · exact ih false s1 w2 hrest hcont h2
      · exact ih success s1 w2 hrest hcont h2
    · exact ih success s w hrest hcont hu

theorem throttleLoop_sim (full : List ProcessInfo) (st : SimState)
    (l : List ProcessInfo) (success : Bool) (s : SystemInfo) (w : World SimState)
    (hsub : ∀ p ∈ l, p ∈ full)
    (hcont : ∀ p ∈ full, s.originalPriorities.contains p.pid = true)
    (hu : Untouched full st w.os) :
    (throttleLoop simOS l success s w).2.1.originalPriorities = s.originalPriorities ∧
    Untouched full st (throttleLoop simOS l success s w).2.2.os := by
  induction l generalizing success s w with
  | nil => exact ⟨rfl, hu⟩
  | cons p rest ih =>
    have hp : p ∈ full := hsub p (List.mem_cons_self _ _)
    have hrest : ∀ q ∈ rest, q ∈ full := fun q hq => hsub q (List.mem_cons_of_mem _ hq)
    unfold throttleLoop
    split
    · have h1 := storeOriginalPriority_sim p.pid s w
      rcases hx : storeOriginalPriority simOS p.pid s w with ⟨s1, w1⟩
      rw [hx] at h1
      simp only at h1 ⊢
      have hs : s1 = s := h1.2.1 (hcont p hp)
      subst hs
      have hu1 : Untouched full st w1.os := by rw [h1.1]; exact hu
      have h2 := hu1.setProcessPriority p hp (BELOW_NORMAL_PRIORITY_CLASS : Nat)
      rcases hy : setProcessPriority simOS p.pid (BELOW_NORMAL_PRIORITY_CLASS : Nat) w1
        with ⟨b, w2⟩
      rw [hy] at h2
      simp only at h2
      cases b
      · exact ih false s1 w2 hrest hcont h2
      · exact ih success { s1 with throttledProcesses := s1.throttledProcesses ++ [p.pid] } w2
          hrest hcont h2
    · exact ih success s w hrest hcont hu

theorem optimizeMemoryLoop_sim (l : List ProcessInfo) (success : Bool) (w : World SimState) :
    (optimizeMemoryLoop simOS l success w).2.os = w.os := by
  induction l generalizing success w with
  | nil => rfl
  | cons p rest ih =>
    unfold optimizeMemoryLoop
    split
    · split
      · rename_i h1; rw [snd_of_eq h1, ih]; rfl
      · rename_i h1; rw [snd_of_eq h1]
        split
        · rename_i h2; rw [ih, snd_of_eq h2]; rfl
        · rename_i h2; rw [ih, snd_of_eq h2]; rfl
    · exact ih success w

theorem applyEfficiencyModeSettings_sim (st : SimState) (s : SystemInfo) (w : World SimState)
    (hcont : ∀ p ∈ s.processList, s.originalPriorities.contains p.pid = true)
    (hu : Untouched s.processList st w.os) :
    (applyEfficiencyModeSettings simOS s w).1.originalPriorities = s.originalPriorities ∧
    Untouched s.processList st (applyEfficiencyModeSettings simOS s w).2.os := by
  unfold applyEfficiencyModeSettings optimizeBackgroundProcesses optimizeMemoryUsage
    throttleNonEssentialProcesses
  have h1 := optimizeBackgroundLoop_sim s.processList st s.processList true s w
    (fun _ h => h) hcont hu
  have c1 := optimizeBackgroundLoop_core simOS s.processList true s w
  rcases hx : optimizeBackgroundLoop simOS s.processList true s w with ⟨b, s1, w1⟩
  rw [hx] at h1 c1
  simp only at h1 c1 ⊢
  have hpl : s1.processList = s.processList := by
    have h := congrArg SystemInfo.processList c1.1
    exact h
  rw [hpl]
  have hm := optimizeMemoryLoop_sim s.processList true w1
  have h2 := throttleLoop_sim s.processList st s.processList true s1
    (optimizeMemoryLoop simOS s.processList true w1).2 (fun _ h => h)
    (by rw [h1.1]; exact hcont) (by rw [hm]; exact h1.2)
  exact ⟨h2.1.trans h1.1, h2.2⟩

theorem restoreLoop_sim (st : SimState) (entries : List (Int × Int)) (w : World SimState)
    (hr : Recorded st entries) (hl : ∀ d, w.os.live d = st.live d) :
    (∀ d, (restoreLoop simOS entries w).os.live d = st.live d) ∧
    (∀ d, (∃ e ∈ entries, toDWORD e.1 = d ∧ st.live d = true) →
      (restoreLoop simOS entries w).os.priority d = st.priority d) ∧
    (∀ d, (¬ ∃ e ∈ entries, toDWORD e.1 = d ∧ st.live d = true) →
      (restoreLoop simOS entries w).os.priority d = w.os.priority d) := by
  induction entries generalizing w with
  | nil => exact ⟨hl, fun d h => by simp at h, fun _ _ => rfl⟩
  | cons e rest ih =>
    unfold restoreLoop
    have hos := setProcessPriority_sim e.1 e.2 w
    have hl1 : ∀ d, (setProcessPriority simOS e.1 e.2 w).2.os.live d = st.live d := by
      intro d
      rw [hos]
      split
      · rw [SimState.live_setPriority]; exact hl d
      · exact hl d
    have hrest : Recorded st rest := fun x hx => hr x (List.mem_cons_of_mem _ hx)
    obtain ⟨i1, i2, i3⟩ := ih (setProcessPriority simOS e.1 e.2 w).2 hrest hl1
    refine ⟨i1, fun d hd => ?_, fun d hd => ?_⟩
    · by_cases hin : ∃ x ∈ rest, toDWORD x.1 = d ∧ st.live d = true
      · exact i2 d hin
      · rw [i3 d hin]
        obtain ⟨x, hx, hxd, hlive⟩ := hd
        rcases List.mem_cons.1 hx with h | h
        · subst h
          subst hxd
          rw [hos, if_pos ((hl _).trans hlive), SimState.priority_setPriority,
            if_pos ⟨rfl, (hl _).trans hlive⟩]
          exact hr x (List.mem_cons_self _ _) hlive
        · exact absurd ⟨x, h, hxd, hlive⟩ hin
    · have hin : ¬ ∃ x ∈ rest, toDWORD x.1 = d ∧ st.live d = true :=
        fun ⟨x, hx, h⟩ => hd ⟨x, List.mem_cons_of_mem _ hx, h⟩
      rw [i3 d hin, hos]
      split
      · rename_i hlw
        rw [SimState.priority_setPriority]
        have : ¬ (d = toDWORD e.1 ∧ w.os.live (toDWORD e.1) = true) := by
          rintro ⟨hde, _⟩
          exact hd ⟨e, List.mem_cons_self _ _, hde.symm, by rw [hde, ← hl]; exact hlw⟩
        rw [if_neg this]
      · rfl

theorem setProcessPriority_issues (os : OS σ) (pid v : Int) (w : World σ) :
    ∃ t, (setProcessPriority os pid v w).2.trace = w.trace ++ t ∧ RestoreIssued pid v t ∧
      ((∀ access p st, (os (.OpenProcess access p) st).1 ≠ none) →
        PrioritySetIssued pid v t) := by
  unfold setProcessPriority
  split
  · rename_i w1 h1
    obtain ⟨h1a, rfl⟩ := (sys_eq_iff _ _ _ _ _).1 h1
    exact ⟨_, rfl, Or.inr (List.infix_refl _), fun hopen => absurd h1a (hopen _ _ _)⟩
  · rename_i hP w1 h1
    obtain ⟨-, rfl⟩ := (sys_eq_iff _ _ _ _ _).1 h1
    have hin : PrioritySetIssued pid v
        [(⟨Call.OpenProcess PROCESS_SET_INFORMATION (toDWORD pid), some hP⟩ : Event),
         (⟨Call.SetPriorityClass hP (toDWORD v),
           (os (Call.SetPriorityClass hP (toDWORD v))
             (os (Call.OpenProcess PROCESS_SET_INFORMATION (toDWORD pid)) w.os).2).1⟩ : Event),
         (⟨Call.CloseHandle hP, ()⟩ : Event)] :=
      ⟨hP, (os (Call.SetPriorityClass hP (toDWORD v))
          (os (Call.OpenProcess PROCESS_SET_INFORMATION (toDWORD pid)) w.os).2).1,
        [], [(⟨Call.CloseHandle hP, ()⟩ : Event)], rfl⟩
    exact ⟨_, by simp [sys], Or.inl hin, fun _ => hin⟩

theorem restoreLoop_issues (os : OS σ) (entries : List (Int × Int)) (w : World σ) :
    ∃ t, (restoreLoop os entries w).trace = w.trace ++ t ∧
      (∀ it ∈ entries, RestoreIssued it.1 it.2 t) ∧
      ((∀ access p st, (os (.OpenProcess access p) st).1 ≠ none) →
        ∀ it ∈ entries, PrioritySetIssued it.1 it.2 t) := by
  induction entries generalizing w with
  | nil => exact ⟨[], by simp [restoreLoop], fun it h => by simp at h, fun _ it h => by simp at h⟩
  | cons e rest ih =>
    unfold restoreLoop
    obtain ⟨t1, ht1, hi1, hs1⟩ := setProcessPriority_issues os e.1 e.2 w
    obtain ⟨t2, ht2, hi2, hs2⟩ := ih (setProcessPriority os e.1 e.2 w).2
    have hleft : ∀ {pid v : Int}, PrioritySetIssued pid v t1 → PrioritySetIssued pid v (t1 ++ t2) :=
      fun ⟨hP, ok, hin⟩ => ⟨hP, ok, hin.trans (List.prefix_append t1 t2).isInfix⟩
    have hright : ∀ {pid v : Int}, PrioritySetIssued pid v t2 → PrioritySetIssued pid v (t1 ++ t2) :=
      fun ⟨hP, ok, hin⟩ => ⟨hP, ok, hin.trans (List.suffix_append t1 t2).isInfix⟩
    refine ⟨t1 ++ t2, by rw [ht2, ht1, List.append_assoc], ?_, ?_⟩
    · intro it hit
      rcases List.mem_cons.1 hit with h | h
      · subst h
        rcases hi1 with hin | hin
        · exact Or.inl (hleft hin)
        · exact Or.inr (hin.trans (List.prefix_append t1 t2).isInfix)
      · rcases hi2 it h with hin | hin
        · exact Or.inl (hright hin)
        · exact Or.inr (hin.trans (List.suffix_append t1 t2).isInfix)
    · intro hopen it hit
      rcases List.mem_cons.1 hit with h | h
      · subst h
        exact hleft (hs1 hopen)
      · exact hright (hs2 hopen it h)

theorem setEfficiencyMode_false_eq (os : OS σ) (s : SystemInfo) (w : World σ)
    (h : s.efficiencyModeEnabled = true) :
    setEfficiencyMode os false s w =
      ({ s with efficiencyModeEnabled := false, originalPriorities := [],
                throttledProcesses := [],
                emitted := s.emitted ++ [Signal.efficiencyModeChanged false] },
       restoreLoop os s.originalPriorities w) := by
  unfold setEfficiencyMode
  rw [if_neg (by simp [h])]
  rfl

theorem setEfficiencyMode_true_eq (os : OS σ) (s : SystemInfo) (w : World σ)
    (h : s.efficiencyModeEnabled = false) :
    setEfficiencyMode os true s w =
      ({ (applyEfficiencyModeSettings os
            (storeOriginalPriorities os s.processList { s with efficiencyModeEnabled := true } w).1
            (storeOriginalPriorities os s.processList { s with efficiencyModeEnabled := true } w).2).1
          with emitted :=
            (applyEfficiencyModeSettings os
              (storeOriginalPriorities os s.processList { s with efficiencyModeEnabled := true } w).1
              (storeOriginalPriorities os s.processList { s with efficiencyModeEnabled := true } w).2).1.emitted
              ++ [Signal.efficiencyModeChanged true] },
       (applyEfficiencyModeSettings os
          (storeOriginalPriorities os s.processList { s with efficiencyModeEnabled := true } w).1
          (storeOriginalPriorities os s.processList { s with efficiencyModeEnabled := true } w).2).2) := by
  unfold setEfficiencyMode
  rw [if_neg (by simp [h])]
  rfl

theorem efficiencyCycle_sim (st : SimState) (s : SystemInfo) (tr : List Event)
    (hoff : s.efficiencyModeEnabled = false) (hempty : s.originalPriorities = [])
    (hw : WellPrioritised st) (d : Nat) :
    (efficiencyCycle simOS s { os := st, trace := tr }).2.os.priority d = st.priority d := by
  unfold efficiencyCycle
  have hon : (setEfficiencyMode simOS true s { os := st, trace := tr }).1.efficiencyModeEnabled
      = true := by
    have := setEfficiencyMode_core simOS true s { os := st, trace := tr } (by simp [hoff])
    exact congrArg SystemInfo.efficiencyModeEnabled this
  rw [setEfficiencyMode_false_eq simOS _ _ hon, setEfficiencyMode_true_eq simOS s _ hoff]
  simp only
  have p1 := storeOriginalPriorities_sim s.processList { s with efficiencyModeEnabled := true }
    { os := st, trace := tr } hw (by
      show Recorded st s.originalPriorities
      rw [hempty]; intro e he; simp at he)
  have c1 := storeOriginalPriorities_core simOS s.processList
    { s with efficiencyModeEnabled := true } { os := st, trace := tr }
  rcases hx : storeOriginalPriorities simOS s.processList { s with efficiencyModeEnabled := true }
    { os := st, trace := tr } with ⟨s1, w1⟩
  rw [hx] at p1 c1
  simp only at p1 c1 ⊢
  obtain ⟨hos, hrec, hcon, -⟩ := p1
  have hpl : s1.processList = s.processList := by
    have h := congrArg SystemInfo.processList c1.1
    exact h
  have p2 := applyEfficiencyModeSettings_sim st s1 w1 (by rw [hpl]; exact hcon)
    (by rw [hos]; exact Untouched.unchanged _ _)
  rcases hy : applyEfficiencyModeSettings simOS s1 w1 with ⟨s2, w2⟩
  rw [hy] at p2
  simp only at p2 ⊢
  obtain ⟨hB, hun⟩ := p2
  rw [hB]
  obtain ⟨-, r2, r3⟩ := restoreLoop_sim st s1.originalPriorities w2 hrec hun.1
  by_cases hin : ∃ e ∈ s1.originalPriorities, toDWORD e.1 = d ∧ st.live d = true
  · exact r2 d hin
  · rw [r3 d hin]
    by_cases hl : st.live d = true
    · apply hun.2 d
      intro p hp hpd
      rw [hpl] at hp
      obtain ⟨e, he, hek⟩ := (QMap.contains_iff_mem _ _).1 (hcon p hp)
      exact hin ⟨e, he, by rw [hek]; exact hpd, hl⟩
    · have hl0 : st.live d = false := by simpa using hl
      rw [SimState.priority_of_not_live _ _ ((hun.1 d).trans hl0),
        SimState.priority_of_not_live _ _ hl0]

theorem toDWORD_below_normal :
    toDWORD ((BELOW_NORMAL_PRIORITY_CLASS : Nat) : Int) = BELOW_NORMAL_PRIORITY_CLASS := by
  decide

theorem getProcessPriorityClass_extends (os : OS σ) (Q : Event → Bool) (pid : Int)
    {w0 w : World σ} (hQ : ∀ e : Event, e.1.isPriorityQuery = true → Q e = true)
    (h : Extends Q w0 w) : Extends Q w0 (getProcessPriorityClass os pid w).2 := by
  unfold getProcessPriorityClass
  split
  · rename_i h1; rw [snd_of_eq h1]; exact h.sys os _ (hQ _ (by rfl))
  · rename_i h1; rw [snd_of_eq h1]
    exact ((h.sys os _ (hQ _ (by rfl))).sys os _ (hQ _ (by rfl))).sys os _ (hQ _ (by rfl))

theorem setProcessPriority_extends (os : OS σ) (Q : Event → Bool) (pid v : Int)
    {w0 w : World σ}
    (hQ : ∀ e : Event, e.1.isPrioritySet (toDWORD pid) (toDWORD v) = true → Q e = true)
    (h : Extends Q w0 w) : Extends Q w0 (setProcessPriority os pid v w).2 := by
  unfold setProcessPriority
  split
  · rename_i h1; rw [snd_of_eq h1]
    exact h.sys os _ (hQ _ (by simp [Call.isPrioritySet]))
  · rename_i h1; rw [snd_of_eq h1]
    exact ((h.sys os _ (hQ _ (by simp [Call.isPrioritySet]))).sys os _
      (hQ _ (by simp [Call.isPrioritySet]))).sys os _ (hQ _ (by rfl))

theorem storeOriginalPriority_extends (os : OS σ) (Q : Event → Bool) (pid : Int)
    (s : SystemInfo) {w0 w : World σ}
    (hQ : ∀ e : Event, e.1.isPriorityQuery = true → Q e = true)
    (h : Extends Q w0 w) : Extends Q w0 (storeOriginalPriority os pid s w).2 := by
  unfold storeOriginalPriority
  split
  · exact h
  · exact getProcessPriorityClass_extends os Q pid hQ h

theorem storeOriginalPriorities_extends (os : OS σ) (Q : Event → Bool)
    (l : List ProcessInfo) (s : SystemInfo) {w0 w : World σ}
    (hQ : ∀ e : Event, e.1.isPriorityQuery = true → Q e = true)
    (h : Extends Q w0 w) : Extends Q w0 (storeOriginalPriorities os l s w).2 := by
  induction l generalizing s w with
  | nil => exact h
  | cons p rest ih =>
    unfold storeOriginalPriorities
    exact ih _ (storeOriginalPriority_extends os Q p.pid s hQ h)

theorem optimizeBackgroundLoop_extends (os : OS σ) (Q : Event → Bool)
    (l : List ProcessInfo) (success : Bool) (s : SystemInfo) {w0 w : World σ}
    (hq : ∀ e : Event, e.1.isPriorityQuery = true → Q e = true)
    (hp : ∀ p ∈ l, p.type = ProcessType.Background → isProcessEssential p = false →
      ∀ e : Event, e.1.isPrioritySet (toDWORD p.pid) BELOW_NORMAL_PRIORITY_CLASS = true →
        Q e = true)
    (h : Extends Q w0 w) : Extends Q w0 (optimizeBackgroundLoop os l success s w).2.2 := by
  induction l generalizing success s w with
  | nil => exact h
  | cons p rest ih =>
    have hrest : ∀ q ∈ rest, q.type = ProcessType.Background → isProcessEssential q = false →
        ∀ e : Event, e.1.isPrioritySet (toDWORD q.pid) BELOW_NORMAL_PRIORITY_CLASS = true →
          Q e = true := fun q hq1 => hp q (List.mem_cons_of_mem _ hq1)
    unfold optimizeBackgroundLoop
    split
    · rename_i hc
      have h1 := storeOriginalPriority_extends os Q p.pid s hq h
      have h2 := setProcessPriority_extends os Q p.pid (BELOW_NORMAL_PRIORITY_CLASS : Nat)
        (by rw [toDWORD_below_normal]; exact hp p (List.mem_cons_self _ _) hc.1 hc.2) h1
      rcases hs : storeOriginalPriority os p.pid s w with ⟨s1, w1⟩
      rw [hs] at h2
      simp only at h2 ⊢
      rcases hx : setProcessPriority os p.pid (BELOW_NORMAL_PRIORITY_CLASS : Nat) w1 with ⟨b, w2⟩
      rw [hx] at h2
      cases b
      · exact ih false s1 hrest h2
      · exact ih success s1 hrest h2
    · exact ih success s hrest h

theorem optimizeMemoryLoop_extends (os : OS σ) (Q : Event → Bool)
    (l : List ProcessInfo) (success : Bool) {w0 w : World σ}
    (hm : ∀ p ∈ l, isProcessEssential p = false → p.memoryUsage > 100 * 1024 →
      ∀ e : Event, e.1.isWorkingSetClamp (toDWORD p.pid) = true → Q e = true)
    (h : Extends Q w0 w) : Extends Q w0 (optimizeMemoryLoop os l success w).2 := by
  induction l generalizing success w with
  | nil => exact h
  | cons p rest ih =>
    have hrest : ∀ q ∈ rest, isProcessEssential q = false → q.memoryUsage > 100 * 1024 →
        ∀ e : Event, e.1.isWorkingSetClamp (toDWORD q.pid) = true → Q e = true :=
      fun q hq1 => hm q (List.mem_cons_of_mem _ hq1)
    unfold optimizeMemoryLoop
    split
    · rename_i hc
      have hQ := hm p (List.mem_cons_self _ _) hc.1 hc.2
      split
      · rename_i h1; rw [snd_of_eq h1] 
        exact ih success hrest (h.sys os _ (hQ _ (by simp [Call.isWorkingSetClamp])))
      · rename_i hP w1 h1
        rw [snd_of_eq h1]
        have h2 := ((h.sys os
          (.OpenProcess (PROCESS_SET_QUOTA ||| PROCESS_TERMINATE) (toDWORD p.pid))
          (hQ _ (by simp [Call.isWorkingSetClamp]))).sys os
          (.SetProcessWorkingSetSize hP (1024 * 1024) (50 * 1024 * 1024))
          (hQ _ (by simp [Call.isWorkingSetClamp]))).sys os (.CloseHandle hP) (hQ _ (by rfl))
        split
        · rename_i h3; rw [snd_of_eq h3]; exact ih success hrest h2
        · rename_i h3; rw [snd_of_eq h3]; exact ih false hrest h2
    · exact ih success hrest h

theorem throttleLoop_extends (os : OS σ) (Q : Event → Bool)
    (l : List ProcessInfo) (success : Bool) (s : SystemInfo) {w0 w : World σ}
    (hq : ∀ e : Event, e.1.isPriorityQuery = true → Q e = true)
    (hp : ∀ p ∈ l, isProcessEssential p = false → p.cpuUsage > 5 →
      ∀ e : Event, e.1.isPrioritySet (toDWORD p.pid) BELOW_NORMAL_PRIORITY_CLASS = true →
        Q e = true)
    (h : Extends Q w0 w) : Extends Q w0 (throttleLoop os l success s w).2.2 := by
  induction l generalizing success s w with
  | nil => exact h
  | cons p rest ih =>
    have hrest : ∀ q ∈ rest, isProcessEssential q = false → q.cpuUsage > 5 →
        ∀ e : Event, e.1.isPrioritySet (toDWORD q.pid) BELOW_NORMAL_PRIORITY_CLASS = true →
          Q e = true := fun q hq1 => hp q (List.mem_cons_of_mem _ hq1)
    unfold throttleLoop
    split
    · rename_i hc
      have h1 := storeOriginalPriority_extends os Q p.pid s hq h
      have h2 := setProcessPriority_extends os Q p.pid (BELOW_NORMAL_PRIORITY_CLASS : Nat)
        (by rw [toDWORD_below_normal]; exact hp p (List.mem_cons_self _ _) hc.1 hc.2) h1
      rcases hs : storeOriginalPriority os p.pid s w with ⟨s1, w1⟩
      rw [hs] at h2
      simp only at h2 ⊢
      rcases hx : setProcessPriority os p.pid (BELOW_NORMAL_PRIORITY_CLASS : Nat) w1 with ⟨b, w2⟩
      rw [hx] at h2
      cases b
      · exact ih false s1 hrest h2
      · exact ih success _ hrest h2
    · exact ih success s hrest h

theorem restoreIssued_of_infix {pid v : Int} {t t1 : List Event}
    (h : RestoreIssued pid v t) (ht : t <:+: t1) : RestoreIssued pid v t1 := by
  rcases h with ⟨hP, ok, hin⟩ | hin
  · exact Or.inl ⟨hP, ok, hin.trans ht⟩
  · exact Or.inr (hin.trans ht)

theorem clampAttempted_of_infix {pid : Int} {t t1 : List Event}
    (h : ClampAttempted pid t) (ht : t <:+: t1) : ClampAttempted pid t1 := by
  rcases h with ⟨hP, ok, hin⟩ | hin
  · exact Or.inl ⟨hP, ok, hin.trans ht⟩
  · exact Or.inr (hin.trans ht)

theorem infix_middle {α : Type} (a b c : List α) : b <:+: a ++ b ++ c := ⟨a, c, rfl⟩

theorem storeOriginalPriority_trace (os : OS σ) (pid : Int) (s : SystemInfo) (w : World σ) :
    ∃ t, (storeOriginalPriority os pid s w).2.trace = w.trace ++ t := by
  obtain ⟨t, ht, -⟩ := storeOriginalPriority_extends os (fun _ => true) pid s
    (fun _ _ => rfl) (Extends.same _ w)
  exact ⟨t, ht⟩

theorem storeOriginalPriorities_trace (os : OS σ) (l : List ProcessInfo) (s : SystemInfo)
    (w : World σ) : ∃ t, (storeOriginalPriorities os l s w).2.trace = w.trace ++ t := by
  obtain ⟨t, ht, -⟩ := storeOriginalPriorities_extends os (fun _ => true) l s
    (fun _ _ => rfl) (Extends.same _ w)
  exact ⟨t, ht⟩

theorem optimizeBackgroundLoop_issues (os : OS σ) (l : List ProcessInfo) (success : Bool)
    (s : SystemInfo) (w : World σ) :
    ∃ t, (optimizeBackgroundLoop os l success s w).2.2.trace = w.trace ++ t ∧
      ∀ p ∈ l, p.type = ProcessType.Background → isProcessEssential p = false →
        RestoreIssued p.pid (BELOW_NORMAL_PRIORITY_CLASS : Nat) t := by
  induction l generalizing success s w with
  | nil => exact ⟨[], by simp [optimizeBackgroundLoop], fun p h => by simp at h⟩
  | cons p rest ih =>
    unfold optimizeBackgroundLoop
    split
    · rename_i hc
      obtain ⟨t0, ht0⟩ := storeOriginalPriority_trace os p.pid s w
      rcases hs : storeOriginalPriority os p.pid s w with ⟨s1, w1⟩
      rw [hs] at ht0
      simp only at ht0 ⊢
      obtain ⟨t1, ht1, hi1, -⟩ :=
        setProcessPriority_issues os p.pid (BELOW_NORMAL_PRIORITY_CLASS : Nat) w1
      rcases hx : setProcessPriority os p.pid (BELOW_NORMAL_PRIORITY_CLASS : Nat) w1 with ⟨b, w2⟩
      rw [hx] at ht1
      simp only at ht1
      have key : ∀ success1, ∃ t,
          (optimizeBackgroundLoop os rest success1 s1 w2).2.2.trace = w.trace ++ t ∧
          ∀ q ∈ p :: rest, q.type = ProcessType.Background → isProcessEssential q = false →
            RestoreIssued q.pid (BELOW_NORMAL_PRIORITY_CLASS : Nat) t := by
        intro success1
        obtain ⟨t2, ht2, hi2⟩ := ih success1 s1 w2
        refine ⟨t0 ++ t1 ++ t2, by rw [ht2, ht1, ht0]; simp [List.append_assoc], ?_⟩
        intro q hq hb he
        rcases List.mem_cons.1 hq with h | h
        · subst h; exact restoreIssued_of_infix hi1 (infix_middle _ _ _)
        · exact restoreIssued_of_infix (hi2 q h hb he) (List.suffix_append _ _).isInfix
      cases b
      · exact key false
      · exact key success
    · rename_i hc
      obtain ⟨t, ht, hi⟩ := ih success s w
      refine ⟨t, ht, ?_⟩
      intro q hq hb he
      rcases List.mem_cons.1 hq with h | h
      · subst h; exact absurd ⟨hb, he⟩ hc
      · exact hi q h hb he

theorem throttleLoop_issues (os : OS σ) (l : List ProcessInfo) (success : Bool)
    (s : SystemInfo) (w : World σ) :
    ∃ t, (throttleLoop os l success s w).2.2.trace = w.trace ++ t ∧
      ∀ p ∈ l, isProcessEssential p = false → p.cpuUsage > 5 →
        RestoreIssued p.pid (BELOW_NORMAL_PRIORITY_CLASS : Nat) t := by
  induction l generalizing success s w with
  | nil => exact ⟨[], by simp [throttleLoop], fun p h => by simp at h⟩
  | cons p rest ih =>
    unfold throttleLoop
    split
    · rename_i hc
      obtain ⟨t0, ht0⟩ := storeOriginalPriority_trace os p.pid s w
      rcases hs : storeOriginalPriority os p.pid s w with ⟨s1, w1⟩
      rw [hs] at ht0
      simp only at ht0 ⊢
      obtain ⟨t1, ht1, hi1, -⟩ :=
        setProcessPriority_issues os p.pid (BELOW_NORMAL_PRIORITY_CLASS : Nat) w1
      rcases hx : setProcessPriority os p.pid (BELOW_NORMAL_PRIORITY_CLASS : Nat) w1 with ⟨b, w2⟩
      rw [hx] at ht1
      simp only at ht1
      have key : ∀ success1 s2, ∃ t,
          (throttleLoop os rest success1 s2 w2).2.2.trace = w.trace ++ t ∧
          ∀ q ∈ p :: rest, isProcessEssential q = false → q.cpuUsage > 5 →
            RestoreIssued q.pid (BELOW_NORMAL_PRIORITY_CLASS : Nat) t := by
        intro success1 s2
        obtain ⟨t2, ht2, hi2⟩ := ih success1 s2 w2
        refine ⟨t0 ++ t1 ++ t2, by rw [ht2, ht1, ht0]; simp [List.append_assoc], ?_⟩
        intro q hq hb he
        rcases List.mem_cons.1 hq with h | h
        · subst h; exact restoreIssued_of_infix hi1 (infix_middle _ _ _)
        · exact restoreIssued_of_infix (hi2 q h hb he) (List.suffix_append _ _).isInfix
      cases b
      · exact key false _
      · exact key success _
    · rename_i hc
      obtain ⟨t, ht, hi⟩ := ih success s w
      refine ⟨t, ht, ?_⟩
      intro q hq hb he
      rcases List.mem_cons.1 hq with h | h
      · subst h; exact absurd ⟨hb, he⟩ hc
      · exact hi q h hb he

theorem optimizeMemoryLoop_issues (os : OS σ) (l : List ProcessInfo) (success : Bool)
    (w : World σ) :
    ∃ t, (optimizeMemoryLoop os l success w).2.trace = w.trace ++ t ∧
      ∀ p ∈ l, isProcessEssential p = false → p.memoryUsage > 100 * 1024 →
        ClampAttempted p.pid t := by
  induction l generalizing success w with
  | nil => exact ⟨[], by simp [optimizeMemoryLoop], fun p h => by simp at h⟩
  | cons p rest ih =>
    have key : ∀ (t1 : List Event) (w2 : World σ) success1, w2.trace = w.trace ++ t1 →
        ClampAttempted p.pid t1 → ∃ t,
          (optimizeMemoryLoop os rest success1 w2).2.trace = w.trace ++ t ∧
          ∀ q ∈ p :: rest, isProcessEssential q = false → q.memoryUsage > 100 * 1024 →
            ClampAttempted q.pid t := by
      intro t1 w2 success1 ht1 hi1
      obtain ⟨t2, ht2, hi2⟩ := ih success1 w2
      refine ⟨t1 ++ t2, by rw [ht2, ht1, List.append_assoc], ?_⟩
      intro q hq hb he
      rcases List.mem_cons.1 hq with h | h
      · subst h; exact clampAttempted_of_infix hi1 (List.prefix_append _ _).isInfix
      · exact clampAttempted_of_infix (hi2 q h hb he) (List.suffix_append _ _).isInfix
    unfold optimizeMemoryLoop
    split
    · rename_i hc
      split
      · rename_i w1 h1
        obtain ⟨h1a, rfl⟩ := (sys_eq_iff _ _ _ _ _).1 h1
        refine key _ _ success rfl (Or.inr ?_)
        rw [← h1a]
      · rename_i hP w1 h1
        obtain ⟨h1a, rfl⟩ := (sys_eq_iff _ _ _ _ _).1 h1
        have hin : ClampAttempted p.pid
            [(⟨Call.OpenProcess (PROCESS_SET_QUOTA ||| PROCESS_TERMINATE) (toDWORD p.pid),
                some hP⟩ : Event),
             (⟨Call.SetProcessWorkingSetSize hP (1024 * 1024) (50 * 1024 * 1024),
               (os (Call.SetProcessWorkingSetSize hP (1024 * 1024) (50 * 1024 * 1024))
                 (os (Call.OpenProcess (PROCESS_SET_QUOTA ||| PROCESS_TERMINATE)
                   (toDWORD p.pid)) w.os).2).1⟩ : Event),
             (⟨Call.CloseHandle hP, ()⟩ : Event)] :=
          Or.inl ⟨hP, _, [], [(⟨Call.CloseHandle hP, ()⟩ : Event)], rfl⟩
        split
        · rename_i h3
          obtain ⟨h3a, rfl⟩ := (sys_eq_iff _ _ _ _ _).1 h3
          exact key _ _ success (by simp [sys]; exact h3a.symm) hin
        · rename_i h3
          obtain ⟨h3a, rfl⟩ := (sys_eq_iff _ _ _ _ _).1 h3
          exact key _ _ false (by simp [sys]; exact h3a.symm) hin
    · rename_i hc
      obtain ⟨t, ht, hi⟩ := ih success w
      refine ⟨t, ht, ?_⟩
      intro q hq hb he
      rcases List.mem_cons.1 hq with h | h
      · subst h; exact absurd ⟨hb, he⟩ hc
      · exact hi q h hb he

theorem throttleLoop_throttled (os : OS σ) (l : List ProcessInfo) (success : Bool)
    (s : SystemInfo) (w : World σ) :
    ∀ x ∈ (throttleLoop os l success s w).2.1.throttledProcesses,
      x ∈ s.throttledProcesses ∨
        ∃ p ∈ l, p.pid = x ∧ isProcessEssential p = false ∧ p.cpuUsage > 5 := by
  induction l generalizing success s w with
  | nil => intro x hx; exact Or.inl hx
  | cons p rest ih =>
    unfold throttleLoop
    split
    · rename_i hc
      have h1 := (storeOriginalPriority_core os p.pid s w).2
      rcases hs : storeOriginalPriority os p.pid s w with ⟨s1, w1⟩
      rw [hs] at h1
      simp only at h1 ⊢
      rcases setProcessPriority os p.pid (BELOW_NORMAL_PRIORITY_CLASS : Nat) w1 with ⟨b, w2⟩
      cases b
      · intro x hx
        rcases ih false s1 w2 x hx with h | ⟨q, hq, h⟩
        · exact Or.inl (h1 ▸ h)
        · exact Or.inr ⟨q, List.mem_cons_of_mem _ hq, h⟩
      · intro x hx
        rcases ih success _ w2 x hx with h | ⟨q, hq, h⟩
        · rcases List.mem_append.1 h with h | h
          · exact Or.inl (h1 ▸ h)
          · exact Or.inr ⟨p, List.mem_cons_self _ _, (List.mem_singleton.1 h).symm, hc.1, hc.2⟩
        · exact Or.inr ⟨q, List.mem_cons_of_mem _ hq, h⟩
    · intro x hx
      rcases ih success s w x hx with h | ⟨q, hq, h⟩
      · exact Or.inl h
      · exact Or.inr ⟨q, List.mem_cons_of_mem _ hq, h⟩

theorem throttleLoop_keeps (os : OS σ) (l : List ProcessInfo) (success : Bool)
    (s : SystemInfo) (w : World σ) :
    ∀ x ∈ s.throttledProcesses, x ∈ (throttleLoop os l success s w).2.1.throttledProcesses := by
  induction l generalizing success s w with
  | nil => intro x hx; exact hx
  | cons p rest ih =>
    unfold throttleLoop
    split
    · have h1 := (storeOriginalPriority_core os p.pid s w).2
      rcases hs : storeOriginalPriority os p.pid s w with ⟨s1, w1⟩
      rw [hs] at h1
      simp only at h1 ⊢
      rcases setProcessPriority os p.pid (BELOW_NORMAL_PRIORITY_CLASS : Nat) w1 with ⟨b, w2⟩
      cases b
      · intro x hx
        exact ih false s1 w2 x (h1 ▸ hx)
      · intro x hx
        exact ih success _ w2 x (List.mem_append_left _ (h1 ▸ hx))
    · exact ih success s w

theorem setProcessPriority_granted (os : OS σ)
    (hopen : ∀ access p st, (os (.OpenProcess access p) st).1 ≠ none)
    (hset : ∀ h v st, (os (.SetPriorityClass h v) st).1 = true)
    (pid v : Int) (w : World σ) : (setProcessPriority os pid v w).1 = true := by
  unfold setProcessPriority
  split
  · rename_i h1
    exact absurd ((sys_eq_iff _ _ _ _ _).1 h1).1 (hopen _ _ _)
  · exact hset _ _ _

theorem throttleLoop_records (os : OS σ)
    (hopen : ∀ access p st, (os (.OpenProcess access p) st).1 ≠ none)
    (hset : ∀ h v st, (os (.SetPriorityClass h v) st).1 = true)
    (l : List ProcessInfo) (success : Bool) (s : SystemInfo) (w : World σ) :
    ∀ p ∈ l, isProcessEssential p = false → p.cpuUsage > 5 →
      p.pid ∈ (throttleLoop os l success s w).2.1.throttledProcesses := by
  induction l generalizing success s w with
  | nil => intro p hp; simp at hp
  | cons p rest ih =>
    unfold throttleLoop
    split
    · rename_i hc
      rcases hs : storeOriginalPriority os p.pid s w with ⟨s1, w1⟩
      simp only
      have hg := setProcessPriority_granted os hopen hset p.pid
        (BELOW_NORMAL_PRIORITY_CLASS : Nat) w1
      rcases hx : setProcessPriority os p.pid (BELOW_NORMAL_PRIORITY_CLASS : Nat) w1 with ⟨b, w2⟩
      rw [hx] at hg
      simp only at hg
      subst hg
      simp only
      intro q hq he hcpu
      rcases List.mem_cons.1 hq with h | h
      · subst h
        exact throttleLoop_keeps os rest success _ w2 _ (List.mem_append_right _ (List.mem_singleton.2 rfl))
      · exact ih success _ w2 q h he hcpu
    · rename_i hc
      intro q hq he hcpu
      rcases List.mem_cons.1 hq with h | h
      · subst h; exact absurd ⟨he, hcpu⟩ hc
      · exact ih success s w q h he hcpu

theorem optimizeBackgroundLoop_processList (os : OS σ) (l : List ProcessInfo)
    (success : Bool) (s : SystemInfo) (w : World σ) :
    (optimizeBackgroundLoop os l success s w).2.1.processList = s.processList := by
  have h := congrArg SystemInfo.processList (optimizeBackgroundLoop_core os l success s w).1
  exact h

theorem storeOriginalPriorities_processList (os : OS σ) (l : List ProcessInfo)
    (s : SystemInfo) (w : World σ) :
    (storeOriginalPriorities os l s w).1.processList = s.processList := by
  have h := congrArg SystemInfo.processList (storeOriginalPriorities_core os l s w).1
  exact h

theorem applyEfficiencyModeSettings_extends (os : OS σ) (Q : Event → Bool) (s : SystemInfo)
    {w0 w : World σ}
    (hq : ∀ e : Event, e.1.isPriorityQuery = true → Q e = true)
    (hp : ∀ p ∈ s.processList, isProcessEssential p = false →
      (p.type = ProcessType.Background ∨ p.cpuUsage > 5) →
      ∀ e : Event, e.1.isPrioritySet (toDWORD p.pid) BELOW_NORMAL_PRIORITY_CLASS = true →
        Q e = true)
    (hm : ∀ p ∈ s.processList, isProcessEssential p = false → p.memoryUsage > 100 * 1024 →
      ∀ e : Event, e.1.isWorkingSetClamp (toDWORD p.pid) = true → Q e = true)
    (h : Extends Q w0 w) : Extends Q w0 (applyEfficiencyModeSettings os s w).2 := by
  unfold applyEfficiencyModeSettings optimizeBackgroundProcesses optimizeMemoryUsage
    throttleNonEssentialProcesses
  have h1 := optimizeBackgroundLoop_extends os Q s.processList true s hq
    (fun p hp1 hb he => hp p hp1 he (Or.inl hb)) h
  have hpl := optimizeBackgroundLoop_processList os s.processList true s w
  rcases hx : optimizeBackgroundLoop os s.processList true s w with ⟨b, s1, w1⟩
  rw [hx] at h1 hpl
  simp only at h1 hpl ⊢
  have h2 := optimizeMemoryLoop_extends os Q s1.processList true (by rw [hpl]; exact hm) h1
  rcases hy : optimizeMemoryLoop os s1.processList true w1 with ⟨b2, w2⟩
  rw [hy] at h2
  simp only at h2 ⊢
  exact throttleLoop_extends os Q s1.processList true s1 hq
    (by rw [hpl]; exact fun p hp1 he hc => hp p hp1 he (Or.inr hc)) h2

theorem setEfficiencyMode_true_extends (os : OS σ) (Q : Event → Bool) (s : SystemInfo)
    (w : World σ) (hoff : s.efficiencyModeEnabled = false)
    (hq : ∀ e : Event, e.1.isPriorityQuery = true → Q e = true)
    (hp : ∀ p ∈ s.processList, isProcessEssential p = false →
      (p.type = ProcessType.Background ∨ p.cpuUsage > 5) →
      ∀ e : Event, e.1.isPrioritySet (toDWORD p.pid) BELOW_NORMAL_PRIORITY_CLASS = true →
        Q e = true)
    (hm : ∀ p ∈ s.processList, isProcessEssential p = false → p.memoryUsage > 100 * 1024 →
      ∀ e : Event, e.1.isWorkingSetClamp (toDWORD p.pid) = true → Q e = true) :
    Extends Q w (setEfficiencyMode os true s w).2 := by
  rw [setEfficiencyMode_true_eq os s w hoff]
  have h1 := storeOriginalPriorities_extends os Q s.processList
    { s with efficiencyModeEnabled := true } hq (Extends.same Q w)
  have hpl := storeOriginalPriorities_processList os s.processList
    { s with efficiencyModeEnabled := true } w
  exact applyEfficiencyModeSettings_extends os Q _ hq (by rw [hpl]; exact hp)
    (by rw [hpl]; exact hm) h1

theorem applyEfficiencyModeSettings_issues (os : OS σ) (s : SystemInfo) (w : World σ) :
    ∃ t, (applyEfficiencyModeSettings os s w).2.trace = w.trace ++ t ∧
      (∀ p ∈ s.processList, isProcessEssential p = false →
        (p.type = ProcessType.Background ∨ p.cpuUsage > 5) →
        RestoreIssued p.pid (BELOW_NORMAL_PRIORITY_CLASS : Nat) t) ∧
      (∀ p ∈ s.processList, isProcessEssential p = false → p.memoryUsage > 100 * 1024 →
        ClampAttempted p.pid t) := by
  unfold applyEfficiencyModeSettings optimizeBackgroundProcesses optimizeMemoryUsage
    throttleNonEssentialProcesses
  obtain ⟨t1, ht1, hi1⟩ := optimizeBackgroundLoop_issues os s.processList true s w
  have hpl := optimizeBackgroundLoop_processList os s.processList true s w
  rcases hx : optimizeBackgroundLoop os s.processList true s w with ⟨b, s1, w1⟩
  rw [hx] at ht1 hpl
  simp only at ht1 hpl ⊢
  obtain ⟨t2, ht2, hi2⟩ := optimizeMemoryLoop_issues os s1.processList true w1
  rcases hy : optimizeMemoryLoop os s1.processList true w1 with ⟨b2, w2⟩
  rw [hy] at ht2
  simp only at ht2 ⊢
  obtain ⟨t3, ht3, hi3⟩ := throttleLoop_issues os s1.processList true s1 w2
  rw [hpl] at hi2 hi3
  refine ⟨t1 ++ t2 ++ t3, by rw [ht3, ht2, ht1]; simp [List.append_assoc], ?_, ?_⟩
  · intro p hp he hc
    rcases hc with hc | hc
    · exact restoreIssued_of_infix (hi1 p hp hc he)
        ((List.prefix_append _ _).isInfix.trans (List.prefix_append _ _).isInfix)
    · exact restoreIssued_of_infix (hi3 p hp he hc) (List.suffix_append _ _).isInfix
  · intro p hp he hc
    exact clampAttempted_of_infix (hi2 p hp he hc) (infix_middle _ _ _)

theorem setEfficiencyMode_true_issues (os : OS σ) (s : SystemInfo) (w : World σ)
    (hoff : s.efficiencyModeEnabled = false) :
    ∃ t, (setEfficiencyMode os true s w).2.trace = w.trace ++ t ∧
      (∀ p ∈ s.processList, isProcessEssential p = false →
        (p.type = ProcessType.Background ∨ p.cpuUsage > 5) →
        RestoreIssued p.pid (BELOW_NORMAL_PRIORITY_CLASS : Nat) t) ∧
      (∀ p ∈ s.processList, isProcessEssential p = false → p.memoryUsage > 100 * 1024 →
        ClampAttempted p.pid t) := by
  rw [setEfficiencyMode_true_eq os s w hoff]
  obtain ⟨t0, ht0⟩ := storeOriginalPriorities_trace os s.processList
    { s with efficiencyModeEnabled := true } w
  have hpl := storeOriginalPriorities_processList os s.processList
    { s with efficiencyModeEnabled := true } w
  obtain ⟨t1, ht1, hi1, hi2⟩ := applyEfficiencyModeSettings_issues os
    (storeOriginalPriorities os s.processList { s with efficiencyModeEnabled := true } w).1
    (storeOriginalPriorities os s.processList { s with efficiencyModeEnabled := true } w).2
  rw [hpl] at hi1 hi2
  refine ⟨t0 ++ t1, by simp only; rw [ht1, ht0, List.append_assoc], ?_, ?_⟩
  · intro p hp he hc
    exact restoreIssued_of_infix (hi1 p hp he hc) (List.suffix_append _ _).isInfix
  · intro p hp he hc
    exact clampAttempted_of_infix (hi2 p hp he hc) (List.suffix_append _ _).isInfix

theorem priorityQuery_ne_set (c : Call) (d : Nat) (h : c.isPriorityQuery = true) :
    c ≠ Call.OpenProcess PROCESS_SET_INFORMATION d := by
  intro hc
  subst hc
  revert h
  simp [Call.isPriorityQuery, PROCESS_QUERY_INFORMATION, PROCESS_SET_INFORMATION]

theorem priorityQuery_ne_clamp (c : Call) (d : Nat) (h : c.isPriorityQuery = true) :
    c ≠ Call.OpenProcess (PROCESS_SET_QUOTA ||| PROCESS_TERMINATE) d := by
  intro hc
  subst hc
  revert h
  simp [Call.isPriorityQuery, PROCESS_QUERY_INFORMATION, PROCESS_SET_QUOTA, PROCESS_TERMINATE]

theorem prioritySet_ne_set (c : Call) (d d1 v : Nat) (h : c.isPrioritySet d1 v = true)
    (hd : d1 ≠ d) : c ≠ Call.OpenProcess PROCESS_SET_INFORMATION d := by
  intro hc
  subst hc
  simp [Call.isPrioritySet] at h
  exact hd h.symm

theorem prioritySet_ne_clamp (c : Call) (d d1 v : Nat) (h : c.isPrioritySet d1 v = true) :
    c ≠ Call.OpenProcess (PROCESS_SET_QUOTA ||| PROCESS_TERMINATE) d := by
  intro hc
  subst hc
  revert h
  simp [Call.isPrioritySet, PROCESS_SET_QUOTA, PROCESS_TERMINATE, PROCESS_SET_INFORMATION]

theorem workingSetClamp_ne_set (c : Call) (d d1 : Nat) (h : c.isWorkingSetClamp d1 = true) :
    c ≠ Call.OpenProcess PROCESS_SET_INFORMATION d := by
  intro hc
  subst hc
  revert h
  simp [Call.isWorkingSetClamp, PROCESS_SET_QUOTA, PROCESS_TERMINATE, PROCESS_SET_INFORMATION]

theorem workingSetClamp_ne_clamp (c : Call) (d d1 : Nat) (h : c.isWorkingSetClamp d1 = true)
    (hd : d1 ≠ d) : c ≠ Call.OpenProcess (PROCESS_SET_QUOTA ||| PROCESS_TERMINATE) d := by
  intro hc
  subst hc
  simp [Call.isWorkingSetClamp] at h
  exact hd h.symm

theorem untouched_of_extends {c : Call} {w w1 : World σ}
    (h : Extends (fun e => decide (e.1 ≠ c)) w w1) (t : List Event)
    (ht : w1.trace = w.trace ++ t) : ∀ e ∈ t, e.1 ≠ c := by
  obtain ⟨t1, e1, q1⟩ := h
  have h2 : t = t1 := List.append_cancel_left (ht.symm.trans e1)
  subst h2
  intro e he
  simpa using q1 e he

theorem setEfficiencyMode_true_priority_guard (os : OS σ) (s : SystemInfo) (w : World σ)
    (hoff : s.efficiencyModeEnabled = false) (d : Nat) (t : List Event)
    (ht : (setEfficiencyMode os true s w).2.trace = w.trace ++ t)
    (htouch : PriorityTouched d t) :
    ∃ p ∈ s.processList, toDWORD p.pid = d ∧ isProcessEssential p = false ∧
      (p.type = ProcessType.Background ∨ p.cpuUsage > 5) := by
  by_contra hno
  have hext := setEfficiencyMode_true_extends os
    (fun e => decide (e.1 ≠ Call.OpenProcess PROCESS_SET_INFORMATION d)) s w hoff
    (fun e h => decide_eq_true (priorityQuery_ne_set e.1 d h))
    (fun p hp he hc e h => decide_eq_true (prioritySet_ne_set e.1 d _ _ h
      (fun hd => hno ⟨p, hp, hd, he, hc⟩)))
    (fun p _ _ _ e h => decide_eq_true (workingSetClamp_ne_set e.1 d _ h))
  obtain ⟨e, he, hc⟩ := htouch
  exact untouched_of_extends hext t ht e he hc

theorem setEfficiencyMode_true_workingSet_guard (os : OS σ) (s : SystemInfo) (w : World σ)
    (hoff : s.efficiencyModeEnabled = false) (d : Nat) (t : List Event)
    (ht : (setEfficiencyMode os true s w).2.trace = w.trace ++ t)
    (htouch : WorkingSetTouched d t) :
    ∃ p ∈ s.processList, toDWORD p.pid = d ∧ isProcessEssential p = false ∧
      p.memoryUsage > 100 * 1024 := by
  by_contra hno
  have hext := setEfficiencyMode_true_extends os
    (fun e => decide (e.1 ≠ Call.OpenProcess (PROCESS_SET_QUOTA ||| PROCESS_TERMINATE) d))
    s w hoff
    (fun e h => decide_eq_true (priorityQuery_ne_clamp e.1 d h))
    (fun p _ _ _ e h => decide_eq_true (prioritySet_ne_clamp e.1 d _ _ h))
    (fun p hp he hc e h => decide_eq_true (workingSetClamp_ne_clamp e.1 d _ h
      (fun hd => hno ⟨p, hp, hd, he, hc⟩)))
  obtain ⟨e, he, hc⟩ := htouch
  exact untouched_of_extends hext t ht e he hc

theorem optimizeMemoryUsage_guard (os : OS σ) (s : SystemInfo) (w : World σ) (t : List Event)
    (ht : (optimizeMemoryUsage os s w).2.trace = w.trace ++ t) :
    (∀ d, WorkingSetTouched d t →
      ∃ p ∈ s.processList, toDWORD p.pid = d ∧ isProcessEssential p = false ∧
        p.memoryUsage > 100 * 1024) ∧
    ∀ d, ¬ PriorityTouched d t := by
  constructor
  · intro d htouch
    by_contra hno
    have hext := optimizeMemoryLoop_extends os
      (fun e => decide (e.1 ≠ Call.OpenProcess (PROCESS_SET_QUOTA ||| PROCESS_TERMINATE) d))
      s.processList true
      (fun p hp he hc e h => decide_eq_true (workingSetClamp_ne_clamp e.1 d _ h
        (fun hd => hno ⟨p, hp, hd, he, hc⟩))) (Extends.same _ w)
    obtain ⟨e, he, hc⟩ := htouch
    exact untouched_of_extends hext t ht e he hc
  · intro d htouch
    have hext := optimizeMemoryLoop_extends os
      (fun e => decide (e.1 ≠ Call.OpenProcess PROCESS_SET_INFORMATION d))
      s.processList true
      (fun p _ _ _ e h => decide_eq_true (workingSetClamp_ne_set e.1 d _ h)) (Extends.same _ w)
    obtain ⟨e, he, hc⟩ := htouch
    exact untouched_of_extends hext t ht e he hc

theorem throttleNonEssentialProcesses_guard (os : OS σ) (s : SystemInfo) (w : World σ)
    (t : List Event)
    (ht : (throttleNonEssentialProcesses os s w).2.2.trace = w.trace ++ t) :
    (∀ d, PriorityTouched d t →
      ∃ p ∈ s.processList, toDWORD p.pid = d ∧ isProcessEssential p = false ∧
        p.cpuUsage > 5) ∧
    ∀ d, ¬ WorkingSetTouched d t := by
  constructor
  · intro d htouch
    by_contra hno
    have hext := throttleLoop_extends os
      (fun e => decide (e.1 ≠ Call.OpenProcess PROCESS_SET_INFORMATION d))
      s.processList true s
      (fun e h => decide_eq_true (priorityQuery_ne_set e.1 d h))
      (fun p hp he hc e h => decide_eq_true (prioritySet_ne_set e.1 d _ _ h
        (fun hd => hno ⟨p, hp, hd, he, hc⟩))) (Extends.same _ w)
    obtain ⟨e, he, hc⟩ := htouch
    exact untouched_of_extends hext t ht e he hc
  · intro d htouch
    have hext := throttleLoop_extends os
      (fun e => decide (e.1 ≠ Call.OpenProcess (PROCESS_SET_QUOTA ||| PROCESS_TERMINATE) d))
      s.processList true s
      (fun e h => decide_eq_true (priorityQuery_ne_clamp e.1 d h))
      (fun p _ _ _ e h => decide_eq_true (prioritySet_ne_clamp e.1 d _ _ h)) (Extends.same _ w)
    obtain ⟨e, he, hc⟩ := htouch
    exact untouched_of_extends hext t ht e he hc

theorem throttleLoop_true (os : OS σ) (l : List ProcessInfo) (success : Bool)
    (s : SystemInfo) (w : World σ) (h : (throttleLoop os l success s w).1 = true) :
    success = true ∧
    ∀ p ∈ l, isProcessEssential p = false → p.cpuUsage > 5 →
      p.pid ∈ (throttleLoop os l success s w).2.1.throttledProcesses := by
  induction l generalizing success s w with
  | nil => exact ⟨h, fun p hp => by simp at hp⟩
  | cons p rest ih =>
    unfold throttleLoop at h ⊢
    split
    · rename_i hc
      rw [if_pos hc] at h
      rcases hs : storeOriginalPriority os p.pid s w with ⟨s1, w1⟩
      rw [hs] at h
      simp only at h ⊢
      rcases hx : setProcessPriority os p.pid (BELOW_NORMAL_PRIORITY_CLASS : Nat) w1 with ⟨b, w2⟩
      rw [hx] at h
      cases b
      · simp only at h
        exact absurd (ih false s1 w2 h).1 (by decide)
      · simp only at h ⊢
        obtain ⟨h1, h2⟩ := ih success _ w2 h
        refine ⟨h1, ?_⟩
        intro q hq he hcpu
        rcases List.mem_cons.1 hq with h3 | h3
        · subst h3
          exact throttleLoop_keeps os rest success _ w2 _
            (List.mem_append_right _ (List.mem_singleton.2 rfl))
        · exact h2 q h3 he hcpu
    · rename_i hc
      rw [if_neg hc] at h
      obtain ⟨h1, h2⟩ := ih success s w h
      refine ⟨h1, ?_⟩
      intro q hq he hcpu
      rcases List.mem_cons.1 hq with h3 | h3
      · subst h3; exact absurd ⟨he, hcpu⟩ hc
      · exact h2 q h3 he hcpu

theorem optimizeBackgroundProcesses_classes (os : OS σ) (s : SystemInfo) (w : World σ)
    (t : List Event)
    (ht : (optimizeBackgroundProcesses os s w).2.2.trace = w.trace ++ t) :
    ∀ e ∈ t, ∀ h v, e.1 = Call.SetPriorityClass h v → v = BELOW_NORMAL_PRIORITY_CLASS := by
  have hext := optimizeBackgroundLoop_extends os
    (fun e => e.1.setsOnlyClass BELOW_NORMAL_PRIORITY_CLASS)
    s.processList true s
    (fun e h => by
      rcases e with ⟨c, r⟩
      cases c <;> first | rfl | (simp [Call.isPriorityQuery] at h))
    (fun p _ _ _ e h => by
      rcases e with ⟨c, r⟩
      cases c <;> first | rfl | (simp [Call.isPrioritySet] at h; done) |
        (simpa [Call.isPrioritySet, Call.setsOnlyClass] using h))
    (Extends.same _ w)
  obtain ⟨t1, e1, q1⟩ := hext
  have h2 : t = t1 := List.append_cancel_left (ht.symm.trans e1)
  subst h2
  intro e he hP v hc
  have h3 := q1 e he
  simp only [hc, Call.setsOnlyClass] at h3
  simpa using h3

theorem appendTrimmed_length (history : List Double) (v : Double) (h : history.length ≤ 5) :
    (appendTrimmed history v).length ≤ 5 := by
  unfold appendTrimmed
  split
  · simp; omega
  · rename_i h1; simp at h1 ⊢; omega

theorem queryPath_eq (os : OS σ) (hProcess : Handle) (proc : ProcessInfo) (w : World σ) :
    ∃ v, (queryPath os hProcess proc w).1 = { proc with path := v } := by
  unfold queryPath
  split
  · exact ⟨_, rfl⟩
  · exact ⟨proc.path, rfl⟩

theorem queryMemoryUsage_eq (os : OS σ) (hProcess : Handle) (proc : ProcessInfo)
    (w : World σ) :
    ∃ v, (queryMemoryUsage os hProcess proc w).1 = { proc with memoryUsage := v } := by
  unfold queryMemoryUsage
  split
  · exact ⟨_, rfl⟩
  · exact ⟨proc.memoryUsage, rfl⟩

theorem queryStartTime_eq (os : OS σ) (hProcess : Handle) (proc : ProcessInfo)
    (w : World σ) :
    ∃ v, (queryStartTime os hProcess proc w).1 = { proc with startTime := v } := by
  unfold queryStartTime
  split
  · exact ⟨_, rfl⟩
  · exact ⟨proc.startTime, rfl⟩

theorem queryStatus_eq (os : OS σ) (hProcess : Handle) (proc : ProcessInfo) (w : World σ) :
    ∃ v, (queryStatus os hProcess proc w).1 = { proc with status := v } := by
  unfold queryStatus
  split
  · exact ⟨_, rfl⟩
  · exact ⟨proc.status, rfl⟩

theorem queryNetworkUsage_eq (os : OS σ) (hProcess : Handle) (proc : ProcessInfo)
    (w : World σ) :
    (queryNetworkUsage os hProcess proc w).1 =
      { proc with
        networkUsageHistory := trimmedAppend proc.networkUsageHistory 0,
        networkUsage := average (trimmedAppend proc.networkUsageHistory 0) } := rfl

theorem queryCategory_eq (os : OS σ) (proc : ProcessInfo) (w : World σ) :
    ∃ t d st, (queryCategory os proc w).1 =
      { proc with type := t, typeDescription := d, style := st } := ⟨_, _, _, rfl⟩

theorem QMap.value_of_not_contains {V : Type} (m : QMap V) (k : Int)
    (h : m.contains k = false) : m.value k = none := by
  unfold QMap.value
  unfold QMap.contains at h
  rw [List.find?_eq_none.2]
  · rfl
  · intro e he
    have := List.any_eq_false.1 h e he
    simpa using this

theorem QMap.contains_insert_ne {V : Type} (m : QMap V) (k : Int) (v : V) (q : Int)
    (h : q ≠ k) : (QMap.insert m k v).contains q = m.contains q := by
  rw [Bool.eq_iff_iff, QMap.contains_insert]
  constructor
  · rintro (h1 | h1)
    · exact absurd h1 h
    · exact h1
  · exact Or.inr

theorem diskSample_cold (currentTime readBytes writeBytes : Int) :
    diskSample {} currentTime readBytes writeBytes = 0 := by
  unfold diskSample
  rw [if_neg (by decide)]

theorem cpuSample_cold (processTotal delta numProcessors : Int) :
    cpuSample {} processTotal delta numProcessors = 0 := by
  unfold cpuSample
  rw [if_pos ⟨rfl, rfl⟩]

theorem cpuSample_nonneg (prev : ProcessCpuTimes) (processTotal delta numProcessors : Int) :
    0 ≤ cpuSample prev processTotal delta numProcessors := by
  unfold cpuSample
  split
  · exact le_refl _
  · split
    · exact le_refl _
    · rename_i h; exact not_lt.1 h

theorem queryDiskUsage_eq (os : OS σ) (hProcess : Handle) (proc : ProcessInfo)
    (s : SystemInfo) (w : World σ) :
    ∃ d m, (queryDiskUsage os hProcess proc s w).1 = rollDiskUsage { proc with diskUsage := d } ∧
      (queryDiskUsage os hProcess proc s w).2.1 = { s with diskIoMap := m } ∧
      (s.diskIoMap.contains proc.pid = false → d = 0) ∧
      (∀ q, q ≠ proc.pid → m.contains q = s.diskIoMap.contains q) := by
  unfold queryDiskUsage
  split
  rename_i currentTime w1 h1
  split
  · refine ⟨_, _, rfl, rfl, ?_, ?_⟩
    · intro hc
      rw [QMap.value_of_not_contains _ _ hc]
      exact diskSample_cold _ _ _
    · intro q hq
      exact QMap.contains_insert_ne _ _ _ _ hq
  · exact ⟨0, s.diskIoMap, rfl, rfl, fun _ => rfl, fun _ _ => rfl⟩

theorem readProcess_spec (os : OS σ) (pe32 : PROCESSENTRY32W) (s : SystemInfo) (w : World σ) :
    (readProcess os pe32 s w).1.pid = pe32.th32ProcessID ∧
    (readProcess os pe32 s w).1.cpuUsageHistory = [] ∧
    (readProcess os pe32 s w).1.diskUsageHistory.length ≤ 1 ∧
    (readProcess os pe32 s w).1.networkUsageHistory.length ≤ 1 ∧
    (∃ m, (readProcess os pe32 s w).2.1 = { s with diskIoMap := m } ∧
      ∀ q : Int, q ≠ pe32.th32ProcessID → m.contains q = s.diskIoMap.contains q) ∧
    ((os (.OpenProcess (PROCESS_QUERY_INFORMATION ||| PROCESS_VM_READ) pe32.th32ProcessID)
        (os .UninitializedProcessInfo w.os).2).1 ≠ none →
      s.diskIoMap.contains pe32.th32ProcessID = false →
      (readProcess os pe32 s w).1.diskUsage = 0 ∧
      (readProcess os pe32 s w).1.diskUsageHistory = [0]) := by
  unfold readProcess
  split
  rename_i junk w0 h0
  obtain ⟨-, rfl⟩ := (sys_eq_iff _ _ _ _ _).1 h0
  split
  · rename_i w1 h1
    obtain ⟨h1a, -⟩ := (sys_eq_iff _ _ _ _ _).1 h1
    exact ⟨rfl, rfl, by simp [declareProcessInfo], by simp [declareProcessInfo],
      ⟨s.diskIoMap, rfl, fun _ _ => rfl⟩, fun hopen _ => absurd h1a hopen⟩
  · rename_i hP w1 h1
    obtain ⟨v1, e1⟩ := queryPath_eq os hP (declareProcessInfo junk pe32) w1
    rcases hq1 : queryPath os hP (declareProcessInfo junk pe32) w1 with ⟨p1, w2⟩
    rw [hq1] at e1
    simp only at e1 ⊢
    obtain ⟨v2, e2⟩ := queryMemoryUsage_eq os hP p1 w2
    rcases hq2 : queryMemoryUsage os hP p1 w2 with ⟨p2, w3⟩
    rw [hq2] at e2
    simp only at e2 ⊢
    obtain ⟨v3, e3⟩ := queryStartTime_eq os hP p2 w3
    rcases hq3 : queryStartTime os hP p2 w3 with ⟨p3, w4⟩
    rw [hq3] at e3
    simp only at e3 ⊢
    obtain ⟨v4, e4⟩ := queryStatus_eq os hP p3 w4
    rcases hq4 : queryStatus os hP p3 w4 with ⟨p4, w5⟩
    rw [hq4] at e4
    simp only at e4 ⊢
    obtain ⟨d, m, e5, e5s, hcold, hm⟩ := queryDiskUsage_eq os hP p4 s w5
    rcases hq5 : queryDiskUsage os hP p4 s w5 with ⟨p5, s5, w6⟩
    rw [hq5] at e5 e5s
    simp only at e5 e5s ⊢
    have e6 := queryNetworkUsage_eq os hP p5 w6
    rcases hq6 : queryNetworkUsage os hP p5 w6 with ⟨p6, w7⟩
    rw [hq6] at e6
    simp only at e6 ⊢
    obtain ⟨t7, d7, st7, e7⟩ := queryCategory_eq os p6 w7
    rcases hq7 : queryCategory os p6 w7 with ⟨p7, w8⟩
    rw [hq7] at e7
    simp only at e7 ⊢
    have hpid : p4.pid = pe32.th32ProcessID := by
      rw [e4, e3, e2, e1]; rfl
    subst e7 e6 e5 e4 e3 e2 e1
    refine ⟨rfl, rfl, ?_, ?_, ⟨m, e5s, ?_⟩, ?_⟩
    · simp [rollDiskUsage, appendTrimmed, declareProcessInfo]
    · simp [rollDiskUsage, trimmedAppend, declareProcessInfo]
    · intro q hq
      exact hm q (by rw [hpid]; exact hq)
    · intro _ hc
      have hd := hcold (by rw [hpid]; exact hc)
      subst hd
      simp [rollDiskUsage, appendTrimmed, declareProcessInfo, average]

theorem forall₂_imp_mem {α β : Type} {R S : α → β → Prop} {l1 : List α} {l2 : List β}
    (h : List.Forall₂ R l1 l2) (hi : ∀ a ∈ l1, ∀ b ∈ l2, R a b → S a b) :
    List.Forall₂ S l1 l2 := by
  induction h with
  | nil => exact List.Forall₂.nil
  | cons hab _ ih =>
    exact List.Forall₂.cons (hi _ (List.mem_cons_self _ _) _ (List.mem_cons_self _ _) hab)
      (ih (fun a ha b hb => hi a (List.mem_cons_of_mem _ ha) b (List.mem_cons_of_mem _ hb)))

theorem forall₂_mem_right {α β : Type} {R : α → β → Prop} {l1 : List α} {l2 : List β}
    (h : List.Forall₂ R l1 l2) : ∀ b ∈ l2, ∃ a ∈ l1, R a b := by
  induction h with
  | nil => intro b hb; simp at hb
  | cons hab _ ih =>
    intro b hb
    rcases List.mem_cons.1 hb with h1 | h1
    · subst h1; exact ⟨_, List.mem_cons_self _ _, hab⟩
    · obtain ⟨a, ha, hr⟩ := ih b h1
      exact ⟨a, List.mem_cons_of_mem _ ha, hr⟩

theorem forall₂_and {α β : Type} {R S : α → β → Prop} {l1 : List α} {l2 : List β}
    (h1 : List.Forall₂ R l1 l2) (h2 : List.Forall₂ S l1 l2) :
    List.Forall₂ (fun a b => R a b ∧ S a b) l1 l2 := by
  induction h1 with
  | nil => exact List.Forall₂.nil
  | cons hab _ ih =>
    cases h2 with
    | cons hab2 hrest2 => exact List.Forall₂.cons ⟨hab, hab2⟩ (ih hrest2)

theorem forall₂_chain {α β γ : Type} {R : α → β → Prop} {S : β → γ → Prop}
    {T : α → γ → Prop} {l1 : List α} {l2 : List β} {l3 : List γ}
    (h1 : List.Forall₂ R l1 l2) (h2 : List.Forall₂ S l2 l3)
    (hi : ∀ a b c, R a b → S b c → T a c) : List.Forall₂ T l1 l3 := by
  induction h1 generalizing l3 with
  | nil => cases h2; exact List.Forall₂.nil
  | cons hab _ ih =>
    cases h2 with
    | cons hbc hrest => exact List.Forall₂.cons (hi _ _ _ hab hbc) (ih hrest)

theorem forall₂_map_eq {α β γ : Type} {R : α → β → Prop} {f : α → γ} {g : β → γ}
    {l1 : List α} {l2 : List β} (h : List.Forall₂ R l1 l2)
    (hfg : ∀ a b, R a b → g b = f a) : l2.map g = l1.map f := by
  induction h with
  | nil => rfl
  | cons hab _ ih => simp only [List.map_cons, hfg _ _ hab, ih]

theorem forall₂_map_self {α β : Type} {f : α → β} (l : List α) :
    List.Forall₂ (fun a b => b = f a) l (l.map f) := by
  induction l with
  | nil => exact List.Forall₂.nil
  | cons a rest ih => exact List.Forall₂.cons rfl ih

theorem updateProcessLoop_spec (os : OS σ) (entries : List PROCESSENTRY32W)
    (s : SystemInfo) (w : World σ) :
    ∃ recs m,
      (updateProcessLoop os entries s w).1 =
        { s with processList := s.processList ++ recs, diskIoMap := m } ∧
      List.Forall₂ (fun (pe : PROCESSENTRY32W) (p : ProcessInfo) =>
        p.pid = pe.th32ProcessID ∧ p.cpuUsageHistory = [] ∧
        p.diskUsageHistory.length ≤ 1 ∧ p.networkUsageHistory.length ≤ 1) entries recs ∧
      ((entries.map (fun pe => pe.th32ProcessID)).Nodup →
        List.Forall₂ (fun (pe : PROCESSENTRY32W) (p : ProcessInfo) =>
          (∀ st, (os (.OpenProcess (PROCESS_QUERY_INFORMATION ||| PROCESS_VM_READ)
            pe.th32ProcessID) st).1 ≠ none) →
          s.diskIoMap.contains pe.th32ProcessID = false →
          p.diskUsage = 0 ∧ p.diskUsageHistory = [0]) entries recs) := by
  induction entries generalizing s w with
  | nil =>
    refine ⟨[], s.diskIoMap, ?_, List.Forall₂.nil, fun _ => List.Forall₂.nil⟩
    simp [updateProcessLoop]
  | cons pe rest ih =>
    unfold updateProcessLoop
    obtain ⟨hpid, hcpu, hdisk, hnet, ⟨m1, hs1, hm1⟩, hcold⟩ := readProcess_spec os pe s w
    rcases hr : readProcess os pe s w with ⟨p, s1, w1⟩
    rw [hr] at hpid hcpu hdisk hnet hs1 hcold
    simp only at hpid hcpu hdisk hnet hs1 hcold ⊢
    subst hs1
    obtain ⟨recs, m, he, hall, hcoldrest⟩ := ih
      { s with diskIoMap := m1, processList := s.processList ++ [p] } w1
    refine ⟨p :: recs, m, ?_, List.Forall₂.cons ⟨hpid, hcpu, hdisk, hnet⟩ hall, ?_⟩
    · rw [he]; simp
    · intro hnd
      rw [List.map_cons, List.nodup_cons] at hnd
      refine List.Forall₂.cons (fun hopen hc => hcold (hopen _) hc) ?_
      refine forall₂_imp_mem (hcoldrest hnd.2) ?_
      intro a ha b _ hab hopen hc
      refine hab hopen ?_
      simp only
      rw [hm1 a.th32ProcessID ?_]
      · exact hc
      · intro heq
        apply hnd.1
        have : a.th32ProcessID = pe.th32ProcessID := by exact_mod_cast heq
        rw [← this]
        exact List.mem_map_of_mem _ ha

theorem updateProcessList_spec (os : OS σ) (s : SystemInfo) (w : World σ) :
    ((os .SnapshotProcesses w.os).1 = none → (updateProcessList os s w).1 = s) ∧
    ∀ entries, (os .SnapshotProcesses w.os).1 = some entries →
      ∃ recs m,
        (updateProcessList os s w).1 = { s with processList := recs, diskIoMap := m } ∧
        List.Forall₂ (fun (pe : PROCESSENTRY32W) (p : ProcessInfo) =>
          p.pid = pe.th32ProcessID ∧ p.cpuUsageHistory = [] ∧
          p.diskUsageHistory.length ≤ 1 ∧ p.networkUsageHistory.length ≤ 1) entries recs ∧
        ((entries.map (fun pe => pe.th32ProcessID)).Nodup →
          List.Forall₂ (fun (pe : PROCESSENTRY32W) (p : ProcessInfo) =>
            (∀ st, (os (.OpenProcess (PROCESS_QUERY_INFORMATION ||| PROCESS_VM_READ)
              pe.th32ProcessID) st).1 ≠ none) →
            s.diskIoMap.contains pe.th32ProcessID = false →
            p.diskUsage = 0 ∧ p.diskUsageHistory = [0]) entries recs) := by
  unfold updateProcessList
  constructor
  · intro h
    split
    · rfl
    · rename_i entries w1 h1
      rw [((sys_eq_iff _ _ _ _ _).1 h1).1] at h
      exact absurd h (by simp)
  · intro entries h
    split
    · rename_i w1 h1
      rw [((sys_eq_iff _ _ _ _ _).1 h1).1] at h
      exact absurd h (by simp)
    · rename_i entries1 w1 h1
      rw [((sys_eq_iff _ _ _ _ _).1 h1).1] at h
      cases h
      obtain ⟨recs, m, he, hall, hcold⟩ :=
        updateProcessLoop_spec os entries { s with processList := [] } w1
      exact ⟨recs, m, by rw [he]; simp, hall, hcold⟩

theorem foldl_add_nonneg (history : List Double) (a : Double) (ha : 0 ≤ a)
    (h : ∀ x ∈ history, 0 ≤ x) : 0 ≤ history.foldl (fun sum v => sum + v) a := by
  induction history generalizing a with
  | nil => exact ha
  | cons x rest ih =>
    rw [List.foldl_cons]
    exact ih _ (add_nonneg ha (h x (List.mem_cons_self _ _)))
      (fun y hy => h y (List.mem_cons_of_mem _ hy))

theorem average_nonneg (history : List Double) (h : ∀ x ∈ history, 0 ≤ x) :
    0 ≤ average history := by
  unfold average
  exact div_nonneg (foldl_add_nonneg history 0 (le_refl _) h) (Nat.cast_nonneg _)

theorem mem_appendTrimmed (history : List Double) (v x : Double)
    (h : x ∈ appendTrimmed history v) : x ∈ history ∨ x = v := by
  unfold appendTrimmed at h
  split at h
  · have := List.mem_of_mem_tail h
    simpa using this
  · simpa using h

theorem sampleCpuUsage_spec (os : OS σ) (currentSystemTime delta numProcessors : Int)
    (proc : ProcessInfo) (m : QMap ProcessCpuTimes) (w : World σ) :
    (sampleCpuUsage os currentSystemTime delta numProcessors proc m w).1.pid = proc.pid ∧
    (sampleCpuUsage os currentSystemTime delta numProcessors proc m w).1.diskUsage
      = proc.diskUsage ∧
    (sampleCpuUsage os currentSystemTime delta numProcessors proc m w).1.diskUsageHistory
      = proc.diskUsageHistory ∧
    (sampleCpuUsage os currentSystemTime delta numProcessors proc m w).1.networkUsageHistory
      = proc.networkUsageHistory ∧
    (proc.cpuUsageHistory.length ≤ 5 →
      (sampleCpuUsage os currentSystemTime delta numProcessors proc m
        w).1.cpuUsageHistory.length ≤ 5) ∧
    ((∀ x ∈ proc.cpuUsageHistory, 0 ≤ x) →
      0 ≤ (sampleCpuUsage os currentSystemTime delta numProcessors proc m w).1.cpuUsage ∧
      ∀ x ∈ (sampleCpuUsage os currentSystemTime delta numProcessors proc m
        w).1.cpuUsageHistory, 0 ≤ x) ∧
    (m.contains proc.pid = false → proc.cpuUsageHistory = [] →
      (sampleCpuUsage os currentSystemTime delta numProcessors proc m w).1.cpuUsage = 0) ∧
    (∀ q, q ≠ proc.pid →
      (sampleCpuUsage os currentSystemTime delta numProcessors proc m w).2.1.contains q
        = m.contains q) := by
  unfold sampleCpuUsage
  split
  · exact ⟨rfl, rfl, rfl, rfl, fun h => h, fun h => ⟨le_refl _, h⟩, fun _ _ => rfl,
      fun _ _ => rfl⟩
  · split
    · rename_i c e kernelTime userTime w2 h2
      have hmem : ∀ x ∈ appendTrimmed proc.cpuUsageHistory
          (cpuSample ((m.value proc.pid).getD {})
            (toInt64 (toInt64 kernelTime + toInt64 userTime)) delta numProcessors),
          (∀ y ∈ proc.cpuUsageHistory, 0 ≤ y) → 0 ≤ x := by
        intro x hx hy
        rcases mem_appendTrimmed _ _ _ hx with h | h
        · exact hy x h
        · rw [h]; exact cpuSample_nonneg _ _ _ _
      refine ⟨rfl, rfl, rfl, rfl, fun h => appendTrimmed_length _ _ h, ?_, ?_, ?_⟩
      · intro hy
        exact ⟨average_nonneg _ (fun x hx => hmem x hx hy), fun x hx => hmem x hx hy⟩
      · intro hc hh
        simp only [rollCpuUsage]
        rw [QMap.value_of_not_contains _ _ hc, hh]
        simp [cpuSample_cold, appendTrimmed, average]
      · intro q hq
        exact QMap.contains_insert_ne _ _ _ _ hq
    · exact ⟨rfl, rfl, rfl, rfl, fun h => h, fun h => ⟨le_refl _, h⟩, fun _ _ => rfl,
        fun _ _ => rfl⟩

theorem sampleCpuLoop_spec (os : OS σ) (currentSystemTime delta numProcessors : Int)
    (l : List ProcessInfo) (m : QMap ProcessCpuTimes) (w : World σ) :
    List.Forall₂ (fun (p q : ProcessInfo) =>
      q.pid = p.pid ∧ q.diskUsage = p.diskUsage ∧ q.diskUsageHistory = p.diskUsageHistory ∧
      q.networkUsageHistory = p.networkUsageHistory ∧
      (p.cpuUsageHistory.length ≤ 5 → q.cpuUsageHistory.length ≤ 5) ∧
      ((∀ x ∈ p.cpuUsageHistory, 0 ≤ x) → 0 ≤ q.cpuUsage ∧ ∀ x ∈ q.cpuUsageHistory, 0 ≤ x))
      l (sampleCpuLoop os currentSystemTime delta numProcessors l m w).1 ∧
    ((l.map (fun p => p.pid)).Nodup →
      List.Forall₂ (fun (p q : ProcessInfo) =>
        m.contains p.pid = false → p.cpuUsageHistory = [] → q.cpuUsage = 0)
        l (sampleCpuLoop os currentSystemTime delta numProcessors l m w).1) := by
  induction l generalizing m w with
  | nil => exact ⟨List.Forall₂.nil, fun _ => List.Forall₂.nil⟩
  | cons p rest ih =>
    unfold sampleCpuLoop
    obtain ⟨h1, h2, h3, h4, h5, h6, h7, h8⟩ :=
      sampleCpuUsage_spec os currentSystemTime delta numProcessors p m w
    rcases hr : sampleCpuUsage os currentSystemTime delta numProcessors p m w with ⟨q, m1, w1⟩
    rw [hr] at h1 h2 h3 h4 h5 h6 h7 h8
    simp only at h1 h2 h3 h4 h5 h6 h7 h8 ⊢
    obtain ⟨ih1, ih2⟩ := ih m1 w1
    rcases hl : sampleCpuLoop os currentSystemTime delta numProcessors rest m1 w1 with
      ⟨rest1, m2, w2⟩
    rw [hl] at ih1 ih2
    simp only at ih1 ih2 ⊢
    refine ⟨List.Forall₂.cons ⟨h1, h2, h3, h4, h5, h6⟩ ih1, ?_⟩
    intro hnd
    rw [List.map_cons, List.nodup_cons] at hnd
    refine List.Forall₂.cons h7 (forall₂_imp_mem (ih2 hnd.2) ?_)
    intro a ha b _ hab hc hh
    refine hab ?_ hh
    rw [h8 a.pid ?_]
    · exact hc
    · intro heq
      apply hnd.1
      rw [← heq]
      exact List.mem_map_of_mem _ ha

theorem updateProcessCpuUsage_spec (os : OS σ) (s : SystemInfo) (w : World σ) :
    ((os .GetSystemTimes w.os).1 = none → (updateProcessCpuUsage os s w).1 = s) ∧
    ((os .GetSystemTimes w.os).1 ≠ none →
      ∃ l m t, (updateProcessCpuUsage os s w).1 =
          { s with processList := l, processCpuTimesMap := m, lastSystemTime := t } ∧
        List.Forall₂ (fun (p q : ProcessInfo) =>
          q.pid = p.pid ∧ q.diskUsage = p.diskUsage ∧
          q.diskUsageHistory = p.diskUsageHistory ∧
          q.networkUsageHistory = p.networkUsageHistory ∧
          (p.cpuUsageHistory.length ≤ 5 → q.cpuUsageHistory.length ≤ 5) ∧
          ((∀ x ∈ p.cpuUsageHistory, 0 ≤ x) →
            0 ≤ q.cpuUsage ∧ ∀ x ∈ q.cpuUsageHistory, 0 ≤ x)) s.processList l ∧
        ((s.processList.map (fun p => p.pid)).Nodup →
          List.Forall₂ (fun (p q : ProcessInfo) =>
            s.processCpuTimesMap.contains p.pid = false → p.cpuUsageHistory = [] →
              q.cpuUsage = 0) s.processList l)) := by
  unfold updateProcessCpuUsage
  constructor
  · intro h
    split
    · rfl
    · rename_i h1
      rw [((sys_eq_iff _ _ _ _ _).1 h1).1] at h
      exact absurd h (by simp)
  · intro h
    split
    · rename_i h1
      exact absurd ((sys_eq_iff _ _ _ _ _).1 h1).1 h
    · rename_i idle kernelTime userTime w1 h1
      have hspec := sampleCpuLoop_spec os (toInt64 ((kernelTime : Int) + userTime))
        (systemTimeDelta (toInt64 ((kernelTime : Int) + userTime)) s.lastSystemTime)
        s.numProcessors s.processList s.processCpuTimesMap w1
      rcases hl : sampleCpuLoop os (toInt64 ((kernelTime : Int) + userTime))
        (systemTimeDelta (toInt64 ((kernelTime : Int) + userTime)) s.lastSystemTime)
        s.numProcessors s.processList s.processCpuTimesMap w1 with ⟨l, m, w2⟩
      rw [hl] at hspec
      exact ⟨l, m, _, rfl, hspec.1, hspec.2⟩

theorem updateCpuUsage_eq (os : OS σ) (s : SystemInfo) (w : World σ) :
    ∃ v, (updateCpuUsage os s w).1 = { s with cpuUsage := v } := by
  unfold updateCpuUsage
  split
  · exact ⟨_, rfl⟩
  · exact ⟨_, rfl⟩

theorem updateMemoryUsage_eq (os : OS σ) (s : SystemInfo) (w : World σ) :
    ∃ v, (updateMemoryUsage os s w).1 = { s with memoryUsage := v } := ⟨_, rfl⟩

theorem updateDiskUsage_eq (os : OS σ) (s : SystemInfo) (w : World σ) :
    ∃ v, (updateDiskUsage os s w).1 =
      { s with diskUsage := v, processList := s.processList.map rollDiskUsage } := by
  unfold updateDiskUsage
  split
  · exact ⟨_, rfl⟩
  · exact ⟨s.diskUsage, rfl⟩

theorem collectNetworkCounters_eq (os : OS σ) (s : SystemInfo) (w : World σ) :
    ∃ a b c d, (collectNetworkCounters os s w).1 =
      { s with networkUsage := a, lastBytesReceived := b, lastBytesSent := c,
               lastNetworkUpdateTime := d } := by
  unfold collectNetworkCounters
  split
  · split
    split
    · split
      split
      · split
        split
        · split
          split
          · exact ⟨_, _, _, _, rfl⟩
          · exact ⟨s.networkUsage, s.lastBytesReceived, s.lastBytesSent, _, rfl⟩
        · exact ⟨s.networkUsage, s.lastBytesReceived, s.lastBytesSent, _, rfl⟩
      · exact ⟨s.networkUsage, s.lastBytesReceived, s.lastBytesSent, s.lastNetworkUpdateTime, rfl⟩
    · exact ⟨s.networkUsage, s.lastBytesReceived, s.lastBytesSent, s.lastNetworkUpdateTime, rfl⟩
  · exact ⟨0, s.lastBytesReceived, s.lastBytesSent, s.lastNetworkUpdateTime, rfl⟩

theorem updateNetworkUsage_eq (os : OS σ) (s : SystemInfo) (w : World σ) :
    ∃ a b c d, (updateNetworkUsage os s w).1 =
      { s with networkUsage := a, lastBytesReceived := b, lastBytesSent := c,
               lastNetworkUpdateTime := d } := by
  unfold updateNetworkUsage
  obtain ⟨a, b, c, d, h⟩ := collectNetworkCounters_eq os s w
  rcases hc : collectNetworkCounters os s w with ⟨s1, w1⟩
  rw [hc] at h
  simp only at h ⊢
  subst h
  exact ⟨_, b, c, d, rfl⟩

theorem updateProcessList_settings (os : OS σ) (s : SystemInfo) (w : World σ) :
    (updateProcessList os s w).1.efficiencySettings = s.efficiencySettings ∧
    (updateProcessList os s w).1.processCpuTimesMap = s.processCpuTimesMap := by
  cases h : (os .SnapshotProcesses w.os).1 with
  | none => rw [(updateProcessList_spec os s w).1 h]; exact ⟨rfl, rfl⟩
  | some entries =>
    obtain ⟨recs, m, he, -⟩ := (updateProcessList_spec os s w).2 entries h
    rw [he]
    exact ⟨rfl, rfl⟩

theorem updateProcessCpuUsage_settings (os : OS σ) (s : SystemInfo) (w : World σ) :
    (updateProcessCpuUsage os s w).1.efficiencySettings = s.efficiencySettings := by
  by_cases h : (os .GetSystemTimes w.os).1 = none
  · rw [(updateProcessCpuUsage_spec os s w).1 h]
  · obtain ⟨l, m, t, he, -⟩ := (updateProcessCpuUsage_spec os s w).2 h
    rw [he]
    rfl

theorem updateSystemInfo_spec (os : OS σ) (s : SystemInfo) (w : World σ) :
    (updateSystemInfo os s w).1.efficiencySettings = s.efficiencySettings ∧
    (updateSystemInfo os s w).1.processList =
      (updateProcessCpuUsage os (updateProcessList os s w).1
        (updateProcessList os s w).2).1.processList.map rollDiskUsage := by
  unfold updateSystemInfo
  have h1 := (updateProcessList_settings os s w).1
  rcases hx1 : updateProcessList os s w with ⟨s1, w1⟩
  rw [hx1] at h1
  simp only at h1 ⊢
  have h2 := updateProcessCpuUsage_settings os s1 w1
  rcases hx2 : updateProcessCpuUsage os s1 w1 with ⟨s2, w2⟩
  rw [hx2] at h2
  simp only at h2 ⊢
  obtain ⟨v3, h3⟩ := updateCpuUsage_eq os s2 w2
  rcases hx3 : updateCpuUsage os s2 w2 with ⟨s3, w3⟩
  rw [hx3] at h3
  simp only at h3 ⊢
  obtain ⟨v4, h4⟩ := updateMemoryUsage_eq os s3 w3
  rcases hx4 : updateMemoryUsage os s3 w3 with ⟨s4, w4⟩
  rw [hx4] at h4
  simp only at h4 ⊢
  obtain ⟨v5, h5⟩ := updateDiskUsage_eq os s4 w4
  rcases hx5 : updateDiskUsage os s4 w4 with ⟨s5, w5⟩
  rw [hx5] at h5
  simp only at h5 ⊢
  obtain ⟨a, b, c, d, h6⟩ := updateNetworkUsage_eq os s5 w5
  rcases hx6 : updateNetworkUsage os s5 w5 with ⟨s6, w6⟩
  rw [hx6] at h6
  simp only at h6 ⊢
  subst h6 h5 h4 h3
  exact ⟨h2.trans h1, rfl⟩

theorem rollDiskUsage_bounded (p : ProcessInfo) (h : HistoriesBounded p) :
    HistoriesBounded (rollDiskUsage p) :=
  ⟨h.1, appendTrimmed_length _ _ h.2.1, h.2.2⟩

theorem updateProcessList_bounded (os : OS σ) (s : SystemInfo) (w : World σ)
    (h : ∀ p ∈ s.processList, HistoriesBounded p) :
    ∀ p ∈ (updateProcessList os s w).1.processList, HistoriesBounded p := by
  cases hs : (os .SnapshotProcesses w.os).1 with
  | none => rw [(updateProcessList_spec os s w).1 hs]; exact h
  | some entries =>
    obtain ⟨recs, m, he, hall, -⟩ := (updateProcessList_spec os s w).2 entries hs
    rw [he]
    intro p hp
    obtain ⟨pe, -, -, h1, h2, h3⟩ := forall₂_mem_right hall p hp
    refine ⟨?_, ?_, ?_⟩
    · rw [h1]; simp
    · omega
    · omega

theorem updateProcessCpuUsage_bounded (os : OS σ) (s : SystemInfo) (w : World σ)
    (h : ∀ p ∈ s.processList, HistoriesBounded p) :
    ∀ p ∈ (updateProcessCpuUsage os s w).1.processList, HistoriesBounded p := by
  by_cases hs : (os .GetSystemTimes w.os).1 = none
  · rw [(updateProcessCpuUsage_spec os s w).1 hs]; exact h
  · obtain ⟨l, m, t, he, hall, -⟩ := (updateProcessCpuUsage_spec os s w).2 hs
    rw [he]
    intro q hq
    obtain ⟨p, hp, -, -, h3, h4, h5, -⟩ := forall₂_mem_right hall q hq
    have hb := h p hp
    exact ⟨h5 hb.1, by rw [h3]; exact hb.2.1, by rw [h4]; exact hb.2.2⟩

theorem updateSystemInfo_bounded (os : OS σ) (s : SystemInfo) (w : World σ)
    (h : ∀ p ∈ s.processList, HistoriesBounded p) :
    ∀ p ∈ (updateSystemInfo os s w).1.processList, HistoriesBounded p := by
  rw [(updateSystemInfo_spec os s w).2]
  intro p hp
  obtain ⟨q, hq, rfl⟩ := List.mem_map.1 hp
  exact rollDiskUsage_bounded q
    (updateProcessCpuUsage_bounded os _ _ (updateProcessList_bounded os s w h) q hq)

theorem terminateProcess_registry (os : OS σ) (fuel : Nat) (pid : Int) (s : SystemInfo)
    (w : World σ) (r : Bool × SystemInfo × World σ)
    (h : terminateProcess os fuel pid s w = some r) :
    r.2.1 = s ∨ r.2.1 = removeProcessFromList s pid := by
  rcases hb : r.1 with _ | _
  · left
    unfold terminateProcess at h
    split at h
    · simp at h; subst h; rfl
    · split at h
      · simp at h
      · simp at h; subst h
        exact forceTerminateProcess_false_frame os pid s _ hb
      · split at h
        · simp at h; subst h; simp at hb
        · simp at h; subst h
          exact forceTerminateProcess_false_frame os pid s _ hb
  · right
    exact (terminateProcess_true os fuel pid s w r h hb).1

theorem setEfficiencyMode_processList (os : OS σ) (enabled : Bool) (s : SystemInfo)
    (w : World σ) : (setEfficiencyMode os enabled s w).1.processList = s.processList := by
  by_cases hne : s.efficiencyModeEnabled = enabled
  · unfold setEfficiencyMode
    rw [if_pos hne]
  · have h := congrArg SystemInfo.processList (setEfficiencyMode_core os enabled s w hne)
    exact h

theorem setEfficiencyMode_disabled (os : OS σ) (enabled : Bool) (s : SystemInfo)
    (w : World σ)
    (hinv : s.efficiencyModeEnabled = false →
      s.originalPriorities = [] ∧ s.throttledProcesses = [])
    (hoff : (setEfficiencyMode os enabled s w).1.efficiencyModeEnabled = false) :
    (setEfficiencyMode os enabled s w).1.originalPriorities = [] ∧
    (setEfficiencyMode os enabled s w).1.throttledProcesses = [] := by
  by_cases hne : s.efficiencyModeEnabled = enabled
  · unfold setEfficiencyMode at hoff ⊢
    rw [if_pos hne] at hoff ⊢
    exact hinv hoff
  · have h := congrArg SystemInfo.efficiencyModeEnabled
      (setEfficiencyMode_core os enabled s w hne)
    have h2 : enabled = false := by
      rw [← hoff]
      exact h.symm
    subst h2
    have hon : s.efficiencyModeEnabled = true := by
      cases hs : s.efficiencyModeEnabled
      · exact absurd hs hne
      · rfl
    rw [setEfficiencyMode_false_eq os s w hon]
    exact ⟨rfl, rfl⟩

theorem reachable_induction (os : OS σ) (s0 : SystemInfo) (w0 : World σ)
    (P : SystemInfo → Prop) (h0 : P s0)
    (htick : ∀ s w, P s → P (updateSystemInfo os s w).1)
    (heff : ∀ enabled s w, P s → P (setEfficiencyMode os enabled s w).1)
    (hterm : ∀ s pid, P s → P (removeProcessFromList s pid))
    {s : SystemInfo} {w : World σ} (h : Reachable os s0 w0 s w) : P s := by
  induction h with
  | start => exact h0
  | tick _ ih => exact htick _ _ ih
  | efficiency enabled _ ih => exact heff _ _ _ ih
  | terminate fuel pid r _ hr ih =>
    rcases terminateProcess_registry os fuel pid _ _ r hr with h | h
    · rw [h]; exact ih
    · rw [h]; exact hterm _ _ ih
  | environment st _ ih => exact ih

theorem initCpuCounter_eq (os : OS σ) (s : SystemInfo) (w : World σ) :
    ∃ a b, (initCpuCounter os s w).1 = { s with g_hQuery := a, g_hCounter := b } := by
  unfold initCpuCounter
  split
  · exact ⟨s.g_hQuery, s.g_hCounter, rfl⟩
  · split
    · exact ⟨s.g_hQuery, s.g_hCounter, rfl⟩
    · split
      · exact ⟨_, _, rfl⟩
      · exact ⟨_, _, rfl⟩

theorem initNetworkCounter_eq (os : OS σ) (s : SystemInfo) (w : World σ) :
    ∃ a b c d, (initNetworkCounter os s w).1 =
      { s with networkQuery := a, bytesReceivedCounter := b, bytesSentCounter := c,
               lastNetworkUpdateTime := d } := by
  unfold initNetworkCounter
  split
  · exact ⟨s.networkQuery, s.bytesReceivedCounter, s.bytesSentCounter,
      s.lastNetworkUpdateTime, rfl⟩
  · split
    · exact ⟨_, s.bytesReceivedCounter, s.bytesSentCounter, s.lastNetworkUpdateTime, rfl⟩
    · split
      · exact ⟨_, _, s.bytesSentCounter, s.lastNetworkUpdateTime, rfl⟩
      · exact ⟨_, _, _, _, rfl⟩

theorem constructSystemInfo_spec (os : OS σ) (w0 : World σ) :
    ∃ s00 w00, constructSystemInfo os w0 = updateSystemInfo os s00 w00 ∧
      s00.efficiencySettings = (false, [], []) ∧ s00.processList = [] ∧
      s00.processCpuTimesMap = [] ∧ s00.diskIoMap = [] := by
  unfold constructSystemInfo
  split
  rename_i n w1 h1
  split
  rename_i times w2 h2
  obtain ⟨a, b, e3⟩ := initCpuCounter_eq os (initialMembers n times) w2
  rcases hx3 : initCpuCounter os (initialMembers n times) w2 with ⟨s3, w3⟩
  rw [hx3] at e3
  simp only at e3 ⊢
  obtain ⟨a4, b4, c4, d4, e4⟩ := initNetworkCounter_eq os s3 w3
  rcases hx4 : initNetworkCounter os s3 w3 with ⟨s4, w4⟩
  rw [hx4] at e4
  simp only at e4 ⊢
  subst e4 e3
  exact ⟨_, _, rfl, rfl, rfl, rfl, rfl⟩

theorem mem_of_mem_removeFirstWithPid (l : List ProcessInfo) (pid : Int) (p : ProcessInfo)
    (h : p ∈ removeFirstWithPid l pid) : p ∈ l := by
  induction l with
  | nil => simp [removeFirstWithPid] at h
  | cons q rest ih =>
    unfold removeFirstWithPid at h
    split at h
    · exact List.mem_cons_of_mem _ h
    · rcases List.mem_cons.1 h with h1 | h1
      · rw [h1]; exact List.mem_cons_self _ _
      · exact List.mem_cons_of_mem _ (ih h1)

theorem average_pair_zero : average [0, 0] = 0 := by
  simp [average]

theorem updateSystemInfo_cold (os : OS σ) (s : SystemInfo) (w : World σ)
    (entries : List PROCESSENTRY32W)
    (hsnap : (os .SnapshotProcesses w.os).1 = some entries)
    (hnodup : (entries.map (fun pe => pe.th32ProcessID)).Nodup)
    (hsys : ∀ st, (os .GetSystemTimes st).1 ≠ none) :
    List.Forall₂ (fun (pe : PROCESSENTRY32W) (p : ProcessInfo) =>
      p.pid = pe.th32ProcessID ∧
      ((∀ st, (os (.OpenProcess (PROCESS_QUERY_INFORMATION ||| PROCESS_VM_READ)
          pe.th32ProcessID) st).1 ≠ none) →
        s.processCpuTimesMap.contains pe.th32ProcessID = false →
        s.diskIoMap.contains pe.th32ProcessID = false →
        p.cpuUsage = 0 ∧ p.diskUsage = 0))
      entries (updateSystemInfo os s w).1.processList := by
  rw [(updateSystemInfo_spec os s w).2]
  obtain ⟨recs, m, he, hall, hcold⟩ := (updateProcessList_spec os s w).2 entries hsnap
  have hmap := (updateProcessList_settings os s w).2
  rcases hx : updateProcessList os s w with ⟨s1, w1⟩
  rw [hx] at he hmap
  simp only at he hmap ⊢
  have hl : s1.processList = recs := by rw [he]
  obtain ⟨l, m2, t, he2, hall2, hcold2⟩ := (updateProcessCpuUsage_spec os s1 w1).2 (hsys _)
  rw [he2]
  simp only
  rw [hl] at hall2 hcold2
  have hpids : recs.map (fun p => p.pid) = entries.map (fun pe => (pe.th32ProcessID : Int)) :=
    forall₂_map_eq hall (fun _ _ hab => hab.1)
  have hnd2 : (recs.map (fun p => p.pid)).Nodup := by
    rw [hpids]
    have : entries.map (fun pe => (pe.th32ProcessID : Int))
        = (entries.map (fun pe => pe.th32ProcessID)).map (fun n : Nat => (n : Int)) := by
      rw [List.map_map]; rfl
    rw [this]
    exact hnodup.map (fun a b hab => by exact_mod_cast hab)
  have h1 := forall₂_and hall (hcold hnodup)
  have h2 := forall₂_and hall2 (hcold2 hnd2)
  have h3 := forall₂_chain h1 h2 (T := fun (pe : PROCESSENTRY32W) (q : ProcessInfo) =>
      q.pid = pe.th32ProcessID ∧
      ((∀ st, (os (.OpenProcess (PROCESS_QUERY_INFORMATION ||| PROCESS_VM_READ)
          pe.th32ProcessID) st).1 ≠ none) →
        s.processCpuTimesMap.contains pe.th32ProcessID = false →
        s.diskIoMap.contains pe.th32ProcessID = false →
        q.cpuUsage = 0 ∧ q.diskUsage = 0 ∧ q.diskUsageHistory = [0])) (by
    intro pe p q hpe hpq
    obtain ⟨⟨hpid, hcpu, -, -⟩, hdisk⟩ := hpe
    obtain ⟨⟨hqpid, hqd, hqh, -, -, -⟩, hqcold⟩ := hpq
    refine ⟨hqpid.trans hpid, ?_⟩
    intro hopen hc hd
    have hd1 := hdisk hopen hd
    refine ⟨hqcold ?_ hcpu, hqd.trans hd1.1, hqh.trans hd1.2⟩
    rw [hmap, hpid]
    exact hc)
  refine forall₂_chain h3 (forall₂_map_self (f := rollDiskUsage) l) ?_
  intro pe q r hq hr
  subst hr
  refine ⟨hq.1, ?_⟩
  intro hopen hc hd
  obtain ⟨h4, h5, h6⟩ := hq.2 hopen hc hd
  refine ⟨h4, ?_⟩
  simp only [rollDiskUsage, h5, h6, appendTrimmed]
  simp [average]

theorem average_singleton (x : Double) : average [x] = x := by
  simp [average]

theorem average_pair (x : Double) : average [x, x] = x := by
  simp only [average, List.foldl_cons, List.foldl_nil, List.length_cons, List.length_nil]
  norm_num

theorem sampleCpuUsage_fresh (os : OS σ) (currentSystemTime delta numProcessors : Int)
    (proc : ProcessInfo) (m : QMap ProcessCpuTimes) (w : World σ)
    (h : proc.cpuUsageHistory = []) :
    (sampleCpuUsage os currentSystemTime delta numProcessors proc m w).1.cpuUsageHistory.length
      ≤ 1 ∧
    ∀ x ∈ (sampleCpuUsage os currentSystemTime delta numProcessors proc m w).1.cpuUsageHistory,
      x = (sampleCpuUsage os currentSystemTime delta numProcessors proc m w).1.cpuUsage := by
  unfold sampleCpuUsage
  split
  · simp [h]
  · split
    · simp only [rollCpuUsage, h, appendTrimmed]
      simp [average]
    · simp [h]

theorem sampleCpuLoop_fresh (os : OS σ) (currentSystemTime delta numProcessors : Int)
    (l : List ProcessInfo) (m : QMap ProcessCpuTimes) (w : World σ)
    (h : ∀ p ∈ l, p.cpuUsageHistory = []) :
    ∀ q ∈ (sampleCpuLoop os currentSystemTime delta numProcessors l m w).1,
      q.cpuUsageHistory.length ≤ 1 ∧ ∀ x ∈ q.cpuUsageHistory, x = q.cpuUsage := by
  induction l generalizing m w with
  | nil => intro q hq; simp [sampleCpuLoop] at hq
  | cons p rest ih =>
    unfold sampleCpuLoop
    have h1 := sampleCpuUsage_fresh os currentSystemTime delta numProcessors p m w
      (h p (List.mem_cons_self _ _))
    rcases hr : sampleCpuUsage os currentSystemTime delta numProcessors p m w with ⟨q1, m1, w1⟩
    rw [hr] at h1
    simp only at h1 ⊢
    have h2 := ih m1 w1 (fun p hp => h p (List.mem_cons_of_mem _ hp))
    rcases hl : sampleCpuLoop os currentSystemTime delta numProcessors rest m1 w1 with
      ⟨rest1, m2, w2⟩
    rw [hl] at h2
    simp only at h2 ⊢
    intro q hq
    rcases List.mem_cons.1 hq with h3 | h3
    · rw [h3]; exact h1
    · exact h2 q h3

theorem readProcess_disk (os : OS σ) (pe32 : PROCESSENTRY32W) (s : SystemInfo) (w : World σ) :
    ∀ x ∈ (readProcess os pe32 s w).1.diskUsageHistory,
      x = (readProcess os pe32 s w).1.diskUsage := by
  unfold readProcess
  split
  rename_i junk w0 h0
  split
  · simp [declareProcessInfo]
  · rename_i hP w1 h1
    obtain ⟨v1, e1⟩ := queryPath_eq os hP (declareProcessInfo junk pe32) w1
    rcases hq1 : queryPath os hP (declareProcessInfo junk pe32) w1 with ⟨p1, w2⟩
    rw [hq1] at e1
    simp only at e1 ⊢
    obtain ⟨v2, e2⟩ := queryMemoryUsage_eq os hP p1 w2
    rcases hq2 : queryMemoryUsage os hP p1 w2 with ⟨p2, w3⟩
    rw [hq2] at e2
    simp only at e2 ⊢
    obtain ⟨v3, e3⟩ := queryStartTime_eq os hP p2 w3
    rcases hq3 : queryStartTime os hP p2 w3 with ⟨p3, w4⟩
    rw [hq3] at e3
    simp only at e3 ⊢
    obtain ⟨v4, e4⟩ := queryStatus_eq os hP p3 w4
    rcases hq4 : queryStatus os hP p3 w4 with ⟨p4, w5⟩
    rw [hq4] at e4
    simp only at e4 ⊢
    obtain ⟨d, m, e5, -⟩ := queryDiskUsage_eq os hP p4 s w5
    rcases hq5 : queryDiskUsage os hP p4 s w5 with ⟨p5, s5, w6⟩
    rw [hq5] at e5
    simp only at e5 ⊢
    have e6 := queryNetworkUsage_eq os hP p5 w6
    rcases hq6 : queryNetworkUsage os hP p5 w6 with ⟨p6, w7⟩
    rw [hq6] at e6
    simp only at e6 ⊢
    obtain ⟨t7, d7, st7, e7⟩ := queryCategory_eq os p6 w7
    rcases hq7 : queryCategory os p6 w7 with ⟨p7, w8⟩
    rw [hq7] at e7
    simp only at e7 ⊢
    subst e7 e6 e5 e4 e3 e2 e1
    simp [rollDiskUsage, appendTrimmed, declareProcessInfo, average]

theorem updateProcessLoop_disk (os : OS σ) (entries : List PROCESSENTRY32W)
    (s : SystemInfo) (w : World σ)
    (h : ∀ p ∈ s.processList, p.diskUsageHistory.length ≤ 1 ∧
      ∀ x ∈ p.diskUsageHistory, x = p.diskUsage) :
    ∀ p ∈ (updateProcessLoop os entries s w).1.processList,
      p.diskUsageHistory.length ≤ 1 ∧ ∀ x ∈ p.diskUsageHistory, x = p.diskUsage := by
  induction entries generalizing s w with
  | nil => exact h
  | cons pe rest ih =>
    unfold updateProcessLoop
    have h1 := readProcess_disk os pe s w
    obtain ⟨-, -, h2, -, ⟨m1, hs1, -⟩, -⟩ := readProcess_spec os pe s w
    rcases hr : readProcess os pe s w with ⟨p, s1, w1⟩
    rw [hr] at h1 h2 hs1
    simp only at h1 h2 hs1 ⊢
    subst hs1
    apply ih
    intro q hq
    simp only [List.mem_append, List.mem_singleton] at hq
    rcases hq with hq | hq
    · exact h q hq
    · rw [hq]; exact ⟨h2, h1⟩

theorem rollDiskUsage_single (p : ProcessInfo)
    (h : p.diskUsageHistory.length ≤ 1 ∧ ∀ x ∈ p.diskUsageHistory, x = p.diskUsage) :
    ∀ x ∈ (rollDiskUsage p).diskUsageHistory, x = (rollDiskUsage p).diskUsage := by
  obtain ⟨h1, h2⟩ := h
  rcases hh : p.diskUsageHistory with _ | ⟨a, _ | ⟨b, rest⟩⟩
  · simp [rollDiskUsage, hh, appendTrimmed, average]
  · have ha : a = p.diskUsage := h2 a (by rw [hh]; exact List.mem_cons_self _ _)
    subst ha
    simp only [rollDiskUsage, hh, appendTrimmed]
    simp only [List.cons_append, List.nil_append, List.length_cons, List.length_nil]
    rw [if_neg (by decide), average_pair]
    simp
  · rw [hh] at h1
    simp at h1

theorem updateSystemInfo_single_sample (os : OS σ) (s : SystemInfo) (w : World σ)
    (hsnap : (os .SnapshotProcesses w.os).1 ≠ none) :
    ∀ p ∈ (updateSystemInfo os s w).1.processList,
      p.cpuUsageHistory.length ≤ 1 ∧ (∀ x ∈ p.cpuUsageHistory, x = p.cpuUsage) ∧
      ∀ x ∈ p.diskUsageHistory, x = p.diskUsage := by
  rw [(updateSystemInfo_spec os s w).2]
  cases hs : (os .SnapshotProcesses w.os).1 with
  | none => exact absurd hs hsnap
  | some entries =>
    obtain ⟨recs, m, he, hall, -⟩ := (updateProcessList_spec os s w).2 entries hs
    have hdisk : ∀ p ∈ (updateProcessList os s w).1.processList,
        p.diskUsageHistory.length ≤ 1 ∧ ∀ x ∈ p.diskUsageHistory, x = p.diskUsage := by
      unfold updateProcessList
      split
      · rename_i h1
        rw [((sys_eq_iff _ _ _ _ _).1 h1).1] at hs
        exact absurd hs (by simp)
      · exact updateProcessLoop_disk os _ _ _ (fun p hp => by simp at hp)
    rcases hx : updateProcessList os s w with ⟨s1, w1⟩
    rw [hx] at he hdisk
    simp only at he hdisk ⊢
    have hl : s1.processList = recs := by rw [he]
    have hfresh : ∀ p ∈ s1.processList, p.cpuUsageHistory = [] := by
      rw [hl]
      intro p hp
      obtain ⟨pe, -, -, h1, -⟩ := forall₂_mem_right hall p hp
      exact h1
    have key : ∀ q ∈ (updateProcessCpuUsage os s1 w1).1.processList,
        (q.cpuUsageHistory.length ≤ 1 ∧ ∀ x ∈ q.cpuUsageHistory, x = q.cpuUsage) ∧
        (q.diskUsageHistory.length ≤ 1 ∧ ∀ x ∈ q.diskUsageHistory, x = q.diskUsage) := by
      by_cases hsys : (os .GetSystemTimes w1.os).1 = none
      · rw [(updateProcessCpuUsage_spec os s1 w1).1 hsys]
        intro q hq
        refine ⟨?_, hdisk q hq⟩
        rw [hfresh q hq]
        simp
      · obtain ⟨l, m2, t, he2, hall2, -⟩ := (updateProcessCpuUsage_spec os s1 w1).2 hsys
        intro q hq
        refine ⟨?_, ?_⟩
        · revert q
          unfold updateProcessCpuUsage
          split
          · rename_i h1
            exact absurd ((sys_eq_iff _ _ _ _ _).1 h1).1 hsys
          · rename_i idle kernelTime userTime w2 h1
            have hf := sampleCpuLoop_fresh os (toInt64 ((kernelTime : Int) + userTime))
              (systemTimeDelta (toInt64 ((kernelTime : Int) + userTime)) s1.lastSystemTime)
              s1.numProcessors s1.processList s1.processCpuTimesMap w2 hfresh
            rcases hl2 : sampleCpuLoop os (toInt64 ((kernelTime : Int) + userTime))
              (systemTimeDelta (toInt64 ((kernelTime : Int) + userTime)) s1.lastSystemTime)
              s1.numProcessors s1.processList s1.processCpuTimesMap w2 with ⟨l2, m3, w3⟩
            rw [hl2] at hf
            exact hf
        · rw [he2] at hq
          obtain ⟨p, hp, -, h2, h3, -⟩ := forall₂_mem_right hall2 q hq
          rw [h2, h3]
          exact hdisk p hp
    intro p hp
    obtain ⟨q, hq, rfl⟩ := List.mem_map.1 hp
    obtain ⟨hc, hd⟩ := key q hq
    exact ⟨hc.1, hc.2, rollDiskUsage_single q hd⟩

theorem toInt64_of_range (x : Int) (h1 : -9223372036854775808 ≤ x)
    (h2 : x < 9223372036854775808) : toInt64 x = x := by
  unfold toInt64
  omega

theorem toInt64_sub_left (a b : Int) : toInt64 (toInt64 a - b) = toInt64 (a - b) := by
  unfold toInt64
  omega

theorem toInt64_add_both (a b : Int) : toInt64 (toInt64 a + toInt64 b) = toInt64 (a + b) := by
  unfold toInt64
  omega

theorem toUInt64_toInt64 (n : Nat) (h : n < 18446744073709551616) :
    toUInt64 (toInt64 (n : Int)) = n := by
  unfold toUInt64 toInt64
  omega


theorem sampleCpuUsage_unread (os : OS σ) (currentSystemTime delta numProcessors : Int)
    (proc : ProcessInfo) (m : QMap ProcessCpuTimes) (w : World σ) :
    (sampleCpuUsage os currentSystemTime delta numProcessors proc m w).2.1 = m ∨
    ∃ v, (sampleCpuUsage os currentSystemTime delta numProcessors proc m w).2.1 =
      m.insert proc.pid v := by
  unfold sampleCpuUsage
  split
  · exact Or.inl rfl
  · split
    · exact Or.inr ⟨_, rfl⟩
    · exact Or.inl rfl

theorem diskSample_eq (prev : ProcessDiskIo) (t1 : Int) (r1 w1 : Nat)
    (ht0 : 0 < prev.lastUpdateTime)
    (hb1 : -9223372036854775808 ≤
      ((r1 : Int) - prev.lastReadBytes) + ((w1 : Int) - prev.lastWriteBytes))
    (hb2 : ((r1 : Int) - prev.lastReadBytes) + ((w1 : Int) - prev.lastWriteBytes)
      < 9223372036854775808)
    (ht1 : -9223372036854775808 ≤ t1 - prev.lastUpdateTime)
    (ht2 : t1 - prev.lastUpdateTime < 9223372036854775808) :
    diskSample prev t1 (toInt64 r1) (toInt64 w1) =
      if 0 < t1 - prev.lastUpdateTime then
        ((((r1 : Int) - prev.lastReadBytes) + ((w1 : Int) - prev.lastWriteBytes) : Int) : ℚ)
          / 1048576 / (((t1 - prev.lastUpdateTime : Int) : ℚ) / 1000)
      else 0 := by
  have e1 : toInt64 ((toInt64 r1 - prev.lastReadBytes) + (toInt64 w1 - prev.lastWriteBytes))
      = ((r1 : Int) - prev.lastReadBytes) + ((w1 : Int) - prev.lastWriteBytes) := by
    unfold toInt64
    omega
  have e2 : toInt64 (t1 - prev.lastUpdateTime) = t1 - prev.lastUpdateTime :=
    toInt64_of_range _ ht1 ht2
  unfold diskSample
  rw [if_pos ht0, e1, e2]

theorem queryDiskUsage_read (os : OS σ) (hProcess : Handle) (proc : ProcessInfo)
    (s : SystemInfo) (w : World σ) (readTransferCount writeTransferCount : Nat)
    (h : (os (.GetProcessIoCounters hProcess) (os .CurrentMSecsSinceEpoch w.os).2).1
      = some (readTransferCount, writeTransferCount)) :
    (queryDiskUsage os hProcess proc s w).1 =
      rollDiskUsage { proc with diskUsage :=
        (diskSample ((s.diskIoMap.value proc.pid).getD {}) (os .CurrentMSecsSinceEpoch w.os).1
          (toInt64 readTransferCount) (toInt64 writeTransferCount)) } ∧
    (queryDiskUsage os hProcess proc s w).2.1 =
      { s with diskIoMap := (s.diskIoMap.insert proc.pid
          { lastReadBytes := toUInt64 (toInt64 readTransferCount),
            lastWriteBytes := toUInt64 (toInt64 writeTransferCount),
            lastUpdateTime := (os .CurrentMSecsSinceEpoch w.os).1 }) } := by
  unfold queryDiskUsage
  split
  rename_i currentTime w1 h1
  obtain ⟨h1a, rfl⟩ := (sys_eq_iff _ _ _ _ _).1 h1
  subst h1a
  split
  · rename_i r wr w2 h2
    obtain ⟨h2a, -⟩ := (sys_eq_iff _ _ _ _ _).1 h2
    rw [h] at h2a
    cases h2a
    exact ⟨rfl, rfl⟩
  · rename_i w2 h2
    obtain ⟨h2a, -⟩ := (sys_eq_iff _ _ _ _ _).1 h2
    rw [h] at h2a
    exact absurd h2a (by simp)

theorem queryDiskUsage_unread (os : OS σ) (hProcess : Handle) (proc : ProcessInfo)
    (s : SystemInfo) (w : World σ)
    (h : (os (.GetProcessIoCounters hProcess) (os .CurrentMSecsSinceEpoch w.os).2).1 = none) :
    (queryDiskUsage os hProcess proc s w).1 = rollDiskUsage { proc with diskUsage := 0 } ∧
    (queryDiskUsage os hProcess proc s w).2.1 = s := by
  unfold queryDiskUsage
  split
  rename_i currentTime w1 h1
  obtain ⟨h1a, rfl⟩ := (sys_eq_iff _ _ _ _ _).1 h1
  split
  · rename_i r wr w2 h2
    obtain ⟨h2a, -⟩ := (sys_eq_iff _ _ _ _ _).1 h2
    rw [h] at h2a
    exact absurd h2a (by simp)
  · exact ⟨rfl, rfl⟩


theorem readProcess_unopened (os : OS σ) (pe32 : PROCESSENTRY32W) (s : SystemInfo)
    (w : World σ)
    (h : (os (.OpenProcess (PROCESS_QUERY_INFORMATION ||| PROCESS_VM_READ) pe32.th32ProcessID)
        (os .UninitializedProcessInfo w.os).2).1 = none) :
    (readProcess os pe32 s w).1 = declareProcessInfo (os .UninitializedProcessInfo w.os).1 pe32 ∧
    (readProcess os pe32 s w).2.1 = s := by
  unfold readProcess
  split
  rename_i junk w0 h0
  obtain ⟨h0a, rfl⟩ := (sys_eq_iff _ _ _ _ _).1 h0
  subst h0a
  split
  · exact ⟨rfl, rfl⟩
  · rename_i hP w1 h1
    obtain ⟨h1a, -⟩ := (sys_eq_iff _ _ _ _ _).1 h1
    rw [h] at h1a
    exact absurd h1a (by simp)

theorem readProcess_opened (os : OS σ) (pe32 : PROCESSENTRY32W) (s : SystemInfo)
    (w : World σ)
    (h : (os (.OpenProcess (PROCESS_QUERY_INFORMATION ||| PROCESS_VM_READ) pe32.th32ProcessID)
        (os .UninitializedProcessInfo w.os).2).1 ≠ none) :
    ∃ path memoryUsage startTime status d t,
      (readProcess os pe32 s w).1 =
        { declareProcessInfo (os .UninitializedProcessInfo w.os).1 pe32 with
          path := path, memoryUsage := memoryUsage, startTime := startTime, status := status,
          diskUsageHistory := [d], diskUsageAvg := d, diskUsage := d,
          networkUsageHistory := [0], networkUsage := 0,
          type := t, typeDescription := getProcessDescription t,
          style := getProcessStyle t } := by
  unfold readProcess
  split
  rename_i junk w0 h0
  obtain ⟨h0a, rfl⟩ := (sys_eq_iff _ _ _ _ _).1 h0
  subst h0a
  split
  · rename_i w1 h1
    obtain ⟨h1a, -⟩ := (sys_eq_iff _ _ _ _ _).1 h1
    exact absurd h1a h
  · rename_i hP w1 h1
    obtain ⟨v1, e1⟩ := queryPath_eq os hP
      (declareProcessInfo (os .UninitializedProcessInfo w.os).1 pe32) w1
    rcases hq1 : queryPath os hP
      (declareProcessInfo (os .UninitializedProcessInfo w.os).1 pe32) w1 with ⟨p1, w2⟩
    rw [hq1] at e1
    simp only at e1 ⊢
    obtain ⟨v2, e2⟩ := queryMemoryUsage_eq os hP p1 w2
    rcases hq2 : queryMemoryUsage os hP p1 w2 with ⟨p2, w3⟩
    rw [hq2] at e2
    simp only at e2 ⊢
    obtain ⟨v3, e3⟩ := queryStartTime_eq os hP p2 w3
    rcases hq3 : queryStartTime os hP p2 w3 with ⟨p3, w4⟩
    rw [hq3] at e3
    simp only at e3 ⊢
    obtain ⟨v4, e4⟩ := queryStatus_eq os hP p3 w4
    rcases hq4 : queryStatus os hP p3 w4 with ⟨p4, w5⟩
    rw [hq4] at e4
    simp only at e4 ⊢
    obtain ⟨d, m, e5, -⟩ := queryDiskUsage_eq os hP p4 s w5
    rcases hq5 : queryDiskUsage os hP p4 s w5 with ⟨p5, s5, w6⟩
    rw [hq5] at e5
    simp only at e5 ⊢
    have e6 := queryNetworkUsage_eq os hP p5 w6
    rcases hq6 : queryNetworkUsage os hP p5 w6 with ⟨p6, w7⟩
    rw [hq6] at e6
    simp only at e6 ⊢
    have e7 : (queryCategory os p6 w7).1 =
        { p6 with type := (categorizeProcess os p6.name (toDWORD p6.pid) w7).1.type,
                  typeDescription :=
                    getProcessDescription (categorizeProcess os p6.name (toDWORD p6.pid) w7).1.type,
                  style := getProcessStyle (categorizeProcess os p6.name (toDWORD p6.pid) w7).1.type } :=
      rfl
    rcases hq7 : queryCategory os p6 w7 with ⟨p7, w8⟩
    rw [hq7] at e7
    simp only at e7 ⊢
    refine ⟨v1, v2, v3, v4, d, (categorizeProcess os p6.name (toDWORD p6.pid) w7).1.type, ?_⟩
    rw [e7, e6, e5, e4, e3, e2, e1]
    simp [rollDiskUsage, appendTrimmed, trimmedAppend, declareProcessInfo, average]

theorem sampleCpuUsage_eq (os : OS σ) (currentSystemTime delta numProcessors : Int)
    (proc : ProcessInfo) (m : QMap ProcessCpuTimes) (w : World σ) :
    ∃ a b c, (sampleCpuUsage os currentSystemTime delta numProcessors proc m w).1 =
      { proc with cpuUsage := a, cpuUsageHistory := b, cpuUsageAvg := c } := by
  unfold sampleCpuUsage
  split
  · exact ⟨0, proc.cpuUsageHistory, proc.cpuUsageAvg, rfl⟩
  · split
    · exact ⟨_, _, _, rfl⟩
    · exact ⟨0, proc.cpuUsageHistory, proc.cpuUsageAvg, rfl⟩

theorem updateProcessLoop_forall₂ (os : OS σ) (P : PROCESSENTRY32W → ProcessInfo → Prop)
    (hP : ∀ pe s w, P pe (readProcess os pe s w).1)
    (entries : List PROCESSENTRY32W) (s : SystemInfo) (w : World σ) :
    ∃ recs, (updateProcessLoop os entries s w).1.processList = s.processList ++ recs ∧
      List.Forall₂ P entries recs := by
  induction entries generalizing s w with
  | nil => exact ⟨[], by simp [updateProcessLoop], List.Forall₂.nil⟩
  | cons pe rest ih =>
    unfold updateProcessLoop
    have h1 := hP pe s w
    rcases hr : readProcess os pe s w with ⟨p, s1, w1⟩
    rw [hr] at h1
    simp only at h1 ⊢
    obtain ⟨recs, he, hall⟩ := ih { s1 with processList := s1.processList ++ [p] } w1
    have hs1 : s1.processList = s.processList := by
      obtain ⟨-, -, -, -, ⟨m, hm, -⟩, -⟩ := readProcess_spec os pe s w
      rw [hr] at hm
      simp only at hm
      rw [hm]
    refine ⟨p :: recs, ?_, List.Forall₂.cons h1 hall⟩
    rw [he, hs1]
    simp

theorem updateProcessList_forall₂ (os : OS σ) (P : PROCESSENTRY32W → ProcessInfo → Prop)
    (hP : ∀ pe s w, P pe (readProcess os pe s w).1)
    (s : SystemInfo) (w : World σ) (entries : List PROCESSENTRY32W)
    (hsnap : (os .SnapshotProcesses w.os).1 = some entries) :
    List.Forall₂ P entries (updateProcessList os s w).1.processList := by
  unfold updateProcessList
  split
  · rename_i w1 h1
    rw [((sys_eq_iff _ _ _ _ _).1 h1).1] at hsnap
    exact absurd hsnap (by simp)
  · rename_i entries1 w1 h1
    rw [((sys_eq_iff _ _ _ _ _).1 h1).1] at hsnap
    cases hsnap
    obtain ⟨recs, he, hall⟩ :=
      updateProcessLoop_forall₂ os P hP entries { s with processList := [] } w1
    rw [he]
    simpa using hall

theorem sampleCpuLoop_forall₂ (os : OS σ) (currentSystemTime delta numProcessors : Int)
    (R : ProcessInfo → ProcessInfo → Prop)
    (hR : ∀ proc m w,
      R proc (sampleCpuUsage os currentSystemTime delta numProcessors proc m w).1)
    (l : List ProcessInfo) (m : QMap ProcessCpuTimes) (w : World σ) :
    List.Forall₂ R l (sampleCpuLoop os currentSystemTime delta numProcessors l m w).1 := by
  induction l generalizing m w with
  | nil => exact List.Forall₂.nil
  | cons p rest ih =>
    unfold sampleCpuLoop
    have h1 := hR p m w
    rcases hr : sampleCpuUsage os currentSystemTime delta numProcessors p m w with ⟨q1, m1, w1⟩
    rw [hr] at h1
    simp only at h1 ⊢
    have h2 := ih m1 w1
    rcases hl : sampleCpuLoop os currentSystemTime delta numProcessors rest m1 w1 with
      ⟨rest1, m2, w2⟩
    rw [hl] at h2
    simp only at h2 ⊢
    exact List.Forall₂.cons h1 h2

theorem updateProcessCpuUsage_forall₂ (os : OS σ) (R : ProcessInfo → ProcessInfo → Prop)
    (hrefl : ∀ proc, R proc proc)
    (hR : ∀ c d n proc m w, R proc (sampleCpuUsage os c d n proc m w).1)
    (s : SystemInfo) (w : World σ) :
    List.Forall₂ R s.processList (updateProcessCpuUsage os s w).1.processList := by
  unfold updateProcessCpuUsage
  split
  · exact List.forall₂_same.2 (fun p _ => hrefl p)
  · rename_i idle kernelTime userTime w1 h1
    have h := sampleCpuLoop_forall₂ os (toInt64 ((kernelTime : Int) + userTime))
        (systemTimeDelta (toInt64 ((kernelTime : Int) + userTime)) s.lastSystemTime)
        s.numProcessors R (hR _ _ _) s.processList s.processCpuTimesMap w1
    rcases hl : sampleCpuLoop os (toInt64 ((kernelTime : Int) + userTime))
        (systemTimeDelta (toInt64 ((kernelTime : Int) + userTime)) s.lastSystemTime)
        s.numProcessors s.processList s.processCpuTimesMap w1 with ⟨l, m, w2⟩
    rw [hl] at h
    exact h

theorem updateSystemInfo_forall₂ (os : OS σ) (P Q : PROCESSENTRY32W → ProcessInfo → Prop)
    (hread : ∀ pe s w, P pe (readProcess os pe s w).1)
    (hcpu : ∀ pe c d n proc m w, P pe proc → P pe (sampleCpuUsage os c d n proc m w).1)
    (hroll : ∀ pe proc, P pe proc → Q pe (rollDiskUsage proc))
    (s : SystemInfo) (w : World σ) (entries : List PROCESSENTRY32W)
    (hsnap : (os .SnapshotProcesses w.os).1 = some entries) :
    List.Forall₂ Q entries (updateSystemInfo os s w).1.processList := by
  rw [(updateSystemInfo_spec os s w).2]
  have h1 := updateProcessList_forall₂ os P hread s w entries hsnap
  have h2 := updateProcessCpuUsage_forall₂ os (fun p q => ∀ pe, P pe p → P pe q)
    (fun _ _ hp => hp) (fun c d n proc m w pe hp => hcpu pe c d n proc m w hp)
    (updateProcessList os s w).1 (updateProcessList os s w).2
  have h3 := forall₂_chain h1 h2 (fun a b c hab hbc => hbc a hab)
  have h4 := forall₂_map_self
    (updateProcessCpuUsage os (updateProcessList os s w).1
      (updateProcessList os s w).2).1.processList (f := rollDiskUsage)
  exact forall₂_chain h3 h4 (fun a b c hab hbc => by rw [hbc]; exact hroll a b hab)

theorem queryDiskUsage_map (os : OS σ) (hProcess : Handle) (proc : ProcessInfo)
    (s : SystemInfo) (w : World σ) :
    (queryDiskUsage os hProcess proc s w).2.1 = s ∨
    ∃ v, (queryDiskUsage os hProcess proc s w).2.1 =
      { s with diskIoMap := s.diskIoMap.insert proc.pid v } := by
  unfold queryDiskUsage
  split
  split
  · exact Or.inr ⟨_, rfl⟩
  · exact Or.inl rfl

theorem readProcess_map (os : OS σ) (pe32 : PROCESSENTRY32W) (s : SystemInfo) (w : World σ) :
    (readProcess os pe32 s w).2.1 = s ∨
    ∃ v, (readProcess os pe32 s w).2.1 =
      { s with diskIoMap := s.diskIoMap.insert pe32.th32ProcessID v } := by
  unfold readProcess
  split
  rename_i junk w0 h0
  split
  · exact Or.inl rfl
  · rename_i hP w1 h1
    obtain ⟨v1, e1⟩ := queryPath_eq os hP (declareProcessInfo junk pe32) w1
    rcases hq1 : queryPath os hP (declareProcessInfo junk pe32) w1 with ⟨p1, w2⟩
    rw [hq1] at e1
    simp only at e1 ⊢
    obtain ⟨v2, e2⟩ := queryMemoryUsage_eq os hP p1 w2
    rcases hq2 : queryMemoryUsage os hP p1 w2 with ⟨p2, w3⟩
    rw [hq2] at e2
    simp only at e2 ⊢
    obtain ⟨v3, e3⟩ := queryStartTime_eq os hP p2 w3
    rcases hq3 : queryStartTime os hP p2 w3 with ⟨p3, w4⟩
    rw [hq3] at e3
    simp only at e3 ⊢
    obtain ⟨v4, e4⟩ := queryStatus_eq os hP p3 w4
    rcases hq4 : queryStatus os hP p3 w4 with ⟨p4, w5⟩
    rw [hq4] at e4
    simp only at e4 ⊢
    have hpid : p4.pid = pe32.th32ProcessID := by
      rw [e4, e3, e2, e1]; rfl
    have e5 := queryDiskUsage_map os hP p4 s w5
    rcases hq5 : queryDiskUsage os hP p4 s w5 with ⟨p5, s5, w6⟩
    rw [hq5, hpid] at e5
    simp only at e5 ⊢
    exact e5

theorem updateProcessLoop_keys (os : OS σ) (entries : List PROCESSENTRY32W)
    (s : SystemInfo) (w : World σ) (q : Int) (h : s.diskIoMap.contains q = true) :
    (updateProcessLoop os entries s w).1.diskIoMap.contains q = true := by
  induction entries generalizing s w with
  | nil => exact h
  | cons pe rest ih =>
    unfold updateProcessLoop
    have h1 := readProcess_map os pe s w
    rcases hr : readProcess os pe s w with ⟨p, s1, w1⟩
    rw [hr] at h1
    simp only at h1 ⊢
    apply ih
    simp only
    rcases h1 with h1 | ⟨v, h1⟩
    · rw [h1]; exact h
    · rw [h1]
      exact (QMap.contains_insert _ _ _ _).2 (Or.inr h)

theorem updateProcessList_keys (os : OS σ) (s : SystemInfo) (w : World σ) (q : Int)
    (h : s.diskIoMap.contains q = true) :
    (updateProcessList os s w).1.diskIoMap.contains q = true := by
  unfold updateProcessList
  split
  · exact h
  · exact updateProcessLoop_keys os _ _ _ q h

theorem sampleCpuLoop_keys (os : OS σ) (currentSystemTime delta numProcessors : Int)
    (l : List ProcessInfo) (m : QMap ProcessCpuTimes) (w : World σ) (q : Int)
    (h : m.contains q = true) :
    (sampleCpuLoop os currentSystemTime delta numProcessors l m w).2.1.contains q = true := by
  induction l generalizing m w with
  | nil => exact h
  | cons p rest ih =>
    unfold sampleCpuLoop
    have h1 := sampleCpuUsage_unread os currentSystemTime delta numProcessors p m w
    rcases hr : sampleCpuUsage os currentSystemTime delta numProcessors p m w with ⟨q1, m1, w1⟩
    rw [hr] at h1
    simp only at h1 ⊢
    have hm1 : m1.contains q = true := by
      rcases h1 with h1 | ⟨v, h1⟩
      · rw [h1]; exact h
      · rw [h1]; exact (QMap.contains_insert _ _ _ _).2 (Or.inr h)
    have h2 := ih m1 w1 hm1
    rcases hl : sampleCpuLoop os currentSystemTime delta numProcessors rest m1 w1 with
      ⟨rest1, m2, w2⟩
    rw [hl] at h2
    exact h2

theorem updateProcessCpuUsage_keys (os : OS σ) (s : SystemInfo) (w : World σ) (q : Int) :
    (s.processCpuTimesMap.contains q = true →
      (updateProcessCpuUsage os s w).1.processCpuTimesMap.contains q = true) ∧
    (updateProcessCpuUsage os s w).1.diskIoMap = s.diskIoMap := by
  unfold updateProcessCpuUsage
  split
  · exact ⟨fun h => h, rfl⟩
  · rename_i idle kernelTime userTime w1 h1
    refine ⟨fun h => ?_, ?_⟩
    · have h2 := sampleCpuLoop_keys os (toInt64 ((kernelTime : Int) + userTime))
        (systemTimeDelta (toInt64 ((kernelTime : Int) + userTime)) s.lastSystemTime)
        s.numProcessors s.processList s.processCpuTimesMap w1 q h
      rcases hl : sampleCpuLoop os (toInt64 ((kernelTime : Int) + userTime))
        (systemTimeDelta (toInt64 ((kernelTime : Int) + userTime)) s.lastSystemTime)
        s.numProcessors s.processList s.processCpuTimesMap w1 with ⟨l, m, w2⟩
      rw [hl] at h2
      exact h2
    · rcases hl : sampleCpuLoop os (toInt64 ((kernelTime : Int) + userTime))
        (systemTimeDelta (toInt64 ((kernelTime : Int) + userTime)) s.lastSystemTime)
        s.numProcessors s.processList s.processCpuTimesMap w1 with ⟨l, m, w2⟩
      rfl

theorem updateSystemInfo_maps (os : OS σ) (s : SystemInfo) (w : World σ) :
    (updateSystemInfo os s w).1.processCpuTimesMap =
      (updateProcessCpuUsage os (updateProcessList os s w).1
        (updateProcessList os s w).2).1.processCpuTimesMap ∧
    (updateSystemInfo os s w).1.diskIoMap =
      (updateProcessCpuUsage os (updateProcessList os s w).1
        (updateProcessList os s w).2).1.diskIoMap := by
  unfold updateSystemInfo
  rcases hx1 : updateProcessList os s w with ⟨s1, w1⟩
  simp only
  rcases hx2 : updateProcessCpuUsage os s1 w1 with ⟨s2, w2⟩
  simp only
  obtain ⟨v3, h3⟩ := updateCpuUsage_eq os s2 w2
  rcases hx3 : updateCpuUsage os s2 w2 with ⟨s3, w3⟩
  rw [hx3] at h3
  simp only at h3 ⊢
  obtain ⟨v4, h4⟩ := updateMemoryUsage_eq os s3 w3
  rcases hx4 : updateMemoryUsage os s3 w3 with ⟨s4, w4⟩
  rw [hx4] at h4
  simp only at h4 ⊢
  obtain ⟨v5, h5⟩ := updateDiskUsage_eq os s4 w4
  rcases hx5 : updateDiskUsage os s4 w4 with ⟨s5, w5⟩
  rw [hx5] at h5
  simp only at h5 ⊢
  obtain ⟨a, b, c, d, h6⟩ := updateNetworkUsage_eq os s5 w5
  rcases hx6 : updateNetworkUsage os s5 w5 with ⟨s6, w6⟩
  rw [hx6] at h6
  simp only at h6 ⊢
  subst h6 h5 h4 h3
  exact ⟨rfl, rfl⟩

theorem updateSystemInfo_keys (os : OS σ) (s : SystemInfo) (w : World σ) (q : Int) :
    (s.processCpuTimesMap.contains q = true →
      (updateSystemInfo os s w).1.processCpuTimesMap.contains q = true) ∧
    (s.diskIoMap.contains q = true →
      (updateSystemInfo os s w).1.diskIoMap.contains q = true) := by
  obtain ⟨e1, e2⟩ := updateSystemInfo_maps os s w
  obtain ⟨k1, k2⟩ := updateProcessCpuUsage_keys os (updateProcessList os s w).1
    (updateProcessList os s w).2 q
  rw [e1, e2, k2]
  refine ⟨fun h => k1 ?_, fun h => updateProcessList_keys os s w q h⟩
  rw [(updateProcessList_settings os s w).2]
  exact h

theorem event_eq_iff (c : Call) (r r1 : c.Ret) : ((⟨c, r⟩ : Event) = ⟨c, r1⟩) ↔ r = r1 := by
  constructor
  · intro h
    cases h
    rfl
  · intro h
    rw [h]

theorem event_call_eq {c c1 : Call} {r : c.Ret} {r1 : c1.Ret}
    (h : (⟨c, r⟩ : Event) = ⟨c1, r1⟩) : c = c1 := congrArg Sigma.fst h

theorem knownName_iff (name : String) :
    knownProcesses.any (fun e => e.1 == name && e.2 == ProcessType.System) = true ↔
      name ∈ knownProcesses.map Prod.fst := by
  have hall : ∀ e ∈ knownProcesses, e.2 = ProcessType.System := by decide
  rw [List.any_eq_true, List.mem_map]
  constructor
  · rintro ⟨e, he, h⟩
    simp only [Bool.and_eq_true, beq_iff_eq] at h
    exact ⟨e, he, h.1⟩
  · rintro ⟨e, he, h⟩
    refine ⟨e, he, ?_⟩
    simp only [Bool.and_eq_true, beq_iff_eq]
    exact ⟨h, hall e he⟩

theorem isSystemProcess_known (os : OS σ) (name : String) (pid : Nat) (w : World σ)
    (h : name ∈ knownProcesses.map Prod.fst) :
    isSystemProcess os name pid w = (true, w) := by
  unfold isSystemProcess
  rw [if_pos ((knownName_iff name).2 h)]

theorem isSystemProcess_trace (os : OS σ) (name : String) (pid : Nat) (w : World σ)
    (hk : name ∉ knownProcesses.map Prod.fst) :
    ∃ t, (isSystemProcess os name pid w).2.trace = w.trace ++ t ∧
      ((isSystemProcess os name pid w).1 = true ↔ ResolvedUnderSystemDirectory pid t) ∧
      ∀ e ∈ t, e.1.isPathLookup = true := by
  unfold isSystemProcess
  rw [if_neg (fun h => hk ((knownName_iff name).1 h))]
  split
  · rename_i w1 h1
    obtain ⟨h1a, rfl⟩ := (sys_eq_iff _ _ _ _ _).1 h1
    refine ⟨_, rfl, ?_, ?_⟩
    · constructor
      · intro h; cases h
      · rintro ⟨h, path, hm, -⟩
        simp only [List.mem_singleton, event_eq_iff] at hm
        cases hm
    · intro e he
      simp only [List.mem_singleton] at he
      subst he
      rfl
  · rename_i hP w1 h1
    obtain ⟨h1a, rfl⟩ := (sys_eq_iff _ _ _ _ _).1 h1
    split
    · rename_i path w2 h2
      obtain ⟨h2a, rfl⟩ := (sys_eq_iff _ _ _ _ _).1 h2
      have key : ResolvedUnderSystemDirectory pid
          [⟨Call.OpenProcess (PROCESS_QUERY_INFORMATION ||| PROCESS_VM_READ) pid, some hP⟩,
           ⟨Call.GetModuleFileNameEx hP, some path⟩, ⟨Call.CloseHandle hP, ()⟩] ↔
          underSystemDirectory path = true := by
        constructor
        · rintro ⟨h, p, hm1, hm2, hu⟩
          simp only [List.mem_cons, List.mem_singleton, List.mem_nil_iff, or_false] at hm2
          rcases hm2 with hm2 | hm2 | hm2
          · cases event_call_eq hm2
          · cases hm2
            exact hu
          · cases event_call_eq hm2
        · intro hu
          exact ⟨hP, path, by simp, by simp, hu⟩
      have hall : ∀ e ∈ ([⟨Call.OpenProcess (PROCESS_QUERY_INFORMATION ||| PROCESS_VM_READ) pid,
            some hP⟩, ⟨Call.GetModuleFileNameEx hP, some path⟩,
            ⟨Call.CloseHandle hP, ()⟩] : List Event), e.1.isPathLookup = true := by
        intro e he
        simp only [List.mem_cons, List.mem_singleton, List.mem_nil_iff, or_false] at he
        rcases he with he | he | he <;> subst he <;> rfl
      split
      · rename_i hc
        refine ⟨_, by simp [sys], ?_, hall⟩
        rw [key]
        exact ⟨fun _ => hc, fun _ => rfl⟩
      · rename_i hc
        refine ⟨_, by simp [sys], ?_, hall⟩
        rw [key]
        constructor
        · intro h; cases h
        · intro h; exact absurd h hc
    · rename_i w2 h2
      obtain ⟨h2a, rfl⟩ := (sys_eq_iff _ _ _ _ _).1 h2
      refine ⟨[⟨Call.OpenProcess (PROCESS_QUERY_INFORMATION ||| PROCESS_VM_READ) pid, some hP⟩,
           ⟨Call.GetModuleFileNameEx hP, none⟩, ⟨Call.CloseHandle hP, ()⟩], by simp [sys], ?_, ?_⟩
      · constructor
        · intro h; cases h
        · rintro ⟨h, p, hm1, hm2, hu⟩
          simp only [List.mem_cons, List.mem_singleton, List.mem_nil_iff, or_false] at hm2
          rcases hm2 with hm2 | hm2 | hm2
          · cases event_call_eq hm2
          · cases hm2
          · cases event_call_eq hm2
      · intro e he
        simp only [List.mem_cons, List.mem_singleton, List.mem_nil_iff, or_false] at he
        rcases he with he | he | he <;> subst he <;> rfl


theorem isBackgroundService_trace (os : OS σ) (pid : Nat) (w : World σ) :
    ∃ t, (isBackgroundService os pid w).2.trace = w.trace ++ t ∧
      ((isBackgroundService os pid w).1 = true ↔ ListedAsServiceHost pid t) ∧
      ∀ e ∈ t, e.1.isServiceLookup = true := by
  unfold isBackgroundService
  split
  · rename_i w1 h1
    obtain ⟨h1a, rfl⟩ := (sys_eq_iff _ _ _ _ _).1 h1
    refine ⟨_, rfl, ?_, ?_⟩
    · constructor
      · intro h; cases h
      · rintro ⟨h, scm, n, needed, services, hm, -⟩
        simp only [List.mem_singleton, event_eq_iff] at hm
        cases hm
    · intro e he
      simp only [List.mem_singleton] at he
      subst he
      rfl
  · rename_i hP w1 h1
    obtain ⟨h1a, rfl⟩ := (sys_eq_iff _ _ _ _ _).1 h1
    split
    · rename_i w2 h2
      obtain ⟨h2a, rfl⟩ := (sys_eq_iff _ _ _ _ _).1 h2
      refine ⟨[⟨Call.OpenProcess PROCESS_QUERY_INFORMATION pid, some hP⟩,
        ⟨Call.OpenSCManager, none⟩, ⟨Call.CloseHandle hP, ()⟩], by simp [sys], ?_, ?_⟩
      · constructor
        · intro h; cases h
        · rintro ⟨h, scm, n, needed, services, -, hm, -⟩
          simp only [List.mem_cons, List.mem_singleton, List.mem_nil_iff, or_false] at hm
          rcases hm with hm | hm | hm
          · cases event_call_eq hm
          · cases hm
          · cases event_call_eq hm
      · intro e he
        simp only [List.mem_cons, List.mem_singleton, List.mem_nil_iff, or_false] at he
        rcases he with he | he | he <;> subst he <;> rfl
    · rename_i scm w2 h2
      obtain ⟨h2a, rfl⟩ := (sys_eq_iff _ _ _ _ _).1 h2
      split
      rename_i ok0 bytesNeeded services0 w3 h3
      obtain ⟨h3a, rfl⟩ := (sys_eq_iff _ _ _ _ _).1 h3
      split
      · rename_i hpos
        split
        · rename_i needed1 services w4 h4
          obtain ⟨h4a, rfl⟩ := (sys_eq_iff _ _ _ _ _).1 h4
          have hall : ∀ e ∈ ([⟨Call.OpenProcess PROCESS_QUERY_INFORMATION pid, some hP⟩,
              ⟨Call.OpenSCManager, some scm⟩,
              ⟨Call.EnumServicesStatusEx scm 0, (ok0, bytesNeeded, services0)⟩,
              ⟨Call.EnumServicesStatusEx scm bytesNeeded, (true, needed1, services)⟩,
              ⟨Call.CloseServiceHandle scm, ()⟩, ⟨Call.CloseHandle hP, ()⟩] : List Event),
              e.1.isServiceLookup = true := by
            intro e he
            simp only [List.mem_cons, List.mem_singleton, List.mem_nil_iff, or_false] at he
            rcases he with he | he | he | he | he | he <;> subst he <;> rfl
          have key : ListedAsServiceHost pid
              [⟨Call.OpenProcess PROCESS_QUERY_INFORMATION pid, some hP⟩,
               ⟨Call.OpenSCManager, some scm⟩,
               ⟨Call.EnumServicesStatusEx scm 0, (ok0, bytesNeeded, services0)⟩,
               ⟨Call.EnumServicesStatusEx scm bytesNeeded, (true, needed1, services)⟩,
               ⟨Call.CloseServiceHandle scm, ()⟩, ⟨Call.CloseHandle hP, ()⟩] ↔
              pid ∈ services := by
            constructor
            · rintro ⟨h, scm1, n, needed, svcs, -, -, hn, hm, hin⟩
              simp only [List.mem_cons, List.mem_singleton, List.mem_nil_iff, or_false] at hm
              rcases hm with hm | hm | hm | hm | hm | hm
              · cases event_call_eq hm
              · cases event_call_eq hm
              · cases event_call_eq hm
                exact absurd hn (lt_irrefl 0)
              · cases hm
                exact hin
              · cases event_call_eq hm
              · cases event_call_eq hm
            · intro hin
              exact ⟨hP, scm, bytesNeeded, needed1, services, by simp, by simp, hpos,
                by simp, hin⟩
          split
          · rename_i hany
            refine ⟨_, by simp [sys], ?_, hall⟩
            rw [key]
            refine ⟨fun _ => ?_, fun _ => rfl⟩
            simpa using hany
          · rename_i hany
            refine ⟨_, by simp [sys], ?_, hall⟩
            rw [key]
            constructor
            · intro h; cases h
            · intro hin
              exact absurd (by simpa using hin) hany
        · rename_i needed1 services w4 h4
          obtain ⟨h4a, rfl⟩ := (sys_eq_iff _ _ _ _ _).1 h4
          refine ⟨[⟨Call.OpenProcess PROCESS_QUERY_INFORMATION pid, some hP⟩,
              ⟨Call.OpenSCManager, some scm⟩,
              ⟨Call.EnumServicesStatusEx scm 0, (ok0, bytesNeeded, services0)⟩,
              ⟨Call.EnumServicesStatusEx scm bytesNeeded, (false, needed1, services)⟩,
              ⟨Call.CloseServiceHandle scm, ()⟩, ⟨Call.CloseHandle hP, ()⟩],
            by simp [sys], ?_, ?_⟩
          · constructor
            · intro h; cases h
            · rintro ⟨h, scm1, n, needed, svcs, -, -, hn, hm, hin⟩
              simp only [List.mem_cons, List.mem_singleton, List.mem_nil_iff, or_false] at hm
              rcases hm with hm | hm | hm | hm | hm | hm
              · cases event_call_eq hm
              · cases event_call_eq hm
              · cases event_call_eq hm
                exact absurd hn (lt_irrefl 0)
              · cases hm
              · cases event_call_eq hm
              · cases event_call_eq hm
          · intro e he
            simp only [List.mem_cons, List.mem_singleton, List.mem_nil_iff, or_false] at he
            rcases he with he | he | he | he | he | he <;> subst he <;> rfl
      · rename_i hpos
        refine ⟨[⟨Call.OpenProcess PROCESS_QUERY_INFORMATION pid, some hP⟩,
            ⟨Call.OpenSCManager, some scm⟩,
            ⟨Call.EnumServicesStatusEx scm 0, (ok0, bytesNeeded, services0)⟩,
            ⟨Call.CloseServiceHandle scm, ()⟩, ⟨Call.CloseHandle hP, ()⟩],
          by simp [sys], ?_, ?_⟩
        · constructor
          · intro h; cases h
          · rintro ⟨h, scm1, n, needed, svcs, -, -, hn, hm, hin⟩
            simp only [List.mem_cons, List.mem_singleton, List.mem_nil_iff, or_false] at hm
            rcases hm with hm | hm | hm | hm | hm
            · cases event_call_eq hm
            · cases event_call_eq hm
            · cases event_call_eq hm
              exact absurd hn (lt_irrefl 0)
            · cases event_call_eq hm
            · cases event_call_eq hm
        · intro e he
          simp only [List.mem_cons, List.mem_singleton, List.mem_nil_iff, or_false] at he
          rcases he with he | he | he | he | he <;> subst he <;> rfl

theorem resolved_append (pid : Nat) (t1 t2 : List Event)
    (h2 : ∀ e ∈ t2, e.1.isServiceLookup = true) :
    ResolvedUnderSystemDirectory pid (t1 ++ t2) ↔ ResolvedUnderSystemDirectory pid t1 := by
  constructor
  · rintro ⟨h, path, hm1, hm2, hu⟩
    refine ⟨h, path, ?_, ?_, hu⟩
    · rcases List.mem_append.1 hm1 with hm | hm
      · exact hm
      · exact absurd (h2 _ hm)
          (by simp [Call.isServiceLookup, PROCESS_QUERY_INFORMATION, PROCESS_VM_READ])
    · rcases List.mem_append.1 hm2 with hm | hm
      · exact hm
      · exact absurd (h2 _ hm) (by simp [Call.isServiceLookup])
  · rintro ⟨h, path, hm1, hm2, hu⟩
    exact ⟨h, path, List.mem_append_left _ hm1, List.mem_append_left _ hm2, hu⟩

theorem listed_append (pid : Nat) (t1 t2 : List Event)
    (h1 : ∀ e ∈ t1, e.1.isPathLookup = true) :
    ListedAsServiceHost pid (t1 ++ t2) ↔ ListedAsServiceHost pid t2 := by
  constructor
  · rintro ⟨h, scm, n, needed, services, hm1, hm2, hn, hm3, hin⟩
    refine ⟨h, scm, n, needed, services, ?_, ?_, hn, ?_, hin⟩
    · rcases List.mem_append.1 hm1 with hm | hm
      · exact absurd (h1 _ hm)
          (by simp [Call.isPathLookup, PROCESS_QUERY_INFORMATION, PROCESS_VM_READ])
      · exact hm
    · rcases List.mem_append.1 hm2 with hm | hm
      · exact absurd (h1 _ hm) (by simp [Call.isPathLookup])
      · exact hm
    · rcases List.mem_append.1 hm3 with hm | hm
      · exact absurd (h1 _ hm) (by simp [Call.isPathLookup])
      · exact hm
  · rintro ⟨h, scm, n, needed, services, hm1, hm2, hn, hm3, hin⟩
    exact ⟨h, scm, n, needed, services, List.mem_append_right _ hm1,
      List.mem_append_right _ hm2, hn, List.mem_append_right _ hm3, hin⟩

theorem categorizeProcess_known (os : OS σ) (name : String) (pid : Nat) (w : World σ)
    (h : name ∈ knownProcesses.map Prod.fst) :
    categorizeProcess os name pid w =
      ({ type := .System, description := typeDescriptions .System,
         style := typeStyles .System }, w) := by
  unfold categorizeProcess
  rw [isSystemProcess_known os name pid w h]

theorem categorizeProcess_trace (os : OS σ) (name : String) (pid : Nat) (w : World σ)
    (hk : name ∉ knownProcesses.map Prod.fst) :
    ∃ t, (categorizeProcess os name pid w).2.trace = w.trace ++ t ∧
      ((categorizeProcess os name pid w).1.type = .System ↔
        ResolvedUnderSystemDirectory pid t) ∧
      ((categorizeProcess os name pid w).1.type = .Background ↔
        ¬ ResolvedUnderSystemDirectory pid t ∧ ListedAsServiceHost pid t) ∧
      ((categorizeProcess os name pid w).1.type = .Application ↔
        ¬ ResolvedUnderSystemDirectory pid t ∧ ¬ ListedAsServiceHost pid t) := by
  obtain ⟨t1, ht1, hr1, hall1⟩ := isSystemProcess_trace os name pid w hk
  unfold categorizeProcess
  rcases hs : isSystemProcess os name pid w with ⟨b1, w1⟩
  rw [hs] at ht1 hr1
  simp only at ht1 hr1 ⊢
  cases b1 with
  | true =>
    simp only
    have hres : ResolvedUnderSystemDirectory pid t1 := hr1.1 rfl
    refine ⟨t1, ht1, ⟨fun _ => hres, fun _ => by first | rfl | trivial⟩, ?_, ?_⟩
    · constructor
      · intro h; cases h
      · intro h; exact absurd hres h.1
    · constructor
      · intro h; cases h
      · intro h; exact absurd hres h.1
  | false =>
    simp only
    have hres : ¬ ResolvedUnderSystemDirectory pid t1 := fun h => by
      have := hr1.2 h
      cases this
    obtain ⟨t2, ht2, hr2, hall2⟩ := isBackgroundService_trace os pid w1
    rcases hb : isBackgroundService os pid w1 with ⟨b2, w2⟩
    rw [hb] at ht2 hr2
    simp only at ht2 hr2 ⊢
    have hres12 : ¬ ResolvedUnderSystemDirectory pid (t1 ++ t2) := fun h =>
      hres ((resolved_append pid t1 t2 hall2).1 h)
    have hl := listed_append pid t1 t2 hall1
    cases b2 with
    | true =>
      simp only
      have hlist : ListedAsServiceHost pid (t1 ++ t2) := hl.2 (hr2.1 rfl)
      refine ⟨t1 ++ t2, by rw [ht2, ht1, List.append_assoc], ?_, ?_, ?_⟩
      · constructor
        · intro h; cases h
        · intro h; exact absurd h hres12
      · exact ⟨fun _ => ⟨hres12, hlist⟩, fun _ => by first | rfl | trivial⟩
      · constructor
        · intro h; cases h
        · intro h; exact absurd hlist h.2
    | false =>
      simp only
      have hlist : ¬ ListedAsServiceHost pid (t1 ++ t2) := fun h => by
        have := hr2.2 (hl.1 h)
        cases this
      refine ⟨t1 ++ t2, by rw [ht2, ht1, List.append_assoc], ?_, ?_, ?_⟩
      · constructor
        · intro h; cases h
        · intro h; exact absurd h hres12
      · constructor
        · intro h; cases h
        · intro h; exact absurd h.2 hlist
      · exact ⟨fun _ => ⟨hres12, hlist⟩, fun _ => by first | rfl | trivial⟩

theorem categorizeProcess_registered (os : OS σ) (name : String) (pid : Nat) (w : World σ) :
    (categorizeProcess os name pid w).1.description
      = typeDescriptions (categorizeProcess os name pid w).1.type ∧
    (categorizeProcess os name pid w).1.style
      = typeStyles (categorizeProcess os name pid w).1.type ∧
    (categorizeProcess os name pid w).1.type ≠ .Unknown := by
  unfold categorizeProcess
  split
  · exact ⟨rfl, rfl, by simp⟩
  · split
    · exact ⟨rfl, rfl, by simp⟩
    · exact ⟨rfl, rfl, by simp⟩


theorem isSystemProcess_unopened (os : OS σ) (name : String) (pid : Nat) (w : World σ)
    (hk : name ∉ knownProcesses.map Prod.fst)
    (h : (os (.OpenProcess (PROCESS_QUERY_INFORMATION ||| PROCESS_VM_READ) pid) w.os).1 = none) :
    (isSystemProcess os name pid w).1 = false := by
  unfold isSystemProcess
  rw [if_neg (fun h => hk ((knownName_iff name).1 h))]
  split
  · rfl
  · rename_i hP w1 h1
    rw [((sys_eq_iff _ _ _ _ _).1 h1).1] at h
    cases h

theorem isSystemProcess_unread (os : OS σ) (name : String) (pid : Nat) (w : World σ)
    (hk : name ∉ knownProcesses.map Prod.fst)
    (h : ∀ hProcess st, (os (.GetModuleFileNameEx hProcess) st).1 = none) :
    (isSystemProcess os name pid w).1 = false := by
  unfold isSystemProcess
  rw [if_neg (fun h => hk ((knownName_iff name).1 h))]
  split
  · rfl
  · split
    · rename_i path w2 h2
      have := ((sys_eq_iff _ _ _ _ _).1 h2).1
      rw [h] at this
      cases this
    · rfl

theorem isBackgroundService_unopened (os : OS σ) (pid : Nat) (w : World σ)
    (h : (os (.OpenProcess PROCESS_QUERY_INFORMATION pid) w.os).1 = none) :
    (isBackgroundService os pid w).1 = false := by
  unfold isBackgroundService
  split
  · rfl
  · rename_i hP w1 h1
    rw [((sys_eq_iff _ _ _ _ _).1 h1).1] at h
    cases h

theorem categorizeProcess_unopened (os : OS σ) (name : String) (pid : Nat) (w : World σ)
    (hk : name ∉ knownProcesses.map Prod.fst)
    (h : ∀ access st, (os (.OpenProcess access pid) st).1 = none) :
    (categorizeProcess os name pid w).1.type = .Application := by
  unfold categorizeProcess
  have h1 := isSystemProcess_unopened os name pid w hk (h _ _)
  rcases hs : isSystemProcess os name pid w with ⟨b1, w1⟩
  rw [hs] at h1
  simp only at h1
  subst h1
  simp only
  have h2 := isBackgroundService_unopened os pid w1 (h _ _)
  rcases hb : isBackgroundService os pid w1 with ⟨b2, w2⟩
  rw [hb] at h2
  simp only at h2
  subst h2
  rfl

theorem categorizeProcess_unread (os : OS σ) (name : String) (pid : Nat) (w : World σ)
    (hk : name ∉ knownProcesses.map Prod.fst)
    (h : ∀ hProcess st, (os (.GetModuleFileNameEx hProcess) st).1 = none) :
    (categorizeProcess os name pid w).1.type = .Background ∨
    (categorizeProcess os name pid w).1.type = .Application := by
  unfold categorizeProcess
  have h1 := isSystemProcess_unread os name pid w hk h
  rcases hs : isSystemProcess os name pid w with ⟨b1, w1⟩
  rw [hs] at h1
  simp only at h1
  subst h1
  simp only
  split
  · exact Or.inl rfl
  · exact Or.inr rfl

theorem cons_split_append {α : Type} (t q t1 : List α) (e : α) (t2 : List α)
    (h : t ++ q = t1 ++ e :: t2) :
    (∃ r, t = t1 ++ e :: r ∧ t2 = r ++ q) ∨ (∃ r, t1 = t ++ r ∧ q = r ++ e :: t2) := by
  induction t generalizing t1 with
  | nil => exact Or.inr ⟨t1, by simp, by simpa using h⟩
  | cons x rest ih =>
    cases t1 with
    | nil =>
      simp only [List.cons_append, List.nil_append, List.cons.injEq] at h
      exact Or.inl ⟨rest, by simp [h.1], h.2.symm⟩
    | cons y t1r =>
      simp only [List.cons_append, List.cons.injEq] at h
      rcases ih t1r h.2 with ⟨r, h1, h2⟩ | ⟨r, h1, h2⟩
      · exact Or.inl ⟨r, by simp [h.1, h1], h2⟩
      · exact Or.inr ⟨r, by simp [h.1, h1], h2⟩

theorem QMap.mem_insert_of_mem {V : Type} (m : QMap V) (k : Int) (v : V) (e : Int × V)
    (he : e ∈ m) (hk : m.contains k = false) : e ∈ QMap.insert m k v := by
  induction m with
  | nil => simp at he
  | cons x rest ih =>
    have hx : x.1 ≠ k := by
      intro hxk
      simp [QMap.contains, hxk] at hk
    have hrest : QMap.contains rest k = false := by
      simp only [QMap.contains, List.any_cons, Bool.or_eq_false_iff] at hk
      exact hk.2
    unfold QMap.insert
    split
    · exact List.mem_cons_of_mem _ he
    · split
      · rename_i h2
        exact absurd h2.symm hx
      · rcases List.mem_cons.1 he with h1 | h1
        · rw [h1]; exact List.mem_cons_self _ _
        · exact List.mem_cons_of_mem _ (ih h1 hrest)

theorem isSetOpen_of_eq {e : Event} {d : Nat}
    (h : e.1 = Call.OpenProcess PROCESS_SET_INFORMATION d) : e.1.isSetOpen = true := by
  rw [h]
  rfl

theorem priorityRead_no_set {pid v : Int} {q : List Event} (h : PriorityRead pid v q) :
    ∀ e ∈ q, e.1.isSetOpen = false := by
  rcases h with ⟨rfl, -⟩ | ⟨hP, priority, rfl, -⟩
  · intro e he
    simp only [List.mem_singleton] at he
    subst he
    rfl
  · intro e he
    simp only [List.mem_cons, List.mem_singleton, List.mem_nil_iff, or_false] at he
    rcases he with he | he | he <;> subst he <;> rfl

theorem backupCaptured_nil : BackupCaptured [] [] :=
  ⟨fun e he => absurd he (List.not_mem_nil _), fun t1 e t2 d h => absurd h (by simp)⟩

theorem backupCaptured_extend {m : QMap Int} {t : List Event} (u : List Event)
    (h : BackupCaptured m t) (hu : ∀ e ∈ u, e.1.isSetOpen = false) :
    BackupCaptured m (t ++ u) := by
  refine ⟨?_, ?_⟩
  · intro e he
    obtain ⟨a, q, b, ht, hr⟩ := h.1 e he
    exact ⟨a, q, b ++ u, by rw [ht]; simp, hr⟩
  · intro t1 e t2 d hsplit he
    rcases cons_split_append t u t1 e t2 hsplit with ⟨r, h1, -⟩ | ⟨r, -, h2⟩
    · exact h.2 t1 e r d h1 he
    · have hmem : e ∈ u := by rw [h2]; simp
      have := hu e hmem
      rw [isSetOpen_of_eq he] at this
      cases this

theorem backupCaptured_insert {m : QMap Int} {t : List Event} (k v : Int) (q : List Event)
    (h : BackupCaptured m t) (hk : m.contains k = false) (hq : PriorityRead k v q) :
    BackupCaptured (m.insert k v) (t ++ q) := by
  have h1 := backupCaptured_extend q h (priorityRead_no_set hq)
  refine ⟨?_, ?_⟩
  · intro e he
    rcases QMap.mem_insert m k v e he with he1 | he1
    · subst he1
      exact ⟨t, q, [], by simp, hq⟩
    · exact h1.1 e he1
  · intro t1 e t2 d hsplit he
    obtain ⟨k1, v1, hm, rest⟩ := h1.2 t1 e t2 d hsplit he
    exact ⟨k1, v1, QMap.mem_insert_of_mem m k v _ hm hk, rest⟩

theorem backupCaptured_touch {m : QMap Int} {t : List Event} (pid : Int) (e : Event)
    (h : BackupCaptured m t) (hc : m.contains pid = true)
    (he : e.1 = Call.OpenProcess PROCESS_SET_INFORMATION (toDWORD pid)) :
    BackupCaptured m (t ++ [e]) := by
  refine ⟨?_, ?_⟩
  · intro x hx
    obtain ⟨a, q, b, ht, hr⟩ := h.1 x hx
    exact ⟨a, q, b ++ [e], by rw [ht]; simp, hr⟩
  · intro t1 x t2 d hsplit hx
    rcases cons_split_append t [e] t1 x t2 hsplit with ⟨r, h1, -⟩ | ⟨r, h1, h2⟩
    · exact h.2 t1 x r d h1 hx
    · have hr : r = [] ∧ x = e := by
        cases r with
        | nil => simp only [List.nil_append, List.cons.injEq] at h2; exact ⟨rfl, h2.1.symm⟩
        | cons y r1 =>
          have := congrArg List.length h2
          simp at this
      obtain ⟨hr1, hr2⟩ := hr
      subst hr1 hr2
      have h1a : t1 = t := by simpa using h1
      rw [h1a]
      have hd : d = toDWORD pid := by
        rw [he] at hx
        cases hx
        rfl
      subst hd
      by_cases htouched : PriorityTouched (toDWORD pid) t
      · obtain ⟨y, hy, hy1⟩ := htouched
        obtain ⟨p1, p2, hp⟩ := List.append_of_mem hy
        obtain ⟨k1, v1, hm, hk1, a, q, b, hp1, hq, hn⟩ := h.2 p1 y p2 (toDWORD pid) hp hy1
        exact ⟨k1, v1, hm, hk1, a, q, b ++ y :: p2, by rw [hp, hp1]; simp, hq, hn⟩
      · obtain ⟨x1, hx1, hx2⟩ := (QMap.contains_iff_mem m pid).1 hc
        obtain ⟨a, q, b, ht, hq⟩ := h.1 x1 hx1
        refine ⟨x1.1, x1.2, hx1, by rw [hx2], a, q, b, ht, ?_, ?_⟩
        · exact hq
        · intro ⟨y, hy, hy1⟩
          apply htouched
          exact ⟨y, by rw [ht]; simp [hy], hy1⟩

theorem getProcessPriorityClass_read (os : OS σ) (pid : Int) (w : World σ) :
    ∃ q, (getProcessPriorityClass os pid w).2.trace = w.trace ++ q ∧
      PriorityRead pid (getProcessPriorityClass os pid w).1 q := by
  unfold getProcessPriorityClass
  split
  · rename_i w1 h1
    obtain ⟨-, rfl⟩ := (sys_eq_iff _ _ _ _ _).1 h1
    exact ⟨_, rfl, Or.inl ⟨rfl, rfl⟩⟩
  · rename_i hP w1 h1
    obtain ⟨-, rfl⟩ := (sys_eq_iff _ _ _ _ _).1 h1
    split
    rename_i priority w2 h2
    obtain ⟨-, rfl⟩ := (sys_eq_iff _ _ _ _ _).1 h2
    exact ⟨[⟨Call.OpenProcess PROCESS_QUERY_INFORMATION (toDWORD pid), some hP⟩,
      ⟨Call.GetPriorityClass hP, priority⟩, ⟨Call.CloseHandle hP, ()⟩], by simp [sys],
      Or.inr ⟨hP, priority, rfl, rfl⟩⟩

theorem storeOriginalPriority_captured (os : OS σ) (pid : Int) (s : SystemInfo)
    (w : World σ) (t0 t : List Event) (hw : w.trace = t0 ++ t)
    (h : BackupCaptured s.originalPriorities t) :
    ∃ t1 m, (storeOriginalPriority os pid s w).2.trace = t0 ++ t1 ∧
      (storeOriginalPriority os pid s w).1 = { s with originalPriorities := m } ∧
      BackupCaptured m t1 ∧ (∀ e ∈ s.originalPriorities, e ∈ m) ∧ m.contains pid = true := by
  unfold storeOriginalPriority
  split
  · rename_i hc
    exact ⟨t, s.originalPriorities, hw, rfl, h, fun _ he => he, hc⟩
  · rename_i hc
    obtain ⟨q, hq, hread⟩ := getProcessPriorityClass_read os pid w
    rcases hg : getProcessPriorityClass os pid w with ⟨v, w1⟩
    rw [hg] at hq hread
    simp only at hq hread ⊢
    have hc1 : s.originalPriorities.contains pid = false := by
      simpa using hc
    refine ⟨t ++ q, _, by rw [hq, hw, List.append_assoc], rfl,
      backupCaptured_insert pid v q h hc1 hread,
      fun e he => QMap.mem_insert_of_mem _ _ _ _ he hc1,
      (QMap.contains_insert _ _ _ _).2 (Or.inl rfl)⟩

theorem setProcessPriority_captured (os : OS σ) (pid v : Int) (m : QMap Int)
    (w : World σ) (t0 t : List Event) (hw : w.trace = t0 ++ t)
    (h : BackupCaptured m t) (hc : m.contains pid = true) :
    ∃ t1, (setProcessPriority os pid v w).2.trace = t0 ++ t1 ∧ BackupCaptured m t1 := by
  unfold setProcessPriority
  split
  · rename_i w1 h1
    obtain ⟨-, rfl⟩ := (sys_eq_iff _ _ _ _ _).1 h1
    refine ⟨t ++ [⟨Call.OpenProcess PROCESS_SET_INFORMATION (toDWORD pid),
        (none : Option Handle)⟩],
      by simp [hw], backupCaptured_touch pid _ h hc rfl⟩
  · rename_i hP w1 h1
    obtain ⟨-, rfl⟩ := (sys_eq_iff _ _ _ _ _).1 h1
    split
    rename_i success w2 h2
    obtain ⟨-, rfl⟩ := (sys_eq_iff _ _ _ _ _).1 h2
    refine ⟨(t ++ [⟨Call.OpenProcess PROCESS_SET_INFORMATION (toDWORD pid), some hP⟩]) ++
      [⟨Call.SetPriorityClass hP (toDWORD v), success⟩, ⟨Call.CloseHandle hP, ()⟩],
      by simp [sys, hw], ?_⟩
    refine backupCaptured_extend _ (backupCaptured_touch pid _ h hc rfl) ?_
    intro e he
    simp only [List.mem_cons, List.mem_singleton, List.mem_nil_iff, or_false] at he
    rcases he with he | he <;> subst he <;> rfl


theorem optimizeBackgroundLoop_captured (os : OS σ) (l : List ProcessInfo) (success : Bool)
    (s : SystemInfo) (w : World σ) (t0 t : List Event) (hw : w.trace = t0 ++ t)
    (h : BackupCaptured s.originalPriorities t) :
    ∃ t1 m, (optimizeBackgroundLoop os l success s w).2.2.trace = t0 ++ t1 ∧
      (optimizeBackgroundLoop os l success s w).2.1 = { s with originalPriorities := m } ∧
      BackupCaptured m t1 ∧ ∀ e ∈ s.originalPriorities, e ∈ m := by
  induction l generalizing success s w t with
  | nil => exact ⟨t, s.originalPriorities, hw, rfl, h, fun _ he => he⟩
  | cons p rest ih =>
    unfold optimizeBackgroundLoop
    split
    · obtain ⟨t1, m1, ht1, hs1, hinv1, hsub1, hc1⟩ :=
        storeOriginalPriority_captured os p.pid s w t0 t hw h
      rcases hx : storeOriginalPriority os p.pid s w with ⟨s1, w1⟩
      rw [hx] at ht1 hs1
      simp only at ht1 hs1 ⊢
      subst hs1
      obtain ⟨t2, ht2, hinv2⟩ := setProcessPriority_captured os p.pid
        (BELOW_NORMAL_PRIORITY_CLASS : Nat) m1 w1 t0 t1 ht1 hinv1 hc1
      rcases hy : setProcessPriority os p.pid (BELOW_NORMAL_PRIORITY_CLASS : Nat) w1 with
        ⟨b, w2⟩
      rw [hy] at ht2
      simp only at ht2 ⊢
      cases b with
      | true =>
        obtain ⟨t3, m3, ht3, hs3, hinv3, hsub3⟩ :=
          ih success { s with originalPriorities := m1 } w2 t2 ht2 hinv2
        exact ⟨t3, m3, ht3, by rw [hs3], hinv3, fun e he => hsub3 e (hsub1 e he)⟩
      | false =>
        obtain ⟨t3, m3, ht3, hs3, hinv3, hsub3⟩ :=
          ih false { s with originalPriorities := m1 } w2 t2 ht2 hinv2
        exact ⟨t3, m3, ht3, by rw [hs3], hinv3, fun e he => hsub3 e (hsub1 e he)⟩
    · exact ih success s w t hw h

theorem throttleLoop_captured (os : OS σ) (l : List ProcessInfo) (success : Bool)
    (s : SystemInfo) (w : World σ) (t0 t : List Event) (hw : w.trace = t0 ++ t)
    (h : BackupCaptured s.originalPriorities t) :
    ∃ t1 m th, (throttleLoop os l success s w).2.2.trace = t0 ++ t1 ∧
      (throttleLoop os l success s w).2.1 =
        { s with originalPriorities := m, throttledProcesses := th } ∧
      BackupCaptured m t1 ∧ ∀ e ∈ s.originalPriorities, e ∈ m := by
  induction l generalizing success s w t with
  | nil => exact ⟨t, s.originalPriorities, s.throttledProcesses, hw, rfl, h, fun _ he => he⟩
  | cons p rest ih =>
    unfold throttleLoop
    split
    · obtain ⟨t1, m1, ht1, hs1, hinv1, hsub1, hc1⟩ :=
        storeOriginalPriority_captured os p.pid s w t0 t hw h
      rcases hx : storeOriginalPriority os p.pid s w with ⟨s1, w1⟩
      rw [hx] at ht1 hs1
      simp only at ht1 hs1 ⊢
      subst hs1
      obtain ⟨t2, ht2, hinv2⟩ := setProcessPriority_captured os p.pid
        (BELOW_NORMAL_PRIORITY_CLASS : Nat) m1 w1 t0 t1 ht1 hinv1 hc1
      rcases hy : setProcessPriority os p.pid (BELOW_NORMAL_PRIORITY_CLASS : Nat) w1 with
        ⟨b, w2⟩
      rw [hy] at ht2
      simp only at ht2 ⊢
      cases b with
      | false =>
        obtain ⟨t3, m3, th3, ht3, hs3, hinv3, hsub3⟩ :=
          ih false { s with originalPriorities := m1 } w2 t2 ht2 hinv2
        exact ⟨t3, m3, th3, ht3, by rw [hs3], hinv3, fun e he => hsub3 e (hsub1 e he)⟩
      | true =>
        obtain ⟨t3, m3, th3, ht3, hs3, hinv3, hsub3⟩ :=
          ih success { s with originalPriorities := m1,
                              throttledProcesses := s.throttledProcesses ++ [p.pid] }
            w2 t2 ht2 hinv2
        exact ⟨t3, m3, th3, ht3, by rw [hs3], hinv3, fun e he => hsub3 e (hsub1 e he)⟩
    · exact ih success s w t hw h

theorem storeOriginalPriorities_captured (os : OS σ) (l : List ProcessInfo)
    (s : SystemInfo) (w : World σ) (t0 t : List Event) (hw : w.trace = t0 ++ t)
    (h : BackupCaptured s.originalPriorities t) :
    ∃ t1 m, (storeOriginalPriorities os l s w).2.trace = t0 ++ t1 ∧
      (storeOriginalPriorities os l s w).1 = { s with originalPriorities := m } ∧
      BackupCaptured m t1 ∧ ∀ e ∈ s.originalPriorities, e ∈ m := by
  induction l generalizing s w t with
  | nil => exact ⟨t, s.originalPriorities, hw, rfl, h, fun _ he => he⟩
  | cons p rest ih =>
    unfold storeOriginalPriorities
    obtain ⟨t1, m1, ht1, hs1, hinv1, hsub1, -⟩ :=
      storeOriginalPriority_captured os p.pid s w t0 t hw h
    rcases hx : storeOriginalPriority os p.pid s w with ⟨s1, w1⟩
    rw [hx] at ht1 hs1
    simp only at ht1 hs1 ⊢
    subst hs1
    obtain ⟨t3, m3, ht3, hs3, hinv3, hsub3⟩ :=
      ih { s with originalPriorities := m1 } w1 t1 ht1 hinv1
    exact ⟨t3, m3, ht3, by rw [hs3], hinv3, fun e he => hsub3 e (hsub1 e he)⟩

theorem isSetOpen_eq_false (c : Call)
    (h : ∀ d, c ≠ Call.OpenProcess PROCESS_SET_INFORMATION d) : c.isSetOpen = false := by
  cases c with
  | OpenProcess access pid =>
    by_cases ha : access = PROCESS_SET_INFORMATION
    · exact absurd (by rw [ha]) (h pid)
    · simp [Call.isSetOpen, ha]
  | _ => rfl

theorem optimizeMemoryUsage_captured (os : OS σ) (s : SystemInfo) (w : World σ)
    (m : QMap Int) (t0 t : List Event) (hw : w.trace = t0 ++ t) (h : BackupCaptured m t) :
    ∃ t1, (optimizeMemoryUsage os s w).2.trace = t0 ++ t1 ∧ BackupCaptured m t1 := by
  have hext : Extends (fun e => !e.1.isSetOpen) w (optimizeMemoryLoop os s.processList true w).2 :=
    optimizeMemoryLoop_extends os (fun e => !e.1.isSetOpen) s.processList true
      (fun p _ _ _ e he => by
        simp only [Bool.not_eq_true']
        exact isSetOpen_eq_false e.1 (fun d => workingSetClamp_ne_set e.1 d _ he))
      (Extends.same _ w)
  obtain ⟨u, hu, hall⟩ := hext
  refine ⟨t ++ u, ?_, backupCaptured_extend u h ?_⟩
  · unfold optimizeMemoryUsage
    rw [hu, hw, List.append_assoc]
  · intro e he
    have := hall e he
    simpa using this

theorem applyEfficiencyModeSettings_captured (os : OS σ) (s : SystemInfo) (w : World σ)
    (t0 t : List Event) (hw : w.trace = t0 ++ t)
    (h : BackupCaptured s.originalPriorities t) :
    ∃ t1 m th, (applyEfficiencyModeSettings os s w).2.trace = t0 ++ t1 ∧
      (applyEfficiencyModeSettings os s w).1 =
        { s with originalPriorities := m, throttledProcesses := th } ∧
      BackupCaptured m t1 ∧ ∀ e ∈ s.originalPriorities, e ∈ m := by
  unfold applyEfficiencyModeSettings
  obtain ⟨t1, m1, ht1, hs1, hinv1, hsub1⟩ :=
    optimizeBackgroundLoop_captured os s.processList true s w t0 t hw h
  unfold optimizeBackgroundProcesses
  rcases hx : optimizeBackgroundLoop os s.processList true s w with ⟨b1, s1, w1⟩
  rw [hx] at ht1 hs1
  simp only at ht1 hs1 ⊢
  subst hs1
  obtain ⟨t2, ht2, hinv2⟩ := optimizeMemoryUsage_captured os
    { s with originalPriorities := m1 } w1 m1 t0 t1 ht1 hinv1
  rcases hy : optimizeMemoryUsage os { s with originalPriorities := m1 } w1 with ⟨b2, w2⟩
  rw [hy] at ht2
  simp only at ht2 ⊢
  obtain ⟨t3, m3, th3, ht3, hs3, hinv3, hsub3⟩ :=
    throttleLoop_captured os s.processList true { s with originalPriorities := m1 } w2 t0 t2
      ht2 hinv2
  unfold throttleNonEssentialProcesses
  exact ⟨t3, m3, th3, ht3, by rw [hs3], hinv3, fun e he => hsub3 e (hsub1 e he)⟩

theorem setEfficiencyMode_true_captured (os : OS σ) (s : SystemInfo) (w : World σ)
    (t0 t : List Event) (hw : w.trace = t0 ++ t)
    (h : BackupCaptured s.originalPriorities t) :
    ∃ t1, (setEfficiencyMode os true s w).2.trace = t0 ++ t1 ∧
      BackupCaptured (setEfficiencyMode os true s w).1.originalPriorities t1 ∧
      ∀ e ∈ s.originalPriorities, e ∈ (setEfficiencyMode os true s w).1.originalPriorities := by
  unfold setEfficiencyMode
  split
  · exact ⟨t, hw, h, fun _ he => he⟩
  · simp only [if_true]
    obtain ⟨t1, m1, ht1, hs1, hinv1, hsub1⟩ :=
      storeOriginalPriorities_captured os s.processList
        { s with efficiencyModeEnabled := true } w t0 t hw h
    rcases hx : storeOriginalPriorities os s.processList
        { s with efficiencyModeEnabled := true } w with ⟨s1, w1⟩
    rw [hx] at ht1 hs1
    simp only at ht1 hs1 ⊢
    subst hs1
    obtain ⟨t2, m2, th2, ht2, hs2, hinv2, hsub2⟩ :=
      applyEfficiencyModeSettings_captured os
        { s with efficiencyModeEnabled := true, originalPriorities := m1 } w1 t0 t1 ht1 hinv1
    rcases hy : applyEfficiencyModeSettings os
        { s with efficiencyModeEnabled := true, originalPriorities := m1 } w1 with ⟨s2, w2⟩
    rw [hy] at ht2 hs2
    simp only at ht2 hs2 ⊢
    subst hs2
    exact ⟨t2, ht2, hinv2, fun e he => hsub2 e (hsub1 e he)⟩


theorem extension_of_traces {t0 t t1 u a b : List Event} (hw : a = t0 ++ t)
    (h1 : b = t0 ++ t1) (hu : b = a ++ u) : t <+: t1 := by
  rw [hw, List.append_assoc] at hu
  have := List.append_cancel_left (h1.symm.trans hu)
  exact ⟨u, this.symm⟩

theorem optimizeBackgroundProcesses_captured (os : OS σ) (s : SystemInfo) (w : World σ)
    (t0 t : List Event) (hw : w.trace = t0 ++ t)
    (h : BackupCaptured s.originalPriorities t) :
    ∃ t1, (optimizeBackgroundProcesses os s w).2.2.trace = t0 ++ t1 ∧ t <+: t1 ∧
      BackupCaptured (optimizeBackgroundProcesses os s w).2.1.originalPriorities t1 ∧
      ∀ e ∈ s.originalPriorities,
        e ∈ (optimizeBackgroundProcesses os s w).2.1.originalPriorities := by
  unfold optimizeBackgroundProcesses
  obtain ⟨t1, m1, ht1, hs1, hinv1, hsub1⟩ :=
    optimizeBackgroundLoop_captured os s.processList true s w t0 t hw h
  obtain ⟨u, hu, -⟩ := optimizeBackgroundLoop_extends os (fun _ => true) s.processList true s
    (fun _ _ => rfl) (fun _ _ _ _ _ _ => rfl) (Extends.same _ w)
  rw [hs1]
  exact ⟨t1, ht1, extension_of_traces hw ht1 hu, hinv1, hsub1⟩

theorem throttleNonEssentialProcesses_captured (os : OS σ) (s : SystemInfo) (w : World σ)
    (t0 t : List Event) (hw : w.trace = t0 ++ t)
    (h : BackupCaptured s.originalPriorities t) :
    ∃ t1, (throttleNonEssentialProcesses os s w).2.2.trace = t0 ++ t1 ∧ t <+: t1 ∧
      BackupCaptured (throttleNonEssentialProcesses os s w).2.1.originalPriorities t1 ∧
      ∀ e ∈ s.originalPriorities,
        e ∈ (throttleNonEssentialProcesses os s w).2.1.originalPriorities := by
  unfold throttleNonEssentialProcesses
  obtain ⟨t1, m1, th1, ht1, hs1, hinv1, hsub1⟩ :=
    throttleLoop_captured os s.processList true s w t0 t hw h
  obtain ⟨u, hu, -⟩ := throttleLoop_extends os (fun _ => true) s.processList true s
    (fun _ _ => rfl) (fun _ _ _ _ _ _ => rfl) (Extends.same _ w)
  rw [hs1]
  exact ⟨t1, ht1, extension_of_traces hw ht1 hu, hinv1, hsub1⟩

theorem setEfficiencyMode_true_grows (os : OS σ) (s : SystemInfo) (w : World σ) :
    ∃ u, (setEfficiencyMode os true s w).2.trace = w.trace ++ u := by
  by_cases hoff : s.efficiencyModeEnabled = false
  · obtain ⟨u, hu, -⟩ := setEfficiencyMode_true_extends os (fun _ => true) s w hoff
      (fun _ _ => rfl) (fun _ _ _ _ _ _ => rfl) (fun _ _ _ _ _ _ => rfl)
    exact ⟨u, hu⟩
  · refine ⟨[], ?_⟩
    unfold setEfficiencyMode
    rw [if_pos (by simpa using hoff)]
    simp

theorem terminateAndWait_requested (os : OS σ) (h : Handle) (exitCode : Nat) (w : World σ) :
    ∃ t, (terminateAndWait os h exitCode w).2.trace = w.trace ++ t ∧
      TerminateRequested h exitCode t (terminateAndWait os h exitCode w).1 := by
  unfold terminateAndWait
  split
  · rename_i w1 h1
    obtain ⟨-, rfl⟩ := (sys_eq_iff _ _ _ _ _).1 h1
    exact ⟨_, rfl, Or.inl ⟨rfl, rfl⟩⟩
  · rename_i w1 h1
    obtain ⟨-, rfl⟩ := (sys_eq_iff _ _ _ _ _).1 h1
    split
    rename_i r w2 h2
    obtain ⟨-, rfl⟩ := (sys_eq_iff _ _ _ _ _).1 h2
    exact ⟨[⟨Call.TerminateProcess h exitCode, true⟩, ⟨Call.WaitForSingleObject h 1000, r⟩],
      by simp, Or.inr ⟨r, rfl, rfl⟩⟩

theorem suspendAndTerminateThreads_walked (os : OS σ) (processId : Nat)
    (entries : List THREADENTRY32) (w : World σ) :
    ∃ t, (suspendAndTerminateThreads os processId entries w).trace = w.trace ++ t ∧
      ThreadsWalked processId entries t := by
  induction entries generalizing w with
  | nil => exact ⟨[], by simp [suspendAndTerminateThreads], ThreadsWalked.nil⟩
  | cons te32 rest ih =>
    unfold suspendAndTerminateThreads
    split
    · rename_i howner
      split
      · rename_i hThread w1 h1
        obtain ⟨-, rfl⟩ := (sys_eq_iff _ _ _ _ _).1 h1
        obtain ⟨t, ht, hw⟩ := ih
          (sys os (.CloseHandle hThread) (sys os (.TerminateThread hThread 0)
            (sys os (.SuspendThread hThread)
              { os := (os (.OpenThread (THREAD_SUSPEND_RESUME ||| THREAD_TERMINATE)
                  te32.th32ThreadID) w.os).2,
                trace := w.trace ++ [⟨.OpenThread (THREAD_SUSPEND_RESUME ||| THREAD_TERMINATE)
                  te32.th32ThreadID, some hThread⟩] }).2).2).2
        refine ⟨_, ?_, ThreadsWalked.ended te32 rest t hThread howner hw⟩
        simp only at ht ⊢
        rw [ht]
        simp [sys]
      · rename_i w1 h1
        obtain ⟨-, rfl⟩ := (sys_eq_iff _ _ _ _ _).1 h1
        obtain ⟨t, ht, hw⟩ := ih
          { os := (os (.OpenThread (THREAD_SUSPEND_RESUME ||| THREAD_TERMINATE)
              te32.th32ThreadID) w.os).2,
            trace := w.trace ++ [⟨.OpenThread (THREAD_SUSPEND_RESUME ||| THREAD_TERMINATE)
              te32.th32ThreadID, none⟩] }
        refine ⟨_, ?_, ThreadsWalked.refused te32 rest t howner hw⟩
        rw [ht]
        simp
    · rename_i howner
      obtain ⟨t, ht, hw⟩ := ih w
      exact ⟨t, ht, ThreadsWalked.other te32 rest t howner hw⟩

theorem suspendThreadsFirst_suspended (os : OS σ) (h : Handle) (w : World σ) :
    ∃ t, (suspendThreadsFirst os h w).trace = w.trace ++ t ∧ ThreadsSuspended h t := by
  unfold suspendThreadsFirst
  split
  rename_i processId w1 h1
  obtain ⟨-, rfl⟩ := (sys_eq_iff _ _ _ _ _).1 h1
  split
  · rename_i w2 h2
    obtain ⟨-, rfl⟩ := (sys_eq_iff _ _ _ _ _).1 h2
    exact ⟨[⟨Call.GetProcessId h, processId⟩, ⟨Call.SnapshotThreads, none⟩], by simp,
      processId, Or.inl rfl⟩
  · rename_i entries w2 h2
    obtain ⟨-, rfl⟩ := (sys_eq_iff _ _ _ _ _).1 h2
    obtain ⟨t, ht, hw⟩ := suspendAndTerminateThreads_walked os processId entries
      { os := (os .SnapshotThreads (os (.GetProcessId h) w.os).2).2,
        trace := (w.trace ++ [⟨Call.GetProcessId h, processId⟩]) ++
          [⟨Call.SnapshotThreads, some entries⟩] }
    refine ⟨⟨Call.GetProcessId h, processId⟩ :: ⟨Call.SnapshotThreads, some entries⟩ :: t,
      ?_, processId, Or.inr ⟨entries, t, rfl, hw⟩⟩
    rw [ht]
    simp

theorem terminateWithExitCodes_requests (os : OS σ) (h : Handle) (codes : List Int)
    (w : World σ) :
    ∃ t, (terminateWithExitCodes os h codes w).2.trace = w.trace ++ t ∧
      TerminateRequests h (codes.map toDWORD) t (terminateWithExitCodes os h codes w).1 := by
  induction codes generalizing w with
  | nil => exact ⟨[], by simp [terminateWithExitCodes], TerminateRequests.exhausted⟩
  | cons exitCode rest ih =>
    unfold terminateWithExitCodes
    obtain ⟨t, ht, hreq⟩ := terminateAndWait_requested os h (toDWORD exitCode) w
    rcases hx : terminateAndWait os h (toDWORD exitCode) w with ⟨done, w1⟩
    rw [hx] at ht hreq
    simp only at ht hreq ⊢
    cases done with
    | true =>
      simp only
      exact ⟨t, ht, TerminateRequests.succeeded _ _ t hreq⟩
    | false =>
      simp only
      obtain ⟨t1, ht1, hreq1⟩ := ih w1
      refine ⟨t ++ t1, by rw [ht1, ht, List.append_assoc], ?_⟩
      exact TerminateRequests.failed _ _ t t1 _ hreq hreq1

theorem injectCrash_injected (os : OS σ) (h : Handle) (w : World σ) :
    ∃ t, (injectCrash os h w).2.trace = w.trace ++ t ∧
      FaultInjected h t (injectCrash os h w).1 := by
  unfold injectCrash
  split
  · rename_i w1 h1
    obtain ⟨-, rfl⟩ := (sys_eq_iff _ _ _ _ _).1 h1
    exact ⟨_, rfl, Or.inl ⟨rfl, rfl⟩⟩
  · rename_i remoteMem w1 h1
    obtain ⟨-, rfl⟩ := (sys_eq_iff _ _ _ _ _).1 h1
    split
    · rename_i w2 h2
      obtain ⟨-, rfl⟩ := (sys_eq_iff _ _ _ _ _).1 h2
      exact ⟨[⟨Call.VirtualAllocEx h 1024, some remoteMem⟩,
        ⟨Call.WriteProcessMemory h remoteMem [0xCC], false⟩,
        ⟨Call.VirtualFreeEx h remoteMem, ()⟩], by simp [sys],
        Or.inr ⟨remoteMem, Or.inl ⟨rfl, rfl⟩⟩⟩
    · rename_i w2 h2
      obtain ⟨-, rfl⟩ := (sys_eq_iff _ _ _ _ _).1 h2
      split
      · rename_i w3 h3
        obtain ⟨-, rfl⟩ := (sys_eq_iff _ _ _ _ _).1 h3
        exact ⟨[⟨Call.VirtualAllocEx h 1024, some remoteMem⟩,
          ⟨Call.WriteProcessMemory h remoteMem [0xCC], true⟩,
          ⟨Call.CreateRemoteThread h remoteMem, none⟩,
          ⟨Call.VirtualFreeEx h remoteMem, ()⟩], by simp [sys],
          Or.inr ⟨remoteMem, Or.inr (Or.inl ⟨rfl, rfl⟩)⟩⟩
      · rename_i hThread w3 h3
        obtain ⟨-, rfl⟩ := (sys_eq_iff _ _ _ _ _).1 h3
        refine ⟨_, ?_, Or.inr ⟨remoteMem, Or.inr (Or.inr ⟨hThread,
          (os (.WaitForSingleObject hThread 1000)
            (os (.CreateRemoteThread h remoteMem)
              (os (.WriteProcessMemory h remoteMem [0xCC])
                (os (.VirtualAllocEx h 1024) w.os).2).2).2).1, rfl, rfl⟩)⟩⟩
        simp [sys]

theorem corruptMemory_corrupted (os : OS σ) (h : Handle) (addrs : List Nat) (w : World σ) :
    ∃ t, (corruptMemory os h addrs w).2.trace = w.trace ++ t ∧
      MemoryCorrupted h addrs t (corruptMemory os h addrs w).1 := by
  induction addrs generalizing w with
  | nil => exact ⟨[], by simp [corruptMemory], MemoryCorrupted.exhausted⟩
  | cons baseAddr rest ih =>
    unfold corruptMemory
    split
    · rename_i w1 h1
      obtain ⟨-, rfl⟩ := (sys_eq_iff _ _ _ _ _).1 h1
      obtain ⟨t, ht, hm⟩ := ih
        { os := (os (.WriteProcessMemory h baseAddr crashBytes) w.os).2,
          trace := w.trace ++ [⟨.WriteProcessMemory h baseAddr crashBytes, false⟩] }
      refine ⟨_, ?_, MemoryCorrupted.unwritable baseAddr rest t _ hm⟩
      rw [ht]
      simp [crashBytes]
    · rename_i w1 h1
      obtain ⟨-, rfl⟩ := (sys_eq_iff _ _ _ _ _).1 h1
      obtain ⟨t, ht, hreq⟩ := terminateAndWait_requested os h 1
        { os := (os (.WriteProcessMemory h baseAddr crashBytes) w.os).2,
          trace := w.trace ++ [⟨.WriteProcessMemory h baseAddr crashBytes, true⟩] }
      rcases hx : terminateAndWait os h 1
        { os := (os (.WriteProcessMemory h baseAddr crashBytes) w.os).2,
          trace := w.trace ++ [⟨.WriteProcessMemory h baseAddr crashBytes, true⟩] } with
        ⟨done, w2⟩
      rw [hx] at ht hreq
      simp only at ht hreq ⊢
      cases done with
      | true =>
        simp only
        refine ⟨_, ?_, MemoryCorrupted.succeeded baseAddr rest t hreq⟩
        rw [ht]
        simp [crashBytes]
      | false =>
        simp only
        obtain ⟨t1, ht1, hm⟩ := ih w2
        refine ⟨_, ?_, MemoryCorrupted.failed baseAddr rest t t1 _ hreq hm⟩
        rw [ht1, ht]
        simp [crashBytes]


theorem foldl_append_map_filter {α β : Type} (p : α → Prop) [DecidablePred p] (g : α → β)
    (l : List α) (init : List β) :
    l.foldl (fun acc x => if p x then acc ++ [g x] else acc) init =
      init ++ (l.filter (fun x => decide (p x))).map g := by
  induction l generalizing init with
  | nil => simp
  | cons x rest ih =>
    simp only [List.foldl_cons, List.filter_cons]
    by_cases hx : p x
    · simp [hx, ih]
    · simp [hx, ih]

theorem getChildProcesses_listed (os : OS σ) (pid : Int) (w : World σ) :
    getChildProcesses os pid w =
      (childrenListed pid (os .SnapshotProcesses w.os).1, (sys os .SnapshotProcesses w).2) := by
  unfold getChildProcesses
  split
  · rename_i w1 h1
    obtain ⟨h1a, -⟩ := (sys_eq_iff _ _ _ _ _).1 h1
    rw [h1a, h1]
    rfl
  · rename_i entries w1 h1
    obtain ⟨h1a, -⟩ := (sys_eq_iff _ _ _ _ _).1 h1
    rw [h1a, h1]
    simp only [childrenListed]
    rw [foldl_append_map_filter (fun pe32 : PROCESSENTRY32W =>
      pe32.th32ParentProcessID = toDWORD pid) (fun pe32 => (pe32.th32ProcessID : Int))]
    simp

theorem forestKilled_append {a b : List Int} {ta tb : List Event} {fa fb : List Bool}
    (ha : ForestKilled a ta fa) (hb : ForestKilled b tb fb) :
    ForestKilled (a ++ b) (ta ++ tb) (fa ++ fb) := by
  induction ha with
  | nil => simpa using hb
  | cons pid rest snapshot children own siblings childrenDone done siblingsDone hc hr _ _ ih =>
    have := ForestKilled.cons pid (rest ++ b) snapshot children own (siblings ++ tb)
      childrenDone done (siblingsDone ++ fb) hc hr ih
    simpa [List.append_assoc] using this

theorem killProcessTree_forest (os : OS σ) (fuel : Nat) :
    ∀ (pid : Int) (w : World σ) (r : Bool × World σ),
      killProcessTree os fuel pid w = some r →
      ∃ t, r.2.trace = w.trace ++ t ∧ ForestKilled [pid] t [r.1] := by
  induction fuel with
  | zero => intro pid w r hr; simp [killProcessTree] at hr
  | succ fuel ih =>
    intro pid w r hr
    have hfold : ∀ (children : List Int) (wa wb : World σ),
        children.foldlM (fun (w : World σ) (childPid : Int) =>
          (killProcessTree os fuel childPid w).map Prod.snd) wa = some wb →
        ∃ t flags, wb.trace = wa.trace ++ t ∧ ForestKilled children t flags := by
      intro children
      induction children with
      | nil =>
        intro wa wb hf
        simp at hf
        subst hf
        exact ⟨[], [], by simp, ForestKilled.nil⟩
      | cons c rest ihc =>
        intro wa wb hf
        rw [List.foldlM_cons] at hf
        cases hk : killProcessTree os fuel c wa with
        | none => simp [hk] at hf
        | some rc =>
          simp [hk] at hf
          obtain ⟨t1, ht1, hf1⟩ := ih c wa rc hk
          obtain ⟨t2, flags, ht2, hf2⟩ := ihc _ _ hf
          exact ⟨t1 ++ t2, rc.1 :: flags, by rw [ht2, ht1, List.append_assoc],
            forestKilled_append hf1 hf2⟩
    unfold killProcessTree at hr
    rw [getChildProcesses_listed] at hr
    simp only at hr
    split at hr
    · simp at hr
    · rename_i w2 hf
      obtain ⟨tc, flags, htc, hfc⟩ := hfold _ _ _ hf
      split at hr
      · rename_i w3 h1
        obtain ⟨-, rfl⟩ := (sys_eq_iff _ _ _ _ _).1 h1
        simp at hr
        subst hr
        refine ⟨_, ?_, ForestKilled.cons pid [] (os .SnapshotProcesses w.os).1 tc
          [⟨Call.OpenProcess TREE_KILL_ACCESS (toDWORD pid), none⟩] [] flags false []
          hfc (Or.inl ⟨rfl, rfl⟩) ForestKilled.nil⟩
        simp only
        rw [htc]
        simp [sys]
      · rename_i hP w3 h1
        obtain ⟨-, rfl⟩ := (sys_eq_iff _ _ _ _ _).1 h1
        obtain ⟨treq, htreq, hreq⟩ := terminateAndWait_requested os hP 1
          { os := (os (.OpenProcess TREE_KILL_ACCESS (toDWORD pid)) w2.os).2,
            trace := w2.trace ++ [⟨.OpenProcess TREE_KILL_ACCESS (toDWORD pid), some hP⟩] }
        rcases hx : terminateAndWait os hP 1
          { os := (os (.OpenProcess TREE_KILL_ACCESS (toDWORD pid)) w2.os).2,
            trace := w2.trace ++ [⟨.OpenProcess TREE_KILL_ACCESS (toDWORD pid), some hP⟩] } with
          ⟨done, w4⟩
        rw [hx] at htreq hreq hr
        simp only at htreq hreq hr
        simp at hr
        subst hr
        refine ⟨_, ?_, ForestKilled.cons pid [] (os .SnapshotProcesses w.os).1 tc
          (⟨Call.OpenProcess TREE_KILL_ACCESS (toDWORD pid), some hP⟩ :: treq ++
            [⟨Call.CloseHandle hP, ()⟩]) [] flags done []
          hfc (Or.inr ⟨hP, treq, rfl, hreq⟩) ForestKilled.nil⟩
        simp only
        rw [sys_close_trace, htreq, htc]
        simp [sys]

theorem killTreeOrRetry_retried (os : OS σ) (fuel : Nat) (pid : Int) (h : Handle)
    (w : World σ) (done : Bool) (held : Option Handle) (w2 : World σ)
    (hk : killTreeOrRetry os fuel pid h w = some (done, held, w2)) :
    ∃ t, w2.trace = w.trace ++ t ∧ TreeKilledOrRetried pid h t done held := by
  unfold killTreeOrRetry at hk
  rcases hx : killProcessTree os fuel pid (sys os (.CloseHandle h) w).2 with _ | ⟨f, w3⟩
  · rw [hx] at hk; simp at hk
  · rw [hx] at hk
    obtain ⟨tree, htree, hforest⟩ := killProcessTree_forest os fuel pid _ _ hx
    simp only at htree hforest
    rw [sys_close_trace] at htree
    cases f with
    | true =>
      simp only [Option.some.injEq, Prod.mk.injEq] at hk
      obtain ⟨rfl, rfl, rfl⟩ := hk
      refine ⟨⟨Call.CloseHandle h, ()⟩ :: tree, by rw [htree]; simp, tree, true, hforest,
        Or.inl ⟨rfl, rfl, rfl, rfl⟩⟩
    | false =>
      simp only at hk
      split at hk
      · rename_i w4 h1
        obtain ⟨-, rfl⟩ := (sys_eq_iff _ _ _ _ _).1 h1
        simp only [Option.some.injEq, Prod.mk.injEq] at hk
        obtain ⟨rfl, rfl, rfl⟩ := hk
        refine ⟨_, ?_, tree, false, hforest, Or.inr (Or.inl ⟨rfl, rfl, rfl, rfl⟩)⟩
        simp only
        rw [htree]
        simp
      · rename_i hFresh w4 h1
        obtain ⟨-, rfl⟩ := (sys_eq_iff _ _ _ _ _).1 h1
        obtain ⟨treq, htreq, hreq⟩ := terminateAndWait_requested os hFresh 1
          { os := (os (.OpenProcess PROCESS_TERMINATE (toDWORD pid)) w3.os).2,
            trace := w3.trace ++ [⟨.OpenProcess PROCESS_TERMINATE (toDWORD pid), some hFresh⟩] }
        rcases hy : terminateAndWait os hFresh 1
          { os := (os (.OpenProcess PROCESS_TERMINATE (toDWORD pid)) w3.os).2,
            trace := w3.trace ++ [⟨.OpenProcess PROCESS_TERMINATE (toDWORD pid), some hFresh⟩] }
          with ⟨d, w5⟩
        rw [hy] at htreq hreq hk
        simp only at htreq hreq hk
        simp only [Option.some.injEq, Prod.mk.injEq] at hk
        obtain ⟨rfl, rfl, rfl⟩ := hk
        refine ⟨_, ?_, tree, false, hforest,
          Or.inr (Or.inr ⟨rfl, hFresh, treq, rfl, hreq, rfl⟩)⟩
        rw [htreq, htree]
        simp

theorem finalVerification_verified (os : OS σ) (pid : Int) (w : World σ) :
    ∃ t, (finalVerification os pid w).2.trace = w.trace ++ t ∧
      Verified pid t (finalVerification os pid w).1 := by
  unfold finalVerification
  split
  · rename_i w1 h1
    obtain ⟨-, rfl⟩ := (sys_eq_iff _ _ _ _ _).1 h1
    exact ⟨_, rfl, Or.inl ⟨rfl, rfl⟩⟩
  · rename_i verifyHandle w1 h1
    obtain ⟨-, rfl⟩ := (sys_eq_iff _ _ _ _ _).1 h1
    split
    · rename_i exitCode w2 h2
      obtain ⟨-, rfl⟩ := (sys_eq_iff _ _ _ _ _).1 h2
      split
      · rename_i hne
        refine ⟨[⟨Call.OpenProcess PROCESS_QUERY_INFORMATION (toDWORD pid), some verifyHandle⟩,
          ⟨Call.GetExitCodeProcess verifyHandle, some exitCode⟩,
          ⟨Call.CloseHandle verifyHandle, ()⟩], by simp [sys],
          Or.inr ⟨verifyHandle, Or.inr ⟨exitCode, rfl, ?_⟩⟩⟩
        simp [hne]
      · rename_i hne
        refine ⟨[⟨Call.OpenProcess PROCESS_QUERY_INFORMATION (toDWORD pid), some verifyHandle⟩,
          ⟨Call.GetExitCodeProcess verifyHandle, some exitCode⟩,
          ⟨Call.CloseHandle verifyHandle, ()⟩], by simp [sys],
          Or.inr ⟨verifyHandle, Or.inr ⟨exitCode, rfl, ?_⟩⟩⟩
        simpa using hne
    · rename_i w2 h2
      obtain ⟨-, rfl⟩ := (sys_eq_iff _ _ _ _ _).1 h2
      exact ⟨[⟨Call.OpenProcess PROCESS_QUERY_INFORMATION (toDWORD pid), some verifyHandle⟩,
        ⟨Call.GetExitCodeProcess verifyHandle, none⟩,
        ⟨Call.CloseHandle verifyHandle, ()⟩], by simp [sys],
        Or.inr ⟨verifyHandle, Or.inl ⟨rfl, rfl⟩⟩⟩


theorem exitCodes_as_dword :
    exitCodes.map toDWORD = [1, 0, 4294967295, 0xDEAD, 0xBEEF] := by decide

theorem escalate_escalated (os : OS σ) (fuel : Nat) (pid : Int) (h : Handle)
    (w1 w2 : World σ) (flag : Bool) (he : escalate os fuel pid h w1 = some (flag, w2)) :
    ∃ t, w2.trace = w1.trace ++ t ∧ Escalated pid h t flag := by
  obtain ⟨t1, ht1, hs1⟩ := suspendThreadsFirst_suspended os h w1
  obtain ⟨t2, ht2, hs2⟩ := terminateWithExitCodes_requests os h exitCodes
    (suspendThreadsFirst os h w1)
  rw [exitCodes_as_dword] at hs2
  unfold escalate at he
  rcases hB : terminateWithExitCodes os h exitCodes (suspendThreadsFirst os h w1) with ⟨f2, wB⟩
  rw [hB] at he ht2 hs2
  simp only at ht2 hs2
  cases f2 with
  | true =>
    simp only [Option.some.injEq, Prod.mk.injEq] at he
    obtain ⟨rfl, rfl⟩ := he
    refine ⟨t1 ++ t2 ++ [⟨Call.CloseHandle h, ()⟩], ?_, t1, t2, true, hs1, hs2,
      Or.inl ⟨rfl, rfl, rfl⟩⟩
    rw [sys_close_trace, ht2, ht1]
    simp
  | false =>
    simp only at he
    obtain ⟨t3, ht3, hs3⟩ := injectCrash_injected os h wB
    rcases hC : injectCrash os h wB with ⟨f3, wC⟩
    rw [hC] at he ht3 hs3
    simp only at ht3 hs3
    cases f3 with
    | true =>
      simp only [Option.some.injEq, Prod.mk.injEq] at he
      obtain ⟨rfl, rfl⟩ := he
      refine ⟨t1 ++ t2 ++ t3 ++ [⟨Call.CloseHandle h, ()⟩], ?_, t1, t2, false, hs1, hs2,
        Or.inr ⟨rfl, t3, true, hs3, Or.inl ⟨rfl, rfl, rfl⟩⟩⟩
      rw [sys_close_trace, ht3, ht2, ht1]
      simp
    | false =>
      simp only at he
      rcases hD : killTreeOrRetry os fuel pid h wC with _ | ⟨f4, held, wD⟩
      · rw [hD] at he; simp at he
      · rw [hD] at he
        obtain ⟨t4, ht4, hs4⟩ := killTreeOrRetry_retried os fuel pid h wC f4 held wD hD
        cases f4 <;> cases held
        · -- the retry could not open the process
          simp only [Option.some.injEq, Prod.mk.injEq] at he
          obtain ⟨rfl, rfl⟩ := he
          refine ⟨t1 ++ t2 ++ t3 ++ t4, ?_, t1, t2, false, hs1, hs2,
            Or.inr ⟨rfl, t3, false, hs3, Or.inr ⟨rfl, t4, false, none, hs4,
              Or.inr (Or.inl ⟨rfl, rfl, rfl, rfl⟩)⟩⟩⟩
          rw [ht4, ht3, ht2, ht1]
          simp
        · -- memory corruption on the handle of the retry
          rename_i hF
          simp only at he
          obtain ⟨t5, ht5, hs5⟩ := corruptMemory_corrupted os hF baseAddresses wD
          rcases hE : corruptMemory os hF baseAddresses wD with ⟨f5, wE⟩
          rw [hE] at he ht5 hs5
          simp only [Option.some.injEq, Prod.mk.injEq] at he ht5 hs5
          obtain ⟨rfl, rfl⟩ := he
          refine ⟨t1 ++ t2 ++ t3 ++ t4 ++ t5 ++ [⟨Call.CloseHandle hF, ()⟩], ?_, t1, t2, false,
            hs1, hs2, Or.inr ⟨rfl, t3, false, hs3, Or.inr ⟨rfl, t4, false, some hF, hs4,
              Or.inr (Or.inr ⟨rfl, hF, t5, rfl, hs5, rfl⟩)⟩⟩⟩
          rw [sys_close_trace, ht5, ht4, ht3, ht2, ht1]
          simp
        · -- a tree kill that succeeds always leaves a handle value
          exfalso
          obtain ⟨tree, treeDone, -, hcase⟩ := hs4
          rcases hcase with ⟨-, -, -, hh⟩ | ⟨-, -, hd, -⟩ | ⟨-, hF, req, -, -, hh⟩
          · cases hh
          · cases hd
          · cases hh
        · rename_i hK
          simp only [Option.some.injEq, Prod.mk.injEq] at he
          obtain ⟨rfl, rfl⟩ := he
          refine ⟨t1 ++ t2 ++ t3 ++ t4 ++ [⟨Call.CloseHandle hK, ()⟩], ?_, t1, t2, false,
            hs1, hs2, Or.inr ⟨rfl, t3, false, hs3, Or.inr ⟨rfl, t4, true, some hK, hs4,
              Or.inl ⟨rfl, rfl, hK, rfl, rfl⟩⟩⟩⟩
          rw [sys_close_trace, ht4, ht3, ht2, ht1]
          simp

theorem terminateProcess_concluded (os : OS σ) (fuel : Nat) (pid : Int) (s : SystemInfo)
    (w : World σ) (h : Handle) (w1 : World σ) (r : Bool × SystemInfo × World σ)
    (ho : openForTermination os pid (enableDebugPrivilege os w).2 = (some h, w1))
    (hr : terminateProcess os fuel pid s w = some r) :
    ∃ t post terminated, r.2.2.trace = w1.trace ++ (t ++ post) ∧
      Escalated pid h t terminated ∧ Concluded pid terminated post r.1 := by
  unfold terminateProcess at hr
  rw [ho] at hr
  simp only at hr
  rcases he : escalate os fuel pid h w1 with _ | ⟨flag, w2⟩
  · rw [he] at hr; simp at hr
  · rw [he] at hr
    obtain ⟨t, ht, hesc⟩ := escalate_escalated os fuel pid h w1 w2 flag he
    cases flag with
    | false =>
      simp only [Option.some.injEq] at hr
      subst hr
      obtain ⟨a, rest, hf⟩ := forceTerminateProcess_head os pid s w2
      exact ⟨t, _, false, by rw [hf, ht, List.append_assoc], hesc,
        Or.inr ⟨rfl, a, rest, rfl⟩⟩
    | true =>
      simp only at hr
      obtain ⟨tv, htv, hver⟩ := finalVerification_verified os pid w2
      rcases hv : finalVerification os pid w2 with ⟨gone, w3⟩
      rw [hv] at hr htv hver
      simp only at htv hver
      cases gone with
      | true =>
        simp only [Option.some.injEq] at hr
        subst hr
        exact ⟨t, tv, true, by simp only; rw [htv, ht, List.append_assoc], hesc,
          Or.inl ⟨rfl, tv, true, hver, Or.inl ⟨rfl, rfl, rfl⟩⟩⟩
      | false =>
        simp only [Option.some.injEq] at hr
        subst hr
        obtain ⟨a, rest, hf⟩ := forceTerminateProcess_head os pid s w3
        exact ⟨t, tv ++ ⟨Call.OpenProcess FULL_TERMINATE_ACCESS (toDWORD pid), a⟩ :: rest, true,
          by rw [hf, htv, ht]; simp, hesc,
          Or.inl ⟨rfl, tv, false, hver, Or.inr ⟨rfl, a, rest, rfl⟩⟩⟩


theorem enableDebugPrivilege_enabled (os : OS σ) (w : World σ) :
    ∃ t, (enableDebugPrivilege os w).2.trace = w.trace ++ t ∧ PrivilegeEnabled t := by
  unfold enableDebugPrivilege
  split
  · rename_i w1 h1
    obtain ⟨-, rfl⟩ := (sys_eq_iff _ _ _ _ _).1 h1
    exact ⟨_, rfl, Or.inl rfl⟩
  · rename_i hToken w1 h1
    obtain ⟨-, rfl⟩ := (sys_eq_iff _ _ _ _ _).1 h1
    split
    · rename_i w2 h2
      obtain ⟨-, rfl⟩ := (sys_eq_iff _ _ _ _ _).1 h2
      exact ⟨_, by simp [sys], Or.inr ⟨hToken, Or.inl rfl⟩⟩
    · rename_i w2 h2
      obtain ⟨-, rfl⟩ := (sys_eq_iff _ _ _ _ _).1 h2
      split
      rename_i result w3 h3
      obtain ⟨h3a, rfl⟩ := (sys_eq_iff _ _ _ _ _).1 h3
      cases result
      · refine ⟨_, ?_, Or.inr ⟨hToken, Or.inr (Or.inl rfl)⟩⟩
        simp [sys, h3a]
      · refine ⟨_, ?_, Or.inr ⟨hToken, Or.inr (Or.inr ⟨(os .GetLastError (os (.CloseHandle hToken)
          (os (.AdjustTokenPrivileges hToken) (os .LookupPrivilegeValue
            (os .OpenProcessToken w.os).2).2).2).2).1, rfl⟩)⟩⟩
        simp [sys, h3a]

theorem openForTermination_opened (os : OS σ) (pid : Int) (w : World σ) :
    (∃ t, (openForTermination os pid w).1 = none ∧
      (openForTermination os pid w).2.trace = w.trace ++ t ∧
      t = [(⟨Call.OpenProcess FULL_TERMINATE_ACCESS (toDWORD pid), (none : Option Handle)⟩ : Event),
           (⟨Call.OpenProcess PROCESS_TERMINATE (toDWORD pid), (none : Option Handle)⟩ : Event)]) ∨
    ∃ h t, (openForTermination os pid w).1 = some h ∧
      (openForTermination os pid w).2.trace = w.trace ++ t ∧ Opened pid h t := by
  unfold openForTermination
  split
  · rename_i hP w1 h1
    obtain ⟨-, rfl⟩ := (sys_eq_iff _ _ _ _ _).1 h1
    exact Or.inr ⟨hP, _, rfl, rfl, Or.inl rfl⟩
  · rename_i w1 h1
    obtain ⟨-, rfl⟩ := (sys_eq_iff _ _ _ _ _).1 h1
    cases h2 : (os (.OpenProcess PROCESS_TERMINATE (toDWORD pid))
        (os (.OpenProcess FULL_TERMINATE_ACCESS (toDWORD pid)) w.os).2).1 with
    | none =>
      refine Or.inl ⟨_, ?_, ?_, rfl⟩
      · simp [sys, h2]
      · simp [sys, h2]
    | some hP =>
      refine Or.inr ⟨hP, _, ?_, ?_, Or.inr rfl⟩
      · simp [sys, h2]
      · simp [sys, h2]

theorem terminateProcess_calls (os : OS σ) (fuel : Nat) (pid : Int) (s : SystemInfo)
    (w : World σ) (r : Bool × SystemInfo × World σ)
    (hr : terminateProcess os fuel pid s w = some r) :
    ∃ privilege body, r.2.2.trace = w.trace ++ (privilege ++ body) ∧
      PrivilegeEnabled privilege ∧
      ((OpensRefused pid body ∧ r.1 = false ∧ r.2.1 = s) ∨
       ∃ h opened t post terminated, Opened pid h opened ∧ body = opened ++ (t ++ post) ∧
         Escalated pid h t terminated ∧ Concluded pid terminated post r.1) := by
  obtain ⟨privilege, hp, hpall⟩ := enableDebugPrivilege_enabled os w
  refine ⟨privilege, ?_⟩
  rcases openForTermination_opened os pid (enableDebugPrivilege os w).2 with
    ⟨t, hnone, ht, hshape⟩ | ⟨h, t, hsome, ht, hshape⟩
  · rcases ho : openForTermination os pid (enableDebugPrivilege os w).2 with ⟨o, w1⟩
    rw [ho] at hnone ht
    simp only at hnone ht
    subst hnone
    unfold terminateProcess at hr
    rw [ho] at hr
    simp only [Option.some.injEq] at hr
    subst hr
    refine ⟨t ++ [⟨Call.GetLastError, (os .GetLastError w1.os).1⟩], ?_, hpall,
      Or.inl ⟨⟨_, by rw [hshape]; rfl⟩, rfl, rfl⟩⟩
    simp only [sys]
    rw [ht, hp]
    simp
  · rcases ho : openForTermination os pid (enableDebugPrivilege os w).2 with ⟨o, w1⟩
    rw [ho] at hsome ht
    simp only at hsome ht
    subst hsome
    obtain ⟨te, post, terminated, htr, hesc, hcon⟩ :=
      terminateProcess_concluded os fuel pid s w h w1 r ho hr
    refine ⟨t ++ (te ++ post), ?_, hpall, Or.inr ⟨h, t, te, post, terminated, hshape, rfl,
      hesc, hcon⟩⟩
    rw [htr, ht, hp]
    simp

theorem terminateRequests_head {h : Handle} {exitCode : Nat} {rest : List Nat}
    {t : List Event} {done : Bool} (hreq : TerminateRequests h (exitCode :: rest) t done) :
    ∃ b tl, t = (⟨Call.TerminateProcess h exitCode, b⟩ : Event) :: tl := by
  cases hreq with
  | succeeded _ _ _ h1 =>
    rcases h1 with ⟨rfl, -⟩ | ⟨r, rfl, -⟩
    · exact ⟨false, [], rfl⟩
    · exact ⟨true, _, rfl⟩
  | failed _ _ t0 t1 _ h1 _ =>
    rcases h1 with ⟨rfl, -⟩ | ⟨r, rfl, -⟩
    · exact ⟨false, _, rfl⟩
    · exact ⟨true, _, rfl⟩

theorem escalated_requests {pid : Int} {h : Handle} {t : List Event} {terminated : Bool}
    (he : Escalated pid h t terminated) :
    ∃ b, (⟨Call.TerminateProcess h 1, b⟩ : Event) ∈ t := by
  obtain ⟨t1, t2, done2, -, hreq, hcase⟩ := he
  obtain ⟨b, tl, rfl⟩ := terminateRequests_head hreq
  refine ⟨b, ?_⟩
  rcases hcase with ⟨-, -, rfl⟩ | ⟨-, t3, done3, -, hcase⟩
  · simp
  · rcases hcase with ⟨-, -, rfl⟩ | ⟨-, t4, done4, held, -, hcase⟩
    · simp
    · rcases hcase with ⟨-, -, hHeld, -, rfl⟩ | ⟨-, -, -, rfl⟩ | ⟨-, hHeld, t5, -, -, rfl⟩
      · simp
      · simp
      · simp


theorem openForTermination_refused (os : OS σ) (pid : Int) (w : World σ)
    (hfull : (os (.OpenProcess FULL_TERMINATE_ACCESS (toDWORD pid)) w.os).1 = none)
    (hterm : (os (.OpenProcess PROCESS_TERMINATE (toDWORD pid))
      (os (.OpenProcess FULL_TERMINATE_ACCESS (toDWORD pid)) w.os).2).1 = none) :
    (openForTermination os pid w).1 = none := by
  unfold openForTermination
  split
  · rename_i hP w1 ho
    have := congrArg Prod.fst ho
    simp [sys, hfull] at this
  · rename_i w1 ho
    obtain ⟨-, rfl⟩ := (sys_eq_iff _ _ _ _ _).1 ho
    simp [sys, hterm]

theorem openForTermination_granted (os : OS σ) (pid : Int) (w : World σ) (h : Handle)
    (hopen : (os (.OpenProcess FULL_TERMINATE_ACCESS (toDWORD pid)) w.os).1 = some h ∨
      ((os (.OpenProcess FULL_TERMINATE_ACCESS (toDWORD pid)) w.os).1 = none ∧
       (os (.OpenProcess PROCESS_TERMINATE (toDWORD pid))
        (os (.OpenProcess FULL_TERMINATE_ACCESS (toDWORD pid)) w.os).2).1 = some h)) :
    (openForTermination os pid w).1 = some h := by
  unfold openForTermination
  split
  · rename_i hP w1 ho
    obtain ⟨h1, -⟩ := (sys_eq_iff _ _ _ _ _).1 ho
    rcases hopen with h2 | ⟨h2, -⟩
    · rw [h2] at h1; exact h1.symm
    · rw [h2] at h1; cases h1
  · rename_i w1 ho
    obtain ⟨h1, rfl⟩ := (sys_eq_iff _ _ _ _ _).1 ho
    rcases hopen with h2 | ⟨-, h2⟩
    · rw [h2] at h1; cases h1
    · simp [sys, h2]

theorem terminateProcess_refused (os : OS σ) (fuel : Nat) (pid : Int) (s : SystemInfo)
    (w : World σ)
    (hfull : (os (.OpenProcess FULL_TERMINATE_ACCESS (toDWORD pid))
      (enableDebugPrivilege os w).2.os).1 = none)
    (hterm : (os (.OpenProcess PROCESS_TERMINATE (toDWORD pid))
      (os (.OpenProcess FULL_TERMINATE_ACCESS (toDWORD pid))
        (enableDebugPrivilege os w).2.os).2).1 = none) :
    ∃ w1, terminateProcess os fuel pid s w = some (false, s, w1) ∧
      Extends (fun e => !e.1.isTerminationAction) w w1 := by
  have hx := openForTermination_extends os (fun e => !e.1.isTerminationAction) pid
    (by intro e he; simp [he])
    (enableDebugPrivilege_extends os (fun e => !e.1.isTerminationAction)
      (by intro e he; simp [he]) (Extends.same _ w))
  have hnone := openForTermination_refused os pid (enableDebugPrivilege os w).2 hfull hterm
  unfold terminateProcess
  split
  · rename_i w1 ho
    rw [snd_of_eq ho]
    exact ⟨_, rfl, hx.sys os _ (by rfl)⟩
  · rename_i hP w1 ho
    rw [ho] at hnone
    simp at hnone

theorem terminateProcess_granted (os : OS σ) (fuel : Nat) (pid : Int) (s : SystemInfo)
    (w : World σ) (h : Handle) (r : Bool × SystemInfo × World σ)
    (hopen : (os (.OpenProcess FULL_TERMINATE_ACCESS (toDWORD pid))
        (enableDebugPrivilege os w).2.os).1 = some h ∨
      ((os (.OpenProcess FULL_TERMINATE_ACCESS (toDWORD pid))
        (enableDebugPrivilege os w).2.os).1 = none ∧
       (os (.OpenProcess PROCESS_TERMINATE (toDWORD pid))
        (os (.OpenProcess FULL_TERMINATE_ACCESS (toDWORD pid))
          (enableDebugPrivilege os w).2.os).2).1 = some h))
    (hr : terminateProcess os fuel pid s w = some r) :
    ∃ b, (⟨Call.TerminateProcess h 1, b⟩ : Event) ∈ r.2.2.trace := by
  have hsome := openForTermination_granted os pid (enableDebugPrivilege os w).2 h hopen
  rcases ho : openForTermination os pid (enableDebugPrivilege os w).2 with ⟨o, w1⟩
  rw [ho] at hsome
  simp only at hsome
  subst hsome
  obtain ⟨t, post, terminated, htr, hesc, -⟩ :=
    terminateProcess_concluded os fuel pid s w h w1 r ho hr
  obtain ⟨b, hb⟩ := escalated_requests hesc
  refine ⟨b, ?_⟩
  rw [htr]
  simp [hb]

end Lemmas

/-! ## Termination engine: properties -/

section EngineProperties

variable {σ : Type}

/-- C1: whatever the operating system answers, when `terminateProcess(pid)` returns
false the `SystemInfo` record is the one it was before the call; in particular
`processList`, `processCpuTimesMap`, `originalPriorities` and `throttledProcesses` are
unchanged, whichever escalation steps were attempted. -/
theorem terminateProcess_false_leaves_registry (os : OS σ) (fuel : Nat) (pid : Int)
    (s : SystemInfo) (w : World σ)
    (h : (terminateProcess os fuel pid s w).map (fun r => r.1) = some false) :
    (terminateProcess os fuel pid s w).map (fun r => r.2.1) = some s := by
  unfold terminateProcess at h ⊢
  split at h
  · simp_all
  · split at h
    · simp at h
    · simp_all [forceTerminateProcess_false_frame]
    · split at h
      · simp at h
      · simp_all [forceTerminateProcess_false_frame]

/-- Witness of C1: on the protected process 7 every step is attempted (its child 8 is
killed by the process-tree step), the call returns false and the registry is intact. -/
theorem terminateProcess_false_leaves_registry_witness :
    (terminateProcess simOS 2 7 registry78 (simWorld guardedTree)).map (fun r => r.1)
      = some false ∧
    (terminateProcess simOS 2 7 registry78 (simWorld guardedTree)).map (fun r => r.2.1)
      = some registry78 :=
  ⟨by decide,
   terminateProcess_false_leaves_registry simOS 2 7 registry78 (simWorld guardedTree)
    (by decide)⟩

/-- C2 fails on the code: pid 7 is absent from the registry's process list, the
operating system lets it be opened, and `terminateProcess(7)` returns true after
suspending and terminating its threads and terminating the process. -/
theorem terminateProcess_absent_pid_counterexample :
    (∀ p ∈ getProcessList registry8, p.pid ≠ 7) ∧
    ∃ r, terminateProcess simOS 1 7 registry8 (simWorld plainTree) = some r ∧
      r.1 = true ∧
      (⟨Call.SuspendThread 70, ()⟩ : Event) ∈ r.2.2.trace ∧
      (⟨Call.TerminateThread 70 0, ()⟩ : Event) ∈ r.2.2.trace ∧
      (⟨Call.TerminateProcess 7 1, true⟩ : Event) ∈ r.2.2.trace ∧
      r.2.2.os = [{ pid := 8, parent := 7, name := "child.exe" }] := by
  refine ⟨by decide, _, rfl, ?_, ?_, ?_, ?_, ?_⟩ <;> decide

/-- C2 as amended: `terminateProcess(pid)` never consults the registry (its result and
the calls it makes are the same for every registry content).  It is rejected, returning
false with the registry unchanged and without any termination action, for every
recursion budget, when the operating system refuses the two opens of the pid at the
start of the call: the one with the full access mask and then the one with
`PROCESS_TERMINATE`.  And only then: when one of these two opens gives a handle, every
run of the call that returns has made a terminate request with exit code 1 on it. -/
theorem terminateProcess_rejects_only_unopenable (os : OS σ) (fuel : Nat) (pid : Int)
    (s s2 : SystemInfo) (w : World σ) :
    (terminateProcess os fuel pid s w).map (fun r => (r.1, r.2.2)) =
      (terminateProcess os fuel pid s2 w).map (fun r => (r.1, r.2.2)) ∧
    ((os (.OpenProcess FULL_TERMINATE_ACCESS (toDWORD pid))
        (enableDebugPrivilege os w).2.os).1 = none →
     (os (.OpenProcess PROCESS_TERMINATE (toDWORD pid))
        (os (.OpenProcess FULL_TERMINATE_ACCESS (toDWORD pid))
          (enableDebugPrivilege os w).2.os).2).1 = none →
      ∃ w1 t, terminateProcess os fuel pid s w = some (false, s, w1) ∧
        w1.trace = w.trace ++ t ∧ ∀ e ∈ t, e.1.isTerminationAction = false) ∧
    (∀ h r,
      ((os (.OpenProcess FULL_TERMINATE_ACCESS (toDWORD pid))
          (enableDebugPrivilege os w).2.os).1 = some h ∨
       ((os (.OpenProcess FULL_TERMINATE_ACCESS (toDWORD pid))
          (enableDebugPrivilege os w).2.os).1 = none ∧
        (os (.OpenProcess PROCESS_TERMINATE (toDWORD pid))
          (os (.OpenProcess FULL_TERMINATE_ACCESS (toDWORD pid))
            (enableDebugPrivilege os w).2.os).2).1 = some h)) →
      terminateProcess os fuel pid s w = some r →
      ∃ b, (⟨Call.TerminateProcess h 1, b⟩ : Event) ∈ r.2.2.trace) := by
  refine ⟨terminateProcess_registry_blind os fuel pid s s2 w, fun hfull hterm => ?_,
    fun h r hopen hr => terminateProcess_granted os fuel pid s w h r hopen hr⟩
  obtain ⟨w1, h1, t, ht, hq⟩ := terminateProcess_refused os fuel pid s w hfull hterm
  exact ⟨w1, t, h1, ht, fun e he => by simpa using hq e he⟩

/-- Witness of the amended C2.  Pid 7 is live and can be opened for query but not for
termination: the two opens are refused and the call is rejected, for the registry
holding pids 7 and 8 exactly as for the registry holding pid 8 only.  On the ordinary
system the first open of pid 7 gives the handle 7 and the terminate request with exit
code 1 is made on it, although the registry does not hold pid 7. -/
theorem terminateProcess_rejects_only_unopenable_witness :
    (simOSQueryOnly 7 (.OpenProcess PROCESS_QUERY_INFORMATION (toDWORD 7)) plainTree).1
      = some 7 ∧
    (simOSQueryOnly 7 (.OpenProcess FULL_TERMINATE_ACCESS (toDWORD 7))
      (enableDebugPrivilege (simOSQueryOnly 7) (simWorld plainTree)).2.os).1 = none ∧
    (simOSQueryOnly 7 (.OpenProcess PROCESS_TERMINATE (toDWORD 7))
      (simOSQueryOnly 7 (.OpenProcess FULL_TERMINATE_ACCESS (toDWORD 7))
        (enableDebugPrivilege (simOSQueryOnly 7) (simWorld plainTree)).2.os).2).1 = none ∧
    (terminateProcess (simOSQueryOnly 7) 1 7 registry78 (simWorld plainTree)).map
        (fun r => (r.1, r.2.2)) =
      (terminateProcess (simOSQueryOnly 7) 1 7 registry8 (simWorld plainTree)).map
        (fun r => (r.1, r.2.2)) ∧
    (∃ w1 t, terminateProcess (simOSQueryOnly 7) 1 7 registry78 (simWorld plainTree)
          = some (false, registry78, w1) ∧
        w1.trace = (simWorld plainTree).trace ++ t ∧
        ∀ e ∈ t, e.1.isTerminationAction = false) ∧
    (simOS (.OpenProcess FULL_TERMINATE_ACCESS (toDWORD 7))
      (enableDebugPrivilege simOS (simWorld plainTree)).2.os).1 = some 7 ∧
    ∃ r b, terminateProcess simOS 1 7 registry8 (simWorld plainTree) = some r ∧
      (⟨Call.TerminateProcess 7 1, b⟩ : Event) ∈ r.2.2.trace :=
  ⟨by decide, by decide, by decide,
   (terminateProcess_rejects_only_unopenable (simOSQueryOnly 7) 1 7 registry78 registry8
      (simWorld plainTree)).1,
   (terminateProcess_rejects_only_unopenable (simOSQueryOnly 7) 1 7 registry78 registry8
      (simWorld plainTree)).2.1 (by decide) (by decide),
   by decide,
   (Option.isSome_iff_exists.1
      (by decide : (terminateProcess simOS 1 7 registry8 (simWorld plainTree)).isSome = true)).elim
     (fun r hr => (((terminateProcess_rejects_only_unopenable simOS 1 7 registry8 registry8
        (simWorld plainTree)).2.2 7 r (Or.inl (by decide)) hr).elim
          (fun b hb => ⟨r, b, hr, hb⟩)))⟩

/-- C3: `terminateProcess(pid)` and `forceTerminateProcess(pid)` return true only when
the final verification succeeded: the last calls made are the re-open of the pid for
status query which failed, or which succeeded and was followed by an exit code other
than `STILL_ACTIVE`.  Setting the internal `terminated` flag is never enough. -/
theorem true_only_after_final_verification (os : OS σ) (fuel : Nat) (pid : Int)
    (s : SystemInfo) (w : World σ) :
    ((terminateProcess os fuel pid s w).map (fun r => r.1) = some true →
      ∃ r, terminateProcess os fuel pid s w = some r ∧ VerifiedGone pid r.2.2.trace) ∧
    ((forceTerminateProcess os pid s w).1 = true →
      VerifiedGone pid (forceTerminateProcess os pid s w).2.2.trace) := by
  constructor
  · intro h
    cases hr : terminateProcess os fuel pid s w with
    | none => simp [hr] at h
    | some r =>
      simp [hr] at h
      exact ⟨r, rfl, (terminateProcess_true os fuel pid s w r hr h).2⟩
  · intro h
    exact (forceTerminateProcess_true os pid s w h).2

/-- Witness of C3: the ordinary process 7 is terminated and the verifying re-open
fails; `forceTerminateProcess` on it returns true after the same verification. -/
theorem true_only_after_final_verification_witness :
    ((terminateProcess simOS 1 7 registry78 (simWorld plainTree)).map (fun r => r.1)
        = some true ∧
      ∃ r, terminateProcess simOS 1 7 registry78 (simWorld plainTree) = some r ∧
        VerifiedGone 7 r.2.2.trace) ∧
    ((forceTerminateProcess simOS 7 registry78 (simWorld plainTree)).1 = true ∧
      VerifiedGone 7 (forceTerminateProcess simOS 7 registry78 (simWorld plainTree)).2.2.trace) :=
  ⟨⟨by decide,
    (true_only_after_final_verification simOS 1 7 registry78 (simWorld plainTree)).1
      (by decide)⟩,
   ⟨by decide,
    (true_only_after_final_verification simOS 1 7 registry78 (simWorld plainTree)).2
      (by decide)⟩⟩

/-- On the process that survives fault injection the remote thread is created, so the
`terminated` flag is set, and `terminateProcess` still returns false. -/
theorem flag_without_verification_is_failure :
    ∃ r, terminateProcess simOS 1 7 registry78 (simWorld stubbornProcess) = some r ∧
      (⟨Call.CreateRemoteThread 7 0x10000, some 0⟩ : Event) ∈ r.2.2.trace ∧ r.1 = false := by
  refine ⟨_, rfl, ?_, ?_⟩ <;> decide

/-- C4: when the registry's records have pairwise distinct pids and
`terminateProcess(pid)` returns true, the registry no longer contains the pid:
`getProcessList()` has no record with it, `processCpuTimesMap` and `originalPriorities`
have no key for it, `throttledProcesses` does not contain it, and the process list is
the previous one without that record, the other records unchanged and in order. -/
theorem terminateProcess_true_removes_pid (os : OS σ) (fuel : Nat) (pid : Int)
    (s : SystemInfo) (w : World σ)
    (hd : ((getProcessList s).map (fun p => p.pid)).Nodup)
    (h : (terminateProcess os fuel pid s w).map (fun r => r.1) = some true) :
    ∃ r, terminateProcess os fuel pid s w = some r ∧
      (∀ p ∈ getProcessList r.2.1, p.pid ≠ pid) ∧
      r.2.1.processCpuTimesMap.contains pid = false ∧
      r.2.1.originalPriorities.contains pid = false ∧
      pid ∉ r.2.1.throttledProcesses ∧
      getProcessList r.2.1 = (getProcessList s).filter (fun p => decide (p.pid ≠ pid)) := by
  cases hr : terminateProcess os fuel pid s w with
  | none => simp [hr] at h
  | some r =>
    simp [hr] at h
    have hs := (terminateProcess_true os fuel pid s w r hr h).1
    have hl : getProcessList r.2.1 = (getProcessList s).filter (fun p => decide (p.pid ≠ pid)) := by
      rw [hs]
      exact removeFirstWithPid_eq_filter s.processList pid hd
    refine ⟨r, rfl, ?_, ?_, ?_, ?_, hl⟩
    · intro p hp
      rw [hl] at hp
      simpa using (List.mem_filter.1 hp).2
    · rw [hs]; simp [removeProcessFromList, QMap.remove, QMap.contains]
    · rw [hs]; simp [removeProcessFromList, QMap.remove, QMap.contains]
    · rw [hs]; simp [removeProcessFromList]

/-- Witness of C4: pid 7 is terminated and leaves the registry; the record of pid 8
stays. -/
theorem terminateProcess_true_removes_pid_witness :
    ((getProcessList registry78).map (fun p => p.pid)).Nodup ∧
    (terminateProcess simOS 1 7 registry78 (simWorld plainTree)).map (fun r => r.1)
      = some true ∧
    ∃ r, terminateProcess simOS 1 7 registry78 (simWorld plainTree) = some r ∧
      (∀ p ∈ getProcessList r.2.1, p.pid ≠ 7) ∧
      r.2.1.processCpuTimesMap.contains 7 = false ∧
      r.2.1.originalPriorities.contains 7 = false ∧
      7 ∉ r.2.1.throttledProcesses ∧
      getProcessList r.2.1 = (getProcessList registry78).filter (fun p => decide (p.pid ≠ 7)) :=
  ⟨by decide, by decide,
   terminateProcess_true_removes_pid simOS 1 7 registry78 (simWorld plainTree)
    (by decide) (by decide)⟩

/-- C5 fails on the code: on the ordinary process 7, whose terminate request succeeds at
once, the termination actions are, in order, the suspension and termination of its two
threads and only then the terminate request with exit code 1. -/
theorem graceful_request_first_counterexample :
    ∃ r, terminateProcess simOS 1 7 registry78 (simWorld plainTree) = some r ∧
      r.1 = true ∧
      (r.2.2.trace.map (fun e => e.1)).filter Call.isTerminationAction =
        [Call.SuspendThread 70, Call.TerminateThread 70 0,
         Call.SuspendThread 71, Call.TerminateThread 71 0,
         Call.TerminateProcess 7 1] ∧
      (⟨Call.TerminateProcess 7 1, true⟩ : Event) ∈ r.2.2.trace := by
  refine ⟨_, rfl, ?_, ?_, ?_⟩ <;> decide

/-- C5 as amended: the calls of every run of `terminateProcess` that returns are, in
this order: the calls enabling the debug privilege; the two opens of the pid; and, unless
both were refused (the call then returns false), on the handle obtained: step 1, the
suspension and termination of the target's threads, which always runs and comes before
any terminate request; step 2, the terminate requests with the exit codes 1, 0, -1,
0xDEAD and 0xBEEF in turn, up to the first signalled wait; step 3, fault injection,
only if step 2 did not set the `terminated` flag; step 4, process-tree kill and retry,
only if step 3 did not set it either; step 5, memory corruption, only if step 4 did not
and its retry obtained a handle; the closing of the handle; and then the final
verification when the flag is set, followed by `forceTerminateProcess` when the flag is
not set or the verification found the pid alive. -/
theorem terminateProcess_escalation_order (os : OS σ) (fuel : Nat) (pid : Int)
    (s : SystemInfo) (w : World σ) (r : Bool × SystemInfo × World σ)
    (hr : terminateProcess os fuel pid s w = some r) :
    ∃ privilege body, r.2.2.trace = w.trace ++ (privilege ++ body) ∧
      PrivilegeEnabled privilege ∧
      ((OpensRefused pid body ∧ r.1 = false ∧ r.2.1 = s) ∨
       ∃ h opened t post terminated, Opened pid h opened ∧ body = opened ++ (t ++ post) ∧
         Escalated pid h t terminated ∧ Concluded pid terminated post r.1) :=
  terminateProcess_calls os fuel pid s w r hr

/-- Witness of the amended C5: on the protected process 7, which no step can end, the
call returns false for the recursion budget 2; its calls up to the closing of the handle
are the privilege calls, the open, and the five steps in order (step 1 finds no thread,
step 4 ends the child 8 before it fails on pid 7 and re-opens it). -/
theorem terminateProcess_escalation_order_witness :
    ∃ r, terminateProcess simOS 2 7 registry78 (simWorld guardedTree) = some r ∧
      r.1 = false ∧
      (r.2.2.trace.map (fun e => e.1)).take 32 =
        [Call.OpenProcessToken, Call.LookupPrivilegeValue, Call.AdjustTokenPrivileges 1,
         Call.CloseHandle 1, Call.GetLastError,
         Call.OpenProcess FULL_TERMINATE_ACCESS 7,
         Call.GetProcessId 7, Call.SnapshotThreads,
         Call.TerminateProcess 7 1, Call.TerminateProcess 7 0,
         Call.TerminateProcess 7 4294967295, Call.TerminateProcess 7 0xDEAD,
         Call.TerminateProcess 7 0xBEEF,
         Call.VirtualAllocEx 7 1024,
         Call.CloseHandle 7, Call.SnapshotProcesses, Call.SnapshotProcesses,
         Call.OpenProcess TREE_KILL_ACCESS 8, Call.TerminateProcess 8 1,
         Call.WaitForSingleObject 8 1000, Call.CloseHandle 8,
         Call.OpenProcess TREE_KILL_ACCESS 7, Call.TerminateProcess 7 1, Call.CloseHandle 7,
         Call.OpenProcess PROCESS_TERMINATE 7, Call.TerminateProcess 7 1,
         Call.WriteProcessMemory 7 0x400000 [67, 82, 65, 83, 72],
         Call.WriteProcessMemory 7 0x1000000 [67, 82, 65, 83, 72],
         Call.WriteProcessMemory 7 0x2000000 [67, 82, 65, 83, 72],
         Call.WriteProcessMemory 7 0x140000000 [67, 82, 65, 83, 72],
         Call.WriteProcessMemory 7 0x180000000 [67, 82, 65, 83, 72],
         Call.CloseHandle 7] ∧
      ∃ privilege body, r.2.2.trace = (simWorld guardedTree).trace ++ (privilege ++ body) ∧
        PrivilegeEnabled privilege ∧
        ((OpensRefused 7 body ∧ r.1 = false ∧ r.2.1 = registry78) ∨
         ∃ h opened t post terminated, Opened 7 h opened ∧ body = opened ++ (t ++ post) ∧
           Escalated 7 h t terminated ∧ Concluded 7 terminated post r.1) :=
  ⟨_, rfl, by decide, by decide,
   terminateProcess_escalation_order simOS 2 7 registry78 (simWorld guardedTree) _ rfl⟩

/-- C6: for a pid that the operating system can no longer open, `terminateProcess(pid)`
returns false and leaves the whole `SystemInfo` record unchanged, for every recursion
budget; a second call in sequence returns false again with the same record. -/
theorem terminateProcess_gone_idempotent (os : OS σ) (fuel : Nat) (pid : Int)
    (s : SystemInfo) (w : World σ)
    (hgone : ∀ access st, (os (.OpenProcess access (toDWORD pid)) st).1 = none) :
    ∃ w1 w2, terminateProcess os fuel pid s w = some (false, s, w1) ∧
      terminateProcess os fuel pid s w1 = some (false, s, w2) := by
  obtain ⟨w1, h1, -⟩ := terminateProcess_unopenable os fuel pid s w hgone
  obtain ⟨w2, h2, -⟩ := terminateProcess_unopenable os fuel pid s w1 hgone
  exact ⟨w1, w2, h1, h2⟩

/-- Witness of C6: pid 7 has exited for good; both calls return false and the registry,
which still lists pid 7, is untouched. -/
theorem terminateProcess_gone_idempotent_witness :
    (∀ access st, (simOSWithout 7 (.OpenProcess access (toDWORD 7)) st).1 = none) ∧
    ∃ w1 w2, terminateProcess (simOSWithout 7) 0 7 registry78 (simWorld []) =
        some (false, registry78, w1) ∧
      terminateProcess (simOSWithout 7) 0 7 registry78 w1 = some (false, registry78, w2) :=
  ⟨fun _ _ => rfl,
   terminateProcess_gone_idempotent (simOSWithout 7) 0 7 registry78 (simWorld [])
    (fun _ _ => rfl)⟩

/-- C7 fails on the code: when the parent links of the process table form a cycle
through the target, `killProcessTree` calls itself without ever reaching its own
terminate request, so for every recursion budget the call has no result.  This holds
for the protected process 7 that is its own parent, for the protected process 100
whose parent 200 has 100 as parent, and for `killProcessTree(7)` called directly. -/
theorem terminateProcess_diverges_on_parent_cycle :
    (∀ fuel, terminateProcess simOS fuel 7 registry78 (simWorld selfParent) = none) ∧
    (∀ fuel, terminateProcess simOS fuel 100 registry78 (simWorld pidReuseCycle) = none) ∧
    (∀ fuel, killProcessTree simOS fuel 7 (simWorld selfParent) = none) := by
  refine ⟨fun fuel => ?_, fun fuel => ?_, fun fuel => killProcessTree_selfParent fuel _ rfl⟩
  · exact terminateProcess_none_of_tree simOS fuel 7 registry78 (simWorld selfParent) 7
      (by decide) (by decide) (by decide) (killProcessTree_selfParent fuel _ (by decide))
  · exact terminateProcess_none_of_tree simOS fuel 100 registry78 (simWorld pidReuseCycle) 100
      (by decide) (by decide) (by decide)
      (killProcessTree_pidReuseCycle fuel _ (by decide)).1

end EngineProperties

/-! ## Efficiency controller: properties -/

section EfficiencyProperties

variable {σ : Type}

/-- C8: `getHighResourceProcesses()` is the sub-sequence of `getProcessList()`, in the
same order, of the records with `cpuUsage > 10.0` or `memoryUsage > 204800` KB; both
comparisons are strict, so a record at exactly 10.0 and 204800 KB is left out.  On the
scenario registry, with pid 10 within both thresholds, the result is the single record
of pid 30. -/
theorem getHighResourceProcesses_spec (s : SystemInfo) :
    getHighResourceProcesses s =
      (getProcessList s).filter (fun p => decide (p.cpuUsage > 10 ∨ p.memoryUsage > 204800)) ∧
    (getHighResourceProcesses s).Sublist (getProcessList s) ∧
    (∀ p ∈ getProcessList s, p.cpuUsage = 10 → p.memoryUsage = 204800 →
      p ∉ getHighResourceProcesses s) ∧
    (∀ (cpu10 : Double) (mem10 : Int), cpu10 ≤ 10 → mem10 ≤ 204800 →
      getHighResourceProcesses (scenarioRegistry cpu10 mem10) =
        [mkProcess 30 "app.exe" .Application 15 (300 * 1024)]) := by
  have heq : ∀ s : SystemInfo, getHighResourceProcesses s =
      (getProcessList s).filter (fun p => decide (p.cpuUsage > 10 ∨ p.memoryUsage > 204800)) := by
    intro s
    unfold getHighResourceProcesses getProcessList
    have := foldl_append_filter (fun p : ProcessInfo => p.cpuUsage > 10 ∨ p.memoryUsage > 200 * 1024)
      s.processList []
    simpa using this
  refine ⟨heq s, ?_, ?_, ?_⟩
  · rw [heq]; exact List.filter_sublist _
  · intro p _ hc hm hin
    rw [heq] at hin
    have := (List.mem_filter.1 hin).2
    simp [hc, hm] at this
  · intro cpu10 mem10 hc hm
    rw [heq]
    have h10 : ¬ (cpu10 > 10 ∨ mem10 > 204800) := by
      rintro (h | h)
      · exact absurd h (not_lt.2 hc)
      · exact absurd h (not_lt.2 hm)
    simp only [getProcessList, scenarioRegistry, List.filter_cons, mkProcess]
    simp only [h10, decide_False]
    norm_num

/-- Witness of C8: the record exactly at both thresholds is in the list and not in the
result; on the scenario registry with an idle pid 10 the result is pid 30 alone. -/
theorem getHighResourceProcesses_spec_witness :
    (mkProcess 40 "edge.exe" .Application 10 204800 ∈ getProcessList thresholdRegistry ∧
      mkProcess 40 "edge.exe" .Application 10 204800 ∉ getHighResourceProcesses thresholdRegistry) ∧
    ((0 : Double) ≤ 10 ∧ (0 : Int) ≤ 204800 ∧
      getHighResourceProcesses (scenarioRegistry 0 0) =
        [mkProcess 30 "app.exe" .Application 15 (300 * 1024)]) :=
  ⟨⟨by simp [getProcessList, thresholdRegistry],
    (getHighResourceProcesses_spec thresholdRegistry).2.2.1 _
      (by simp [getProcessList, thresholdRegistry]) rfl rfl⟩,
   ⟨by norm_num, by norm_num,
    (getHighResourceProcesses_spec thresholdRegistry).2.2.2 0 0 (by norm_num) (by norm_num)⟩⟩

/-- C9: `setEfficiencyMode(b)` does nothing when efficiency mode already equals `b`:
the record, the operating-system state and the trace of calls are unchanged and no
signal is emitted.  Otherwise `isEfficiencyModeEnabled()` equals `b` afterwards and the
signals emitted are the previous ones followed by exactly one
`efficiencyModeChanged(b)`. -/
theorem setEfficiencyMode_notifies_on_transition (os : OS σ) (b : Bool) (s : SystemInfo)
    (w : World σ) :
    (isEfficiencyModeEnabled s = b → setEfficiencyMode os b s w = (s, w)) ∧
    (isEfficiencyModeEnabled s ≠ b →
      isEfficiencyModeEnabled (setEfficiencyMode os b s w).1 = b ∧
      (setEfficiencyMode os b s w).1.emitted = s.emitted ++ [Signal.efficiencyModeChanged b]) := by
  constructor
  · intro h
    unfold setEfficiencyMode
    exact if_pos h
  · intro h
    have hc := setEfficiencyMode_core os b s w h
    exact ⟨congrArg SystemInfo.efficiencyModeEnabled hc, congrArg SystemInfo.emitted hc⟩

/-- Witness of C9: with efficiency mode disabled, disabling changes nothing and
enabling emits one `efficiencyModeChanged(true)`. -/
theorem setEfficiencyMode_notifies_on_transition_witness :
    (isEfficiencyModeEnabled efficiencyRegistry = false ∧
      setEfficiencyMode simOS false efficiencyRegistry (simWorld efficiencyProcs)
        = (efficiencyRegistry, simWorld efficiencyProcs)) ∧
    (isEfficiencyModeEnabled efficiencyRegistry ≠ true ∧
      isEfficiencyModeEnabled
        (setEfficiencyMode simOS true efficiencyRegistry (simWorld efficiencyProcs)).1 = true ∧
      (setEfficiencyMode simOS true efficiencyRegistry (simWorld efficiencyProcs)).1.emitted
        = efficiencyRegistry.emitted ++ [Signal.efficiencyModeChanged true]) :=
  ⟨⟨rfl, (setEfficiencyMode_notifies_on_transition simOS false efficiencyRegistry
      (simWorld efficiencyProcs)).1 rfl⟩,
   ⟨by decide, (setEfficiencyMode_notifies_on_transition simOS true efficiencyRegistry
      (simWorld efficiencyProcs)).2 (by decide)⟩⟩

/-- C10: starting with efficiency mode disabled, after `setEfficiencyMode(true)`
followed by `setEfficiencyMode(false)` the backup map and the throttled set are empty,
and the calls made by the disabling contain, for every entry of the backup map at the
moment of disabling, the open of its pid for setting information followed, when the
open succeeds, by the priority set to the recorded value; when the operating system
grants every open, the priority set is issued for every entry.  When moreover the
backup map was empty at the start, on the simulated operating system, where every
live process reports a non-zero priority class and every set on it succeeds, every
pid ends at the priority class it had before enabling. -/
theorem efficiency_round_trip_restores (s : SystemInfo)
    (hoff : isEfficiencyModeEnabled s = false) :
    (∀ {σ : Type} (os : OS σ) (w : World σ),
      (efficiencyCycle os s w).1.originalPriorities = [] ∧
      (efficiencyCycle os s w).1.throttledProcesses = [] ∧
      ∃ t, (efficiencyCycle os s w).2.trace = (setEfficiencyMode os true s w).2.trace ++ t ∧
        (∀ it ∈ (setEfficiencyMode os true s w).1.originalPriorities,
          RestoreIssued it.1 it.2 t) ∧
        ((∀ access p st, (os (.OpenProcess access p) st).1 ≠ none) →
          ∀ it ∈ (setEfficiencyMode os true s w).1.originalPriorities,
            PrioritySetIssued it.1 it.2 t)) ∧
    (s.originalPriorities = [] →
      ∀ (st : SimState) (tr : List Event), WellPrioritised st →
        ∀ pid, (efficiencyCycle simOS s { os := st, trace := tr }).2.os.priority pid
          = st.priority pid) := by
  constructor
  · intro σ os w
    have hon : (setEfficiencyMode os true s w).1.efficiencyModeEnabled = true := by
      have := setEfficiencyMode_core os true s w (by
        intro h; rw [isEfficiencyModeEnabled] at hoff; rw [hoff] at h; exact absurd h (by decide))
      exact congrArg SystemInfo.efficiencyModeEnabled this
    unfold efficiencyCycle
    rw [setEfficiencyMode_false_eq os _ _ hon]
    exact ⟨rfl, rfl, restoreLoop_issues os _ _⟩
  · intro hempty st tr hw pid
    exact efficiencyCycle_sim st s tr hoff hempty hw pid

/-- Witness of C10: enabling records the classes of the pids 10, 20 and 30 and lowers
the pids 20 and 30 to `BELOW_NORMAL_PRIORITY_CLASS`; after disabling both maps are
empty, the three priority sets were issued and every pid has its initial class
again. -/
theorem efficiency_round_trip_restores_witness :
    isEfficiencyModeEnabled efficiencyRegistry = false ∧
    efficiencyRegistry.originalPriorities = [] ∧
    WellPrioritised efficiencyProcs ∧
    (∀ access p st, (simOSGranting (.OpenProcess access p) st).1 ≠ none) ∧
    (setEfficiencyMode simOS true efficiencyRegistry (simWorld efficiencyProcs)).1.originalPriorities
      = [(10, 0x80), (20, 0x20), (30, 0x8000)] ∧
    (setEfficiencyMode simOS true efficiencyRegistry (simWorld efficiencyProcs)).2.os.priority 20
      = BELOW_NORMAL_PRIORITY_CLASS ∧
    (setEfficiencyMode simOS true efficiencyRegistry (simWorld efficiencyProcs)).2.os.priority 30
      = BELOW_NORMAL_PRIORITY_CLASS ∧
    ((efficiencyCycle simOSGranting efficiencyRegistry
        (simWorld efficiencyProcs)).1.originalPriorities = [] ∧
      (efficiencyCycle simOSGranting efficiencyRegistry
        (simWorld efficiencyProcs)).1.throttledProcesses = [] ∧
      ∃ t, (efficiencyCycle simOSGranting efficiencyRegistry (simWorld efficiencyProcs)).2.trace =
          (setEfficiencyMode simOSGranting true efficiencyRegistry
            (simWorld efficiencyProcs)).2.trace ++ t ∧
        ∀ it ∈ (setEfficiencyMode simOSGranting true efficiencyRegistry
            (simWorld efficiencyProcs)).1.originalPriorities, PrioritySetIssued it.1 it.2 t) ∧
    (∀ pid, (efficiencyCycle simOS efficiencyRegistry
        { os := efficiencyProcs, trace := [] }).2.os.priority pid = efficiencyProcs.priority pid) :=
  have hopen : ∀ access p st, (simOSGranting (.OpenProcess access p) st).1 ≠ none :=
    fun _ _ _ h => Option.noConfusion h
  have h1 := (efficiency_round_trip_restores efficiencyRegistry rfl).1 simOSGranting
    (simWorld efficiencyProcs)
  ⟨rfl, rfl, by unfold WellPrioritised; decide, hopen, by decide, by decide, by decide,
   ⟨h1.1, h1.2.1, h1.2.2.elim fun t ht => ⟨t, ht.1, ht.2.2 hopen⟩⟩,
   (efficiency_round_trip_restores efficiencyRegistry rfl).2 rfl efficiencyProcs []
     (by unfold WellPrioritised; decide)⟩

/-- C12 (failing input): the registry holds the System process pid 10 (essential).
Enabling efficiency mode opens pid 10 neither for setting information nor for the
working-set clamp, but the following `setEfficiencyMode(false)` opens pid 10 for
setting information and calls `SetPriorityClass` on it with the class recorded at
enabling (`HIGH_PRIORITY_CLASS`); if the process had raised itself to
`REALTIME_PRIORITY_CLASS` in the meantime, disabling puts it back to
`HIGH_PRIORITY_CLASS`. -/
theorem essential_process_reset_on_disable :
    mkProcess 10 "core.sys" .System 50 (900 * 1024) ∈ efficiencyRegistry.processList ∧
    isProcessEssential (mkProcess 10 "core.sys" .System 50 (900 * 1024)) = true ∧
    (∀ e ∈ (setEfficiencyMode simOS true efficiencyRegistry (simWorld efficiencyProcs)).2.trace,
      e.1 ≠ Call.OpenProcess PROCESS_SET_INFORMATION 10 ∧
      e.1 ≠ Call.OpenProcess (PROCESS_SET_QUOTA ||| PROCESS_TERMINATE) 10) ∧
    PrioritySetIssued 10 (HIGH_PRIORITY_CLASS : Nat)
      (setEfficiencyMode simOS false
        (setEfficiencyMode simOS true efficiencyRegistry (simWorld efficiencyProcs)).1
        { os := (setEfficiencyMode simOS true efficiencyRegistry (simWorld efficiencyProcs)).2.os,
          trace := [] }).2.trace ∧
    (setEfficiencyMode simOS false
        (setEfficiencyMode simOS true efficiencyRegistry (simWorld efficiencyProcs)).1
        { os := ((setEfficiencyMode simOS true efficiencyRegistry
            (simWorld efficiencyProcs)).2.os).setPriority 10 REALTIME_PRIORITY_CLASS,
          trace := [] }).2.os.priority 10 = HIGH_PRIORITY_CLASS :=
  ⟨by decide, by decide, by decide, ⟨10, true, by decide⟩, by decide⟩

/-- C13 (counterexample): on the scenario registry, with pid 20 running at
`NORMAL_PRIORITY_CLASS`, `setEfficiencyMode(true)` opens pid 20 for setting
information and sets its priority class to `BELOW_NORMAL_PRIORITY_CLASS`: pid 20 is a
Background process and not essential, and `optimizeBackgroundProcesses` looks at
neither threshold. -/
theorem scenario_background_lowered_counterexample :
    isEfficiencyModeEnabled (scenarioRegistry 0 0) = false ∧
    efficiencyProcs.priority 20 = NORMAL_PRIORITY_CLASS ∧
    PrioritySetIssued 20 (BELOW_NORMAL_PRIORITY_CLASS : Nat)
      (setEfficiencyMode simOS true (scenarioRegistry 0 0) (simWorld efficiencyProcs)).2.trace ∧
    (setEfficiencyMode simOS true (scenarioRegistry 0 0)
      (simWorld efficiencyProcs)).2.os.priority 20 = BELOW_NORMAL_PRIORITY_CLASS :=
  ⟨rfl, by decide, ⟨20, true, by decide⟩, by decide⟩

/-- C13 (amended): on the scenario registry, whatever the usage of pid 10 and whatever
the operating system answers, `setEfficiencyMode(true)` makes no priority-set call and
no working-set-size call for pid 10 and no working-set-size call for pid 20; for
pid 20 (Background, not essential) it requests `BELOW_NORMAL_PRIORITY_CLASS`: the pid
is opened for setting information and, unless the open is refused, the class is
set. -/
theorem scenario_enable_calls (cpu10 : Double) (mem10 : Int) (os : OS σ) (w : World σ) :
    ∃ t, (setEfficiencyMode os true (scenarioRegistry cpu10 mem10) w).2.trace = w.trace ++ t ∧
      ¬ PriorityTouched 10 t ∧ ¬ WorkingSetTouched 10 t ∧ ¬ WorkingSetTouched 20 t ∧
      RestoreIssued 20 (BELOW_NORMAL_PRIORITY_CLASS : Nat) t := by
  obtain ⟨t, ht, hi1, -⟩ := setEfficiencyMode_true_issues os (scenarioRegistry cpu10 mem10) w rfl
  refine ⟨t, ht, ?_, ?_, ?_, ?_⟩
  · intro htouch
    obtain ⟨p, hp, hd, he, -⟩ :=
      setEfficiencyMode_true_priority_guard os _ w rfl 10 t ht htouch
    simp only [scenarioRegistry, List.mem_cons, List.mem_singleton, List.not_mem_nil,
      or_false] at hp
    rcases hp with rfl | rfl | rfl
    · exact absurd he (by simp [isProcessEssential, mkProcess])
    · exact absurd hd (by decide)
    · exact absurd hd (by decide)
  · intro htouch
    obtain ⟨p, hp, hd, he, -⟩ :=
      setEfficiencyMode_true_workingSet_guard os _ w rfl 10 t ht htouch
    simp only [scenarioRegistry, List.mem_cons, List.mem_singleton, List.not_mem_nil,
      or_false] at hp
    rcases hp with rfl | rfl | rfl
    · exact absurd he (by simp [isProcessEssential, mkProcess])
    · exact absurd hd (by decide)
    · exact absurd hd (by decide)
  · intro htouch
    obtain ⟨p, hp, hd, -, hm⟩ :=
      setEfficiencyMode_true_workingSet_guard os _ w rfl 20 t ht htouch
    simp only [scenarioRegistry, List.mem_cons, List.mem_singleton, List.not_mem_nil,
      or_false] at hp
    rcases hp with rfl | rfl | rfl
    · exact absurd hd (by show ¬ toDWORD 10 = 20; decide)
    · exact absurd hm (by decide)
    · exact absurd hd (by decide)
  · exact hi1 (mkProcess 20 "service.exe" .Background 1 (50 * 1024))
      (by simp [scenarioRegistry]) (by decide) (Or.inl rfl)

/-- C14 (counterexample): a Background service running at `HIGH_PRIORITY_CLASS` is not
lowered to the class immediately below (`ABOVE_NORMAL_PRIORITY_CLASS`) but set to
`BELOW_NORMAL_PRIORITY_CLASS`, three classes lower, and one running at
`IDLE_PRIORITY_CLASS`, which has no class below, is raised to
`BELOW_NORMAL_PRIORITY_CLASS`. -/
theorem background_not_one_class_lower_counterexample :
    (∀ p ∈ servicesRegistry.processList,
      p.type = ProcessType.Background ∧ isProcessEssential p = false) ∧
    servicesProcs.priority 22 = HIGH_PRIORITY_CLASS ∧
    classBelow HIGH_PRIORITY_CLASS = some ABOVE_NORMAL_PRIORITY_CLASS ∧
    PrioritySetIssued 22 (BELOW_NORMAL_PRIORITY_CLASS : Nat)
      (optimizeBackgroundProcesses simOS servicesRegistry (simWorld servicesProcs)).2.2.trace ∧
    (optimizeBackgroundProcesses simOS servicesRegistry
      (simWorld servicesProcs)).2.2.os.priority 22 = BELOW_NORMAL_PRIORITY_CLASS ∧
    servicesProcs.priority 21 = IDLE_PRIORITY_CLASS ∧
    classBelow IDLE_PRIORITY_CLASS = none ∧
    (optimizeBackgroundProcesses simOS servicesRegistry
      (simWorld servicesProcs)).2.2.os.priority 21 = BELOW_NORMAL_PRIORITY_CLASS :=
  ⟨by decide, by decide, by decide, ⟨22, true, by decide⟩, by decide, by decide, by decide,
   by decide⟩

/-- C14 (amended): for every non-essential Background record,
`optimizeBackgroundProcesses` requests `BELOW_NORMAL_PRIORITY_CLASS` for its pid (the
pid is opened for setting information and, unless the open is refused, that class is
set), whatever the operating system answers and so whatever class the process had
before; every priority class it sets is `BELOW_NORMAL_PRIORITY_CLASS`.  That is the
class immediately below the prior class exactly when the prior class is
`NORMAL_PRIORITY_CLASS`. -/
theorem optimizeBackgroundProcesses_requests_below_normal (os : OS σ) (s : SystemInfo)
    (w : World σ) :
    (∃ t, (optimizeBackgroundProcesses os s w).2.2.trace = w.trace ++ t ∧
      (∀ p ∈ s.processList, p.type = ProcessType.Background → isProcessEssential p = false →
        RestoreIssued p.pid (BELOW_NORMAL_PRIORITY_CLASS : Nat) t) ∧
      (∀ e ∈ t, ∀ h v, e.1 = Call.SetPriorityClass h v → v = BELOW_NORMAL_PRIORITY_CLASS)) ∧
    ∀ prior, classBelow prior = some BELOW_NORMAL_PRIORITY_CLASS ↔
      prior = NORMAL_PRIORITY_CLASS := by
  constructor
  · obtain ⟨t, ht, hi⟩ := optimizeBackgroundLoop_issues os s.processList true s w
    exact ⟨t, ht, hi, optimizeBackgroundProcesses_classes os s w t ht⟩
  · intro prior
    unfold classBelow
    constructor
    · intro h
      split_ifs at h with h1 h2 h3 h4 h5
      · exact absurd h (by decide)
      · exact absurd h (by decide)
      · exact absurd h (by decide)
      · exact h4
      · exact absurd h (by decide)
    · intro h
      subst h
      decide

/-- C15 (counterexample): the record of pid 30 is not essential and above the CPU
threshold, but its process has exited, so the pid cannot be opened;
`throttleNonEssentialProcesses` returns `false` and does not record pid 30 in the
throttled set. -/
theorem throttle_unrecorded_counterexample :
    mkProcess 30 "app.exe" .Application 15 (300 * 1024) ∈ efficiencyRegistry.processList ∧
    isProcessEssential (mkProcess 30 "app.exe" .Application 15 (300 * 1024)) = false ∧
    (mkProcess 30 "app.exe" .Application 15 (300 * 1024)).cpuUsage > 5 ∧
    (throttleNonEssentialProcesses simOS efficiencyRegistry (simWorld [])).1 = false ∧
    (throttleNonEssentialProcesses simOS efficiencyRegistry
      (simWorld [])).2.1.throttledProcesses = [] := by
  decide

/-- C15 (amended): whatever the operating system answers, `optimizeMemoryUsage`
attempts the working-set clamp for every record that is not essential and has
`memoryUsage > 102400`, opens for the clamp only pids of such records and makes no
priority-set call; `throttleNonEssentialProcesses` requests
`BELOW_NORMAL_PRIORITY_CLASS` for every record that is not essential and has
`cpuUsage > 5`, opens for setting information only pids of such records and makes no
working-set-size call; it adds only pids of such records to the throttled set, and when
it returns `true` (every priority set succeeded) it has recorded every one of them. -/
theorem efficiency_thresholds_strict (os : OS σ) (s : SystemInfo) (w : World σ) :
    (∃ t, (optimizeMemoryUsage os s w).2.trace = w.trace ++ t ∧
      (∀ p ∈ s.processList, isProcessEssential p = false → p.memoryUsage > 102400 →
        ClampAttempted p.pid t) ∧
      (∀ d, WorkingSetTouched d t →
        ∃ p ∈ s.processList, toDWORD p.pid = d ∧ isProcessEssential p = false ∧
          p.memoryUsage > 102400) ∧
      ∀ d, ¬ PriorityTouched d t) ∧
    (∃ t, (throttleNonEssentialProcesses os s w).2.2.trace = w.trace ++ t ∧
      (∀ p ∈ s.processList, isProcessEssential p = false → p.cpuUsage > 5 →
        RestoreIssued p.pid (BELOW_NORMAL_PRIORITY_CLASS : Nat) t) ∧
      (∀ d, PriorityTouched d t →
        ∃ p ∈ s.processList, toDWORD p.pid = d ∧ isProcessEssential p = false ∧
          p.cpuUsage > 5) ∧
      ∀ d, ¬ WorkingSetTouched d t) ∧
    (∀ x ∈ (throttleNonEssentialProcesses os s w).2.1.throttledProcesses,
      x ∈ s.throttledProcesses ∨
        ∃ p ∈ s.processList, p.pid = x ∧ isProcessEssential p = false ∧ p.cpuUsage > 5) ∧
    ((throttleNonEssentialProcesses os s w).1 = true →
      ∀ p ∈ s.processList, isProcessEssential p = false → p.cpuUsage > 5 →
        p.pid ∈ (throttleNonEssentialProcesses os s w).2.1.throttledProcesses) := by
  refine ⟨?_, ?_, ?_, ?_⟩
  · obtain ⟨t, ht, hi⟩ := optimizeMemoryLoop_issues os s.processList true w
    have hg := optimizeMemoryUsage_guard os s w t ht
    exact ⟨t, ht, hi, hg.1, hg.2⟩
  · obtain ⟨t, ht, hi⟩ := throttleLoop_issues os s.processList true s w
    have hg := throttleNonEssentialProcesses_guard os s w t ht
    exact ⟨t, ht, hi, hg.1, hg.2⟩
  · exact throttleLoop_throttled os s.processList true s w
  · intro h
    exact (throttleLoop_true os s.processList true s w h).2

/-- Witness of C15: the record of pid 50 sits exactly at 5 % CPU and 102400 KB and the
record of pid 51 just above both.  Neither function makes a call for pid 50; pid 51
gets the working-set clamp and the priority request and is the only pid recorded as
throttled. -/
theorem efficiency_thresholds_strict_witness :
    (optimizeMemoryUsage simOS boundaryRegistry (simWorld boundaryProcs)).2.trace.map
        (fun e => e.1)
      = [Call.OpenProcess (PROCESS_SET_QUOTA ||| PROCESS_TERMINATE) 51,
         Call.SetProcessWorkingSetSize 51 (1024 * 1024) (50 * 1024 * 1024),
         Call.CloseHandle 51] ∧
    (throttleNonEssentialProcesses simOS boundaryRegistry (simWorld boundaryProcs)).2.2.trace.map
        (fun e => e.1)
      = [Call.OpenProcess PROCESS_QUERY_INFORMATION 51, Call.GetPriorityClass 51,
         Call.CloseHandle 51, Call.OpenProcess PROCESS_SET_INFORMATION 51,
         Call.SetPriorityClass 51 BELOW_NORMAL_PRIORITY_CLASS, Call.CloseHandle 51] ∧
    (throttleNonEssentialProcesses simOS boundaryRegistry (simWorld boundaryProcs)).1 = true ∧
    (throttleNonEssentialProcesses simOS boundaryRegistry
      (simWorld boundaryProcs)).2.1.throttledProcesses = [51] ∧
    (∀ p ∈ boundaryRegistry.processList, isProcessEssential p = false → p.cpuUsage > 5 →
      p.pid ∈ (throttleNonEssentialProcesses simOS boundaryRegistry
        (simWorld boundaryProcs)).2.1.throttledProcesses) :=
  ⟨by decide, by decide, by decide, by decide,
   (efficiency_thresholds_strict simOS boundaryRegistry (simWorld boundaryProcs)).2.2.2
     (by decide)⟩

/-- C30: let `t` be the calls made since PriorityBackup (`originalPriorities`) was last
empty, and let the backup be captured before the changes with respect to `t`
(`BackupCaptured`: every entry holds the result of a `getProcessPriorityClass` run for
its pid, and every open for a priority set of a pid in `t` comes after such a run for
an entry of that pid, before which the pid was not opened for a priority set).  Then
after each of `optimizeBackgroundProcesses`, `throttleNonEssentialProcesses` and
`setEfficiencyMode(true)`, for every operating system, the same holds for the longer
history, and every entry that was in the backup is still there with its value. -/
theorem backup_first_write_wins (os : OS σ) (s : SystemInfo) (w : World σ)
    (t0 t : List Event) (hw : w.trace = t0 ++ t)
    (h : BackupCaptured s.originalPriorities t) :
    (∃ t1, (optimizeBackgroundProcesses os s w).2.2.trace = t0 ++ t1 ∧ t <+: t1 ∧
      BackupCaptured (optimizeBackgroundProcesses os s w).2.1.originalPriorities t1 ∧
      ∀ e ∈ s.originalPriorities,
        e ∈ (optimizeBackgroundProcesses os s w).2.1.originalPriorities) ∧
    (∃ t1, (throttleNonEssentialProcesses os s w).2.2.trace = t0 ++ t1 ∧ t <+: t1 ∧
      BackupCaptured (throttleNonEssentialProcesses os s w).2.1.originalPriorities t1 ∧
      ∀ e ∈ s.originalPriorities,
        e ∈ (throttleNonEssentialProcesses os s w).2.1.originalPriorities) ∧
    (∃ t1, (setEfficiencyMode os true s w).2.trace = t0 ++ t1 ∧ t <+: t1 ∧
      BackupCaptured (setEfficiencyMode os true s w).1.originalPriorities t1 ∧
      ∀ e ∈ s.originalPriorities,
        e ∈ (setEfficiencyMode os true s w).1.originalPriorities) := by
  refine ⟨optimizeBackgroundProcesses_captured os s w t0 t hw h,
    throttleNonEssentialProcesses_captured os s w t0 t hw h, ?_⟩
  obtain ⟨t1, ht1, hinv1, hsub1⟩ := setEfficiencyMode_true_captured os s w t0 t hw h
  obtain ⟨u, hu⟩ := setEfficiencyMode_true_grows os s w
  exact ⟨t1, ht1, extension_of_traces hw ht1 hu, hinv1, hsub1⟩

/-- Witness of C30: the empty backup and the empty history, on the processes 10
(`HIGH`), 20 (`NORMAL`) and 30 (`ABOVE_NORMAL`).  `setEfficiencyMode(true)` lowers 20 and
30 to `BELOW_NORMAL` and the backup holds the three classes read before; a further
`throttleNonEssentialProcesses`, which finds 30 at `BELOW_NORMAL`, leaves the backup as
it is. -/
theorem backup_first_write_wins_witness :
    efficiencyEnabled.1.originalPriorities = [(10, 128), (20, 32), (30, 32768)] ∧
    efficiencyEnabled.2.os.map (fun p => (p.pid, p.priority))
      = [(10, 128), (20, 16384), (30, 16384)] ∧
    (throttleNonEssentialProcesses simOS efficiencyEnabled.1
      efficiencyEnabled.2).2.1.originalPriorities = [(10, 128), (20, 32), (30, 32768)] ∧
    (∃ t1, (setEfficiencyMode simOS true efficiencyRegistry
        (simWorld efficiencyProcs)).2.trace = [] ++ t1 ∧ [] <+: t1 ∧
      BackupCaptured (setEfficiencyMode simOS true efficiencyRegistry
        (simWorld efficiencyProcs)).1.originalPriorities t1 ∧
      ∀ e ∈ efficiencyRegistry.originalPriorities,
        e ∈ (setEfficiencyMode simOS true efficiencyRegistry
          (simWorld efficiencyProcs)).1.originalPriorities) :=
  ⟨by decide!, by decide!, by decide!,
   (backup_first_write_wins simOS efficiencyRegistry (simWorld efficiencyProcs) [] [] rfl
    ⟨fun e he => absurd he (List.not_mem_nil _), fun t1 e t2 d h => absurd h (by simp)⟩).2.2⟩

end EfficiencyProperties

/-! ## Metrics calculator and process registry: properties -/

section MetricsProperties

variable {σ : Type}

/-- C16: in every state reachable from the state the constructor leaves, by ticks,
`setEfficiencyMode` calls and `terminateProcess` calls, whatever the operating system
answers and however its state moves in between, if efficiency mode is disabled then
PriorityBackup (`originalPriorities`) is empty and the throttled set is empty. -/
theorem disabled_mode_keeps_no_backup (os : OS σ) (w0 : World σ) (s : SystemInfo)
    (w : World σ)
    (h : Reachable os (constructSystemInfo os w0).1 (constructSystemInfo os w0).2 s w)
    (hoff : isEfficiencyModeEnabled s = false) :
    s.originalPriorities = [] ∧ s.throttledProcesses = [] := by
  have hsettings : ∀ {a b : SystemInfo}, a.efficiencySettings = b.efficiencySettings →
      (b.efficiencyModeEnabled = false → b.originalPriorities = [] ∧ b.throttledProcesses = []) →
      a.efficiencyModeEnabled = false → a.originalPriorities = [] ∧ a.throttledProcesses = [] := by
    intro a b hab hb ha
    unfold SystemInfo.efficiencySettings at hab
    simp only [Prod.mk.injEq] at hab
    rw [hab.1] at ha
    rw [hab.2.1, hab.2.2]
    exact hb ha
  refine reachable_induction os _ _
    (fun s => s.efficiencyModeEnabled = false →
      s.originalPriorities = [] ∧ s.throttledProcesses = []) ?_ ?_ ?_ ?_ h hoff
  · obtain ⟨s00, w00, he, hs, -⟩ := constructSystemInfo_spec os w0
    rw [he]
    refine hsettings (updateSystemInfo_spec os s00 w00).1 ?_
    intro _
    unfold SystemInfo.efficiencySettings at hs
    simp only [Prod.mk.injEq] at hs
    exact ⟨hs.2.2, hs.2.1⟩
  · intro s w hP
    exact hsettings (updateSystemInfo_spec os s w).1 hP
  · intro enabled s w hP
    exact setEfficiencyMode_disabled os enabled s w hP
  · intro s pid hP hf
    obtain ⟨h1, h2⟩ := hP hf
    simp only [removeProcessFromList, h1, h2]
    exact ⟨rfl, rfl⟩

/-- Witness of C16: on the simulated operating system with the processes 10, 20 and
30, the object is constructed, efficiency mode is enabled (PriorityBackup then holds
three entries), a tick passes and the mode is disabled; the mode is off and both
collections are empty. -/
theorem disabled_mode_keeps_no_backup_witness :
    Reachable simOS (constructSystemInfo simOS (simWorld efficiencyProcs)).1
      (constructSystemInfo simOS (simWorld efficiencyProcs)).2
      (setEfficiencyMode simOS false enabledAndTicked.1 enabledAndTicked.2).1
      (setEfficiencyMode simOS false enabledAndTicked.1 enabledAndTicked.2).2 ∧
    enabledAndTicked.1.originalPriorities.length = 3 ∧
    isEfficiencyModeEnabled
      (setEfficiencyMode simOS false enabledAndTicked.1 enabledAndTicked.2).1 = false ∧
    ((setEfficiencyMode simOS false enabledAndTicked.1
        enabledAndTicked.2).1.originalPriorities = [] ∧
     (setEfficiencyMode simOS false enabledAndTicked.1
        enabledAndTicked.2).1.throttledProcesses = []) :=
  have hr := Reachable.efficiency false (Reachable.tick (Reachable.efficiency true
    (Reachable.start : Reachable simOS (constructSystemInfo simOS (simWorld efficiencyProcs)).1
      (constructSystemInfo simOS (simWorld efficiencyProcs)).2 _ _)))
  ⟨hr, by decide!, by decide!,
   disabled_mode_keeps_no_backup simOS (simWorld efficiencyProcs) _ _ hr (by decide!)⟩

/-- C17 (counterexample): the system times do not advance between the first and the
second tick (their delta is 0 and is replaced by 1) while the process accumulates 10
units of CPU time; with one logical core, `updateProcessCpuUsage` reports
`cpuUsage = 1000` for pid 7, which is above 100. -/
theorem cpuUsage_above_hundred_counterexample :
    (constructSystemInfo (scriptOS stalledSystemTimes) scriptWorld).1.numProcessors = 1 ∧
    ((updateProcessCpuUsage (scriptOS stalledSystemTimes)
        (updateProcessList (scriptOS stalledSystemTimes)
          (constructSystemInfo (scriptOS stalledSystemTimes) scriptWorld).1
          (constructSystemInfo (scriptOS stalledSystemTimes) scriptWorld).2).1
        (updateProcessList (scriptOS stalledSystemTimes)
          (constructSystemInfo (scriptOS stalledSystemTimes) scriptWorld).1
          (constructSystemInfo (scriptOS stalledSystemTimes) scriptWorld).2).2).1.processList.map
      (fun p => (p.pid, p.cpuUsage))) = [(7, 1000)] ∧
    ¬ ((1000 : Double) ≤ 100) := by
  decide!

/-- C17 (amended): when the system times can be read, the logical-core count is at
least 1 and no history holds a negative sample (as is the case for records enumerated
in the same tick, whose history is empty), then after `updateProcessCpuUsage` every
record has `cpuUsage ≥ 0` and a history without negative samples, whatever the counter
readings.  There is no upper bound. -/
theorem cpuUsage_nonneg_after_update (os : OS σ) (s : SystemInfo) (w : World σ)
    (hsys : (os .GetSystemTimes w.os).1 ≠ none) (_hcores : 1 ≤ s.numProcessors)
    (hhist : ∀ p ∈ s.processList, ∀ x ∈ p.cpuUsageHistory, 0 ≤ x) :
    ∀ p ∈ (updateProcessCpuUsage os s w).1.processList,
      0 ≤ p.cpuUsage ∧ ∀ x ∈ p.cpuUsageHistory, 0 ≤ x := by
  obtain ⟨l, m, t, he, hall, -⟩ := (updateProcessCpuUsage_spec os s w).2 hsys
  rw [he]
  intro q hq
  obtain ⟨p, hp, -, -, -, -, -, h6⟩ := forall₂_mem_right hall q hq
  exact h6 (hhist p hp)

/-- Witness of C17: the input of the counterexample; the reported value 1000 is not
negative. -/
theorem cpuUsage_nonneg_after_update_witness :
    (scriptOS stalledSystemTimes .GetSystemTimes stalledSecondTick.2.os).1 ≠ none ∧
    1 ≤ stalledSecondTick.1.numProcessors ∧
    (∀ p ∈ stalledSecondTick.1.processList, ∀ x ∈ p.cpuUsageHistory, 0 ≤ x) ∧
    (updateProcessCpuUsage (scriptOS stalledSystemTimes) stalledSecondTick.1
      stalledSecondTick.2).1.processList.map (fun p => p.cpuUsage) = [1000] ∧
    ∀ p ∈ (updateProcessCpuUsage (scriptOS stalledSystemTimes) stalledSecondTick.1
        stalledSecondTick.2).1.processList,
      0 ≤ p.cpuUsage ∧ ∀ x ∈ p.cpuUsageHistory, 0 ≤ x :=
  ⟨by decide!, by decide!, by decide!, by decide!,
   cpuUsage_nonneg_after_update (scriptOS stalledSystemTimes) stalledSecondTick.1
     stalledSecondTick.2 (by decide!) (by decide!) (by decide!)⟩

/-- C18: in a tick whose snapshot lists each pid once and in which the system times can
be read, the process list gets one record per snapshot entry, in snapshot order, and
for every entry whose pid has no entry in the CPU-time bookkeeping and none in the
disk-I/O bookkeeping and whose handle can be opened, the record has `cpuUsage = 0` and
`diskUsage = 0`, whatever the operating system answers for its counters. -/
theorem cold_start_reports_zero (os : OS σ) (s : SystemInfo) (w : World σ)
    (entries : List PROCESSENTRY32W)
    (hsnap : (os .SnapshotProcesses w.os).1 = some entries)
    (hnodup : (entries.map (fun pe => pe.th32ProcessID)).Nodup)
    (hsys : ∀ st, (os .GetSystemTimes st).1 ≠ none) :
    List.Forall₂ (fun (pe : PROCESSENTRY32W) (p : ProcessInfo) =>
      p.pid = pe.th32ProcessID ∧
      ((∀ st, (os (.OpenProcess (PROCESS_QUERY_INFORMATION ||| PROCESS_VM_READ)
          pe.th32ProcessID) st).1 ≠ none) →
        s.processCpuTimesMap.contains pe.th32ProcessID = false →
        s.diskIoMap.contains pe.th32ProcessID = false →
        p.cpuUsage = 0 ∧ p.diskUsage = 0))
      entries (updateSystemInfo os s w).1.processList :=
  updateSystemInfo_cold os s w entries hsnap hnodup hsys

/-- Witness of C18: a process with large cumulative counters is seen for the first
time by an empty registry; its record has `cpuUsage = 0` and `diskUsage = 0`, and the
bookkeeping now holds its counters. -/
theorem cold_start_reports_zero_witness :
    (simOSGranting .SnapshotProcesses (simWorld longRunningProcess).os).1
      = some [⟨7, 1, "app.exe"⟩] ∧
    (([⟨7, 1, "app.exe"⟩] : List PROCESSENTRY32W).map (fun pe => pe.th32ProcessID)).Nodup ∧
    (∀ st, (simOSGranting .GetSystemTimes st).1 ≠ none) ∧
    (∀ st, (simOSGranting (.OpenProcess (PROCESS_QUERY_INFORMATION ||| PROCESS_VM_READ) 7)
      st).1 ≠ none) ∧
    (updateSystemInfo simOSGranting {} (simWorld longRunningProcess)).1.processCpuTimesMap
      = [(7, { lastSystemTime := 1111111110, lastKernelTime := 123456789,
               lastUserTime := 987654321 })] ∧
    List.Forall₂ (fun (pe : PROCESSENTRY32W) (p : ProcessInfo) =>
      p.pid = pe.th32ProcessID ∧
      ((∀ st, (simOSGranting (.OpenProcess (PROCESS_QUERY_INFORMATION ||| PROCESS_VM_READ)
          pe.th32ProcessID) st).1 ≠ none) →
        ({} : SystemInfo).processCpuTimesMap.contains pe.th32ProcessID = false →
        ({} : SystemInfo).diskIoMap.contains pe.th32ProcessID = false →
        p.cpuUsage = 0 ∧ p.diskUsage = 0))
      [⟨7, 1, "app.exe"⟩]
      (updateSystemInfo simOSGranting {} (simWorld longRunningProcess)).1.processList :=
  ⟨by decide, by decide, fun _ h => Option.noConfusion h, fun _ h => Option.noConfusion h,
   by decide!,
   cold_start_reports_zero simOSGranting {} (simWorld longRunningProcess) [⟨7, 1, "app.exe"⟩]
     (by decide) (by decide) (fun _ h => Option.noConfusion h)⟩

/-- C19: in every state reachable from the state the constructor leaves, by ticks (and
by `setEfficiencyMode` and `terminateProcess` calls), whatever the operating system
answers, each of `cpuUsageHistory`, `diskUsageHistory` and `networkUsageHistory` of
every record of the process list has length at most 5. -/
theorem histories_never_exceed_five (os : OS σ) (w0 : World σ) (s : SystemInfo)
    (w : World σ)
    (h : Reachable os (constructSystemInfo os w0).1 (constructSystemInfo os w0).2 s w) :
    ∀ p ∈ s.processList,
      p.cpuUsageHistory.length ≤ 5 ∧ p.diskUsageHistory.length ≤ 5 ∧
        p.networkUsageHistory.length ≤ 5 := by
  refine reachable_induction os _ _ (fun s => ∀ p ∈ s.processList, HistoriesBounded p)
    ?_ ?_ ?_ ?_ h
  · obtain ⟨s00, w00, he, -, hl, -⟩ := constructSystemInfo_spec os w0
    rw [he]
    exact updateSystemInfo_bounded os s00 w00 (by rw [hl]; intro p hp; simp at hp)
  · intro s w hP
    exact updateSystemInfo_bounded os s w hP
  · intro enabled s w hP
    rw [setEfficiencyMode_processList]
    exact hP
  · intro s pid hP p hp
    exact hP p (mem_of_mem_removeFirstWithPid _ _ _ hp)

/-- Witness of C19: the state after the constructor and two more ticks of the script
`steadyLoad`; the histories of pid 7 have the lengths 1, 2 and 1. -/
theorem histories_never_exceed_five_witness :
    Reachable (scriptOS steadyLoad) (constructSystemInfo (scriptOS steadyLoad) scriptWorld).1
      (constructSystemInfo (scriptOS steadyLoad) scriptWorld).2
      (updateSystemInfo (scriptOS steadyLoad) steadySecondTick.1 steadySecondTick.2).1
      (updateSystemInfo (scriptOS steadyLoad) steadySecondTick.1 steadySecondTick.2).2 ∧
    (updateSystemInfo (scriptOS steadyLoad) steadySecondTick.1
      steadySecondTick.2).1.processList.map
        (fun p => (p.cpuUsageHistory.length, p.diskUsageHistory.length,
          p.networkUsageHistory.length)) = [(1, 2, 1)] ∧
    ∀ p ∈ (updateSystemInfo (scriptOS steadyLoad) steadySecondTick.1
        steadySecondTick.2).1.processList,
      p.cpuUsageHistory.length ≤ 5 ∧ p.diskUsageHistory.length ≤ 5 ∧
        p.networkUsageHistory.length ≤ 5 :=
  have hr := Reachable.tick (Reachable.tick
    (Reachable.start : Reachable (scriptOS steadyLoad)
      (constructSystemInfo (scriptOS steadyLoad) scriptWorld).1
      (constructSystemInfo (scriptOS steadyLoad) scriptWorld).2 _ _))
  ⟨hr, by decide!,
   histories_never_exceed_five (scriptOS steadyLoad) scriptWorld _ _ hr⟩

/-- C20 (failing input): pid 7 is present and readable in three consecutive ticks of
the script `steadyLoad`.  The raw CPU samples of the three ticks are 0, 50 and 10 (each
is the only element of the history after its tick) and the raw disk samples are 0, 1
and 2.  After the third tick the code reports `cpuUsage = 10` and `diskUsage = 2`, the
raw samples of that tick, and not the means 20 and 1 of the three samples.  In general,
whatever the operating system answers, after a tick whose snapshot succeeded the CPU
history of every record holds at most one sample, and every sample held in the CPU and
disk histories equals the reported value: the history of a record does not survive the
rebuilding of the process list. -/
theorem rolling_mean_lost_between_ticks :
    (∀ {σ : Type} (os : OS σ) (s : SystemInfo) (w : World σ),
      (os .SnapshotProcesses w.os).1 ≠ none →
      ∀ p ∈ (updateSystemInfo os s w).1.processList,
        p.cpuUsageHistory.length ≤ 1 ∧ (∀ x ∈ p.cpuUsageHistory, x = p.cpuUsage) ∧
        ∀ x ∈ p.diskUsageHistory, x = p.diskUsage) ∧
    (constructSystemInfo (scriptOS steadyLoad) scriptWorld).1.processList.map
      (fun p => (p.pid, p.cpuUsageHistory, p.diskUsageHistory)) = [(7, [0], [0, 0])] ∧
    steadySecondTick.1.processList.map
      (fun p => (p.pid, p.cpuUsageHistory, p.diskUsageHistory)) = [(7, [50], [1, 1])] ∧
    (updateSystemInfo (scriptOS steadyLoad) steadySecondTick.1
      steadySecondTick.2).1.processList.map
        (fun p => (p.pid, p.cpuUsageHistory, p.diskUsageHistory)) = [(7, [10], [2, 2])] ∧
    (updateSystemInfo (scriptOS steadyLoad) steadySecondTick.1
      steadySecondTick.2).1.processList.map
        (fun p => (p.pid, p.cpuUsage, p.diskUsage)) = [(7, 10, 2)] ∧
    average [0, 50, 10] = 20 ∧ average [0, 1, 2] = 1 :=
  ⟨fun os s w h => updateSystemInfo_single_sample os s w h, by decide!⟩

/-- C21 (counterexample): a process that is seen for the first time, with no network
activity of any kind, is enumerated by a tick; its record reports `networkUsage = 0`
with the history `[0]`: the value is the number 0.0, not a distinguished value that
compares unequal to 0.0. -/
theorem network_usage_is_zero_counterexample :
    (updateSystemInfo simOSGranting {} (simWorld longRunningProcess)).1.processList.map
      (fun p => (p.pid, p.networkUsage, p.networkUsageHistory)) = [(7, 0, [0])] := by
  decide!

/-- C21 (amended): after `updateProcessList`, and after the complete tick, whenever the
snapshot was obtained, every record whose process handle could be opened reports
`networkUsage = 0` and the network history `[0]`, whatever the I/O counters answer and
whether or not they can be read. -/
theorem network_usage_placeholder (os : OS σ) (s : SystemInfo) (w : World σ)
    (entries : List PROCESSENTRY32W)
    (hsnap : (os .SnapshotProcesses w.os).1 = some entries) :
    List.Forall₂ (fun (pe : PROCESSENTRY32W) (p : ProcessInfo) =>
      (∀ st, (os (.OpenProcess (PROCESS_QUERY_INFORMATION ||| PROCESS_VM_READ)
          pe.th32ProcessID) st).1 ≠ none) →
        p.networkUsage = 0 ∧ p.networkUsageHistory = [0])
      entries (updateProcessList os s w).1.processList ∧
    List.Forall₂ (fun (pe : PROCESSENTRY32W) (p : ProcessInfo) =>
      (∀ st, (os (.OpenProcess (PROCESS_QUERY_INFORMATION ||| PROCESS_VM_READ)
          pe.th32ProcessID) st).1 ≠ none) →
        p.networkUsage = 0 ∧ p.networkUsageHistory = [0])
      entries (getProcessList (updateSystemInfo os s w).1) := by
  have hread : ∀ (pe : PROCESSENTRY32W) (s : SystemInfo) (w : World σ),
      (∀ st, (os (.OpenProcess (PROCESS_QUERY_INFORMATION ||| PROCESS_VM_READ)
          pe.th32ProcessID) st).1 ≠ none) →
        (readProcess os pe s w).1.networkUsage = 0 ∧
        (readProcess os pe s w).1.networkUsageHistory = [0] := by
    intro pe s w hopen
    obtain ⟨path, memoryUsage, startTime, status, d, t, he⟩ :=
      readProcess_opened os pe s w (hopen _)
    rw [he]
    exact ⟨rfl, rfl⟩
  refine ⟨updateProcessList_forall₂ os _ hread s w entries hsnap, ?_⟩
  refine updateSystemInfo_forall₂ os
    (fun pe p => (∀ st, (os (.OpenProcess (PROCESS_QUERY_INFORMATION ||| PROCESS_VM_READ)
          pe.th32ProcessID) st).1 ≠ none) →
        p.networkUsage = 0 ∧ p.networkUsageHistory = [0]) _ hread ?_ ?_ s w entries hsnap
  · intro pe c d n proc m w hP hopen
    obtain ⟨a, b, c1, he⟩ := sampleCpuUsage_eq os c d n proc m w
    rw [he]
    exact hP hopen
  · intro pe proc hP hopen
    exact hP hopen

/-- Witness of C21: the tick on the process with large cumulative I/O counters. -/
theorem network_usage_placeholder_witness :
    (simOSGranting .SnapshotProcesses (simWorld longRunningProcess).os).1
      = some [⟨7, 1, "app.exe"⟩] ∧
    (∀ st, (simOSGranting (.OpenProcess (PROCESS_QUERY_INFORMATION ||| PROCESS_VM_READ) 7)
      st).1 ≠ none) ∧
    (List.Forall₂ (fun (pe : PROCESSENTRY32W) (p : ProcessInfo) =>
      (∀ st, (simOSGranting (.OpenProcess (PROCESS_QUERY_INFORMATION ||| PROCESS_VM_READ)
          pe.th32ProcessID) st).1 ≠ none) →
        p.networkUsage = 0 ∧ p.networkUsageHistory = [0])
      [⟨7, 1, "app.exe"⟩]
      (updateProcessList simOSGranting {} (simWorld longRunningProcess)).1.processList ∧
    List.Forall₂ (fun (pe : PROCESSENTRY32W) (p : ProcessInfo) =>
      (∀ st, (simOSGranting (.OpenProcess (PROCESS_QUERY_INFORMATION ||| PROCESS_VM_READ)
          pe.th32ProcessID) st).1 ≠ none) →
        p.networkUsage = 0 ∧ p.networkUsageHistory = [0])
      [⟨7, 1, "app.exe"⟩]
      (getProcessList (updateSystemInfo simOSGranting {} (simWorld longRunningProcess)).1)) :=
  ⟨by decide, fun _ h => Option.noConfusion h,
   network_usage_placeholder simOSGranting {} (simWorld longRunningProcess)
     [⟨7, 1, "app.exe"⟩] (by decide)⟩

/-- C22: after a tick whose snapshot was obtained, the process list returned by
`getProcessList` holds exactly one record per snapshot entry, in snapshot order, and
each record carries the pid and the executable name of its entry, whatever the
operating system answers to the handle and query calls. -/
theorem tick_lists_every_snapshot_entry (os : OS σ) (s : SystemInfo) (w : World σ)
    (entries : List PROCESSENTRY32W)
    (hsnap : (os .SnapshotProcesses w.os).1 = some entries) :
    List.Forall₂ (fun (pe : PROCESSENTRY32W) (p : ProcessInfo) =>
      p.pid = pe.th32ProcessID ∧ p.name = pe.szExeFile)
      entries (getProcessList (updateSystemInfo os s w).1) := by
  refine updateSystemInfo_forall₂ os
    (fun pe p => p.pid = pe.th32ProcessID ∧ p.name = pe.szExeFile) _ ?_ ?_ ?_
    s w entries hsnap
  · intro pe s w
    by_cases hopen : (os (.OpenProcess (PROCESS_QUERY_INFORMATION ||| PROCESS_VM_READ)
        pe.th32ProcessID) (os .UninitializedProcessInfo w.os).2).1 = none
    · rw [(readProcess_unopened os pe s w hopen).1]
      exact ⟨rfl, rfl⟩
    · obtain ⟨path, memoryUsage, startTime, status, d, t, he⟩ :=
        readProcess_opened os pe s w hopen
      rw [he]
      exact ⟨rfl, rfl⟩
  · intro pe c d n proc m w hP
    obtain ⟨a, b, c1, he⟩ := sampleCpuUsage_eq os c d n proc m w
    rw [he]
    exact hP
  · intro pe proc hP
    exact hP

/-- Witness of C22: the processes 10, 20 and 30, of which pid 20 cannot be opened; the
tick lists the three of them in snapshot order. -/
theorem tick_lists_every_snapshot_entry_witness :
    (simOSWithout 20 .SnapshotProcesses (simWorld efficiencyProcs).os).1
      = some [⟨10, 0, "core.sys"⟩, ⟨20, 10, "service.exe"⟩, ⟨30, 10, "app.exe"⟩] ∧
    (simOSWithout 20 (.OpenProcess (PROCESS_QUERY_INFORMATION ||| PROCESS_VM_READ) 20)
      efficiencyProcs).1 = none ∧
    List.Forall₂ (fun (pe : PROCESSENTRY32W) (p : ProcessInfo) =>
      p.pid = pe.th32ProcessID ∧ p.name = pe.szExeFile)
      [⟨10, 0, "core.sys"⟩, ⟨20, 10, "service.exe"⟩, ⟨30, 10, "app.exe"⟩]
      (getProcessList (updateSystemInfo (simOSWithout 20) {} (simWorld efficiencyProcs)).1) :=
  ⟨by decide, by decide,
   tick_lists_every_snapshot_entry (simOSWithout 20) {} (simWorld efficiencyProcs)
     [⟨10, 0, "core.sys"⟩, ⟨20, 10, "service.exe"⟩, ⟨30, 10, "app.exe"⟩] (by decide)⟩

/-- C23: for every operating system, after `updateProcessList` whose snapshot was
obtained, the record of an entry whose handle cannot be opened is the freshly declared
`ProcessInfo` with the pid and the name assigned: `path` and `status` are empty, and
`memoryUsage`, `diskUsage`, `networkUsage`, `startTime` and `type` hold whatever the
members without initialiser held at the declaration, not 0.  After the complete tick
the same holds (the disk roll averages the one indeterminate value). -/
theorem unopened_record_is_indeterminate (os : OS σ) (s : SystemInfo) (w : World σ)
    (entries : List PROCESSENTRY32W)
    (hsnap : (os .SnapshotProcesses w.os).1 = some entries) :
    List.Forall₂ (fun (pe : PROCESSENTRY32W) (p : ProcessInfo) =>
      (∀ st, (os (.OpenProcess (PROCESS_QUERY_INFORMATION ||| PROCESS_VM_READ)
          pe.th32ProcessID) st).1 = none) →
        ∃ st, p = declareProcessInfo (os .UninitializedProcessInfo st).1 pe)
      entries (updateProcessList os s w).1.processList ∧
    List.Forall₂ (fun (pe : PROCESSENTRY32W) (p : ProcessInfo) =>
      (∀ st, (os (.OpenProcess (PROCESS_QUERY_INFORMATION ||| PROCESS_VM_READ)
          pe.th32ProcessID) st).1 = none) →
        ∃ st, p.memoryUsage = (os .UninitializedProcessInfo st).1.memoryUsage ∧
          p.diskUsage = (os .UninitializedProcessInfo st).1.diskUsage ∧
          p.networkUsage = (os .UninitializedProcessInfo st).1.networkUsage ∧
          p.startTime = (os .UninitializedProcessInfo st).1.startTime ∧
          p.type = (os .UninitializedProcessInfo st).1.type ∧
          p.path = "" ∧ p.status = "")
      entries (getProcessList (updateSystemInfo os s w).1) := by
  have hread : ∀ (pe : PROCESSENTRY32W) (s : SystemInfo) (w : World σ),
      (∀ st, (os (.OpenProcess (PROCESS_QUERY_INFORMATION ||| PROCESS_VM_READ)
          pe.th32ProcessID) st).1 = none) →
        ∃ st, (readProcess os pe s w).1 =
          declareProcessInfo (os .UninitializedProcessInfo st).1 pe := by
    intro pe s w hopen
    exact ⟨w.os, (readProcess_unopened os pe s w (hopen _)).1⟩
  refine ⟨updateProcessList_forall₂ os _ hread s w entries hsnap, ?_⟩
  refine updateSystemInfo_forall₂ os
    (fun pe p => (∀ st, (os (.OpenProcess (PROCESS_QUERY_INFORMATION ||| PROCESS_VM_READ)
          pe.th32ProcessID) st).1 = none) →
        ∃ st a b c, p = { declareProcessInfo (os .UninitializedProcessInfo st).1 pe with
          cpuUsage := a, cpuUsageHistory := b, cpuUsageAvg := c }) _ ?_ ?_ ?_
    s w entries hsnap
  · intro pe s w hopen
    obtain ⟨st, he⟩ := hread pe s w hopen
    exact ⟨st, _, _, _, he⟩
  · intro pe c d n proc m w hP hopen
    obtain ⟨st, a, b, c1, he⟩ := hP hopen
    obtain ⟨a2, b2, c2, he2⟩ := sampleCpuUsage_eq os c d n proc m w
    refine ⟨st, a2, b2, c2, ?_⟩
    rw [he2, he]
  · intro pe proc hP hopen
    obtain ⟨st, a, b, c1, he⟩ := hP hopen
    refine ⟨st, ?_⟩
    rw [he]
    simp [rollDiskUsage, declareProcessInfo, appendTrimmed, average]

/-- Witness of C23 (the failing input): the stack slot holds `staleSlot` and the
protected pid 4 cannot be opened.  After `updateProcessList` its record has
`memoryUsage = 4096`, `diskUsage = 5/2`, `networkUsage = 3`, `startTime = 5`; after the
complete tick the values are the same and `diskUsageHistory = [5/2]`. -/
theorem unopened_record_is_indeterminate_witness :
    (simOSResidue staleSlot 4 .SnapshotProcesses (simWorld protectedFirst).os).1
      = some [⟨4, 0, "vault.exe"⟩, ⟨7, 1, "app.exe"⟩] ∧
    (∀ st, (simOSResidue staleSlot 4
      (.OpenProcess (PROCESS_QUERY_INFORMATION ||| PROCESS_VM_READ) 4) st).1 = none) ∧
    (updateProcessList (simOSResidue staleSlot 4) {}
      (simWorld protectedFirst)).1.processList.map
        (fun p => (p.pid, p.memoryUsage, p.diskUsage, p.networkUsage, p.startTime))
      = [(4, 4096, 5 / 2, 3, 5), (7, 2, 0, 0, 0)] ∧
    (getProcessList (updateSystemInfo (simOSResidue staleSlot 4) {}
      (simWorld protectedFirst)).1).map
        (fun p => (p.pid, p.memoryUsage, p.diskUsage, p.networkUsage, p.startTime))
      = [(4, 4096, 5 / 2, 3, 5), (7, 2, 0, 0, 0)] ∧
    (getProcessList (updateSystemInfo (simOSResidue staleSlot 4) {}
      (simWorld protectedFirst)).1).map
        (fun p => (p.type, p.path, p.status, p.diskUsageHistory))
      = [(ProcessType.Background, "", "", [5 / 2]),
         (ProcessType.Application, "", "Running", [0, 0])] ∧
    (List.Forall₂ (fun (pe : PROCESSENTRY32W) (p : ProcessInfo) =>
      (∀ st, (simOSResidue staleSlot 4
          (.OpenProcess (PROCESS_QUERY_INFORMATION ||| PROCESS_VM_READ)
          pe.th32ProcessID) st).1 = none) →
        ∃ st, p = declareProcessInfo (simOSResidue staleSlot 4 .UninitializedProcessInfo st).1 pe)
      [⟨4, 0, "vault.exe"⟩, ⟨7, 1, "app.exe"⟩]
      (updateProcessList (simOSResidue staleSlot 4) {}
        (simWorld protectedFirst)).1.processList ∧
    List.Forall₂ (fun (pe : PROCESSENTRY32W) (p : ProcessInfo) =>
      (∀ st, (simOSResidue staleSlot 4
          (.OpenProcess (PROCESS_QUERY_INFORMATION ||| PROCESS_VM_READ)
          pe.th32ProcessID) st).1 = none) →
        ∃ st, p.memoryUsage
            = (simOSResidue staleSlot 4 .UninitializedProcessInfo st).1.memoryUsage ∧
          p.diskUsage = (simOSResidue staleSlot 4 .UninitializedProcessInfo st).1.diskUsage ∧
          p.networkUsage
            = (simOSResidue staleSlot 4 .UninitializedProcessInfo st).1.networkUsage ∧
          p.startTime = (simOSResidue staleSlot 4 .UninitializedProcessInfo st).1.startTime ∧
          p.type = (simOSResidue staleSlot 4 .UninitializedProcessInfo st).1.type ∧
          p.path = "" ∧ p.status = "")
      [⟨4, 0, "vault.exe"⟩, ⟨7, 1, "app.exe"⟩]
      (getProcessList (updateSystemInfo (simOSResidue staleSlot 4) {}
        (simWorld protectedFirst)).1)) :=
  ⟨by decide, fun _ => rfl, by decide!, by decide!, by decide!,
   unopened_record_is_indeterminate (simOSResidue staleSlot 4) {} (simWorld protectedFirst)
     [⟨4, 0, "vault.exe"⟩, ⟨7, 1, "app.exe"⟩] (by decide)⟩

/-- C27: the disk step of `updateProcessList` for one opened process.  When the I/O
counters cannot be read the raw rate is 0 and the bookkeeping is left as it is.  When
they are read as `(r1, w1)` at clock `t1`, the bookkeeping entry of the pid becomes
`(r1, w1, t1)`; the raw rate is 0 when the pid had no entry, and with a previous entry
`(r0, w0, t0)` (taken at a clock after the epoch, differences within the 63 bits of
`qint64`) it is `((r1 - r0) + (w1 - w0)) / 1048576 / ((t1 - t0) / 1000)` when
`t1 - t0` is positive and 0 otherwise. -/
theorem raw_disk_rate (os : OS σ) (hProcess : Handle) (proc : ProcessInfo) (s : SystemInfo)
    (w : World σ) :
    ((os (.GetProcessIoCounters hProcess) (os .CurrentMSecsSinceEpoch w.os).2).1 = none →
      (queryDiskUsage os hProcess proc s w).1 = rollDiskUsage { proc with diskUsage := 0 } ∧
      (queryDiskUsage os hProcess proc s w).2.1 = s) ∧
    (∀ r1 w1 : Nat,
      (os (.GetProcessIoCounters hProcess) (os .CurrentMSecsSinceEpoch w.os).2).1
        = some (r1, w1) →
      r1 < 18446744073709551616 → w1 < 18446744073709551616 →
      (queryDiskUsage os hProcess proc s w).2.1 =
        { s with diskIoMap := (s.diskIoMap.insert proc.pid
            { lastReadBytes := r1, lastWriteBytes := w1,
              lastUpdateTime := (os .CurrentMSecsSinceEpoch w.os).1 }) } ∧
      (s.diskIoMap.value proc.pid = none →
        (queryDiskUsage os hProcess proc s w).1 = rollDiskUsage { proc with diskUsage := 0 }) ∧
      (∀ prev : ProcessDiskIo, s.diskIoMap.value proc.pid = some prev →
        0 < prev.lastUpdateTime →
        -9223372036854775808 ≤
          ((r1 : Int) - prev.lastReadBytes) + ((w1 : Int) - prev.lastWriteBytes) →
        ((r1 : Int) - prev.lastReadBytes) + ((w1 : Int) - prev.lastWriteBytes)
          < 9223372036854775808 →
        -9223372036854775808 ≤ (os .CurrentMSecsSinceEpoch w.os).1 - prev.lastUpdateTime →
        (os .CurrentMSecsSinceEpoch w.os).1 - prev.lastUpdateTime < 9223372036854775808 →
        (queryDiskUsage os hProcess proc s w).1 =
          rollDiskUsage { proc with diskUsage :=
            (if 0 < (os .CurrentMSecsSinceEpoch w.os).1 - prev.lastUpdateTime then
              ((((r1 : Int) - prev.lastReadBytes) + ((w1 : Int) - prev.lastWriteBytes) : Int) : ℚ)
                / 1048576
                / ((((os .CurrentMSecsSinceEpoch w.os).1 - prev.lastUpdateTime : Int) : ℚ) / 1000)
             else 0) })) := by
  refine ⟨fun h => queryDiskUsage_unread os hProcess proc s w h, ?_⟩
  intro r1 w1 hread hr hw
  obtain ⟨e1, e2⟩ := queryDiskUsage_read os hProcess proc s w r1 w1 hread
  refine ⟨?_, ?_, ?_⟩
  · rw [e2, toUInt64_toInt64 r1 hr, toUInt64_toInt64 w1 hw]
  · intro hnone
    rw [e1, hnone]
    simp only [Option.getD_none]
    rw [diskSample_cold]
  · intro prev hprev ht0 hb1 hb2 ht1 ht2
    rw [e1, hprev]
    simp only [Option.getD_some]
    rw [diskSample_eq prev _ r1 w1 ht0 hb1 hb2 ht1 ht2]

/-- Witness of C27: pid 7 was read at clock 500 with 1 MiB read and nothing written, and
is read at clock 1000 with 3 MiB read and 1 MiB written: the entry becomes
`(3145728, 1048576, 1000)` and the raw rate is `3 MiB / 1048576 / 0.5 s = 6` MB/s. -/
theorem raw_disk_rate_witness :
    (queryDiskUsage simOS 7 (mkProcess 7 "app.exe" .Application 0 0) warmRegistry
      (simWorld warmProcess)).2.1 =
      { warmRegistry with diskIoMap :=
          ([(7, ⟨3145728, 1048576, 1000⟩)] : QMap ProcessDiskIo) } ∧
    (queryDiskUsage simOS 7 (mkProcess 7 "app.exe" .Application 0 0) warmRegistry
      (simWorld warmProcess)).1 =
      rollDiskUsage { mkProcess 7 "app.exe" .Application 0 0 with diskUsage := 6 } :=
  have h := (raw_disk_rate simOS 7 (mkProcess 7 "app.exe" .Application 0 0) warmRegistry
    (simWorld warmProcess)).2 3145728 1048576 (by decide) (by decide) (by decide)
  ⟨h.1.trans (by decide!),
   (h.2.2 { lastReadBytes := 1048576, lastWriteBytes := 0, lastUpdateTime := 500 }
      (by decide) (by decide) (by decide) (by decide) (by decide) (by decide)).trans
      (by decide!)⟩

/-- C29: for every operating system, a tick removes no key from `processCpuTimesMap`
and none from `diskIoMap`: a pid that had an entry before the tick has one after it,
whether or not the tick's enumeration lists the pid. -/
theorem bookkeeping_never_pruned (os : OS σ) (s : SystemInfo) (w : World σ) (pid : Int) :
    (s.processCpuTimesMap.contains pid = true →
      (updateSystemInfo os s w).1.processCpuTimesMap.contains pid = true) ∧
    (s.diskIoMap.contains pid = true →
      (updateSystemInfo os s w).1.diskIoMap.contains pid = true) :=
  updateSystemInfo_keys os s w pid

/-- Witness of C29 (the failing input): on the script `reappearingPid` the second tick
enumerates pid 8 only, and both maps still hold the entry of pid 7 taken by the first
tick; when pid 7 is enumerated again by the third tick its record is not cold-started:
`cpuUsage = 1000 / 2000 / 1 * 100 = 50` and `diskUsage = 1 / 2` MB/s. -/
theorem bookkeeping_never_pruned_witness :
    (getProcessList reappearingSecondTick.1).map (fun p => p.pid) = [8] ∧
    reappearingSecondTick.1.processCpuTimesMap.value 7
      = some { lastSystemTime := 2000, lastKernelTime := 10, lastUserTime := 10 } ∧
    reappearingSecondTick.1.diskIoMap.value 7
      = some { lastReadBytes := 0, lastWriteBytes := 0, lastUpdateTime := 2000 } ∧
    (getProcessList reappearingThirdTick.1).map (fun p => (p.pid, p.cpuUsage, p.diskUsage))
      = [(7, 50, 1 / 2), (8, 0, 0)] ∧
    (reappearingSecondTick.1.processCpuTimesMap.contains 7 = true ∧
     reappearingSecondTick.1.diskIoMap.contains 7 = true) :=
  have h := bookkeeping_never_pruned (scriptOS reappearingPid)
    (constructSystemInfo (scriptOS reappearingPid) scriptWorld).1
    (constructSystemInfo (scriptOS reappearingPid) scriptWorld).2 7
  ⟨by decide!, by decide!, by decide!, by decide!, h.1 (by decide!), h.2 (by decide!)⟩

end MetricsProperties

/-! ## Process categorizer: properties -/

section CategorizerProperties

variable {σ : Type}

/-- C24 (counterexample): pid 9 hosts a registered service (the service enumeration
lists it), its name is not in the table and its path is outside the system
directories, but the process cannot be opened.  `categorizeProcess` makes the two
refused opens, never asks the service control manager, and returns Application. -/
theorem unopenable_service_host_counterexample :
    (simOSWithout 9 (.EnumServicesStatusEx 1 44) serviceHost).1 = (true, 44, [9]) ∧
    "dbserver.exe" ∉ knownProcesses.map Prod.fst ∧
    (categorizeProcess (simOSWithout 9) "dbserver.exe" 9 (simWorld serviceHost)).1.type
      = ProcessType.Application ∧
    (categorizeProcess (simOSWithout 9) "dbserver.exe" 9 (simWorld serviceHost)).2.trace
      = [⟨Call.OpenProcess (PROCESS_QUERY_INFORMATION ||| PROCESS_VM_READ) 9, none⟩,
         ⟨Call.OpenProcess PROCESS_QUERY_INFORMATION 9, none⟩] := by
  decide

/-- C24 (amended): the description and the style returned by `categorizeProcess` are
the ones registered for the returned type.  A name that is a key of the table of known
processes is System, without any call to the operating system.  For any other name,
with `t` the calls made: the type is System exactly when `t` resolves the path of the
pid (opened for query and read) to a path containing a system-directory fragment;
otherwise Background exactly when `t` finds the pid listed as a service host (the pid
opened for query, the service control manager opened, the enumeration into a buffer
successful and listing the pid); otherwise Application. -/
theorem categorizeProcess_order (os : OS σ) (name : String) (pid : Nat) (w : World σ) :
    ((categorizeProcess os name pid w).1.description
        = typeDescriptions (categorizeProcess os name pid w).1.type ∧
      (categorizeProcess os name pid w).1.style
        = typeStyles (categorizeProcess os name pid w).1.type) ∧
    (name ∈ knownProcesses.map Prod.fst →
      (categorizeProcess os name pid w).1.type = .System ∧
      (categorizeProcess os name pid w).2 = w) ∧
    (name ∉ knownProcesses.map Prod.fst →
      ∃ t, (categorizeProcess os name pid w).2.trace = w.trace ++ t ∧
        ((categorizeProcess os name pid w).1.type = .System ↔
          ResolvedUnderSystemDirectory pid t) ∧
        ((categorizeProcess os name pid w).1.type = .Background ↔
          ¬ ResolvedUnderSystemDirectory pid t ∧ ListedAsServiceHost pid t) ∧
        ((categorizeProcess os name pid w).1.type = .Application ↔
          ¬ ResolvedUnderSystemDirectory pid t ∧ ¬ ListedAsServiceHost pid t)) := by
  refine ⟨⟨(categorizeProcess_registered os name pid w).1,
    (categorizeProcess_registered os name pid w).2.1⟩, ?_, ?_⟩
  · intro hk
    rw [categorizeProcess_known os name pid w hk]
    exact ⟨rfl, rfl⟩
  · intro hk
    exact categorizeProcess_trace os name pid w hk

/-- Witness of C24: on the simulated operating system, `svchost.exe` is System without
any call; `notepad.exe` running from `System32` is System; `dbserver.exe`, which can be
opened and is listed by the service enumeration, is Background, and the calls made
show it listed as a service host and not resolved under a system directory. -/
theorem categorizeProcess_order_witness :
    (categorizeProcess simOS "svchost.exe" 9 (simWorld serviceHost)).1
      = { type := .System, description := "System Process",
          style := typeStyles .System } ∧
    (categorizeProcess simOS "svchost.exe" 9 (simWorld serviceHost)).2.trace = [] ∧
    (categorizeProcess simOS "notepad.exe" 11 (simWorld serviceHost)).1.type = .System ∧
    (categorizeProcess simOS "dbserver.exe" 9 (simWorld serviceHost)).1
      = { type := .Background, description := "Background Service",
          style := typeStyles .Background } ∧
    (∃ t, (categorizeProcess simOS "dbserver.exe" 9 (simWorld serviceHost)).2.trace
        = (simWorld serviceHost).trace ++ t ∧
      ¬ ResolvedUnderSystemDirectory 9 t ∧ ListedAsServiceHost 9 t) :=
  have h := categorizeProcess_order simOS "dbserver.exe" 9 (simWorld serviceHost)
  have hb : (categorizeProcess simOS "dbserver.exe" 9 (simWorld serviceHost)).1.type
      = .Background := by decide
  ⟨by decide, by decide, by decide, by decide,
   (h.2.2 (by decide)).imp (fun _ ht => ⟨ht.1, ht.2.2.1.1 hb⟩)⟩

/-- C25 (counterexample): pid 9 cannot be opened with any access right, so neither
its path nor its service registration can be read, and its name is not in the table.
`categorizeProcess` returns Application with the description and the style of
Application, not Unknown. -/
theorem unresolved_pid_counterexample :
    (∀ access st, (simOSWithout 9 (.OpenProcess access 9) st).1 = none) ∧
    (categorizeProcess (simOSWithout 9) "ghost.exe" 9 (simWorld hiddenProcess)).1
      = { type := .Application, description := "Application",
          style := typeStyles .Application } :=
  ⟨fun _ _ => rfl, by decide⟩

/-- C25 (amended): `categorizeProcess` never returns Unknown.  A pid that cannot be
opened is System when its name is a key of the table of known processes and
Application otherwise; a pid whose module path cannot be read and whose name is not in
the table is Background or Application. -/
theorem categorizeProcess_never_unknown (os : OS σ) (name : String) (pid : Nat)
    (w : World σ) :
    (categorizeProcess os name pid w).1.type ≠ .Unknown ∧
    ((∀ access st, (os (.OpenProcess access pid) st).1 = none) →
      (categorizeProcess os name pid w).1.type =
        if name ∈ knownProcesses.map Prod.fst then .System else .Application) ∧
    ((∀ hProcess st, (os (.GetModuleFileNameEx hProcess) st).1 = none) →
      name ∉ knownProcesses.map Prod.fst →
      (categorizeProcess os name pid w).1.type = .Background ∨
      (categorizeProcess os name pid w).1.type = .Application) := by
  refine ⟨(categorizeProcess_registered os name pid w).2.2, ?_, ?_⟩
  · intro h
    by_cases hk : name ∈ knownProcesses.map Prod.fst
    · rw [if_pos hk, categorizeProcess_known os name pid w hk]
    · rw [if_neg hk]
      exact categorizeProcess_unopened os name pid w hk h
  · intro h hk
    exact categorizeProcess_unread os name pid w hk h

/-- Witness of C25: the unopenable pid 9 under the names `ghost.exe` (Application) and
`lsass.exe` (System, from the table). -/
theorem categorizeProcess_never_unknown_witness :
    (categorizeProcess (simOSWithout 9) "ghost.exe" 9 (simWorld hiddenProcess)).1.type
      = .Application ∧
    (categorizeProcess (simOSWithout 9) "lsass.exe" 9 (simWorld hiddenProcess)).1.type
      = .System :=
  ⟨((categorizeProcess_never_unknown (simOSWithout 9) "ghost.exe" 9
      (simWorld hiddenProcess)).2.1 (fun _ _ => rfl)).trans (by decide),
   ((categorizeProcess_never_unknown (simOSWithout 9) "lsass.exe" 9
      (simWorld hiddenProcess)).2.1 (fun _ _ => rfl)).trans (by decide)⟩

end CategorizerProperties

end TaskManager
